import Mathlib

/-! # Kovri core: garlic routing, I2NP envelope, tunnel endpoint

A shallow embedding of `src/core/Garlic.cpp`, `src/core/I2NPProtocol.cpp` and
`src/core/tunnel/TunnelEndpoint.cpp`, followed by the properties proved about it.

Conventions of the embedding

* A byte is a `Nat`; multi-byte fields are written big-endian, reduced modulo the
  width of the field.
* A pointer into a message is the list of bytes from the pointer to the end of the
  message; a read of `n` bytes from a pointer is `fixed n`, which gives zeros for the
  bytes past the end of the message (the source reads the adjacent memory there).
* An `I2NPMessage` is the byte string held in `buf[offset, len)` together with `offset`
  and `maxLen`; `len` is `offset` plus the number of bytes held.
* `std::map` is an association list with at most one entry per key.
* The clock, the random generator and the cryptographic primitives are inputs.
-/

namespace Kovri

/-! ## Constants -/

/-- I2NP header size (normative wire constant). -/
def I2NP_HEADER_SIZE : Nat := 16
/-- Offset of the 2-byte size field in the I2NP header. -/
def I2NP_HEADER_SIZE_OFFSET : Nat := 13
/-- TunnelData message size. -/
def TUNNEL_DATA_MSG_SIZE : Nat := 1028
/-- Size of the encrypted region of a TunnelData message. -/
def TUNNEL_DATA_ENCRYPTED_SIZE : Nat := 1008
/-- TunnelGateway header: tunnelID(4) and length(2). -/
def TUNNEL_GATEWAY_HEADER_SIZE : Nat := 6

/-- Constants declared in headers that are not part of the covered sources. -/
structure Params where
  I2NP_MAX_MESSAGE_SIZE : Nat
  I2NP_MAX_SHORT_MESSAGE_SIZE : Nat
  /-- Value of `offset` in a freshly allocated message. -/
  NEW_MESSAGE_OFFSET : Nat
  MAX_NUM_TRANSIT_TUNNELS : Nat
  OUTGOING_TAGS_EXPIRATION_TIMEOUT : Nat
  INCOMING_TAGS_EXPIRATION_TIMEOUT : Nat
  LEASET_CONFIRMATION_TIMEOUT : Nat
  BUILD_RESPONSE_RECORD_HASH_OFFSET : Nat
  BUILD_RESPONSE_RECORD_PADDING_OFFSET : Nat
  BUILD_RESPONSE_RECORD_PADDING_SIZE : Nat
  BUILD_RESPONSE_RECORD_RET_OFFSET : Nat
  /-- Type code `eI2NPDatabaseStore`. -/
  eI2NPDatabaseStore : Nat
  /-- Type code `eI2NPDeliveryStatus`. -/
  eI2NPDeliveryStatus : Nat
  /-- Type code `eI2NPGarlic`. -/
  eI2NPGarlic : Nat
deriving Repr, DecidableEq

/-- The cryptographic primitives the core calls. -/
structure Crypto where
  /-- Digest `CryptoPP::SHA256 ().CalculateDigest`. -/
  sha256 : List Nat → List Nat
  /-- Cipher `CBCEncryption::Encrypt` under a key and an IV. -/
  aesEncrypt : List Nat → List Nat → List Nat → List Nat
  /-- Cipher `CBCDecryption::Decrypt` under a key and an IV. -/
  aesDecrypt : List Nat → List Nat → List Nat → List Nat
  /-- ElGamal encryption to a public key, with zero padding when the flag is set. -/
  elGamalEncrypt : List Nat → List Nat → Bool → List Nat
  /-- ElGamal decryption with a private key; `none` when it fails. -/
  elGamalDecrypt : List Nat → List Nat → Bool → Option (List Nat)

/-! ## Bytes -/

/-- Big-endian 16-bit read (`bufbe16toh`). -/
def bufbe16toh (p : List Nat) : Nat :=
  p.getD 0 0 * 256 + p.getD 1 0

/-- Big-endian 32-bit read (`bufbe32toh`). -/
def bufbe32toh (p : List Nat) : Nat :=
  ((p.getD 0 0 * 256 + p.getD 1 0) * 256 + p.getD 2 0) * 256 + p.getD 3 0

/-- Big-endian 16-bit write (`htobe16buf`). -/
def htobe16buf (n : Nat) : List Nat :=
  [n / 256 % 256, n % 256]

/-- Big-endian 32-bit write (`htobe32buf`). -/
def htobe32buf (n : Nat) : List Nat :=
  [n / 16777216 % 256, n / 65536 % 256, n / 256 % 256, n % 256]

/-- Big-endian 64-bit write (`htobe64buf`). -/
def htobe64buf (n : Nat) : List Nat :=
  htobe32buf (n / 4294967296) ++ htobe32buf n

/-- The `n` bytes of a field read from `l`: a shorter `l` is completed with zeros. -/
def fixed (n : Nat) (l : List Nat) : List Nat :=
  l.take n ++ List.replicate (n - l.length) 0

/-- Subtraction on `size_t`, which wraps modulo `2 ^ 64`. -/
def subSizeT (a b : Nat) : Nat :=
  (a + 2 ^ 64 - b % 2 ^ 64) % 2 ^ 64

/-- The call `rnd.GenerateBlock (buf, n)`: the next `n` bytes of the random tape. -/
def GenerateBlock (rnd : List Nat) (n : Nat) : List Nat × List Nat :=
  (fixed n ((rnd.take n).map (fun b => b % 256)), rnd.drop n)

/-- The call `rnd.GenerateWord32 ()`: the next four bytes of the random tape. -/
def GenerateWord32 (rnd : List Nat) : Nat × List Nat :=
  (bufbe32toh (GenerateBlock rnd 4).1, rnd.drop 4)

/-- The call `memcpy (buf + pos, data, data.length)` on the bytes `buf`. -/
def writeAt (buf : List Nat) (pos : Nat) (data : List Nat) : List Nat :=
  buf.take pos ++ data ++ buf.drop (pos + data.length)

/-- The call `memchr (p, 0, n)`: index of the first zero byte among the first `n`. -/
def memchr0 : List Nat → Nat → Option Nat
  | [], _ => none
  | _ :: _, 0 => none
  | b :: rest, n + 1 => if b = 0 then some 0 else (memchr0 rest n).map (· + 1)

/-! ## `std::map` -/

/-- Association list standing for a `std::map`. -/
abbrev StdMap (κ : Type) (ν : Type) := List (κ × ν)

namespace StdMap

variable {κ ν : Type} [DecidableEq κ]

/-- Lookup, `find`. -/
def find : StdMap κ ν → κ → Option ν
  | [], _ => none
  | (k, v) :: rest, x => if k = x then some v else find rest x

/-- Removal by key, `erase`. -/
def erase : StdMap κ ν → κ → StdMap κ ν
  | [], _ => []
  | (k, v) :: rest, x => if k = x then erase rest x else (k, v) :: erase rest x

/-- The call `insert (std::pair (k, v))`: no effect when the key is present. -/
def insert (m : StdMap κ ν) (k : κ) (v : ν) : StdMap κ ν :=
  match find m k with
  | some _ => m
  | none => m ++ [(k, v)]

/-- Assignment to the value of a key, `m[k] = v`. -/
def assign : StdMap κ ν → κ → ν → StdMap κ ν
  | [], x, w => [(x, w)]
  | (k, v) :: rest, x, w => if k = x then (k, w) :: rest else (k, v) :: assign rest x w

end StdMap

/-! ## I2NP message buffer -/

/-- Identity of an inbound tunnel a message arrived from, with what the handlers ask of it. -/
structure InboundTunnel where
  nextIdentHash : List Nat
  nextTunnelID : Nat
  /-- Whether `GetTunnelPool ()` is non-null. -/
  hasPool : Bool
  /-- Result of `GetTunnelPool ()->GetNextOutboundTunnel ()`: the tunnel ID, if any. -/
  nextOutboundTunnel : Option Nat
deriving Repr, DecidableEq

/-- The message held in `buf[offset, len)`: header followed by payload. -/
structure I2NPMessage where
  offset : Nat
  maxLen : Nat
  bytes : List Nat
  sender : Option InboundTunnel := none
deriving Repr, DecidableEq

namespace I2NPMessage

/-- Field `len`. -/
def len (m : I2NPMessage) : Nat := m.offset + m.bytes.length
/-- Pointer `buf + offset`. -/
def GetBuffer (m : I2NPMessage) : List Nat := m.bytes
/-- Number of bytes held, `len - offset`. -/
def GetLength (m : I2NPMessage) : Nat := m.bytes.length
/-- Pointer `GetBuffer () + I2NP_HEADER_SIZE`. -/
def GetPayload (m : I2NPMessage) : List Nat := m.bytes.drop I2NP_HEADER_SIZE
/-- Number of payload bytes, `GetLength () - I2NP_HEADER_SIZE`. -/
def GetPayloadLength (m : I2NPMessage) : Nat := m.bytes.length - I2NP_HEADER_SIZE

/-- Assignment `*dst = *src`: the bytes of `src` are copied to `dst.buf + dst.offset`. -/
def copyFrom (dst src : I2NPMessage) : I2NPMessage :=
  { dst with bytes := src.bytes, sender := src.sender }

/-- The calls `memcpy (buf + len, p, size); len += size`. -/
def concat (m : I2NPMessage) (p : List Nat) : I2NPMessage :=
  { m with bytes := m.bytes ++ p }

end I2NPMessage

/-- Allocation `NewI2NPMessage ()`: room for the header only. -/
def NewI2NPMessage (P : Params) : I2NPMessage :=
  { offset := P.NEW_MESSAGE_OFFSET, maxLen := P.I2NP_MAX_MESSAGE_SIZE,
    bytes := List.replicate I2NP_HEADER_SIZE 0 }

/-- Allocation `NewI2NPShortMessage ()`. -/
def NewI2NPShortMessage (P : Params) : I2NPMessage :=
  { offset := P.NEW_MESSAGE_OFFSET, maxLen := P.I2NP_MAX_SHORT_MESSAGE_SIZE,
    bytes := List.replicate I2NP_HEADER_SIZE 0 }

/-- Length of the I2NP message at a pointer, from its header. -/
def GetI2NPMessageLength (msg : List Nat) : Nat :=
  bufbe16toh (msg.drop I2NP_HEADER_SIZE_OFFSET) + I2NP_HEADER_SIZE

/-- Offset of the type in the I2NP header; modelled from the spec: the header is
`typeID(1) | msgID(4) | expiration(8) | size(2) | chks(1)`. -/
def I2NP_HEADER_TYPEID_OFFSET : Nat := 0
/-- Offset of the msgID in the I2NP header; modelled from the spec. -/
def I2NP_HEADER_MSGID_OFFSET : Nat := 1
/-- Offset of the expiration in the I2NP header; modelled from the spec. -/
def I2NP_HEADER_EXPIRATION_OFFSET : Nat := 5
/-- Offset of the checksum byte in the I2NP header. -/
def I2NP_HEADER_CHKS_OFFSET : Nat := 15

/-- What a call reads of its surroundings: the clock, `GetSecondsSinceEpoch ()` and
`GetMillisecondsSinceEpoch ()`, constant during the call, and the shift that `Align (12)`
applies to a fresh buffer, which depends on its address. -/
structure Env where
  ts : Nat
  tms : Nat
  alignPad : Nat := 0
deriving Repr, DecidableEq

/-- Method `I2NPMessage::FillI2NPMessageHeader (msgType, replyMsgID)`: type, msgID (drawn
from the random tape when `replyMsgID` is 0), expiration five seconds from now, size and
checksum of the payload. Returns the message and the rest of the tape. -/
def FillI2NPMessageHeader (sha256 : List Nat → List Nat) (now : Env) (rnd : List Nat)
    (m : I2NPMessage) (msgType : Nat) (replyMsgID : Nat) : I2NPMessage × List Nat :=
  let payload := m.GetPayload
  let msgID := if replyMsgID ≠ 0 then replyMsgID else (GenerateWord32 rnd).1
  let rnd1 := if replyMsgID ≠ 0 then rnd else (GenerateWord32 rnd).2
  let header := [msgType % 256] ++ htobe32buf msgID ++ htobe64buf (now.tms + 5000)
    ++ htobe16buf m.GetPayloadLength ++ [(sha256 payload).getD 0 0]
  ({ m with bytes := header ++ payload }, rnd1)

/-- Function `CreateI2NPMessage (buf, len, from)`: a long message holding the `len` bytes at
`buf` (header included) when they fit. -/
def CreateI2NPMessage (P : Params) (buf : List Nat) (len : Nat)
    (sender : Option InboundTunnel) : I2NPMessage :=
  let msg := NewI2NPMessage P
  if msg.offset + len < msg.maxLen then
    { msg with bytes := fixed len buf, sender := sender }
  else msg

/-- Modelled from the spec: DeliveryStatus is `msgID(4) | timestamp(8)`. -/
def DELIVERY_STATUS_SIZE : Nat := 12

/-- Function `CreateDeliveryStatusMsg (msgID)`. -/
def CreateDeliveryStatusMsg (P : Params) (sha256 : List Nat → List Nat) (now : Env)
    (rnd : List Nat) (msgID : Nat) : I2NPMessage × List Nat :=
  let m := NewI2NPShortMessage P
  let payload :=
    if msgID ≠ 0 then htobe32buf msgID ++ htobe64buf now.tms
    else htobe32buf (GenerateWord32 rnd).1 ++ htobe64buf 2
  let rnd1 := if msgID ≠ 0 then rnd else (GenerateWord32 rnd).2
  FillI2NPMessageHeader sha256 now rnd1 (m.concat payload) P.eI2NPDeliveryStatus 0

/-- A lease of a lease-set. -/
structure Lease where
  tunnelGateway : List Nat
  tunnelID : Nat
deriving Repr, DecidableEq

/-- What the core reads of a `LeaseSet`. -/
structure LeaseSet where
  identHash : List Nat
  buffer : List Nat
  nonExpiredLeases : List Lease
deriving Repr, DecidableEq

/-- Modelled from the spec: DatabaseStore offsets are `key=0, type=32, replyToken=33,
header=37`. -/
def DATABASE_STORE_HEADER_SIZE : Nat := 37

/-- Function `CreateDatabaseStoreMsg (leaseSet, replyToken)`; `none` is the null result for a
null lease-set. -/
def CreateDatabaseStoreMsg (P : Params) (sha256 : List Nat → List Nat) (now : Env)
    (rnd : List Nat) (leaseSet : Option LeaseSet) (replyToken : Nat) :
    Option (I2NPMessage × List Nat) :=
  match leaseSet with
  | none => none
  | some ls =>
    let m := NewI2NPShortMessage P
    let hasReply : Bool := replyToken ≠ 0 && !ls.nonExpiredLeases.isEmpty
    let token := if hasReply then replyToken else 0
    let reply :=
      match ls.nonExpiredLeases with
      | lease :: _ =>
        if replyToken ≠ 0 then htobe32buf lease.tunnelID ++ fixed 32 lease.tunnelGateway else []
      | [] => []
    let payload := fixed 32 ls.identHash ++ [1] ++ htobe32buf token ++ reply ++ ls.buffer
    some (FillI2NPMessageHeader sha256 now rnd (m.concat payload) P.eI2NPDatabaseStore 0)

/-! ## Garlic routing, data (`Garlic.cpp`) -/

/-- Modelled from the spec: delivery type `Local(0)` in bits 6..5 of the clove flag. -/
def eGarlicDeliveryTypeLocal : Nat := 0
/-- Modelled from the spec: delivery type `Destination(1)`. -/
def eGarlicDeliveryTypeDestination : Nat := 1
/-- Modelled from the spec: delivery type `Router(2)`. -/
def eGarlicDeliveryTypeRouter : Nat := 2
/-- Modelled from the spec: delivery type `Tunnel(3)`. -/
def eGarlicDeliveryTypeTunnel : Nat := 3

/-- The lease-set update state of a session. -/
inductive LeaseSetUpdateStatus where
  | eLeaseSetUpToDate
  | eLeaseSetUpdated
  | eLeaseSetSubmitted
  | eLeaseSetDoNotSend
deriving Repr, DecidableEq

/-- A session tag: 32 bytes and the creation time in seconds. -/
structure SessionTag where
  tag : List Nat
  creationTime : Nat
deriving Repr, DecidableEq

/-- A batch of generated tags awaiting confirmation. -/
structure UnconfirmedTags where
  numTags : Int
  sessionTags : List SessionTag
  tagsCreationTime : Nat
deriving Repr, DecidableEq

/-- What the core reads of a `RoutingDestination`. -/
structure RoutingDestination where
  identHash : List Nat
  encryptionPublicKey : List Nat
  isDestination : Bool
deriving Repr, DecidableEq

/-- State of a `GarlicRoutingSession`; `id` stands for the identity of the object, which the
owner keeps in `m_CreatedSessions`. The owner `m_Owner` is passed along with the session. -/
structure GarlicRoutingSession where
  id : Nat := 0
  m_Destination : Option RoutingDestination
  m_SessionKey : List Nat
  m_SessionTags : List SessionTag
  m_NumTags : Int
  m_UnconfirmedTagsMsgs : StdMap Nat UnconfirmedTags := []
  m_LeaseSetUpdateStatus : LeaseSetUpdateStatus
  m_LeaseSetUpdateMsgID : Nat := 0
  m_LeaseSetSubmissionTime : Nat := 0
deriving Repr, DecidableEq

/-- Value of the inbound tag table: the creation time kept in the key `SessionTag` and the
key of the `CBCDecryption`. -/
structure InboundTag where
  creationTime : Nat
  key : List Nat
deriving Repr, DecidableEq

/-- State of a `GarlicDestination`, with what the sessions ask of their owner. The inbound tag
table is keyed by the 32 bytes of the tag, as `Tag<32>::operator<` compares. -/
structure GarlicDestination where
  m_Tags : StdMap (List Nat) InboundTag := []
  m_LastTagsCleanupTime : Nat := 0
  m_CreatedSessions : StdMap Nat Nat := []
  /-- The sessions by the identity hash of their destination, as identities of session
  objects. -/
  m_Sessions : StdMap (List Nat) Nat := []
  encryptionPrivateKey : List Nat := []
  /-- Result of `GetLeaseSet ()`. -/
  leaseSet : Option LeaseSet := none
  /-- Result of `GetTunnelPool ()->GetNextInboundTunnel ()`. -/
  nextInboundTunnel : Option InboundTunnel := none
deriving Repr, DecidableEq

/-- Constructor `GarlicRoutingSession (sessionKey, sessionTag)`: no owner, no destination, one
tag stamped now. -/
def GarlicRoutingSession.ofKeyTag (now : Env) (sessionKey tag : List Nat) :
    GarlicRoutingSession :=
  { m_Destination := none, m_SessionKey := fixed 32 sessionKey,
    m_SessionTags := [{ tag := fixed 32 tag, creationTime := now.ts }], m_NumTags := 1,
    m_LeaseSetUpdateStatus := .eLeaseSetDoNotSend }

/-- The assignment `m_Tags[SessionTag (tag, ts)] = decryption`: a tag already in the table
keeps its key object, hence its creation time, and takes the new decryption. -/
def assignTag (tags : StdMap (List Nat) InboundTag) (tag : List Nat) (ts : Nat)
    (key : List Nat) : StdMap (List Nat) InboundTag :=
  match StdMap.find tags tag with
  | some old => StdMap.assign tags tag { creationTime := old.creationTime, key := key }
  | none => StdMap.assign tags tag { creationTime := ts, key := key }

/-- Method `GarlicDestination::AddSessionKey (key, tag)`, which `SubmitSessionKey` calls. -/
def AddSessionKey (now : Env) (dest : GarlicDestination) (key tag : List Nat) :
    GarlicDestination :=
  { dest with m_Tags := assignTag dest.m_Tags (fixed 32 tag) now.ts (fixed 32 key) }

/-- Method `GarlicDestination::DeliveryStatusSent (session, msgID)`. -/
def DeliveryStatusSent (dest : GarlicDestination) (session : GarlicRoutingSession)
    (msgID : Nat) : GarlicDestination :=
  { dest with m_CreatedSessions := StdMap.assign dest.m_CreatedSessions msgID session.id }

/-- The loop of `GenerateSessionTags`: `n` tags drawn from the random tape. -/
def generateTags (ts : Nat) : Nat → List Nat → List SessionTag × List Nat
  | 0, rnd => ([], rnd)
  | n + 1, rnd =>
    let r := generateTags ts n (GenerateBlock rnd 32).2
    ({ tag := (GenerateBlock rnd 32).1, creationTime := ts } :: r.1, r.2)

/-- Method `GarlicRoutingSession::GenerateSessionTags`. -/
def GenerateSessionTags (now : Env) (rnd : List Nat) (s : GarlicRoutingSession) :
    UnconfirmedTags × List Nat :=
  let r := generateTags now.ts s.m_NumTags.toNat rnd
  ({ numTags := s.m_NumTags, sessionTags := r.1, tagsCreationTime := now.ts }, r.2)

/-- The loop of `WrapSingleMessage` over the tag pool: expired tags at the front are removed,
the first tag that is not expired is removed and returned. -/
def selectTag (P : Params) (ts : Nat) : List SessionTag → Option SessionTag × List SessionTag
  | [] => (none, [])
  | t :: rest =>
    if ts < t.creationTime + P.OUTGOING_TAGS_EXPIRATION_TIMEOUT then (some t, rest)
    else selectTag P ts rest

/-! ## Garlic routing, outbound (`Garlic.cpp`) -/

/-- What `WrapSingleMessage` returns and leaves behind: the message (`none` for `nullptr`),
the session, its owner and the rest of the random tape. -/
structure WrapResult where
  msg : Option I2NPMessage
  session : GarlicRoutingSession
  owner : Option GarlicDestination
  rnd : List Nat
deriving Repr, DecidableEq

/-- What the builders of the pieces of a garlic message return: the bytes written (their
number is the returned size) and the state left behind. -/
structure Built where
  bytes : List Nat
  session : GarlicRoutingSession
  owner : Option GarlicDestination
  rnd : List Nat
deriving Repr, DecidableEq

/-- Method `GarlicRoutingSession::CreateGarlicClove (buf, msg, isDestination)`: the bytes of
the clove and the rest of the random tape. -/
def CreateGarlicClove (now : Env) (rnd : List Nat) (s : GarlicRoutingSession)
    (msg : I2NPMessage) (isDestination : Bool) : List Nat × List Nat :=
  let instructions :=
    match isDestination, s.m_Destination with
    | true, some d => [(eGarlicDeliveryTypeDestination <<< 5) % 256] ++ fixed 32 d.identHash
    | _, _ => [0]
  -- instructions, message, CloveID, Expiration of clove, certificate of clove
  let clove := instructions ++ fixed msg.GetLength msg.GetBuffer
    ++ htobe32buf (GenerateWord32 rnd).1
    ++ htobe64buf (now.tms + 5000)
    ++ [0, 0, 0]
  (clove, (GenerateWord32 rnd).2)

/-- Method `GarlicRoutingSession::CreateDeliveryStatusClove (buf, msgID)`. The argument `wrap`
is `WrapSingleMessage` on the one-shot session `garlic (key, tag)`, which has no owner. The
result is `none` when the source dereferences the null message of a failed wrap. -/
def CreateDeliveryStatusClove (P : Params) (C : Crypto) (now : Env)
    (wrap : List Nat → GarlicRoutingSession → I2NPMessage → Option WrapResult)
    (rnd : List Nat) (s : GarlicRoutingSession) (owner : Option GarlicDestination)
    (msgID : Nat) : Option Built :=
  match owner with
  | none => some { bytes := [], session := s, owner := owner, rnd := rnd }
  | some o =>
    match o.nextInboundTunnel with
    | none => some { bytes := [], session := s, owner := owner, rnd := rnd }
    | some inboundTunnel =>
      let msg := CreateDeliveryStatusMsg P C.sha256 now rnd msgID
      let key := GenerateBlock msg.2 32
      let tag := GenerateBlock key.2 32
      let o1 := AddSessionKey now o key.1 tag.1
      match wrap tag.2 (GarlicRoutingSession.ofKeyTag now key.1 tag.1) msg.1 with
      | none => none
      | some r =>
        match r.msg with
        | none => none
        | some wrapped =>
          -- flag, To Hash, tunnelID, message, CloveID, Expiration and certificate of clove
          let clove := [(eGarlicDeliveryTypeTunnel <<< 5) % 256]
            ++ fixed 32 inboundTunnel.nextIdentHash
            ++ htobe32buf inboundTunnel.nextTunnelID
            ++ fixed wrapped.GetLength wrapped.GetBuffer
            ++ htobe32buf (GenerateWord32 r.rnd).1
            ++ htobe64buf (now.tms + 5000)
            ++ [0, 0, 0]
          some { bytes := clove, session := s, owner := some o1,
                 rnd := (GenerateWord32 r.rnd).2 }

/-- The first step of `CreateGarlicPayload` for a session with an owner: a lease-set
submitted and not confirmed in time is to be sent again. -/
def resubmitLeaseSet (P : Params) (now : Env) (s : GarlicRoutingSession) :
    GarlicRoutingSession :=
  if s.m_LeaseSetUpdateStatus = .eLeaseSetSubmitted ∧
      now.tms > s.m_LeaseSetSubmissionTime + P.LEASET_CONFIRMATION_TIMEOUT then
    { s with m_LeaseSetUpdateStatus := .eLeaseSetUpdated }
  else s

/-- What `CreateGarlicPayload` does after a DeliveryStatus clove of positive size: the new
tags wait under `msgID`, and the owner is told. -/
def deliveryStatusAttached (b : Built) (msgID : Nat) (newTags : Option UnconfirmedTags) :
    Built :=
  let s2 :=
    match newTags with
    | some t =>
      { b.session with
        m_UnconfirmedTagsMsgs := StdMap.assign b.session.m_UnconfirmedTagsMsgs msgID t }
    | none => b.session
  { b with session := s2, owner := b.owner.map (fun o1 => DeliveryStatusSent o1 s2 msgID) }

/-- The second step of `CreateGarlicPayload` for a session with an owner: the DeliveryStatus
clove, when there are new tags or a lease-set to send. Returns the clove bytes, the number of
cloves and the state; `none` when the source dereferences a null message. -/
def attachDeliveryStatus (P : Params) (C : Crypto) (now : Env)
    (wrap : List Nat → GarlicRoutingSession → I2NPMessage → Option WrapResult)
    (rnd : List Nat) (s : GarlicRoutingSession) (o : GarlicDestination) (msgID : Nat)
    (newTags : Option UnconfirmedTags) : Option (Built × Nat) :=
  if newTags.isSome ∨ s.m_LeaseSetUpdateStatus = .eLeaseSetUpdated then
    match CreateDeliveryStatusClove P C now wrap rnd s (some o) msgID with
    | none => none
    | some b =>
      if b.bytes.length > 0 then some (deliveryStatusAttached b msgID newTags, 1)
      else some (b, 0)
  else some (Built.mk [] s (some o) rnd, 0)

/-- The third step of `CreateGarlicPayload` for a session with an owner: the LeaseSet clove,
after the `n` cloves of `b`. -/
def attachLeaseSet (P : Params) (C : Crypto) (now : Env) (o : GarlicDestination)
    (msgID : Nat) (b : Built) (n : Nat) : Option (Built × Nat) :=
  if b.session.m_LeaseSetUpdateStatus = .eLeaseSetUpdated then
    let s3 : GarlicRoutingSession :=
      { b.session with m_LeaseSetUpdateStatus := .eLeaseSetSubmitted,
                       m_LeaseSetUpdateMsgID := msgID,
                       m_LeaseSetSubmissionTime := now.tms }
    match CreateDatabaseStoreMsg P C.sha256 now b.rnd o.leaseSet 0 with
    | none => none
    | some leaseSet =>
      let clove := CreateGarlicClove now leaseSet.2 s3 leaseSet.1 false
      some (Built.mk (b.bytes ++ clove.1) s3 b.owner clove.2, n + 1)
  else some (b, n)

/-- The part of `CreateGarlicPayload` run when the session has an owner: the lease-set
resubmission test, the DeliveryStatus clove and the LeaseSet clove. -/
def ownerCloves (P : Params) (C : Crypto) (now : Env)
    (wrap : List Nat → GarlicRoutingSession → I2NPMessage → Option WrapResult)
    (rnd : List Nat) (s : GarlicRoutingSession) (o : GarlicDestination) (msgID : Nat)
    (newTags : Option UnconfirmedTags) : Option (Built × Nat) :=
  match attachDeliveryStatus P C now wrap rnd (resubmitLeaseSet P now s) o msgID newTags with
  | none => none
  | some (b, n) => attachLeaseSet P C now o msgID b n

/-- The last step of `CreateGarlicPayload`: the clove of the message itself, if presented,
after the `n` cloves of `b`. Returns the clove bytes, the random tape and the number of
cloves. -/
def attachMessage (now : Env) (b : Built) (n : Nat) (msg : Option I2NPMessage) :
    List Nat × List Nat × Nat :=
  match msg with
  | some m =>
    let clove := CreateGarlicClove now b.rnd b.session m
      (match b.session.m_Destination with
        | some d => d.isDestination
        | none => false)
    (b.bytes ++ clove.1, clove.2, n + 1)
  | none => (b.bytes, b.rnd, n)

/-- Method `GarlicRoutingSession::CreateGarlicPayload (payload, msg, newTags)`. -/
def CreateGarlicPayload (P : Params) (C : Crypto) (now : Env)
    (wrap : List Nat → GarlicRoutingSession → I2NPMessage → Option WrapResult)
    (rnd : List Nat) (s : GarlicRoutingSession) (owner : Option GarlicDestination)
    (msg : Option I2NPMessage) (newTags : Option UnconfirmedTags) : Option Built :=
  let ts := now.tms + 5000
  let msgID := GenerateWord32 rnd
  let own : Option (Built × Nat) :=
    match owner with
    | some o => ownerCloves P C now wrap msgID.2 s o msgID.1 newTags
    | none => some (Built.mk [] s none msgID.2, 0)
  match own with
  | none => none
  | some (b, n) =>
    let own2 := attachMessage now b n msg
    -- number of cloves, cloves, certificate of message, MessageID, Expiration of message
    let payload := [own2.2.2 % 256] ++ own2.1 ++ [0, 0, 0] ++ htobe32buf msgID.1
      ++ htobe64buf ts
    some { bytes := payload, session := b.session, owner := b.owner, rnd := own2.2.1 }

/-- Method `GarlicRoutingSession::CreateAESBlock (buf, msg)`; `iv` is the IV set on
`m_Encryption` by the caller. The block is padded to a multiple of 16 bytes and encrypted in
place; the padding bytes, which the source leaves as it finds them in the fresh buffer, are
zeros here. -/
def CreateAESBlock (P : Params) (C : Crypto) (now : Env)
    (wrap : List Nat → GarlicRoutingSession → I2NPMessage → Option WrapResult)
    (rnd : List Nat) (s : GarlicRoutingSession) (owner : Option GarlicDestination)
    (msg : Option I2NPMessage) (iv : List Nat) : Option Built :=
  let createNewTags : Bool :=
    owner.isSome && decide (s.m_NumTags ≠ 0) &&
    decide ((s.m_SessionTags.length : Int) ≤ Int.tdiv (s.m_NumTags * 2) 3)
  let generated := GenerateSessionTags now rnd s
  let newTags : Option UnconfirmedTags := if createNewTags then some generated.1 else none
  let rnd1 := if createNewTags then generated.2 else rnd
  let tagCount :=
    match newTags with
    | some t => htobe16buf (t.numTags % 65536).toNat
    | none => [0, 0]
  let tags :=
    match newTags with
    | some t => (t.sessionTags.map (fun g => fixed 32 g.tag)).flatten
    | none => []
  match CreateGarlicPayload P C now wrap rnd1 s owner msg newTags with
  | none => none
  | some b =>
    let block := tagCount ++ tags
      ++ htobe32buf b.bytes.length      -- payloadSize
      ++ fixed 32 (C.sha256 b.bytes)    -- payloadHash
      ++ [0]                            -- flag
      ++ b.bytes
    let padded := block ++ List.replicate ((16 - block.length % 16) % 16) 0
    some { b with bytes := fixed padded.length (C.aesEncrypt s.m_SessionKey iv padded) }

/-- The search of `WrapSingleMessage` for a non-expired tag, made when numTags is positive:
the tag found, if any, and the pool left behind. -/
def findTag (P : Params) (now : Env) (s : GarlicRoutingSession) :
    Option SessionTag × List SessionTag :=
  if s.m_NumTags > 0 then selectTag P now.ts s.m_SessionTags else (none, s.m_SessionTags)

/-- The common end of the two branches of `WrapSingleMessage`: with the front bytes written
(the ElGamal block or the tag) and the IV set, the AES block follows, then the length and the
I2NP header. -/
def frameGarlic (P : Params) (C : Crypto) (now : Env)
    (wrap : List Nat → GarlicRoutingSession → I2NPMessage → Option WrapResult)
    (s : GarlicRoutingSession) (owner : Option GarlicDestination)
    (msg : Option I2NPMessage) (front iv rnd : List Nat) : Option WrapResult :=
  let fresh := NewI2NPMessage P
  let m := { fresh with offset := fresh.offset + now.alignPad }
  match CreateAESBlock P C now wrap rnd s owner msg iv with
  | none => none
  | some b =>
    let len := front.length + b.bytes.length
    let filled := FillI2NPMessageHeader C.sha256 now b.rnd
      (m.concat (htobe32buf len ++ front ++ b.bytes)) P.eI2NPGarlic 0
    some { msg := some filled.1, session := b.session, owner := b.owner, rnd := filled.2 }

/-- Method `GarlicRoutingSession::WrapSingleMessage (msg)`, with the function used for the
inner call as an argument. The 158 padding bytes of the ElGamal block, which the source
leaves as it finds them on the stack, are zeros here. -/
def WrapSingleMessageWith (P : Params) (C : Crypto) (now : Env)
    (wrap : List Nat → GarlicRoutingSession → I2NPMessage → Option WrapResult)
    (rnd : List Nat) (s : GarlicRoutingSession) (owner : Option GarlicDestination)
    (msg : Option I2NPMessage) : Option WrapResult :=
  -- find non-expired tag
  let sel := findTag P now s
  let s1 := { s with m_SessionTags := sel.2 }
  match sel.1 with
  | none =>
    -- new session
    match s.m_Destination with
    | none => some { msg := none, session := s1, owner := owner, rnd := rnd }
    | some d =>
      let preIV := GenerateBlock rnd 32
      let elGamal := fixed 32 s.m_SessionKey ++ preIV.1 ++ List.replicate 158 0
      frameGarlic P C now wrap s1 owner msg
        (fixed 514 (C.elGamalEncrypt d.encryptionPublicKey elGamal true))
        ((C.sha256 preIV.1).take 16) preIV.2
  | some tag =>
    -- existing session
    frameGarlic P C now wrap s1 owner msg (fixed 32 tag.tag)
      ((C.sha256 (fixed 32 tag.tag)).take 16) rnd

/-- Method `GarlicRoutingSession::WrapSingleMessage` on a session without owner: no branch of
it reaches the inner call. -/
def WrapSingleMessageNoOwner (P : Params) (C : Crypto) (now : Env) (rnd : List Nat)
    (s : GarlicRoutingSession) (msg : I2NPMessage) : Option WrapResult :=
  WrapSingleMessageWith P C now (fun _ _ _ => none) rnd s none (some msg)

/-- Method `GarlicRoutingSession::WrapSingleMessage (msg)`; `owner` is `m_Owner`. The inner
call, in `CreateDeliveryStatusClove`, is on a session without owner. The result is `none`
when the source dereferences a null message. -/
def WrapSingleMessage (P : Params) (C : Crypto) (now : Env) (rnd : List Nat)
    (s : GarlicRoutingSession) (owner : Option GarlicDestination)
    (msg : Option I2NPMessage) : Option WrapResult :=
  WrapSingleMessageWith P C now (WrapSingleMessageNoOwner P C now) rnd s owner msg

/-! ## Garlic routing, inbound (`Garlic.cpp`) -/

/-- What `HandleGarlicPayload` does with a clove. -/
inductive CloveAction where
  /-- The call `HandleI2NPMessage (buf, len, from)`; `msg` is the I2NP message at `buf`, as
  long as its header says. -/
  | handleI2NPMessage (msg : List Nat) (len : Nat) (sender : Option InboundTunnel)
  /-- The call `tunnel->SendTunnelDataMsg (gwHash, gwTunnel, msg)`. -/
  | sendTunnelDataMsg (gwHash : List Nat) (gwTunnel : Nat) (msg : I2NPMessage)
  /-- No outbound tunnels available for garlic clove. -/
  | noOutboundTunnel (gwHash : List Nat) (gwTunnel : Nat) (msg : List Nat)
  /-- Garlic type router not supported. -/
  | routerNotSupported
deriving Repr, DecidableEq

/-- The conversion `static_cast<int> (len)` of a `size_t`. -/
def castInt (len : Nat) : Int :=
  Int.bmod (len : Int) (2 ^ 32)

/-- What `HandleGarlicPayload` has done: the cloves in order and the offset `buf - buf1` at
which the loop ended. -/
structure PayloadResult where
  cloves : List CloveAction
  stop : Nat
deriving Repr, DecidableEq

/-- The loop of `HandleGarlicPayload` over `n` cloves, from the offset `pos` of `payload`. -/
def handleCloves (P : Params) (payload : List Nat) (len : Nat)
    (sender : Option InboundTunnel) : Nat → Nat → PayloadResult
  | 0, pos => { cloves := [], stop := pos }
  | n + 1, pos =>
    -- delivery instructions
    let flag := payload.getD pos 0
    let pos1 := pos + 1
    let pos2 := if flag &&& 0x80 ≠ 0 then pos1 + 32 else pos1
    let deliveryType := (flag >>> 5) &&& 0x03
    let pos3 :=
      if deliveryType = eGarlicDeliveryTypeLocal then pos2
      else if deliveryType = eGarlicDeliveryTypeDestination then pos2 + 32
      else if deliveryType = eGarlicDeliveryTypeTunnel then pos2 + 32 + 4
      else pos2 + 32
    let msgLen := GetI2NPMessageLength (payload.drop pos3)
    let msg := fixed msgLen (payload.drop pos3)
    let action : CloveAction :=
      if deliveryType = eGarlicDeliveryTypeLocal then .handleI2NPMessage msg len sender
      else if deliveryType = eGarlicDeliveryTypeDestination then
        .handleI2NPMessage msg len sender
      else if deliveryType = eGarlicDeliveryTypeTunnel then
        -- gwHash and gwTunnel sequence is reverted
        let gwHash := fixed 32 (payload.drop pos2)
        let gwTunnel := bufbe32toh (payload.drop (pos2 + 32))
        let tunnel : Option Nat :=
          match sender with
          | some t => if t.hasPool then t.nextOutboundTunnel else none
          | none => none
        match tunnel with
        | some _ =>
          .sendTunnelDataMsg gwHash gwTunnel (CreateI2NPMessage P (payload.drop pos3) msgLen sender)
        | none => .noOutboundTunnel gwHash gwTunnel msg
      else .routerNotSupported
    -- I2NP, CloveID, Date, Certificate
    let pos4 := pos3 + msgLen + 4 + 8 + 3
    if (pos4 : Int) > castInt len then { cloves := [action], stop := pos4 }
    else
      let r := handleCloves P payload len sender n pos4
      { cloves := action :: r.cloves, stop := r.stop }

/-- Method `GarlicDestination::HandleGarlicPayload (buf, len, from)`. -/
def HandleGarlicPayload (P : Params) (buf : List Nat) (len : Nat)
    (sender : Option InboundTunnel) : PayloadResult :=
  handleCloves P buf len sender (buf.getD 0 0) 1

/-- The loop of `HandleAESBlock` that stores the `n` tags at `buf` in the inbound table. -/
def addTags (ts : Nat) (key : List Nat) (buf : List Nat) :
    Nat → Nat → StdMap (List Nat) InboundTag → StdMap (List Nat) InboundTag
  | 0, _, tags => tags
  | n + 1, i, tags => addTags ts key buf n (i + 1) (assignTag tags (fixed 32 (buf.drop (i * 32))) ts key)

/-- What `HandleAESBlock` has done: the destination and, when the payload was handed to
`HandleGarlicPayload`, the payload (`payloadSize` bytes) and what was done with it. -/
structure AESBlockResult where
  dest : GarlicDestination
  payload : Option (List Nat × PayloadResult)
deriving Repr, DecidableEq

/-- Method `GarlicDestination::HandleAESBlock (buf, len, decryption, from)`; `key` is the key
of `decryption`. -/
def HandleAESBlock (P : Params) (C : Crypto) (now : Env) (dest : GarlicDestination)
    (buf : List Nat) (len : Nat) (key : List Nat) (sender : Option InboundTunnel) :
    AESBlockResult :=
  let tagCount := bufbe16toh buf
  let buf1 := buf.drop 2
  let len1 := subSizeT len 2
  if tagCount > 0 ∧ tagCount * 32 > len1 then { dest := dest, payload := none }
  else
    let dest1 := { dest with m_Tags := addTags now.ts key buf1 tagCount 0 dest.m_Tags }
    let buf2 := buf1.drop (tagCount * 32)
    let len2 := subSizeT len1 (tagCount * 32)
    let payloadSize := bufbe32toh buf2
    if payloadSize > len2 then { dest := dest1, payload := none }
    else
      let payloadHash := fixed 32 (buf2.drop 4)
      let buf3 := buf2.drop (4 + 32)
      -- session key?
      let buf4 := if buf3.getD 0 0 ≠ 0 then buf3.drop (32 + 1) else buf3.drop 1
      let payload := fixed payloadSize buf4
      if fixed 32 (C.sha256 payload) ≠ payloadHash then { dest := dest1, payload := none }
      else
        { dest := dest1, payload := some (payload, HandleGarlicPayload P buf4 payloadSize sender) }

/-- The sweep of the inbound tags at the end of `HandleGarlicMessage`. -/
def cleanupTags (P : Params) (now : Env) (dest : GarlicDestination) : GarlicDestination :=
  if now.ts > dest.m_LastTagsCleanupTime + P.INCOMING_TAGS_EXPIRATION_TIMEOUT then
    let tags :=
      if dest.m_LastTagsCleanupTime ≠ 0 then
        dest.m_Tags.filter
          (fun e => !decide (now.ts > e.2.creationTime + P.INCOMING_TAGS_EXPIRATION_TIMEOUT))
      else dest.m_Tags
    { dest with m_Tags := tags, m_LastTagsCleanupTime := now.ts }
  else dest

/-- What `HandleGarlicMessage` has done: the destination, whether the tag was found in the
inbound table, and what `HandleAESBlock` did with the payload. -/
structure GarlicResult where
  dest : GarlicDestination
  tagFound : Bool
  payload : Option (List Nat × PayloadResult)
deriving Repr, DecidableEq

/-- Method `GarlicDestination::HandleGarlicMessage (msg)`. -/
def HandleGarlicMessage (P : Params) (C : Crypto) (now : Env) (dest : GarlicDestination)
    (msg : I2NPMessage) : GarlicResult :=
  let buf := msg.GetPayload
  let length := bufbe32toh buf
  if length > msg.GetLength then { dest := dest, tagFound := false, payload := none }
  else
    let buf := buf.drop 4   -- length
    let tag := fixed 32 buf
    match StdMap.find dest.m_Tags tag with
    | some it =>
      -- tag found. Use AES
      let r : AESBlockResult :=
        if length ≥ 32 then
          let iv := (C.sha256 tag).take 16
          let data := fixed (length - 32) (buf.drop 32)
          let decrypted := fixed data.length (C.aesDecrypt it.key iv data)
            ++ buf.drop (32 + (length - 32))
          HandleAESBlock P C now dest decrypted (length - 32) it.key msg.sender
        else { dest := dest, payload := none }
      -- tag might be used only once
      let dest1 := { r.dest with m_Tags := StdMap.erase r.dest.m_Tags tag }
      { dest := cleanupTags P now dest1, tagFound := true, payload := r.payload }
    | none =>
      -- tag not found. Use ElGamal
      let r : AESBlockResult :=
        if length ≥ 514 then
          match C.elGamalDecrypt dest.encryptionPrivateKey (fixed 514 buf) true with
          | some elGamal =>
            let sessionKey := fixed 32 elGamal
            let preIV := fixed 32 (elGamal.drop 32)
            let iv := (C.sha256 preIV).take 16
            let data := fixed (length - 514) (buf.drop 514)
            let decrypted := fixed data.length (C.aesDecrypt sessionKey iv data)
              ++ buf.drop (514 + (length - 514))
            HandleAESBlock P C now dest decrypted (length - 514) sessionKey msg.sender
          | none => { dest := dest, payload := none }
        else { dest := dest, payload := none }
      { dest := cleanupTags P now r.dest, tagFound := false, payload := r.payload }

/-! ## Tunnel endpoint (`TunnelEndpoint.cpp`) -/

/-- Delivery type `eDeliveryTypeLocal`. -/
def eDeliveryTypeLocal : Nat := 0
/-- Delivery type `eDeliveryTypeTunnel`. -/
def eDeliveryTypeTunnel : Nat := 1
/-- Delivery type `eDeliveryTypeRouter`. -/
def eDeliveryTypeRouter : Nat := 2

/-- Record `TunnelMessageBlockEx`: a `TunnelMessageBlock` with `nextFragmentNum`. -/
structure TunnelMessageBlockEx where
  deliveryType : Nat := 0
  hash : List Nat := []
  tunnelID : Nat := 0
  data : I2NPMessage
  nextFragmentNum : Nat := 0
deriving Repr, DecidableEq

/-- Entry of the out-of-sequence table. -/
structure Fragment where
  fragmentNum : Nat
  isLastFragment : Bool
  data : I2NPMessage
deriving Repr, DecidableEq

/-- What `HandleNextMessage` does with a message. -/
inductive Effect where
  /-- The call `i2p::HandleI2NPMessage (msg.data)`. -/
  | handleI2NPMessage (data : I2NPMessage)
  /-- The call `transports.SendMessage (msg.hash, CreateTunnelGatewayMsg (msg.tunnelID, msg.data))`. -/
  | sendTunnelGateway (hash : List Nat) (tunnelID : Nat) (data : I2NPMessage)
  /-- The call `transports.SendMessage (msg.hash, msg.data)`. -/
  | sendMessage (hash : List Nat) (data : I2NPMessage)
  /-- Message to another router arrived from an inbound tunnel: dropped. -/
  | leakDropped (data : I2NPMessage)
  /-- Unknown delivery type: nothing is done. -/
  | unknownDeliveryType (data : I2NPMessage)
deriving Repr, DecidableEq

/-- Whether the effect is a call of `transports.SendMessage`. -/
def Effect.isSend : Effect → Bool
  | .sendTunnelGateway _ _ _ => true
  | .sendMessage _ _ => true
  | _ => false

/-- The message an effect is about. -/
def Effect.data : Effect → I2NPMessage
  | .handleI2NPMessage d => d
  | .sendTunnelGateway _ _ d => d
  | .sendMessage _ d => d
  | .leakDropped d => d
  | .unknownDeliveryType d => d

/-- State of a `TunnelEndpoint`. -/
structure TunnelEndpoint where
  m_IsInbound : Bool
  m_NumReceivedBytes : Nat := 0
  m_IncompleteMessages : StdMap Nat TunnelMessageBlockEx := []
  m_OutOfSequenceFragments : StdMap Nat Fragment := []
deriving Repr, DecidableEq

/-- Method `TunnelEndpoint::HandleNextMessage`; `ourHash` is
`i2p::context.GetRouterInfo ().GetIdentHash ()`. -/
def HandleNextMessage (isInbound : Bool) (ourHash : List Nat) (msg : TunnelMessageBlockEx) :
    Effect :=
  if msg.deliveryType = eDeliveryTypeLocal then
    .handleI2NPMessage msg.data
  else if msg.deliveryType = eDeliveryTypeTunnel then
    .sendTunnelGateway msg.hash msg.tunnelID msg.data
  else if msg.deliveryType = eDeliveryTypeRouter then
    if msg.hash = ourHash then
      .handleI2NPMessage msg.data
    else if !isInbound then
      .sendMessage msg.hash msg.data
    else
      .leakDropped msg.data
  else
    .unknownDeliveryType msg.data

/-- The buffer a fragment is concatenated to: a new long message when `maxLen` is not enough. -/
def growFor (P : Params) (data : I2NPMessage) (size : Nat) : I2NPMessage :=
  if data.len + size > data.maxLen then (NewI2NPMessage P).copyFrom data else data

/-- Method `TunnelEndpoint::AddOutOfSequenceFragment`. -/
def AddOutOfSequenceFragment (ep : TunnelEndpoint) (msgID : Nat) (fragmentNum : Nat)
    (isLastFragment : Bool) (data : I2NPMessage) : TunnelEndpoint :=
  match StdMap.find ep.m_OutOfSequenceFragments msgID with
  | none =>
    let frag : Fragment :=
      { fragmentNum := fragmentNum, isLastFragment := isLastFragment, data := data }
    { ep with m_OutOfSequenceFragments := StdMap.insert ep.m_OutOfSequenceFragments msgID frag }
  | some _ => ep

/-- Method `TunnelEndpoint::HandleOutOfSequenceFragment`; `msg` is the entry of the
incomplete table under `msgID`, which the source updates through a reference. -/
def HandleOutOfSequenceFragment (P : Params) (ourHash : List Nat) (ep : TunnelEndpoint)
    (msgID : Nat) (msg : TunnelMessageBlockEx) : TunnelEndpoint × List Effect :=
  match StdMap.find ep.m_OutOfSequenceFragments msgID with
  | some frag =>
    if frag.fragmentNum = msg.nextFragmentNum then
      let size := frag.data.GetLength
      let data := (growFor P msg.data size).concat (frag.data.GetBuffer.take size)
      let msg1 := { msg with data := data }
      if frag.isLastFragment then
        ({ ep with
            m_IncompleteMessages := StdMap.erase ep.m_IncompleteMessages msgID,
            m_OutOfSequenceFragments := StdMap.erase ep.m_OutOfSequenceFragments msgID },
          [HandleNextMessage ep.m_IsInbound ourHash msg1])
      else
        let msg2 := { msg1 with nextFragmentNum := (msg1.nextFragmentNum + 1) % 256 }
        ({ ep with
            m_IncompleteMessages := StdMap.assign ep.m_IncompleteMessages msgID msg2,
            m_OutOfSequenceFragments := StdMap.erase ep.m_OutOfSequenceFragments msgID }, [])
    else (ep, [])
  | none => (ep, [])

/-- Method `TunnelEndpoint::HandleFollowOnFragment`. -/
def HandleFollowOnFragment (P : Params) (ourHash : List Nat) (ep : TunnelEndpoint)
    (msgID : Nat) (isLastFragment : Bool) (m : TunnelMessageBlockEx) :
    TunnelEndpoint × List Effect :=
  let fragment := m.data.GetBuffer
  let size := m.data.GetLength
  match StdMap.find ep.m_IncompleteMessages msgID with
  | some msg =>
    if m.nextFragmentNum = msg.nextFragmentNum then
      if msg.data.len + size < P.I2NP_MAX_MESSAGE_SIZE then
        let data := (growFor P msg.data size).concat (fragment.take size)
        let msg1 := { msg with data := data }
        if isLastFragment then
          ({ ep with m_IncompleteMessages := StdMap.erase ep.m_IncompleteMessages msgID },
            [HandleNextMessage ep.m_IsInbound ourHash msg1])
        else
          let msg2 := { msg1 with nextFragmentNum := (msg1.nextFragmentNum + 1) % 256 }
          HandleOutOfSequenceFragment P ourHash
            { ep with m_IncompleteMessages := StdMap.assign ep.m_IncompleteMessages msgID msg2 }
            msgID msg2
      else
        ({ ep with m_IncompleteMessages := StdMap.erase ep.m_IncompleteMessages msgID }, [])
    else
      (AddOutOfSequenceFragment ep msgID m.nextFragmentNum isLastFragment m.data, [])
  | none =>
    (AddOutOfSequenceFragment ep msgID m.nextFragmentNum isLastFragment m.data, [])

/-- One fragment as read by the loop of `HandleDecryptedTunnelDataMsg`. -/
structure FragmentInfo where
  isFollowOnFragment : Bool
  isLastFragment : Bool
  msgID : Nat
  fragmentNum : Nat
  m : TunnelMessageBlockEx
  /-- Pointer `fragment` after the step `fragment += size`, as an index from `GetPayload ()`. -/
  next : Nat
deriving Repr, DecidableEq

/-- Body of the loop of `HandleDecryptedTunnelDataMsg` up to the choice of `m.data`:
reads the fragment header at index `fragment` of the payload `pl` of `msg`. -/
def readFragment (P : Params) (msg : I2NPMessage) (pl : List Nat) (fragment : Nat) :
    FragmentInfo :=
  let flag := pl.getD fragment 0
  let fragment := fragment + 1
  let isFollowOnFragment : Bool := flag &&& 0x80 ≠ 0
  -- first fragment: delivery instructions, then the message ID if fragmented
  let deliveryType := (flag >>> 5) &&& 0x03
  let tunnelID := if deliveryType = eDeliveryTypeTunnel then bufbe32toh (pl.drop fragment) else 0
  let hash :=
    if deliveryType = eDeliveryTypeTunnel then fixed 32 (pl.drop (fragment + 4))
    else if deliveryType = eDeliveryTypeRouter then fixed 32 (pl.drop fragment)
    else []
  let afterInstructions :=
    if deliveryType = eDeliveryTypeTunnel then fragment + 4 + 32
    else if deliveryType = eDeliveryTypeRouter then fragment + 32
    else fragment
  let isFragmented : Bool := flag &&& 0x08 ≠ 0
  let msgID :=
    if isFollowOnFragment then bufbe32toh (pl.drop fragment)
    else if isFragmented then bufbe32toh (pl.drop afterInstructions) else 0
  let fragmentNum := if isFollowOnFragment then (flag >>> 1) &&& 0x3F else 0
  let isLastFragment : Bool :=
    if isFollowOnFragment then flag &&& 0x01 ≠ 0 else !isFragmented
  let fragment :=
    if isFollowOnFragment then fragment + 4
    else if isFragmented then afterInstructions + 4 else afterInstructions
  let size := bufbe16toh (pl.drop fragment)
  let fragment := fragment + 2
  -- msg->offset = fragment - msg->buf; msg->len = msg->offset + size
  let view : I2NPMessage :=
    { msg with offset := msg.offset + I2NP_HEADER_SIZE + fragment,
               bytes := fixed size (pl.drop fragment) }
  let data :=
    if fragment + size < 20 + TUNNEL_DATA_ENCRYPTED_SIZE then
      -- this is not last message. we have to copy it
      let fresh := NewI2NPShortMessage P
      I2NPMessage.copyFrom { fresh with offset := fresh.offset + TUNNEL_GATEWAY_HEADER_SIZE } view
    else view
  let m : TunnelMessageBlockEx :=
    if isFollowOnFragment then { data := data }
    else { deliveryType := deliveryType, hash := hash, tunnelID := tunnelID, data := data }
  { isFollowOnFragment := isFollowOnFragment, isLastFragment := isLastFragment, msgID := msgID,
    fragmentNum := fragmentNum, m := m, next := fragment + size }

/-- Body of the loop of `HandleDecryptedTunnelDataMsg` from the choice of `m.data` on:
the fragment goes to `HandleNextMessage`, to the incomplete table or to
`HandleFollowOnFragment`. -/
def dispatchFragment (P : Params) (ourHash : List Nat) (ep : TunnelEndpoint)
    (isFollowOnFragment isLastFragment : Bool) (msgID fragmentNum : Nat)
    (m : TunnelMessageBlockEx) : TunnelEndpoint × List Effect :=
  if !isFollowOnFragment && isLastFragment then
    (ep, [HandleNextMessage ep.m_IsInbound ourHash m])
  else if msgID ≠ 0 then
    if !isFollowOnFragment then
      let m1 := { m with nextFragmentNum := 1 }
      match StdMap.find ep.m_IncompleteMessages msgID with
      | none =>
        HandleOutOfSequenceFragment P ourHash
          { ep with m_IncompleteMessages := StdMap.insert ep.m_IncompleteMessages msgID m1 }
          msgID m1
      | some _ => (ep, [])
    else
      let m1 := { m with nextFragmentNum := fragmentNum }
      HandleFollowOnFragment P ourHash ep msgID isLastFragment m1
  else (ep, [])

/-- The loop `while (fragment < decrypted + TUNNEL_DATA_ENCRYPTED_SIZE)`; every turn moves
`fragment` forward by three bytes at least, so `fuel` bounds the number of turns. -/
def handleFragments (P : Params) (ourHash : List Nat) (msg : I2NPMessage) (pl : List Nat) :
    Nat → Nat → TunnelEndpoint → TunnelEndpoint × List Effect
  | 0, _, ep => (ep, [])
  | fuel + 1, fragment, ep =>
    if fragment < 20 + TUNNEL_DATA_ENCRYPTED_SIZE then
      let f := readFragment P msg pl fragment
      let r := dispatchFragment P ourHash ep f.isFollowOnFragment f.isLastFragment f.msgID
        f.fragmentNum f.m
      let r2 := handleFragments P ourHash msg pl fuel f.next r.1
      (r2.1, r.2 ++ r2.2)
    else (ep, [])

/-- Method `TunnelEndpoint::HandleDecryptedTunnelDataMsg`; `sha256` is
`CryptoPP::SHA256 ().CalculateDigest`. -/
def HandleDecryptedTunnelDataMsg (P : Params) (sha256 : List Nat → List Nat)
    (ourHash : List Nat) (ep : TunnelEndpoint) (msg : I2NPMessage) :
    TunnelEndpoint × List Effect :=
  let ep := { ep with m_NumReceivedBytes := ep.m_NumReceivedBytes + TUNNEL_DATA_MSG_SIZE }
  let pl := msg.GetPayload
  let decrypted := pl.drop 20
  match memchr0 (decrypted.drop 4) (TUNNEL_DATA_ENCRYPTED_SIZE - 4) with
  | some z =>
    let fragment := 20 + 4 + z + 1
    -- the IV is copied to the end of the payload and hashed with the fragments
    let hash := sha256 ((pl.drop fragment).take (TUNNEL_DATA_MSG_SIZE - fragment)
      ++ (pl.drop 4).take 16)
    if hash.take 4 ≠ decrypted.take 4 then (ep, [])
    else handleFragments P ourHash msg pl TUNNEL_DATA_ENCRYPTED_SIZE fragment ep
  | none => (ep, [])

/-- One turn of the loop of `HandleDecryptedTunnelDataMsg` on a fragment already read. -/
def feed (P : Params) (ourHash : List Nat) (ep : TunnelEndpoint) (f : FragmentInfo) :
    TunnelEndpoint × List Effect :=
  dispatchFragment P ourHash ep f.isFollowOnFragment f.isLastFragment f.msgID f.fragmentNum f.m

/-- Successive turns of the loop on a list of fragments, with the effects in order. -/
def feedAll (P : Params) (ourHash : List Nat) :
    TunnelEndpoint → List FragmentInfo → TunnelEndpoint × List Effect
  | ep, [] => (ep, [])
  | ep, f :: rest =>
    let r := feed P ourHash ep f
    let r2 := feedAll P ourHash r.1 rest
    (r2.1, r.2 ++ r2.2)

/-- A first fragment with the fragmented bit: delivery instructions and data in `m`. -/
def firstFragment (msgID : Nat) (m : TunnelMessageBlockEx) : FragmentInfo :=
  { isFollowOnFragment := false, isLastFragment := false, msgID := msgID, fragmentNum := 0,
    m := m, next := 0 }

/-- A follow-on fragment with number `fragmentNum`. -/
def followOnFragment (msgID fragmentNum : Nat) (isLast : Bool) (data : I2NPMessage) :
    FragmentInfo :=
  { isFollowOnFragment := true, isLastFragment := isLast, msgID := msgID,
    fragmentNum := fragmentNum, m := { data := data }, next := 0 }

/-- A first fragment that is the whole message (no fragmented bit). -/
def wholeMessage (m : TunnelMessageBlockEx) : FragmentInfo :=
  { isFollowOnFragment := false, isLastFragment := true, msgID := 0, fragmentNum := 0,
    m := m, next := 0 }

/-- The bytes of a list of messages, one after the other. -/
def joinBytes (ds : List I2NPMessage) : List Nat :=
  (ds.map (fun d => d.bytes)).flatten

/-- A message without bytes, standing for an absent fragment. -/
def noData : I2NPMessage :=
  { offset := 0, maxLen := 0, bytes := [] }

/-- Fragment `k` of the message split into the first fragment `m0` and the follow-on
fragments `ds`, numbered from 1; the last one of `ds` is flagged last. -/
def fragmentOf (msgID : Nat) (m0 : TunnelMessageBlockEx) (ds : List I2NPMessage) (k : Nat) :
    FragmentInfo :=
  if k = 0 then firstFragment msgID m0
  else followOnFragment msgID k (decide (k = ds.length)) (ds.getD (k - 1) noData)

/-- Arrival orders of the `n` fragments of one message in which every fragment arrives either
as the next expected one or ahead of it while no other fragment of the message is waiting
out of sequence. `next` fragments have been joined so far and `slot` is the number of the
fragment that waits; at the end all `n` fragments must have been joined. -/
def arrivalOK (n : Nat) : Nat → Option Nat → List Nat → Bool
  | next, slot, [] => decide (next = n) && decide (slot = none)
  | next, slot, k :: rest =>
    if k = next then
      if slot = some (next + 1) then arrivalOK n (next + 2) none rest
      else arrivalOK n (next + 1) slot rest
    else if next < k ∧ k < n ∧ slot = none then arrivalOK n next (some k) rest
    else false

/-- What the tables of the endpoint `ep` hold for `msgID` when `next` fragments of the
message `m0`, `ds` have been joined and the fragment `slot` waits out of sequence. -/
structure ReasmInv (P : Params) (isInbound : Bool) (msgID : Nat) (m0 : TunnelMessageBlockEx)
    (ds : List I2NPMessage) (ep : TunnelEndpoint) (next : Nat) (slot : Option Nat) : Prop where
  inbound : ep.m_IsInbound = isInbound
  next_le : next ≤ ds.length + 1
  inc_none : next = 0 ∨ next = ds.length + 1 → StdMap.find ep.m_IncompleteMessages msgID = none
  inc_some : 0 < next → next ≤ ds.length →
    ∃ e, StdMap.find ep.m_IncompleteMessages msgID = some e ∧ e.nextFragmentNum = next ∧
      e.data.bytes = m0.data.bytes ++ joinBytes (ds.take (next - 1)) ∧
      e.data.offset ≤ max m0.data.offset P.NEW_MESSAGE_OFFSET ∧
      e.deliveryType = m0.deliveryType ∧ e.hash = m0.hash ∧ e.tunnelID = m0.tunnelID
  slot_none : slot = none → StdMap.find ep.m_OutOfSequenceFragments msgID = none
  slot_some : ∀ j, slot = some j → next < j ∧ j ≤ ds.length ∧
    StdMap.find ep.m_OutOfSequenceFragments msgID
      = some (Fragment.mk j (decide (j = ds.length)) (ds.getD (j - 1) noData))

/-- The effects are the single hand-over to `HandleNextMessage` of the whole message. -/
def IsWhole (isInbound : Bool) (ourHash : List Nat) (m0 : TunnelMessageBlockEx)
    (ds : List I2NPMessage) (effects : List Effect) : Prop :=
  ∃ blk : TunnelMessageBlockEx,
    effects = [HandleNextMessage isInbound ourHash blk] ∧
    blk.data.bytes = m0.data.bytes ++ joinBytes ds ∧
    blk.deliveryType = m0.deliveryType ∧ blk.hash = m0.hash ∧ blk.tunnelID = m0.tunnelID

/-! ## Tunnel build records (`I2NPProtocol.cpp`) -/

/-- Build record size (normative wire constant). -/
def TUNNEL_BUILD_RECORD_SIZE : Nat := 528
/-- Modelled from the spec: a build record is `toPeer(16) | encrypted(512)`; the header
declaring the offset is not part of the covered sources. -/
def BUILD_REQUEST_RECORD_TO_PEER_OFFSET : Nat := 0
/-- Modelled from the spec: a build record is `toPeer(16) | encrypted(512)`; the header
declaring the offset is not part of the covered sources. -/
def BUILD_REQUEST_RECORD_ENCRYPTED_OFFSET : Nat := 16
/-- Modelled from the spec: the 222-byte clear text starts with `receiveTunnelID(4)`. -/
def BUILD_REQUEST_RECORD_RECEIVE_TUNNEL_OFFSET : Nat := 0
/-- Modelled from the spec: `ourIdent(32)` follows `receiveTunnelID(4)`. -/
def BUILD_REQUEST_RECORD_OUR_IDENT_OFFSET : Nat := 4
/-- Modelled from the spec: `nextTunnelID(4)` follows `ourIdent(32)`. -/
def BUILD_REQUEST_RECORD_NEXT_TUNNEL_OFFSET : Nat := 36
/-- Modelled from the spec: `nextIdent(32)` follows `nextTunnelID(4)`. -/
def BUILD_REQUEST_RECORD_NEXT_IDENT_OFFSET : Nat := 40
/-- Modelled from the spec: `layerKey(32)` follows `nextIdent(32)`. -/
def BUILD_REQUEST_RECORD_LAYER_KEY_OFFSET : Nat := 72
/-- Modelled from the spec: `ivKey(32)` follows `layerKey(32)`. -/
def BUILD_REQUEST_RECORD_IV_KEY_OFFSET : Nat := 104
/-- Modelled from the spec: `replyKey(32)` follows `ivKey(32)`. -/
def BUILD_REQUEST_RECORD_REPLY_KEY_OFFSET : Nat := 136
/-- Modelled from the spec: `replyIV(16)` follows `replyKey(32)`. -/
def BUILD_REQUEST_RECORD_REPLY_IV_OFFSET : Nat := 168
/-- Modelled from the spec: `flag(1)` follows `replyIV(16)`. -/
def BUILD_REQUEST_RECORD_FLAG_OFFSET : Nat := 184
/-- Modelled from the spec: `requestTime(4)` follows `flag(1)`. -/
def BUILD_REQUEST_RECORD_REQUEST_TIME_OFFSET : Nat := 185
/-- Modelled from the spec: `sendMsgID(4)` follows `requestTime(4)`. -/
def BUILD_REQUEST_RECORD_SEND_MSG_ID_OFFSET : Nat := 189
/-- Clear text size of a build request record (normative wire constant). -/
def BUILD_REQUEST_RECORD_CLEAR_TEXT_SIZE : Nat := 222

/-- Arguments of `CreateTransitTunnel`. -/
structure TransitTunnel where
  receiveTunnelID : Nat
  nextIdent : List Nat
  nextTunnelID : Nat
  layerKey : List Nat
  ivKey : List Nat
  isGateway : Bool
  isEndpoint : Bool
deriving Repr, DecidableEq

/-- What `HandleBuildRequestRecords` reads from `i2p::context`, `i2p::tunnel::tunnels` and
`i2p::transport::transports`. -/
structure RouterState where
  identHash : List Nat
  encryptionPrivateKey : List Nat
  acceptsTunnels : Bool
  /-- Table `tunnels.GetTransitTunnels ()`; `AddTransitTunnel` appends. -/
  transitTunnels : List TransitTunnel
  isBandwidthExceeded : Bool
deriving Repr, DecidableEq

/-- Index of the first of the records `i, i + 1, ..` below `i + n` whose `toPeer` equals the
first 16 bytes of our identity hash: the scan of `HandleBuildRequestRecords`. -/
def findOurRecord (records ourHash : List Nat) : Nat → Nat → Option Nat
  | 0, _ => none
  | n + 1, i =>
    let record := records.drop (i * TUNNEL_BUILD_RECORD_SIZE)
    if (record.drop BUILD_REQUEST_RECORD_TO_PEER_OFFSET).take 16 = ourHash.take 16 then some i
    else findOurRecord records ourHash n (i + 1)

/-- The loop that encrypts the records `j, j + 1, ..` below `j + n` with the reply key. -/
def encryptReplies (C : Crypto) (key iv : List Nat) : Nat → Nat → List Nat → List Nat
  | 0, _, records => records
  | n + 1, j, records =>
    let reply := (records.drop (j * TUNNEL_BUILD_RECORD_SIZE)).take TUNNEL_BUILD_RECORD_SIZE
    encryptReplies C key iv n (j + 1)
      (writeAt records (j * TUNNEL_BUILD_RECORD_SIZE)
        ((C.aesEncrypt key iv reply).take TUNNEL_BUILD_RECORD_SIZE))

/-- Result of `HandleBuildRequestRecords`: the returned flag and what it has written. -/
structure BuildRequestResult where
  found : Bool
  records : List Nat
  clearText : List Nat
  router : RouterState
deriving Repr, DecidableEq

/-- The admission test of `HandleBuildRequestRecords`. -/
def acceptTransitTunnel (P : Params) (router : RouterState) : Bool :=
  router.acceptsTunnels &&
  decide (router.transitTunnels.length ≤ P.MAX_NUM_TRANSIT_TUNNELS) &&
  !router.isBandwidthExceeded

/-- The byte `HandleBuildRequestRecords` writes at `BUILD_RESPONSE_RECORD_RET_OFFSET`. -/
def buildResponseRet (P : Params) (router : RouterState) : Nat :=
  if acceptTransitTunnel P router then 0 else 30

/-- The transit tunnel `HandleBuildRequestRecords` creates from the clear text. -/
def transitTunnelOf (clearText : List Nat) : TransitTunnel :=
  let flag := clearText.getD BUILD_REQUEST_RECORD_FLAG_OFFSET 0
  { receiveTunnelID := bufbe32toh (clearText.drop BUILD_REQUEST_RECORD_RECEIVE_TUNNEL_OFFSET),
    nextIdent := (clearText.drop BUILD_REQUEST_RECORD_NEXT_IDENT_OFFSET).take 32,
    nextTunnelID := bufbe32toh (clearText.drop BUILD_REQUEST_RECORD_NEXT_TUNNEL_OFFSET),
    layerKey := (clearText.drop BUILD_REQUEST_RECORD_LAYER_KEY_OFFSET).take 32,
    ivKey := (clearText.drop BUILD_REQUEST_RECORD_IV_KEY_OFFSET).take 32,
    isGateway := flag &&& 0x80 ≠ 0,
    isEndpoint := flag &&& 0x40 ≠ 0 }

/-- The record at `recordPos` turned into the reply, before the reply encryption: the `ret`
byte, then the hash of the padding and `ret`. -/
def writeBuildResponse (P : Params) (C : Crypto) (records : List Nat) (recordPos ret : Nat) :
    List Nat :=
  let records1 := writeAt records (recordPos + P.BUILD_RESPONSE_RECORD_RET_OFFSET) [ret]
  let hash := C.sha256
    ((records1.drop (recordPos + P.BUILD_RESPONSE_RECORD_PADDING_OFFSET)).take
      (P.BUILD_RESPONSE_RECORD_PADDING_SIZE + 1))
  writeAt records1 (recordPos + P.BUILD_RESPONSE_RECORD_HASH_OFFSET) hash

/-- Function `HandleBuildRequestRecords (num, records, clearText)`. -/
def HandleBuildRequestRecords (P : Params) (C : Crypto) (router : RouterState) (num : Nat)
    (records clearText : List Nat) : BuildRequestResult :=
  match findOurRecord records router.identHash num 0 with
  | none => { found := false, records := records, clearText := clearText, router := router }
  | some i =>
    let recordPos := i * TUNNEL_BUILD_RECORD_SIZE
    let record := records.drop recordPos
    let clearText :=
      (C.elGamalDecrypt router.encryptionPrivateKey
        ((record.drop BUILD_REQUEST_RECORD_ENCRYPTED_OFFSET).take 512) false).getD clearText
    let router1 :=
      if acceptTransitTunnel P router then
        { router with transitTunnels := router.transitTunnels ++ [transitTunnelOf clearText] }
      else router
    let records2 := writeBuildResponse P C records recordPos (buildResponseRet P router)
    let key := (clearText.drop BUILD_REQUEST_RECORD_REPLY_KEY_OFFSET).take 32
    let iv := (clearText.drop BUILD_REQUEST_RECORD_REPLY_IV_OFFSET).take 16
    { found := true, records := encryptReplies C key iv num 0 records2, clearText := clearText,
      router := router1 }

/-- The record of index `j` of a build message: the 528 bytes at `records + j * 528`. -/
def recordAt (records : List Nat) (j : Nat) : List Nat :=
  (records.drop (j * TUNNEL_BUILD_RECORD_SIZE)).take TUNNEL_BUILD_RECORD_SIZE

/-- Whether the record of index `j` is addressed to the router with identity hash `ourHash`:
the test `!memcmp (record + BUILD_REQUEST_RECORD_TO_PEER_OFFSET, ourHash, 16)`. -/
def isOurRecord (records ourHash : List Nat) (j : Nat) : Prop :=
  ((records.drop (j * TUNNEL_BUILD_RECORD_SIZE)).drop BUILD_REQUEST_RECORD_TO_PEER_OFFSET).take 16
    = ourHash.take 16

/-! ## Tunnel configuration (`TunnelConfig.h`) -/

/-- What the core reads of a `RouterInfo`. -/
structure RouterInfo where
  identHash : List Nat
  encryptionPublicKey : List Nat
deriving Repr, DecidableEq

/-- Struct `TunnelHopConfig`. The hops of a `TunnelConfig` are kept in the order of their
allocation, and the pointers `next` and `prev` are positions in that order. -/
structure TunnelHopConfig where
  router : RouterInfo
  nextRouter : Option RouterInfo
  tunnelID : Nat
  nextTunnelID : Nat
  layerKey : List Nat
  ivKey : List Nat
  replyKey : List Nat
  replyIV : List Nat
  isGateway : Bool
  isEndpoint : Bool
  next : Option Nat
  prev : Option Nat
deriving Repr, DecidableEq

/-- Constructor `TunnelHopConfig (r)`: keys and tunnel ID from the random tape. The
constructor leaves `replyKey` as it finds it in memory; the bytes are zeros here. -/
def TunnelHopConfig.create (rnd : List Nat) (r : RouterInfo) : TunnelHopConfig × List Nat :=
  let layerKey := GenerateBlock rnd 32
  let ivKey := GenerateBlock layerKey.2 32
  let replyIV := GenerateBlock ivKey.2 16
  let tunnelID := GenerateWord32 replyIV.2
  ({ router := r, nextRouter := none, tunnelID := tunnelID.1, nextTunnelID := 0,
     layerKey := layerKey.1, ivKey := ivKey.1, replyKey := List.replicate 32 0,
     replyIV := replyIV.1, isGateway := true, isEndpoint := true, next := none, prev := none },
   tunnelID.2)

/-- Method `TunnelHopConfig::SetNextRouter (r)`. -/
def TunnelHopConfig.SetNextRouter (rnd : List Nat) (h : TunnelHopConfig) (r : RouterInfo) :
    TunnelHopConfig × List Nat :=
  ({ h with nextRouter := some r, isEndpoint := false, nextTunnelID := (GenerateWord32 rnd).1 },
   (GenerateWord32 rnd).2)

/-- Method `TunnelHopConfig::SetReplyHop (replyFirstHop)`. -/
def TunnelHopConfig.SetReplyHop (h replyFirstHop : TunnelHopConfig) : TunnelHopConfig :=
  { h with nextRouter := some replyFirstHop.router, nextTunnelID := replyFirstHop.tunnelID,
           isEndpoint := true }

/-- An assignment through a pointer to a hop: the hop at position `i` becomes `f` of it. -/
def updateHop (hops : List TunnelHopConfig) (i : Nat) (f : TunnelHopConfig → TunnelHopConfig) :
    List TunnelHopConfig :=
  match hops[i]? with
  | some h => hops.set i (f h)
  | none => hops

/-- Method `TunnelHopConfig::SetNext (n)` called on the hop at position `this` with the
non-null hop at position `n`. -/
def SetNext (hops : List TunnelHopConfig) (this n : Nat) : List TunnelHopConfig :=
  let hops1 := updateHop hops this (fun h => { h with next := some n })
  let hops2 := updateHop hops1 n (fun h => { h with prev := some this, isGateway := false })
  match hops2[n]? with
  | some nextHop =>
    updateHop hops2 this (fun h =>
      { h with isEndpoint := false, nextRouter := some nextHop.router,
               nextTunnelID := nextHop.tunnelID })
  | none => hops2

/-- Class `TunnelConfig`: the hops allocated, and the pointers to the first and the last one
(`none` while not set). -/
structure TunnelConfig where
  hops : List TunnelHopConfig
  m_FirstHop : Option Nat
  m_LastHop : Option Nat
deriving Repr, DecidableEq

/-- The loop of the constructor `TunnelConfig (peers, replyTunnelConfig)` over the peers; the
local `prev` is kept in `m_LastHop`, which the constructor sets to it after the loop. -/
def TunnelConfig.addHops : List RouterInfo → List Nat → TunnelConfig → TunnelConfig × List Nat
  | [], rnd, c => (c, rnd)
  | it :: rest, rnd, c =>
    let hop := TunnelHopConfig.create rnd it
    let id := c.hops.length
    let hops1 := c.hops ++ [hop.1]
    match c.m_LastHop with
    | some prev =>
      TunnelConfig.addHops rest hop.2
        (TunnelConfig.mk (SetNext hops1 prev id) c.m_FirstHop (some id))
    | none =>
      TunnelConfig.addHops rest hop.2 (TunnelConfig.mk hops1 (some id) (some id))

/-- Method `TunnelConfig::GetFirstHop ()`, as the hop pointed to. -/
def TunnelConfig.GetFirstHop (c : TunnelConfig) : Option TunnelHopConfig :=
  c.m_FirstHop.bind (fun i => c.hops[i]?)

/-- Method `TunnelConfig::GetLastHop ()`, as the hop pointed to. -/
def TunnelConfig.GetLastHop (c : TunnelConfig) : Option TunnelHopConfig :=
  c.m_LastHop.bind (fun i => c.hops[i]?)

/-- Constructor `TunnelConfig (peers, replyTunnelConfig)`; `sharedRouterInfo` is
`i2p::context.GetSharedRouterInfo ()`. The result is `none` when the source dereferences a
pointer that is not set (no peers, or a reply config without hops). -/
def TunnelConfig.create (rnd : List Nat) (sharedRouterInfo : RouterInfo)
    (peers : List RouterInfo) (replyTunnelConfig : Option TunnelConfig) :
    Option (TunnelConfig × List Nat) :=
  let c := TunnelConfig.addHops peers rnd (TunnelConfig.mk [] none none)
  match replyTunnelConfig with
  | some reply =>
    -- outbound
    match c.1.m_FirstHop, c.1.m_LastHop, reply.GetFirstHop with
    | some first, some last, some replyFirstHop =>
      let hops1 := updateHop c.1.hops first (fun h => { h with isGateway := false })
      let hops2 := updateHop hops1 last (fun h => h.SetReplyHop replyFirstHop)
      some (TunnelConfig.mk hops2 c.1.m_FirstHop c.1.m_LastHop, c.2)
    | _, _, _ => none
  | none =>
    -- inbound
    match c.1.m_LastHop with
    | some last =>
      match c.1.hops[last]? with
      | some h =>
        let r := h.SetNextRouter c.2 sharedRouterInfo
        some (TunnelConfig.mk (c.1.hops.set last r.1) c.1.m_FirstHop c.1.m_LastHop, r.2)
      | none => none
    | none => none

/-- Method `TunnelConfig::IsInbound ()`; `none` when the first hop is not set. -/
def TunnelConfig.IsInbound (c : TunnelConfig) : Option Bool :=
  c.GetFirstHop.map (fun h => h.isGateway)

/-- The chain that the loop of the constructor has built from the peers `done`: one hop per
peer in order, linked to its neighbours, the first one marked gateway and the last one
endpoint, each hop but the last one holding the router and the tunnel ID of its successor. -/
structure HopChain (done : List RouterInfo) (c : TunnelConfig) : Prop where
  length : c.hops.length = done.length
  first : c.m_FirstHop = if done.length = 0 then none else some 0
  last : c.m_LastHop = if done.length = 0 then none else some (done.length - 1)
  hop : ∀ j h, c.hops[j]? = some h →
    some h.router = done[j]? ∧
    h.isGateway = decide (j = 0) ∧
    h.isEndpoint = decide (j + 1 = done.length) ∧
    h.next = (if j + 1 < done.length then some (j + 1) else none) ∧
    h.prev = (if 0 < j then some (j - 1) else none) ∧
    (∀ n, c.hops[j + 1]? = some n → h.nextRouter = some n.router ∧ h.nextTunnelID = n.tunnelID)

/-! ## Garlic routing, confirmations (`Garlic.cpp`) -/

/-- Method `GarlicRoutingSession::TagsConfirmed (msgID)`. The batch holds `numTags` tags, which
the loop appends to the pool in their order. -/
def TagsConfirmed (P : Params) (now : Env) (s : GarlicRoutingSession) (msgID : Nat) :
    GarlicRoutingSession :=
  match StdMap.find s.m_UnconfirmedTagsMsgs msgID with
  | some tags =>
    let pool :=
      if now.ts < tags.tagsCreationTime + P.OUTGOING_TAGS_EXPIRATION_TIMEOUT then
        s.m_SessionTags ++ tags.sessionTags.take tags.numTags.toNat
      else s.m_SessionTags
    { s with m_SessionTags := pool,
             m_UnconfirmedTagsMsgs := StdMap.erase s.m_UnconfirmedTagsMsgs msgID }
  | none => s

/-- Method `GarlicDestination::RemoveCreatedSession (msgID)`. -/
def RemoveCreatedSession (dest : GarlicDestination) (msgID : Nat) : GarlicDestination :=
  { dest with m_CreatedSessions := StdMap.erase dest.m_CreatedSessions msgID }

/-- Method `GarlicRoutingSession::CleanupExpiredTags ()`; `owner` is `m_Owner`. Returns the
flag, the session and the owner. -/
def CleanupExpiredTags (P : Params) (now : Env) (s : GarlicRoutingSession)
    (owner : Option GarlicDestination) :
    Bool × GarlicRoutingSession × Option GarlicDestination :=
  let pool := s.m_SessionTags.filter
    (fun t => !decide (now.ts ≥ t.creationTime + P.OUTGOING_TAGS_EXPIRATION_TIMEOUT))
  -- delete expired unconfirmed tags
  let expired := s.m_UnconfirmedTagsMsgs.filter
    (fun e => decide (now.ts ≥ e.2.tagsCreationTime + P.OUTGOING_TAGS_EXPIRATION_TIMEOUT))
  let kept := s.m_UnconfirmedTagsMsgs.filter
    (fun e => !decide (now.ts ≥ e.2.tagsCreationTime + P.OUTGOING_TAGS_EXPIRATION_TIMEOUT))
  let owner1 := owner.map (fun o => expired.foldl (fun d e => RemoveCreatedSession d e.1) o)
  (!pool.isEmpty || kept.isEmpty,
   { s with m_SessionTags := pool, m_UnconfirmedTagsMsgs := kept }, owner1)

/-- Method `GarlicRoutingSession::MessageConfirmed (msgID)`; `owner` is `m_Owner`. -/
def MessageConfirmed (P : Params) (now : Env) (s : GarlicRoutingSession)
    (owner : Option GarlicDestination) (msgID : Nat) :
    GarlicRoutingSession × Option GarlicDestination :=
  let s1 := TagsConfirmed P now s msgID
  if msgID = s1.m_LeaseSetUpdateMsgID then
    ({ s1 with m_LeaseSetUpdateStatus := .eLeaseSetUpToDate }, owner)
  else
    let r := CleanupExpiredTags P now s1 owner
    (r.2.1, r.2.2)

/-- A `GarlicDestination` with the session objects that its maps point to, by identity. The
sessions registered in `m_CreatedSessions` are registered by themselves through `m_Owner`, so
their owner is this destination. -/
structure GarlicRegistry where
  dest : GarlicDestination
  sessions : StdMap Nat GarlicRoutingSession
deriving Repr, DecidableEq

/-- Method `GarlicDestination::HandleDeliveryStatusMessage (msg)`. The map holds shared
pointers, so the session of an entry exists; an entry without session object is only
erased. -/
def HandleDeliveryStatusMessage (P : Params) (now : Env) (w : GarlicRegistry)
    (msg : I2NPMessage) : GarlicRegistry :=
  let msgID := bufbe32toh msg.GetPayload
  match StdMap.find w.dest.m_CreatedSessions msgID with
  | some id =>
    match StdMap.find w.sessions id with
    | some s =>
      let r := MessageConfirmed P now s (some w.dest) msgID
      let dest1 := r.2.getD w.dest
      GarlicRegistry.mk (RemoveCreatedSession dest1 msgID) (StdMap.assign w.sessions id r.1)
    | none => GarlicRegistry.mk (RemoveCreatedSession w.dest msgID) w.sessions
  | none => w

/-! ## Garlic routing, the registry of sessions (`Garlic.cpp`) -/

/-- Constructor `GarlicRoutingSession (owner, destination, numTags, attachLeaseSet)`: the
session key is drawn from the random tape and the pool is empty; `id` is the identity of the
new object. The owner is passed along with the session. -/
def GarlicRoutingSession.create (rnd : List Nat) (id : Nat) (destination : RoutingDestination)
    (numTags : Int) (attachLeaseSet : Bool) : GarlicRoutingSession × List Nat :=
  ({ id := id, m_Destination := some destination,
     m_SessionKey := (GenerateBlock rnd 32).1, m_SessionTags := [], m_NumTags := numTags,
     m_LeaseSetUpdateStatus :=
       if attachLeaseSet then .eLeaseSetUpdated else .eLeaseSetDoNotSend },
   (GenerateBlock rnd 32).2)

/-- Method `GarlicDestination::GetRoutingSession (destination, attachLeaseSet)`; `addr` is
the identity that `make_shared` gives to a new session. Returns the session, as its identity,
the registry and the rest of the random tape. -/
def GetRoutingSession (rnd : List Nat) (w : GarlicRegistry) (addr : Nat)
    (destination : RoutingDestination) (attachLeaseSet : Bool) :
    Nat × GarlicRegistry × List Nat :=
  match StdMap.find w.dest.m_Sessions (fixed 32 destination.identHash) with
  | some id => (id, w, rnd)
  | none =>
    -- 40 tags for connections and 4 for LS requests
    let session := GarlicRoutingSession.create rnd addr destination
      (if attachLeaseSet then 40 else 4) attachLeaseSet
    let sessions := StdMap.assign w.dest.m_Sessions (fixed 32 destination.identHash) addr
    let dest1 : GarlicDestination := { w.dest with m_Sessions := sessions }
    (addr, GarlicRegistry.mk dest1 (StdMap.assign w.sessions addr session.1), session.2)

/-- The loop of `CleanupRoutingSessions` over the entries of `m_Sessions`: each session
sweeps its tags, with this destination as its owner, and the entry of a session that reports
false is erased. -/
def cleanupSessions (P : Params) (now : Env) :
    List (List Nat × Nat) → GarlicRegistry → GarlicRegistry
  | [], w => w
  | (hash, id) :: rest, w =>
    match StdMap.find w.sessions id with
    | none => cleanupSessions P now rest w
    | some s =>
      let r := CleanupExpiredTags P now s (some w.dest)
      let dest1 := r.2.2.getD w.dest
      let dest2 : GarlicDestination :=
        if r.1 then dest1
        else { dest1 with m_Sessions := StdMap.erase dest1.m_Sessions hash }
      cleanupSessions P now rest (GarlicRegistry.mk dest2 (StdMap.assign w.sessions id r.2.1))

/-- Method `GarlicDestination::CleanupRoutingSessions ()`. -/
def CleanupRoutingSessions (P : Params) (now : Env) (w : GarlicRegistry) : GarlicRegistry :=
  cleanupSessions P now w.dest.m_Sessions w

/-- The test of `CreateAESBlock` for a new batch of tags,
`m_Owner && m_NumTags && size <= m_NumTags*2/3`. -/
def createNewTags (s : GarlicRoutingSession) (owner : Option GarlicDestination) : Bool :=
  owner.isSome && decide (s.m_NumTags ≠ 0) &&
    decide ((s.m_SessionTags.length : Int) ≤ Int.tdiv (s.m_NumTags * 2) 3)

/-- The batch of `CreateAESBlock`, `createNewTags ? GenerateSessionTags () : nullptr`. -/
def newTagsOf (now : Env) (rnd : List Nat) (s : GarlicRoutingSession)
    (owner : Option GarlicDestination) : Option UnconfirmedTags :=
  if createNewTags s owner then some (GenerateSessionTags now rnd s).1 else none

/-- The random tape of `CreateAESBlock` behind the generation of the batch. -/
def newTagsRnd (now : Env) (rnd : List Nat) (s : GarlicRoutingSession)
    (owner : Option GarlicDestination) : List Nat :=
  if createNewTags s owner then (GenerateSessionTags now rnd s).2 else rnd

/-! ## I2NP envelope, TunnelGateway (`I2NPProtocol.cpp`) -/

/-- Allocation `NewI2NPMessage (len)`: a short message for a small length. -/
def NewI2NPMessageLen (P : Params) (len : Nat) : I2NPMessage :=
  if len < P.I2NP_MAX_SHORT_MESSAGE_SIZE / 2 then NewI2NPShortMessage P else NewI2NPMessage P

/-- Function `CreateTunnelGatewayMsg (tunnelID, buf, len)`, which copies the `len` bytes at
`buf`; `eI2NPTunnelGateway` is the type code, declared in a header that is not part of the
covered sources. -/
def CreateTunnelGatewayMsgBuf (P : Params) (sha256 : List Nat → List Nat) (now : Env)
    (rnd : List Nat) (eI2NPTunnelGateway : Nat) (tunnelID : Nat) (buf : List Nat) (len : Nat) :
    I2NPMessage × List Nat :=
  let msg := NewI2NPMessageLen P len
  let payload := htobe32buf tunnelID ++ htobe16buf len ++ fixed len buf
  FillI2NPMessageHeader sha256 now rnd (msg.concat payload) eI2NPTunnelGateway 0

/-- Function `CreateTunnelGatewayMsg (tunnelID, msg)`. With room in front of the message the
gateway header is written in the 6 bytes before it and `offset` moves back over it and over
the I2NP header, which `FillI2NPMessageHeader` then writes; the 16 bytes found there before
are zeros here. -/
def CreateTunnelGatewayMsg (P : Params) (sha256 : List Nat → List Nat) (now : Env)
    (rnd : List Nat) (eI2NPTunnelGateway : Nat) (tunnelID : Nat) (msg : I2NPMessage) :
    I2NPMessage × List Nat :=
  if msg.offset ≥ I2NP_HEADER_SIZE + TUNNEL_GATEWAY_HEADER_SIZE then
    -- message is capable to be used without copying
    let len := msg.GetLength
    let gateway := htobe32buf tunnelID ++ htobe16buf len
    let m1 : I2NPMessage :=
      { msg with offset := msg.offset - (I2NP_HEADER_SIZE + TUNNEL_GATEWAY_HEADER_SIZE),
                 bytes := List.replicate I2NP_HEADER_SIZE 0 ++ gateway ++ msg.bytes }
    FillI2NPMessageHeader sha256 now rnd m1 eI2NPTunnelGateway 0
  else
    CreateTunnelGatewayMsgBuf P sha256 now rnd eI2NPTunnelGateway tunnelID msg.GetBuffer
      msg.GetLength

/-! ## Tags and identity hashes (`Identity.h`) -/

/-- Library function `memcmp (a, b, n)`: the difference of the first pair of bytes that
differ among the first `n`, and 0 when there is none. -/
def memcmp : List Nat → List Nat → Nat → Int
  | _, _, 0 => 0
  | a, b, n + 1 =>
    if a.getD 0 0 = b.getD 0 0 then memcmp (a.drop 1) (b.drop 1) n
    else (a.getD 0 0 : Int) - (b.getD 0 0 : Int)

/-- Class `Tag<32>`, of which `IdentHash` is the name for identity hashes: the buffer
`m_Buf` of 32 bytes. -/
structure Tag where
  m_Buf : List Nat
deriving Repr, DecidableEq

namespace Tag

/-- Size `SZ` of the tag. -/
def SZ : Nat := 32

/-- Byte `m_Buf[i]`. -/
def byte (t : Tag) (i : Nat) : Nat := t.m_Buf.getD i 0

/-- Word `ll[i]` of the union over `m_Buf`: the 8 bytes from `8 * i`, the first one the least
significant. -/
def ll (t : Tag) (i : Nat) : Nat :=
  t.byte (8 * i) + 256 * t.byte (8 * i + 1) + 256 ^ 2 * t.byte (8 * i + 2)
    + 256 ^ 3 * t.byte (8 * i + 3) + 256 ^ 4 * t.byte (8 * i + 4)
    + 256 ^ 5 * t.byte (8 * i + 5) + 256 ^ 6 * t.byte (8 * i + 6)
    + 256 ^ 7 * t.byte (8 * i + 7)

/-- Method `operator==`. -/
def operatorEq (t other : Tag) : Bool := memcmp t.m_Buf other.m_Buf SZ == 0

/-- Method `operator<`. -/
def operatorLt (t other : Tag) : Bool := decide (memcmp t.m_Buf other.m_Buf SZ < 0)

/-- Method `IsZero ()`: the loop over the words `ll[i]`, which returns false at the first one
that is not 0. -/
def IsZero (t : Tag) : Bool :=
  (List.range (SZ / 8)).all (fun i => t.ll i == 0)

end Tag

/-! ## Build request record of a hop (`TunnelConfig.h`) -/

/-- Method `TunnelHopConfig::CreateBuildRequestRecord (record, replyMsgID)`: the buffer at
`record` after the call; `hours` is `i2p::util::GetHoursSinceEpoch ()`. The result is `none`
when the source dereferences a `nextRouter` that is not set. -/
def TunnelHopConfig.CreateBuildRequestRecord (C : Crypto) (hours : Nat) (h : TunnelHopConfig)
    (record : List Nat) (replyMsgID : Nat) : Option (List Nat) :=
  match h.nextRouter with
  | none => none
  | some nextRouter =>
    let clearText := List.replicate BUILD_REQUEST_RECORD_CLEAR_TEXT_SIZE 0
    let clearText := writeAt clearText BUILD_REQUEST_RECORD_RECEIVE_TUNNEL_OFFSET
      (htobe32buf h.tunnelID)
    let clearText := writeAt clearText BUILD_REQUEST_RECORD_OUR_IDENT_OFFSET
      (fixed 32 h.router.identHash)
    let clearText := writeAt clearText BUILD_REQUEST_RECORD_NEXT_TUNNEL_OFFSET
      (htobe32buf h.nextTunnelID)
    let clearText := writeAt clearText BUILD_REQUEST_RECORD_NEXT_IDENT_OFFSET
      (fixed 32 nextRouter.identHash)
    let clearText := writeAt clearText BUILD_REQUEST_RECORD_LAYER_KEY_OFFSET
      (fixed 32 h.layerKey)
    let clearText := writeAt clearText BUILD_REQUEST_RECORD_IV_KEY_OFFSET (fixed 32 h.ivKey)
    let clearText := writeAt clearText BUILD_REQUEST_RECORD_REPLY_KEY_OFFSET
      (fixed 32 h.replyKey)
    let clearText := writeAt clearText BUILD_REQUEST_RECORD_REPLY_IV_OFFSET
      (fixed 16 h.replyIV)
    let flag := 0
    let flag := if h.isGateway then flag ||| 0x80 else flag
    let flag := if h.isEndpoint then flag ||| 0x40 else flag
    let clearText := writeAt clearText BUILD_REQUEST_RECORD_FLAG_OFFSET [flag]
    let clearText := writeAt clearText BUILD_REQUEST_RECORD_REQUEST_TIME_OFFSET
      (htobe32buf hours)
    let clearText := writeAt clearText BUILD_REQUEST_RECORD_SEND_MSG_ID_OFFSET
      (htobe32buf replyMsgID)
    let record := writeAt record BUILD_REQUEST_RECORD_ENCRYPTED_OFFSET
      (fixed 512 (C.elGamalEncrypt h.router.encryptionPublicKey clearText false))
    some (writeAt record BUILD_REQUEST_RECORD_TO_PEER_OFFSET (fixed 16 h.router.identHash))

/-! ## Walks over the hops of a tunnel config (`TunnelConfig.h`) -/

/-- The loop `while (hop) { num++; hop = hop->next; }` of `GetNumHops`, from the hop at
`hop` with `num` counted so far. Every turn uses one unit of `fuel`; `none` when the fuel runs
out before the null pointer is reached, or when a pointer leads to no hop. -/
def TunnelConfig.numHopsFrom (c : TunnelConfig) : Nat → Option Nat → Nat → Option Nat
  | _, none, num => some num
  | 0, some _, _ => none
  | fuel + 1, some i, num =>
    match c.hops[i]? with
    | some hop => TunnelConfig.numHopsFrom c fuel hop.next (num + 1)
    | none => none

/-- Method `TunnelConfig::GetNumHops ()`. -/
def TunnelConfig.GetNumHops (fuel : Nat) (c : TunnelConfig) : Option Nat :=
  c.numHopsFrom fuel c.m_FirstHop 0

/-- The loop `while (hop) { peers.push_back (hop->router); hop = hop->next; }` of `GetPeers`,
from the hop at `hop` with `peers` collected so far; `fuel` as in `numHopsFrom`. -/
def TunnelConfig.peersFrom (c : TunnelConfig) :
    Nat → Option Nat → List RouterInfo → Option (List RouterInfo)
  | _, none, peers => some peers
  | 0, some _, _ => none
  | fuel + 1, some i, peers =>
    match c.hops[i]? with
    | some hop => TunnelConfig.peersFrom c fuel hop.next (peers ++ [hop.router])
    | none => none

/-- Method `TunnelConfig::GetPeers ()`. -/
def TunnelConfig.GetPeers (fuel : Nat) (c : TunnelConfig) : Option (List RouterInfo) :=
  c.peersFrom fuel c.m_FirstHop []

/-- Method `TunnelConfig::Invert ()`: the config of the reversed peers, with this config as
reply config when this one is inbound. -/
def TunnelConfig.Invert (fuel : Nat) (rnd : List Nat) (sharedRouterInfo : RouterInfo)
    (c : TunnelConfig) : Option (TunnelConfig × List Nat) :=
  match c.GetPeers fuel, c.IsInbound with
  | some peers, some inbound =>
    let peers := peers.reverse
    -- we use ourself as reply tunnel for outbound tunnel
    if inbound then TunnelConfig.create rnd sharedRouterInfo peers (some c)
    else TunnelConfig.create rnd sharedRouterInfo peers none
  | _, _ => none

/-- Method `TunnelConfig::Clone (replyTunnelConfig)`. -/
def TunnelConfig.Clone (fuel : Nat) (rnd : List Nat) (sharedRouterInfo : RouterInfo)
    (c : TunnelConfig) (replyTunnelConfig : Option TunnelConfig) :
    Option (TunnelConfig × List Nat) :=
  match c.GetPeers fuel with
  | some peers => TunnelConfig.create rnd sharedRouterInfo peers replyTunnelConfig
  | none => none

/-! ## Layout of a clove, for the statements on garlic payloads -/

/-- A clove as `CreateGarlicClove` and `CreateDeliveryStatusClove` lay it out: the flag with
the delivery instructions, the I2NP message, then CloveID, expiration and certificate. -/
structure Clove where
  instructions : List Nat
  msg : List Nat
  trailer : List Nat
deriving Repr, DecidableEq

/-- The bytes of a clove. -/
def Clove.bytes (c : Clove) : List Nat :=
  c.instructions ++ c.msg ++ c.trailer

/-- What the loop of `HandleGarlicPayload` does with a clove of this layout: a clove with the
flag of delivery type Tunnel goes to an outbound tunnel, a Local or Destination clove is
handled here. -/
def Clove.action (P : Params) (len : Nat) (sender : Option InboundTunnel) (c : Clove) :
    CloveAction :=
  if c.instructions.getD 0 0 = 96 then
    let tunnel : Option Nat :=
      match sender with
      | some t => if t.hasPool then t.nextOutboundTunnel else none
      | none => none
    match tunnel with
    | some _ =>
      .sendTunnelDataMsg (fixed 32 (c.instructions.drop 1)) (bufbe32toh (c.instructions.drop 33))
        (CreateI2NPMessage P c.msg c.msg.length sender)
    | none =>
      .noOutboundTunnel (fixed 32 (c.instructions.drop 1)) (bufbe32toh (c.instructions.drop 33))
        c.msg
  else .handleI2NPMessage c.msg len sender

/-- A clove the parser reads back: the trailer has its 15 bytes, the header of the message
gives its length, and the instructions are those of delivery type Local, Destination or
Tunnel. -/
structure Clove.WellFormed (c : Clove) : Prop where
  trailer : c.trailer.length = 15
  msg : GetI2NPMessageLength c.msg = c.msg.length
  instructions : c.instructions = [0] ∨
    (c.instructions.length = 33 ∧ c.instructions.getD 0 0 = 32) ∨
    (c.instructions.length = 37 ∧ c.instructions.getD 0 0 = 96)

/-- A clove as the builders lay it out: as `Clove.WellFormed`, but the header of the message
gives its length only when the 16 bits of the size field can hold it. -/
structure Clove.Laid (c : Clove) : Prop where
  trailer : c.trailer.length = 15
  msg : c.msg.length < 65552 → GetI2NPMessageLength c.msg = c.msg.length
  instructions : c.instructions = [0] ∨
    (c.instructions.length = 33 ∧ c.instructions.getD 0 0 = 32) ∨
    (c.instructions.length = 37 ∧ c.instructions.getD 0 0 = 96)

/-- A message whose header gives its length, as far as the 16 bits of the size field can
hold it. -/
def HeaderAgrees (msg : List Nat) : Prop :=
  msg.length < 65552 → GetI2NPMessageLength msg = msg.length

/-- The cloves that `CreateGarlicPayload` lays out for the message `m`: at most one
DeliveryStatus clove `ds`, of delivery type Tunnel, at most one LeaseSet clove `ls`, a local
DatabaseStore message, and the clove `cm` of the message itself. -/
structure PayloadLayout (P : Params) (m : List Nat) (ds ls : List Clove) (cm : Clove) :
    Prop where
  ds_length : ds.length ≤ 1
  ds_laid : ∀ c ∈ ds, c.Laid ∧ c.instructions.getD 0 0 = 96
  ls_length : ls.length ≤ 1
  ls_laid : ∀ c ∈ ls, c.Laid ∧ c.instructions = [0] ∧
    c.msg.getD 0 0 = P.eI2NPDatabaseStore % 256
  cm_msg : cm.msg = m
  cm_trailer : cm.trailer.length = 15
  cm_instructions : cm.instructions = [0] ∨
    (cm.instructions.length = 33 ∧ cm.instructions.getD 0 0 = 32)

/-- Whether the clove was of delivery type Tunnel. -/
def CloveAction.isTunnel : CloveAction → Bool
  | .sendTunnelDataMsg _ _ _ => true
  | .noOutboundTunnel _ _ _ => true
  | _ => false

/-- The bytes of a sequence of cloves. -/
def cloveBytes (cs : List Clove) : List Nat :=
  (cs.map Clove.bytes).flatten

/-! ## Examples used by the statements below -/

/-- Values of the header constants used in the examples. -/
def exampleParams : Params :=
  { I2NP_MAX_MESSAGE_SIZE := 32768, I2NP_MAX_SHORT_MESSAGE_SIZE := 4096,
    NEW_MESSAGE_OFFSET := 2, MAX_NUM_TRANSIT_TUNNELS := 2500,
    OUTGOING_TAGS_EXPIRATION_TIMEOUT := 960, INCOMING_TAGS_EXPIRATION_TIMEOUT := 960,
    LEASET_CONFIRMATION_TIMEOUT := 4000,
    BUILD_RESPONSE_RECORD_HASH_OFFSET := 0, BUILD_RESPONSE_RECORD_PADDING_OFFSET := 32,
    BUILD_RESPONSE_RECORD_PADDING_SIZE := 495, BUILD_RESPONSE_RECORD_RET_OFFSET := 527,
    eI2NPDatabaseStore := 1, eI2NPDeliveryStatus := 10, eI2NPGarlic := 11 }

/-- A stand-in digest for the examples: 32 bytes, each the sum of the input modulo 256. -/
def exampleSha256 (l : List Nat) : List Nat :=
  List.replicate 32 (l.sum % 256)

/-- Stand-in primitives for the examples: the ciphers leave the bytes as they are, and the
ElGamal decryption returns the 222 bytes of the plain block. -/
def exampleCrypto : Crypto :=
  { sha256 := exampleSha256,
    aesEncrypt := fun _ _ data => data,
    aesDecrypt := fun _ _ data => data,
    elGamalEncrypt := fun _ data _ => data,
    elGamalDecrypt := fun _ data _ => some (data.take 222) }

/-- A router at the cap: it accepts tunnels, bandwidth is not exceeded and the transit table
holds `MAX_NUM_TRANSIT_TUNNELS` tunnels. -/
def exampleRouterAtCap : RouterState :=
  { identHash := List.replicate 32 1, encryptionPrivateKey := [], acceptsTunnels := true,
    transitTunnels := List.replicate 2500 (transitTunnelOf []),
    isBandwidthExceeded := false }

/-- A build message of one record addressed to `exampleRouterAtCap`. -/
def exampleBuildRecords : List Nat :=
  List.replicate 528 1

/-- An I2NP message holding `n` bytes `b`, at offset 2 of a short buffer. -/
def exampleData (n b : Nat) : I2NPMessage :=
  { offset := 2, maxLen := 4096, bytes := List.replicate n b }

/-- An inbound endpoint with empty tables. -/
def exampleEndpoint : TunnelEndpoint :=
  { m_IsInbound := true }

/-- A block with local delivery holding `n` bytes `b`. -/
def exampleBlock (n b : Nat) : TunnelMessageBlockEx :=
  { data := exampleData n b }

/-- A TunnelData message whose decrypted region is the checksum, the zero byte and one
unfragmented local message of 1000 bytes; the checksum is the one of `exampleSha256`. -/
def exampleTunnelData : I2NPMessage :=
  { offset := 2, maxLen := 4096,
    bytes := [0, 0, 0, 0, 0, 0, 0, 0, 0, 0, 0, 0, 0, 0, 0, 0,
      0, 0, 0, 0, 0, 0, 0, 0, 0, 0, 0, 0, 0, 0, 0, 0, 0, 0, 0, 0,
      115, 115, 115, 115, 0, 0, 3, 232] ++ List.replicate 1000 5 }

/-- Header constants scaled down, for the examples that reach the maximum message size:
`I2NP_MAX_MESSAGE_SIZE` is 64 and `I2NP_MAX_SHORT_MESSAGE_SIZE` is 32. -/
def smallParams : Params :=
  { exampleParams with I2NP_MAX_MESSAGE_SIZE := 64, I2NP_MAX_SHORT_MESSAGE_SIZE := 32 }

/-- An endpoint in the middle of a message: the fragments 0 and 1 of msgID 7 are joined (40
bytes) and fragment 3 (20 bytes) waits out of sequence. -/
def exampleEndpointNearMax : TunnelEndpoint :=
  { m_IsInbound := true,
    m_IncompleteMessages := [(7, { data := exampleData 40 1, nextFragmentNum := 2 })],
    m_OutOfSequenceFragments :=
      [(7, { fragmentNum := 3, isLastFragment := false, data := exampleData 20 3 })] }

/-- The clock of the garlic examples. -/
def exampleNow : Env :=
  { ts := 2000, tms := 2000000 }

/-- A session tag of 32 bytes `b` created at `ct`. -/
def exampleTag (b ct : Nat) : SessionTag :=
  { tag := List.replicate 32 b, creationTime := ct }

/-- A session to a destination with three tags in its pool; at `exampleNow` the first tag is
expired and the others are not. -/
def exampleSession : GarlicRoutingSession :=
  { m_Destination := some { identHash := List.replicate 32 9,
                            encryptionPublicKey := List.replicate 256 3,
                            isDestination := true },
    m_SessionKey := List.replicate 32 4,
    m_SessionTags := [exampleTag 1 1000, exampleTag 2 1500, exampleTag 3 1600],
    m_NumTags := 3, m_LeaseSetUpdateStatus := .eLeaseSetDoNotSend }

/-- A one-shot session `GarlicRoutingSession (sessionKey, sessionTag)` made at second 1000:
no destination, one tag, which is expired at `exampleNow`. -/
def exampleOneShotSession : GarlicRoutingSession :=
  GarlicRoutingSession.ofKeyTag { ts := 1000, tms := 1000000 }
    (List.replicate 32 4) (List.replicate 32 1)

/-- A destination whose inbound tag table holds the tag of 32 bytes 1, created at second
1500, for the key of `exampleSession`. -/
def exampleDestination : GarlicDestination :=
  { m_Tags := [(List.replicate 32 1, { creationTime := 1500, key := List.replicate 32 4 })],
    m_LastTagsCleanupTime := 1900 }

/-- A garlic message with the tag of 32 bytes 1, whose AES block (identity cipher) announces
that same tag again, followed by an empty payload with its digest and padding. -/
def exampleTaggedGarlic : I2NPMessage :=
  { offset := 2, maxLen := 4096,
    bytes := List.replicate 16 0 ++ [0, 0, 0, 112] ++ List.replicate 32 1
      ++ [0, 1] ++ List.replicate 32 1 ++ [0, 0, 0, 0] ++ List.replicate 32 0 ++ [0]
      ++ List.replicate 9 0 }

/-- An I2NP message with a payload of four bytes, whose header gives the size 4. -/
def exampleInner : I2NPMessage :=
  { offset := 2, maxLen := 4096,
    bytes := [20, 0, 0, 0, 1, 0, 0, 0, 0, 0, 0, 0, 0, 0, 4, 0] ++ [7, 7, 7, 7] }

/-- A peer of `exampleSession`: its inbound tag table holds the second tag of the session
with the session key. -/
def examplePeer : GarlicDestination :=
  { m_Tags := [(List.replicate 32 2, { creationTime := 1500, key := List.replicate 32 4 })],
    m_LastTagsCleanupTime := 1900 }

/-- What `WrapSingleMessage` returns for `exampleInner` on `exampleSession` at `exampleNow`,
with the stand-in primitives and no owner. -/
def exampleWrapResult : WrapResult :=
  match WrapSingleMessage exampleParams exampleCrypto exampleNow [] exampleSession none
      (some exampleInner) with
  | some r => r
  | none => { msg := none, session := exampleSession, owner := none, rnd := [] }

/-- The garlic message of `exampleWrapResult`. -/
def exampleGarlic : I2NPMessage :=
  match exampleWrapResult.msg with
  | some g => g
  | none => exampleInner

/-- An owner with a lease-set and an inbound tunnel. -/
def exampleOwner : GarlicDestination :=
  { leaseSet := some { identHash := List.replicate 32 8, buffer := [1, 2, 3],
                       nonExpiredLeases := [] },
    nextInboundTunnel := some { nextIdentHash := List.replicate 32 6, nextTunnelID := 77,
                                hasPool := true, nextOutboundTunnel := some 5 } }

/-- Modelled from the spec: the layout `response(528) = padding(495) | hash(32) | ret(1)` of
the build response record; the other constants as in `exampleParams`. -/
def specLayoutParams : Params :=
  { exampleParams with
    BUILD_RESPONSE_RECORD_PADDING_OFFSET := 0, BUILD_RESPONSE_RECORD_PADDING_SIZE := 495,
    BUILD_RESPONSE_RECORD_HASH_OFFSET := 495, BUILD_RESPONSE_RECORD_RET_OFFSET := 527 }

/-- A router that accepts no tunnels, with the identity hash of 32 bytes 1. -/
def exampleRouterClosed : RouterState :=
  { identHash := List.replicate 32 1, encryptionPrivateKey := [], acceptsTunnels := false,
    transitTunnels := [], isBandwidthExceeded := false }

/-- A router that accepts no tunnels, with the identity hash of 32 bytes 2. -/
def exampleOtherRouter : RouterState :=
  { identHash := List.replicate 32 2, encryptionPrivateKey := [], acceptsTunnels := false,
    transitTunnels := [], isBandwidthExceeded := false }

/-- A router info with identity hash and key of bytes `b`. -/
def exampleRouterInfo (b : Nat) : RouterInfo :=
  { identHash := List.replicate 32 b, encryptionPublicKey := List.replicate 256 b }

/-- An inbound tunnel config of one hop, used as reply config: its first hop. -/
def exampleReplyHop : TunnelHopConfig :=
  { router := exampleRouterInfo 7, nextRouter := some (exampleRouterInfo 0), tunnelID := 700,
    nextTunnelID := 701, layerKey := [], ivKey := [], replyKey := [], replyIV := [],
    isGateway := true, isEndpoint := false, next := none, prev := none }

/-- An inbound tunnel config of one hop, used as reply config. -/
def exampleReplyConfig : TunnelConfig :=
  { hops := [exampleReplyHop], m_FirstHop := some 0, m_LastHop := some 0 }

/-- A session in state Updated whose last lease-set submission had the msgID 5. -/
def exampleUpdatedSession : GarlicRoutingSession :=
  { exampleSession with m_LeaseSetUpdateStatus := .eLeaseSetUpdated, m_LeaseSetUpdateMsgID := 5 }

/-- A batch of two tags made at second 1900, waiting for the confirmation of message 5. -/
def exampleBatch : UnconfirmedTags :=
  { numTags := 2, sessionTags := [exampleTag 7 1900, exampleTag 8 1900],
    tagsCreationTime := 1900 }

/-- A session that submitted its lease-set and a batch of tags in message 5. -/
def exampleSubmittedSession : GarlicRoutingSession :=
  { exampleSession with m_UnconfirmedTagsMsgs := [(5, exampleBatch)],
                        m_LeaseSetUpdateStatus := .eLeaseSetSubmitted,
                        m_LeaseSetUpdateMsgID := 5, m_LeaseSetSubmissionTime := 1999000 }

/-- A destination with the session above waiting for the confirmation of message 5. -/
def exampleRegistry : GarlicRegistry :=
  { dest := { exampleOwner with m_CreatedSessions := [(5, 0)] },
    sessions := [(0, exampleSubmittedSession)] }

/-- The DeliveryStatus message for msgID 5. -/
def exampleAck : I2NPMessage :=
  (CreateDeliveryStatusMsg exampleParams exampleSha256 exampleNow [] 5).1

/-! ## Layout of a garlic payload, for the statements on the lease-set -/

/-- The payload of a garlic message as `CreateGarlicPayload` lays it out: the number of
cloves, the cloves, the certificate of three zero bytes, the msgID and the expiration. -/
def garlicPayloadOf (cloves : List Clove) (msgID expiration : Nat) : List Nat :=
  [cloves.length % 256] ++ cloveBytes cloves ++ [0, 0, 0] ++ htobe32buf msgID
    ++ htobe64buf expiration

/-- The garlic message `g` holds, after its length and its front bytes (the ElGamal block or
the tag), the AES encryption under `key` of a block in which `payload` stands behind the
tags, its size, its hash and the flag, and before the padding. -/
def CarriesPayload (C : Crypto) (key : List Nat) (g : I2NPMessage) (payload : List Nat) :
    Prop :=
  ∃ front iv tagsPart pad : List Nat,
    g.GetPayload
      = htobe32buf (front.length + (tagsPart ++ htobe32buf payload.length
          ++ fixed 32 (C.sha256 payload) ++ [0] ++ payload ++ pad).length)
        ++ front
        ++ fixed (tagsPart ++ htobe32buf payload.length
            ++ fixed 32 (C.sha256 payload) ++ [0] ++ payload ++ pad).length
          (C.aesEncrypt key iv (tagsPart ++ htobe32buf payload.length
            ++ fixed 32 (C.sha256 payload) ++ [0] ++ payload ++ pad))

/-- A session whose lease-set, submitted ten seconds ago, has not been confirmed. -/
def exampleLateSession : GarlicRoutingSession :=
  { exampleSession with m_LeaseSetUpdateStatus := .eLeaseSetSubmitted,
                        m_LeaseSetUpdateMsgID := 5, m_LeaseSetSubmissionTime := 1990000 }

/-- A session without tags in the pool whose batch of message 5 is not confirmed yet. -/
def examplePendingSession : GarlicRoutingSession :=
  { exampleSession with id := 1, m_SessionTags := [],
                        m_UnconfirmedTagsMsgs := [(5, exampleBatch)] }

/-- A session without tags in the pool and without pending batches. -/
def exampleIdleSession : GarlicRoutingSession :=
  { exampleSession with id := 2, m_SessionTags := [] }

/-- A destination with the two sessions above. -/
def exampleSessionsRegistry : GarlicRegistry :=
  { dest := { exampleOwner with m_Sessions := [(List.replicate 32 9, 1),
                                               (List.replicate 32 10, 2)],
                                m_CreatedSessions := [(5, 1)] },
    sessions := [(1, examplePendingSession), (2, exampleIdleSession)] }

/-- A session with an expired tag in the pool, an expired batch under msgID 4 and a batch
under msgID 5 that is not expired. -/
def exampleAgedSession : GarlicRoutingSession :=
  { exampleSession with
    m_UnconfirmedTagsMsgs := [(4, { exampleBatch with tagsCreationTime := 1000 }),
                              (5, exampleBatch)] }

/-- An owner that waits for the confirmations of the messages 4 and 5. -/
def exampleWaitingOwner : GarlicDestination :=
  { exampleOwner with m_CreatedSessions := [(4, 0), (5, 0)] }

/-- A destination that has no session yet. -/
def exampleEmptyRegistry : GarlicRegistry :=
  { dest := exampleOwner, sessions := [] }

/-- The destination of the example sessions. -/
def exampleRoutingDestination : RoutingDestination :=
  { identHash := List.replicate 32 9, encryptionPublicKey := List.replicate 256 3,
    isDestination := true }

/-- An AES block of 39 bytes that announces no tag and an empty payload with its digest. -/
def exampleEmptyBlock : List Nat :=
  [0, 0] ++ [0, 0, 0, 0] ++ List.replicate 32 0 ++ [0]

/-- The same block with the third byte of the digest field changed. -/
def exampleBadHashBlock : List Nat :=
  [0, 0] ++ [0, 0, 0, 0] ++ [0, 0, 1] ++ List.replicate 29 0 ++ [0]

/-- A garlic message whose length field says 32: the tag of 32 bytes 1 and an AES block of
no byte. The I2NP message goes on behind it with bytes that read as a count of one tag, a tag
of 32 bytes 7 and an empty payload with its digest. -/
def exampleShortGarlic : I2NPMessage :=
  { offset := 2, maxLen := 4096,
    bytes := List.replicate 16 0 ++ [0, 0, 0, 32] ++ List.replicate 32 1
      ++ [0, 1] ++ List.replicate 32 7 ++ [0, 0, 0, 0] ++ List.replicate 32 0 ++ [0] }

/-- An AES block that announces no tag and a payload of 46 zero bytes, with its digest: 85
bytes in all. -/
def exampleOverlongBlock : List Nat :=
  [0, 0] ++ [0, 0, 0, 46] ++ List.replicate 32 0 ++ [0] ++ List.replicate 46 0

/-! ## Layout of an AES block and of the framing, for the statements on the wrap -/

/-- The plaintext of an AES block as `CreateAESBlock` lays it out, before the padding: the
tag count, the tags of the new batch if there is one, the size of the payload, its digest,
the flag and the payload. -/
def aesPlaintext (C : Crypto) (newTags : Option UnconfirmedTags) (payload : List Nat) :
    List Nat :=
  (match newTags with
    | some t => htobe16buf (t.numTags % 65536).toNat
        ++ (t.sessionTags.map (fun g => fixed 32 g.tag)).flatten
    | none => [0, 0])
  ++ htobe32buf payload.length ++ fixed 32 (C.sha256 payload) ++ [0] ++ payload

/-- The AES block of a plaintext: padded to a multiple of 16 bytes and encrypted. -/
def aesBlockOf (C : Crypto) (key iv plain : List Nat) : List Nat :=
  fixed (plain ++ List.replicate ((16 - plain.length % 16) % 16) 0).length
    (C.aesEncrypt key iv (plain ++ List.replicate ((16 - plain.length % 16) % 16) 0))

/-- The two framings of `WrapSingleMessage`: the front bytes, the IV of the AES block and the
random tape left. With a tag `T` selected, the front is the tag and the IV the first 16 bytes
of its digest. Without one, for a session with a destination, the front is the 514-byte
ElGamal block of the session key and a fresh preIV, and the IV the first 16 bytes of the
digest of the preIV. -/
def Framing (P : Params) (C : Crypto) (now : Env) (rnd : List Nat) (s : GarlicRoutingSession)
    (front iv rnd0 : List Nat) : Prop :=
  (∃ T, (findTag P now s).1 = some T ∧ front = fixed 32 T.tag ∧
    iv = (C.sha256 (fixed 32 T.tag)).take 16 ∧ rnd0 = rnd) ∨
  ((findTag P now s).1 = none ∧ ∃ d, s.m_Destination = some d ∧
    front = fixed 514 (C.elGamalEncrypt d.encryptionPublicKey
      (fixed 32 s.m_SessionKey ++ (GenerateBlock rnd 32).1 ++ List.replicate 158 0) true) ∧
    iv = (C.sha256 (GenerateBlock rnd 32).1).take 16 ∧ rnd0 = (GenerateBlock rnd 32).2)

/-- The session that the registry creates for `exampleRoutingDestination` with
attachLeaseSet = true. -/
def exampleFreshSession : GarlicRoutingSession :=
  (GarlicRoutingSession.create [] 1 exampleRoutingDestination 40 true).1

/-- A lease-set with one lease that is not expired. -/
def exampleLeaseSet : LeaseSet :=
  { identHash := List.replicate 32 8, buffer := [1, 2, 3],
    nonExpiredLeases := [{ tunnelGateway := List.replicate 32 5, tunnelID := 66 }] }

/-- An I2NP message with 40 bytes of room in front of it. -/
def exampleRoomy : I2NPMessage :=
  { exampleInner with offset := 40 }

/-- A tag of 32 bytes `b`, but for the last one, which is `c`. -/
def exampleIdent (b c : Nat) : Tag := ⟨List.replicate 31 b ++ [c]⟩

/-- An endpoint whose out-of-sequence table holds fragment 3 of message 7. -/
def exampleEndpointWaiting : TunnelEndpoint :=
  { m_IsInbound := true,
    m_OutOfSequenceFragments :=
      [(7, { fragmentNum := 3, isLastFragment := false, data := exampleData 20 3 })] }

/-- A hop at the router of 32 bytes 1, gateway of a tunnel whose next hop is the router of 32
bytes 7. -/
def exampleHop : TunnelHopConfig :=
  { router := exampleRouterInfo 1, nextRouter := some (exampleRouterInfo 7), tunnelID := 500,
    nextTunnelID := 700, layerKey := List.replicate 32 11, ivKey := List.replicate 32 12,
    replyKey := List.replicate 32 13, replyIV := List.replicate 16 14,
    isGateway := true, isEndpoint := false, next := none, prev := none }

/-- The 222 bytes of clear text that `CreateBuildRequestRecord` lays out for a hop. -/
def buildRequestClearText (hours : Nat) (h : TunnelHopConfig) (nextRouter : RouterInfo)
    (replyMsgID : Nat) : List Nat :=
  htobe32buf h.tunnelID ++ fixed 32 h.router.identHash ++ htobe32buf h.nextTunnelID
    ++ fixed 32 nextRouter.identHash ++ fixed 32 h.layerKey ++ fixed 32 h.ivKey
    ++ fixed 32 h.replyKey ++ fixed 16 h.replyIV
    ++ [(if h.isGateway then 128 else 0) + (if h.isEndpoint then 64 else 0)]
    ++ htobe32buf hours ++ htobe32buf replyMsgID ++ List.replicate 29 0

/-- The position reached from the position `p` by following `next` once. -/
def TunnelConfig.stepNext (c : TunnelConfig) (p : Option Nat) : Option Nat :=
  p.bind (fun i => (c.hops[i]?).bind (fun h => h.next))

/-- The position reached from the position `p` by following `next` `k` times. -/
def TunnelConfig.walkNext (c : TunnelConfig) : Nat → Option Nat → Option Nat
  | 0, p => p
  | k + 1, p => TunnelConfig.walkNext c k (c.stepNext p)

/-- The chain of a finished config over the peers `ps`: one hop per peer in order, linked to
its neighbours, each hop holding the router and the tunnel ID of its successor. -/
structure Linked (ps : List RouterInfo) (c : TunnelConfig) : Prop where
  length : c.hops.length = ps.length
  first : c.m_FirstHop = some 0
  last : c.m_LastHop = some (ps.length - 1)
  hop : ∀ j h, c.hops[j]? = some h →
    some h.router = ps[j]? ∧
    h.next = (if j + 1 < ps.length then some (j + 1) else none) ∧
    h.prev = (if 0 < j then some (j - 1) else none) ∧
    (∀ n, c.hops[j + 1]? = some n → h.nextRouter = some n.router ∧ h.nextTunnelID = n.tunnelID)

/-- The hops `hops1` are the hops `hops0` with the same routers, tunnel IDs and pointers, and,
but for the last one, the same next router and next tunnel ID. -/
def SameLinks (hops0 hops1 : List TunnelHopConfig) : Prop :=
  hops1.length = hops0.length ∧
  ∀ j h, hops1[j]? = some h → ∃ h0, hops0[j]? = some h0 ∧
    h.router = h0.router ∧ h.tunnelID = h0.tunnelID ∧ h.next = h0.next ∧ h.prev = h0.prev ∧
    (j + 1 < hops0.length → h.nextRouter = h0.nextRouter ∧ h.nextTunnelID = h0.nextTunnelID)

/-- An owner with an inbound tunnel and no lease-set. -/
def exampleOwnerNoLeaseSet : GarlicDestination :=
  { exampleOwner with leaseSet := none }

/-- A destination that has never swept its inbound tags (lastTagsCleanupTime = 0) and holds
the tag of 32 bytes 9, created at second 1000. -/
def exampleNewDestination : GarlicDestination :=
  { m_Tags := [(List.replicate 32 9, { creationTime := 1000, key := List.replicate 32 4 })],
    m_LastTagsCleanupTime := 0 }

/-! # Properties -/

section Properties

/-! ## Lemmas on `std::map` -/

namespace StdMap

variable {κ ν : Type} [DecidableEq κ]

theorem find_erase_self (m : StdMap κ ν) (k : κ) : find (erase m k) k = none := by
  induction m with
  | nil => rfl
  | cons e rest ih =>
    obtain ⟨a, b⟩ := e
    by_cases h : a = k <;> simp [erase, find, h, ih]

theorem find_erase_ne (m : StdMap κ ν) {k x : κ} (h : k ≠ x) :
    find (erase m k) x = find m x := by
  induction m with
  | nil => rfl
  | cons e rest ih =>
    obtain ⟨a, b⟩ := e
    by_cases h1 : a = k
    · subst h1
      simp [erase, find, h, ih]
    · by_cases h2 : a = x
      · subst h2
        simp [erase, find, h1]
      · simp [erase, find, h1, h2, ih]

theorem erase_of_find_none (m : StdMap κ ν) {k : κ} (h : find m k = none) : erase m k = m := by
  induction m with
  | nil => rfl
  | cons e rest ih =>
    obtain ⟨a, b⟩ := e
    by_cases h1 : a = k
    · simp [find, h1] at h
    · simp only [find, h1, if_false] at h
      simp [erase, h1, ih h]

theorem find_assign_self (m : StdMap κ ν) (k : κ) (v : ν) : find (assign m k v) k = some v := by
  induction m with
  | nil => simp [assign, find]
  | cons e rest ih =>
    obtain ⟨a, b⟩ := e
    by_cases h : a = k <;> simp [assign, find, h, ih]

theorem find_assign_ne (m : StdMap κ ν) {k x : κ} (v : ν) (h : k ≠ x) :
    find (assign m k v) x = find m x := by
  induction m with
  | nil => simp [assign, find, h]
  | cons e rest ih =>
    obtain ⟨a, b⟩ := e
    by_cases h1 : a = k
    · subst h1
      simp [assign, find, h]
    · by_cases h2 : a = x
      · subst h2
        simp [assign, find, h1]
      · simp [assign, find, h1, h2, ih]

theorem find_append_single (m : StdMap κ ν) (k x : κ) (v : ν) :
    find (m ++ [(k, v)]) x = match find m x with
      | some w => some w
      | none => if k = x then some v else none := by
  induction m with
  | nil => simp [find]
  | cons e rest ih =>
    obtain ⟨a, b⟩ := e
    by_cases h : a = x <;> simp [find, h, ih]

theorem find_insert_self (m : StdMap κ ν) {k : κ} (v : ν) (h : find m k = none) :
    find (insert m k v) k = some v := by
  simp [insert, h, find_append_single]

theorem find_insert_ne (m : StdMap κ ν) {k x : κ} (v : ν) (h : k ≠ x) :
    find (insert m k v) x = find m x := by
  unfold insert
  cases hk : find m k with
  | some w => rfl
  | none =>
    simp only [find_append_single, h, if_false]
    cases find m x <;> rfl

theorem insert_of_find_some (m : StdMap κ ν) {k : κ} {w : ν} (v : ν) (h : find m k = some w) :
    insert m k v = m := by
  simp [insert, h]

end StdMap

/-! ## Every effect of the endpoint comes from `HandleNextMessage` -/

theorem AddOutOfSequenceFragment_isInbound (ep : TunnelEndpoint) (msgID fragmentNum : Nat)
    (isLast : Bool) (data : I2NPMessage) :
    (AddOutOfSequenceFragment ep msgID fragmentNum isLast data).m_IsInbound = ep.m_IsInbound := by
  unfold AddOutOfSequenceFragment
  split <;> rfl

theorem HandleOutOfSequenceFragment_effects (P : Params) (ourHash : List Nat)
    (ep : TunnelEndpoint) (msgID : Nat) (msg : TunnelMessageBlockEx) :
    (HandleOutOfSequenceFragment P ourHash ep msgID msg).1.m_IsInbound = ep.m_IsInbound ∧
    ∀ e ∈ (HandleOutOfSequenceFragment P ourHash ep msgID msg).2,
      ∃ m, e = HandleNextMessage ep.m_IsInbound ourHash m := by
  unfold HandleOutOfSequenceFragment
  split
  · split
    · split
      · refine ⟨rfl, ?_⟩
        intro e he
        simp only [List.mem_singleton] at he
        exact ⟨_, he⟩
      · exact ⟨rfl, by simp⟩
    · exact ⟨rfl, by simp⟩
  · exact ⟨rfl, by simp⟩

theorem HandleFollowOnFragment_effects (P : Params) (ourHash : List Nat)
    (ep : TunnelEndpoint) (msgID : Nat) (isLast : Bool) (m : TunnelMessageBlockEx) :
    (HandleFollowOnFragment P ourHash ep msgID isLast m).1.m_IsInbound = ep.m_IsInbound ∧
    ∀ e ∈ (HandleFollowOnFragment P ourHash ep msgID isLast m).2,
      ∃ m', e = HandleNextMessage ep.m_IsInbound ourHash m' := by
  unfold HandleFollowOnFragment
  simp only
  split
  · split
    · split
      · split
        · refine ⟨rfl, ?_⟩
          intro e he
          simp only [List.mem_singleton] at he
          exact ⟨_, he⟩
        · exact HandleOutOfSequenceFragment_effects P ourHash _ msgID _
      · exact ⟨rfl, by simp⟩
    · exact ⟨AddOutOfSequenceFragment_isInbound _ _ _ _ _, by simp⟩
  · exact ⟨AddOutOfSequenceFragment_isInbound _ _ _ _ _, by simp⟩

theorem dispatchFragment_effects (P : Params) (ourHash : List Nat) (ep : TunnelEndpoint)
    (isFollowOn isLast : Bool) (msgID fragmentNum : Nat) (m : TunnelMessageBlockEx) :
    (dispatchFragment P ourHash ep isFollowOn isLast msgID fragmentNum m).1.m_IsInbound
      = ep.m_IsInbound ∧
    ∀ e ∈ (dispatchFragment P ourHash ep isFollowOn isLast msgID fragmentNum m).2,
      ∃ m', e = HandleNextMessage ep.m_IsInbound ourHash m' := by
  unfold dispatchFragment
  split
  · refine ⟨rfl, ?_⟩
    intro e he
    simp only [List.mem_singleton] at he
    exact ⟨_, he⟩
  · split
    · split
      · simp only
        split
        · exact HandleOutOfSequenceFragment_effects P ourHash _ msgID _
        · exact ⟨rfl, by simp⟩
      · exact HandleFollowOnFragment_effects P ourHash ep msgID isLast _
    · exact ⟨rfl, by simp⟩

theorem handleFragments_effects (P : Params) (ourHash : List Nat) (msg : I2NPMessage)
    (pl : List Nat) (fuel : Nat) :
    ∀ (fragment : Nat) (ep : TunnelEndpoint),
      (handleFragments P ourHash msg pl fuel fragment ep).1.m_IsInbound = ep.m_IsInbound ∧
      ∀ e ∈ (handleFragments P ourHash msg pl fuel fragment ep).2,
        ∃ m', e = HandleNextMessage ep.m_IsInbound ourHash m' := by
  induction fuel with
  | zero =>
    intro fragment ep
    exact ⟨rfl, by simp [handleFragments]⟩
  | succ n ih =>
    intro fragment ep
    unfold handleFragments
    split
    · simp only
      have h1 := dispatchFragment_effects P ourHash ep
        (readFragment P msg pl fragment).isFollowOnFragment
        (readFragment P msg pl fragment).isLastFragment
        (readFragment P msg pl fragment).msgID
        (readFragment P msg pl fragment).fragmentNum
        (readFragment P msg pl fragment).m
      have h2 := ih (readFragment P msg pl fragment).next
        (dispatchFragment P ourHash ep
          (readFragment P msg pl fragment).isFollowOnFragment
          (readFragment P msg pl fragment).isLastFragment
          (readFragment P msg pl fragment).msgID
          (readFragment P msg pl fragment).fragmentNum
          (readFragment P msg pl fragment).m).1
      refine ⟨h2.1.trans h1.1, ?_⟩
      intro e he
      rcases List.mem_append.mp he with he | he
      · exact h1.2 e he
      · obtain ⟨m', hm⟩ := h2.2 e he
        exact ⟨m', by rw [hm, h1.1]⟩
    · exact ⟨rfl, by simp⟩

theorem HandleDecryptedTunnelDataMsg_effects (P : Params) (sha256 : List Nat → List Nat)
    (ourHash : List Nat) (ep : TunnelEndpoint) (msg : I2NPMessage) :
    (HandleDecryptedTunnelDataMsg P sha256 ourHash ep msg).1.m_IsInbound = ep.m_IsInbound ∧
    ∀ e ∈ (HandleDecryptedTunnelDataMsg P sha256 ourHash ep msg).2,
      ∃ m', e = HandleNextMessage ep.m_IsInbound ourHash m' := by
  unfold HandleDecryptedTunnelDataMsg
  simp only
  split
  · split
    · exact ⟨rfl, by simp⟩
    · exact handleFragments_effects P ourHash msg _ _ _ _
  · exact ⟨rfl, by simp⟩

/-- C5 (leak guard). For a message with delivery type Router, `HandleNextMessage` hands the
message to the local I2NP handler when the target hash is ours, sends it to the target hash
when the hash is not ours and the endpoint is not inbound, and drops it when the hash is not
ours and the endpoint is inbound; and no run of `HandleDecryptedTunnelDataMsg` on an inbound
endpoint calls `transports.SendMessage (msg.hash, msg.data)`. -/
theorem leak_guard (P : Params) (sha256 : List Nat → List Nat) (ourHash : List Nat) :
    (∀ (isInbound : Bool) (msg : TunnelMessageBlockEx),
      msg.deliveryType = eDeliveryTypeRouter →
        (msg.hash = ourHash →
          HandleNextMessage isInbound ourHash msg = .handleI2NPMessage msg.data) ∧
        (msg.hash ≠ ourHash → isInbound = false →
          HandleNextMessage isInbound ourHash msg = .sendMessage msg.hash msg.data) ∧
        (msg.hash ≠ ourHash → isInbound = true →
          HandleNextMessage isInbound ourHash msg = .leakDropped msg.data ∧
          (HandleNextMessage isInbound ourHash msg).isSend = false)) ∧
    (∀ (ep : TunnelEndpoint) (td : I2NPMessage), ep.m_IsInbound = true →
      ∀ e ∈ (HandleDecryptedTunnelDataMsg P sha256 ourHash ep td).2,
        ∀ hash data, e ≠ .sendMessage hash data) := by
  constructor
  · intro isInbound msg hty
    refine ⟨?_, ?_, ?_⟩
    · intro hh
      simp [HandleNextMessage, hty, hh, eDeliveryTypeRouter, eDeliveryTypeLocal,
        eDeliveryTypeTunnel]
    · intro hh hin
      simp [HandleNextMessage, hty, hh, hin, eDeliveryTypeRouter, eDeliveryTypeLocal,
        eDeliveryTypeTunnel]
    · intro hh hin
      simp [HandleNextMessage, hty, hh, hin, eDeliveryTypeRouter, eDeliveryTypeLocal,
        eDeliveryTypeTunnel, Effect.isSend]
  · intro ep td hin e he hash data heq
    obtain ⟨m', hm⟩ := (HandleDecryptedTunnelDataMsg_effects P sha256 ourHash ep td).2 e he
    rw [hin, heq] at hm
    unfold HandleNextMessage at hm
    split at hm
    · cases hm
    · split at hm
      · cases hm
      · split at hm
        · split at hm
          · cases hm
          · simp at hm
        · cases hm

/-- Witness of C5: a Router message for another router on an inbound endpoint is dropped. -/
theorem leak_guard_witness :
    HandleNextMessage true (List.replicate 32 1)
        { deliveryType := eDeliveryTypeRouter, hash := List.replicate 32 2,
          data := exampleData 4 7 }
      = .leakDropped (exampleData 4 7) :=
  (((leak_guard exampleParams exampleSha256 (List.replicate 32 1)).1 true
      { deliveryType := eDeliveryTypeRouter, hash := List.replicate 32 2,
        data := exampleData 4 7 } rfl).2.2 (by decide) rfl).1

/-! ## Admission of transit tunnels -/

/-- C10 (admission cap), the code at the boundary. A record addressed to a router that accepts
tunnels, whose bandwidth is not exceeded and whose transit table already holds exactly
`MAX_NUM_TRANSIT_TUNNELS` tunnels is answered with `ret = 0` and a transit tunnel is created:
the test in the source is `size () <= MAX_NUM_TRANSIT_TUNNELS`. In every case `ret` is 0 and
one tunnel is added exactly when the router accepts tunnels, the table holds at most
`MAX_NUM_TRANSIT_TUNNELS` tunnels and bandwidth is not exceeded; otherwise `ret` is 30 and
the table is unchanged. -/
theorem admission_at_cap (P : Params) (C : Crypto) (router : RouterState) (num i : Nat)
    (records clearText : List Nat)
    (hfind : findOurRecord records router.identHash num 0 = some i) :
    let r := HandleBuildRequestRecords P C router num records clearText
    (router.acceptsTunnels = true → router.isBandwidthExceeded = false →
      router.transitTunnels.length = P.MAX_NUM_TRANSIT_TUNNELS →
        buildResponseRet P router = 0 ∧
        r.router.transitTunnels.length = P.MAX_NUM_TRANSIT_TUNNELS + 1) ∧
    ((router.acceptsTunnels = true ∧ router.transitTunnels.length ≤ P.MAX_NUM_TRANSIT_TUNNELS ∧
        router.isBandwidthExceeded = false) →
      buildResponseRet P router = 0 ∧
      r.router.transitTunnels = router.transitTunnels ++ [transitTunnelOf r.clearText]) ∧
    (¬ (router.acceptsTunnels = true ∧
        router.transitTunnels.length ≤ P.MAX_NUM_TRANSIT_TUNNELS ∧
        router.isBandwidthExceeded = false) →
      buildResponseRet P router = 30 ∧ r.router = router) := by
  intro r
  have hr : r = HandleBuildRequestRecords P C router num records clearText := rfl
  simp only [HandleBuildRequestRecords, hfind] at hr
  refine ⟨?_, ?_, ?_⟩
  · intro h1 h2 h3
    have hacc : acceptTransitTunnel P router = true := by
      simp [acceptTransitTunnel, h1, h2, h3]
    rw [hr]
    simp [buildResponseRet, hacc, h3]
  · rintro ⟨h1, h2, h3⟩
    have hacc : acceptTransitTunnel P router = true := by
      simp [acceptTransitTunnel, h1, h2, h3]
    rw [hr]
    simp [buildResponseRet, hacc]
  · intro h
    have hacc : acceptTransitTunnel P router = false := by
      simp only [acceptTransitTunnel, Bool.and_eq_false_iff, decide_eq_false_iff_not,
        Bool.not_eq_false']
      by_contra hc
      push_neg at hc
      apply h
      refine ⟨?_, hc.1.2, ?_⟩
      · simpa using hc.1.1
      · simpa using hc.2
    rw [hr]
    simp [buildResponseRet, hacc]

/-- Witness of C10: at the cap of `exampleParams` the record is accepted. -/
theorem admission_at_cap_witness :
    buildResponseRet exampleParams exampleRouterAtCap = 0 ∧
    (HandleBuildRequestRecords exampleParams exampleCrypto exampleRouterAtCap 1
        exampleBuildRecords []).router.transitTunnels.length = 2501 :=
  (admission_at_cap exampleParams exampleCrypto exampleRouterAtCap 1 0 exampleBuildRecords []
    (by
      simp only [findOurRecord, exampleBuildRecords, exampleRouterAtCap,
        BUILD_REQUEST_RECORD_TO_PEER_OFFSET, Nat.zero_mul, List.drop_zero, List.take_replicate]
      rfl)).1 rfl rfl
    (by simp only [exampleRouterAtCap, exampleParams, List.length_replicate])

/-! ## Reassembly -/

theorem growFor_bytes (P : Params) (data : I2NPMessage) (size : Nat) :
    (growFor P data size).bytes = data.bytes := by
  unfold growFor
  split <;> rfl

theorem growFor_offset_le (P : Params) (data : I2NPMessage) (size : Nat) :
    (growFor P data size).offset ≤ max data.offset P.NEW_MESSAGE_OFFSET := by
  unfold growFor
  split
  · simp [I2NPMessage.copyFrom, NewI2NPMessage]
  · simp

theorem growFor_len_le (P : Params) (data : I2NPMessage) (size : Nat) :
    (growFor P data size).len ≤ max data.offset P.NEW_MESSAGE_OFFSET + data.bytes.length := by
  have h1 := growFor_offset_le P data size
  have h2 := growFor_bytes P data size
  simp only [I2NPMessage.len, h2]
  omega

/-- C7 (three fragments, order 1, 0, 2). For a non-zero msgID with no entry in either
table, fragment 1 is buffered out of sequence and nothing is dispatched; fragment 0 then
creates the incomplete entry, fragment 1 is concatenated to it, `nextFragmentNum` becomes 2
and nothing is dispatched; fragment 2 (last) then completes the message, which is handed to
`HandleNextMessage` once with the bytes of fragments 0, 1, 2 in this order, and neither
table holds an entry for the msgID. The total length is assumed below the I2NP maximum. -/
theorem three_fragments_1_0_2 (P : Params) (ourHash : List Nat) (ep : TunnelEndpoint)
    (msgID : Nat) (m0 : TunnelMessageBlockEx) (d1 d2 : I2NPMessage)
    (hid : msgID ≠ 0)
    (hinc : StdMap.find ep.m_IncompleteMessages msgID = none)
    (hoos : StdMap.find ep.m_OutOfSequenceFragments msgID = none)
    (hsize : max m0.data.offset P.NEW_MESSAGE_OFFSET
      + (m0.data.bytes.length + d1.bytes.length + d2.bytes.length) < P.I2NP_MAX_MESSAGE_SIZE) :
    let s1 := feed P ourHash ep (followOnFragment msgID 1 false d1)
    let s2 := feed P ourHash s1.1 (firstFragment msgID m0)
    let s3 := feed P ourHash s2.1 (followOnFragment msgID 2 true d2)
    (s1.2 = [] ∧
      StdMap.find s1.1.m_OutOfSequenceFragments msgID
        = some { fragmentNum := 1, isLastFragment := false, data := d1 } ∧
      StdMap.find s1.1.m_IncompleteMessages msgID = none) ∧
    (s2.2 = [] ∧
      (∃ e, StdMap.find s2.1.m_IncompleteMessages msgID = some e ∧
        e.nextFragmentNum = 2 ∧ e.data.bytes = m0.data.bytes ++ d1.bytes) ∧
      StdMap.find s2.1.m_OutOfSequenceFragments msgID = none) ∧
    ((∃ blk : TunnelMessageBlockEx,
        s3.2 = [HandleNextMessage ep.m_IsInbound ourHash blk] ∧
        blk.data.bytes = m0.data.bytes ++ d1.bytes ++ d2.bytes ∧
        blk.deliveryType = m0.deliveryType ∧ blk.hash = m0.hash ∧
        blk.tunnelID = m0.tunnelID) ∧
      StdMap.find s3.1.m_IncompleteMessages msgID = none ∧
      StdMap.find s3.1.m_OutOfSequenceFragments msgID = none) := by
  intro s1 s2 s3
  -- fragment 1 arrives first: buffered
  have e1 : s1 = (TunnelEndpoint.mk ep.m_IsInbound ep.m_NumReceivedBytes ep.m_IncompleteMessages
      (StdMap.insert ep.m_OutOfSequenceFragments msgID (Fragment.mk 1 false d1)), []) := by
    show feed P ourHash ep (followOnFragment msgID 1 false d1) = _
    simp [feed, followOnFragment, dispatchFragment, hid, HandleFollowOnFragment, hinc,
      AddOutOfSequenceFragment, hoos]
  -- fragment 0: entry created, fragment 1 drained
  have e2 : s2 = (TunnelEndpoint.mk ep.m_IsInbound ep.m_NumReceivedBytes
      (StdMap.assign
        (StdMap.insert ep.m_IncompleteMessages msgID
          (TunnelMessageBlockEx.mk m0.deliveryType m0.hash m0.tunnelID m0.data 1)) msgID
        (TunnelMessageBlockEx.mk m0.deliveryType m0.hash m0.tunnelID
          ((growFor P m0.data d1.bytes.length).concat d1.bytes) 2))
      (StdMap.erase (StdMap.insert ep.m_OutOfSequenceFragments msgID (Fragment.mk 1 false d1))
        msgID), []) := by
    show feed P ourHash s1.1 (firstFragment msgID m0) = _
    rw [e1]
    simp [feed, firstFragment, dispatchFragment, hid, hinc, HandleOutOfSequenceFragment,
      StdMap.find_insert_self _ _ hoos, I2NPMessage.GetLength, I2NPMessage.GetBuffer]
  have hlen : ((growFor P m0.data d1.bytes.length).concat d1.bytes).len + d2.bytes.length
      < P.I2NP_MAX_MESSAGE_SIZE := by
    have := growFor_len_le P m0.data d1.bytes.length
    have hb := growFor_bytes P m0.data d1.bytes.length
    simp only [I2NPMessage.len, I2NPMessage.concat, List.length_append, hb] at this ⊢
    omega
  have e3 : s3 = (TunnelEndpoint.mk ep.m_IsInbound ep.m_NumReceivedBytes
      (StdMap.erase s2.1.m_IncompleteMessages msgID) s2.1.m_OutOfSequenceFragments,
      [HandleNextMessage ep.m_IsInbound ourHash
        (TunnelMessageBlockEx.mk m0.deliveryType m0.hash m0.tunnelID
          ((growFor P ((growFor P m0.data d1.bytes.length).concat d1.bytes)
            d2.bytes.length).concat d2.bytes) 2)]) := by
    show feed P ourHash s2.1 (followOnFragment msgID 2 true d2) = _
    rw [e2]
    simp [feed, followOnFragment, dispatchFragment, hid, HandleFollowOnFragment,
      StdMap.find_assign_self, I2NPMessage.GetLength, I2NPMessage.GetBuffer, hlen]
  refine ⟨?_, ?_, ?_⟩
  · rw [e1]
    exact ⟨rfl, StdMap.find_insert_self _ _ hoos, hinc⟩
  · rw [e2]
    refine ⟨rfl, ⟨_, StdMap.find_assign_self _ _ _, rfl, ?_⟩, StdMap.find_erase_self _ _⟩
    simp [I2NPMessage.concat, growFor_bytes]
  · rw [e3]
    refine ⟨⟨_, rfl, ?_, rfl, rfl, rfl⟩, StdMap.find_erase_self _ _, ?_⟩
    · simp [I2NPMessage.concat, growFor_bytes]
    · rw [e2]
      exact StdMap.find_erase_self _ _

/-- Witness of C7: msgID `0xCAFEBABE`, fragments of 100, 200 and 50 bytes fed in the order
1, 0, 2 give one message of the 350 bytes in fragment order. -/
theorem three_fragments_1_0_2_witness :
    ∃ blk : TunnelMessageBlockEx,
      (feed exampleParams [] (feed exampleParams [] (feed exampleParams [] exampleEndpoint
          (followOnFragment 3405691582 1 false (exampleData 200 2))).1
          (firstFragment 3405691582 (exampleBlock 100 1))).1
          (followOnFragment 3405691582 2 true (exampleData 50 3))).2
        = [HandleNextMessage true [] blk] ∧
      blk.data.bytes
        = List.replicate 100 1 ++ List.replicate 200 2 ++ List.replicate 50 3 :=
  (three_fragments_1_0_2 exampleParams [] exampleEndpoint 3405691582 (exampleBlock 100 1)
    (exampleData 200 2) (exampleData 50 3) (by decide) rfl rfl
    (by
      simp only [exampleBlock, exampleData, exampleParams, List.length_replicate]
      decide)).2.2.1.imp (fun _ h => ⟨h.1, h.2.1⟩)

/-! ## Out-of-order reassembly -/

theorem HandleOutOfSequenceFragment_none (P : Params) (ourHash : List Nat)
    (ep : TunnelEndpoint) (msgID : Nat) (e : TunnelMessageBlockEx)
    (h : StdMap.find ep.m_OutOfSequenceFragments msgID = none) :
    HandleOutOfSequenceFragment P ourHash ep msgID e = (ep, []) := by
  simp [HandleOutOfSequenceFragment, h]

theorem HandleOutOfSequenceFragment_ne (P : Params) (ourHash : List Nat)
    (ep : TunnelEndpoint) (msgID : Nat) (e : TunnelMessageBlockEx) (f : Fragment)
    (h : StdMap.find ep.m_OutOfSequenceFragments msgID = some f)
    (hne : f.fragmentNum ≠ e.nextFragmentNum) :
    HandleOutOfSequenceFragment P ourHash ep msgID e = (ep, []) := by
  simp [HandleOutOfSequenceFragment, h, hne]

theorem HandleOutOfSequenceFragment_last (P : Params) (ourHash : List Nat)
    (ep : TunnelEndpoint) (msgID : Nat) (e : TunnelMessageBlockEx) (f : Fragment)
    (h : StdMap.find ep.m_OutOfSequenceFragments msgID = some f)
    (heq : f.fragmentNum = e.nextFragmentNum) (hl : f.isLastFragment = true) :
    HandleOutOfSequenceFragment P ourHash ep msgID e
      = (TunnelEndpoint.mk ep.m_IsInbound ep.m_NumReceivedBytes
          (StdMap.erase ep.m_IncompleteMessages msgID)
          (StdMap.erase ep.m_OutOfSequenceFragments msgID),
        [HandleNextMessage ep.m_IsInbound ourHash
          (TunnelMessageBlockEx.mk e.deliveryType e.hash e.tunnelID
            ((growFor P e.data f.data.bytes.length).concat f.data.bytes)
            e.nextFragmentNum)]) := by
  simp [HandleOutOfSequenceFragment, h, heq, hl, I2NPMessage.GetLength, I2NPMessage.GetBuffer]

theorem HandleOutOfSequenceFragment_more (P : Params) (ourHash : List Nat)
    (ep : TunnelEndpoint) (msgID : Nat) (e : TunnelMessageBlockEx) (f : Fragment)
    (h : StdMap.find ep.m_OutOfSequenceFragments msgID = some f)
    (heq : f.fragmentNum = e.nextFragmentNum) (hl : f.isLastFragment = false) :
    HandleOutOfSequenceFragment P ourHash ep msgID e
      = (TunnelEndpoint.mk ep.m_IsInbound ep.m_NumReceivedBytes
          (StdMap.assign ep.m_IncompleteMessages msgID
            (TunnelMessageBlockEx.mk e.deliveryType e.hash e.tunnelID
              ((growFor P e.data f.data.bytes.length).concat f.data.bytes)
              ((e.nextFragmentNum + 1) % 256)))
          (StdMap.erase ep.m_OutOfSequenceFragments msgID), []) := by
  simp [HandleOutOfSequenceFragment, h, heq, hl, I2NPMessage.GetLength, I2NPMessage.GetBuffer]

theorem joinBytes_take_succ (ds : List I2NPMessage) (k : Nat) (hk : k < ds.length) :
    joinBytes (ds.take (k + 1)) = joinBytes (ds.take k) ++ (ds.getD k noData).bytes := by
  have h1 : ds.take (k + 1) = ds.take k ++ [ds.getD k noData] := by
    rw [List.take_succ, List.getD_eq_getElem?_getD, List.getElem?_eq_getElem hk]
    rfl
  rw [h1]
  simp only [joinBytes, List.map_append, List.flatten_append, List.map_cons, List.map_nil,
    List.flatten_cons, List.flatten_nil, List.append_nil]

theorem joinBytes_take_length_le (ds : List I2NPMessage) (k : Nat) :
    (joinBytes (ds.take k)).length ≤ (joinBytes ds).length := by
  have h : joinBytes ds = joinBytes (ds.take k) ++ joinBytes (ds.drop k) := by
    simp only [joinBytes, ← List.flatten_append, ← List.map_append, List.take_append_drop]
  rw [h, List.length_append]
  omega

theorem joinBytes_take_all (ds : List I2NPMessage) : joinBytes (ds.take ds.length) = joinBytes ds := by
  rw [List.take_length]

theorem drain_inv (P : Params) (ourHash : List Nat) (isInbound : Bool) (msgID : Nat)
    (m0 : TunnelMessageBlockEx) (ds : List I2NPMessage) (ep1 : TunnelEndpoint)
    (e : TunnelMessageBlockEx) (c : Nat) (slot : Option Nat)
    (hlen : ds.length ≤ 63) (hc1 : 1 ≤ c) (hc2 : c ≤ ds.length)
    (hinb : ep1.m_IsInbound = isInbound)
    (hfind : StdMap.find ep1.m_IncompleteMessages msgID = some e)
    (hnext : e.nextFragmentNum = c)
    (hbytes : e.data.bytes = m0.data.bytes ++ joinBytes (ds.take (c - 1)))
    (hoff : e.data.offset ≤ max m0.data.offset P.NEW_MESSAGE_OFFSET)
    (hdt : e.deliveryType = m0.deliveryType) (hhash : e.hash = m0.hash)
    (htid : e.tunnelID = m0.tunnelID)
    (hsn : slot = none → StdMap.find ep1.m_OutOfSequenceFragments msgID = none)
    (hss : ∀ j, slot = some j → c ≤ j ∧ j ≤ ds.length ∧
      StdMap.find ep1.m_OutOfSequenceFragments msgID
        = some (Fragment.mk j (decide (j = ds.length)) (ds.getD (j - 1) noData))) :
    (slot = some c →
      ReasmInv P isInbound msgID m0 ds
        (HandleOutOfSequenceFragment P ourHash ep1 msgID e).1 (c + 1) none ∧
      (c = ds.length →
        IsWhole isInbound ourHash m0 ds (HandleOutOfSequenceFragment P ourHash ep1 msgID e).2) ∧
      (c < ds.length → (HandleOutOfSequenceFragment P ourHash ep1 msgID e).2 = [])) ∧
    (slot ≠ some c →
      ReasmInv P isInbound msgID m0 ds
        (HandleOutOfSequenceFragment P ourHash ep1 msgID e).1 c slot ∧
      (HandleOutOfSequenceFragment P ourHash ep1 msgID e).2 = []) := by
  have hjoin : joinBytes (ds.take c) = joinBytes (ds.take (c - 1)) ++ (ds.getD (c - 1) noData).bytes := by
    have := joinBytes_take_succ ds (c - 1) (by omega)
    rwa [Nat.sub_add_cancel hc1] at this
  constructor
  · intro hs
    obtain ⟨_, _, hf⟩ := hss c hs
    by_cases hl : c = ds.length
    · -- the waiting fragment is the last one: the message is complete
      have hlast : (Fragment.mk c (decide (c = ds.length)) (ds.getD (c - 1) noData)).isLastFragment
          = true := by simp [hl]
      rw [HandleOutOfSequenceFragment_last P ourHash ep1 msgID e _ hf (by simp [hnext]) hlast]
      refine ⟨?_, ?_, ?_⟩
      · refine ⟨hinb, by omega, ?_, ?_, ?_, ?_⟩
        · intro _
          exact StdMap.find_erase_self _ _
        · intro _ h2
          omega
        · intro _
          exact StdMap.find_erase_self _ _
        · intro j hj
          cases hj
      · intro _
        refine ⟨TunnelMessageBlockEx.mk e.deliveryType e.hash e.tunnelID
          ((growFor P e.data (ds.getD (c - 1) noData).bytes.length).concat
            (ds.getD (c - 1) noData).bytes) e.nextFragmentNum, by rw [hinb], ?_, hdt, hhash, htid⟩
        simp only [I2NPMessage.concat, growFor_bytes, hbytes, List.append_assoc]
        rw [← hjoin, hl, joinBytes_take_all]
      · intro h
        omega
    · have hlast : (Fragment.mk c (decide (c = ds.length)) (ds.getD (c - 1) noData)).isLastFragment
          = false := by simp [hl]
      rw [HandleOutOfSequenceFragment_more P ourHash ep1 msgID e _ hf (by simp [hnext]) hlast]
      refine ⟨?_, ?_, ?_⟩
      · refine ⟨hinb, by omega, ?_, ?_, ?_, ?_⟩
        · intro h
          omega
        · intro _ _
          refine ⟨_, StdMap.find_assign_self _ _ _, ?_, ?_, ?_, hdt, hhash, htid⟩
          · simp only [hnext]
            omega
          · simp only [I2NPMessage.concat, growFor_bytes, hbytes, List.append_assoc,
              Nat.add_sub_cancel]
            rw [hjoin]
          · have := growFor_offset_le P e.data (ds.getD (c - 1) noData).bytes.length
            simp only [I2NPMessage.concat]
            omega
        · intro _
          exact StdMap.find_erase_self _ _
        · intro j hj
          cases hj
      · intro h
        exact absurd h hl
      · intro _
        rfl
  · intro hs
    have hres : HandleOutOfSequenceFragment P ourHash ep1 msgID e = (ep1, []) := by
      cases hslot : slot with
      | none => exact HandleOutOfSequenceFragment_none P ourHash ep1 msgID e (hsn hslot)
      | some j =>
        obtain ⟨_, _, hf⟩ := hss j hslot
        refine HandleOutOfSequenceFragment_ne P ourHash ep1 msgID e _ hf ?_
        simp only [hnext]
        intro hjc
        exact hs (by rw [hslot, hjc])
    rw [hres]
    refine ⟨⟨hinb, by omega, ?_, ?_, hsn, ?_⟩, rfl⟩
    · intro h
      omega
    · intro _ _
      exact ⟨e, hfind, hnext, hbytes, hoff, hdt, hhash, htid⟩
    · intro j hj
      obtain ⟨h1, h2, h3⟩ := hss j hj
      refine ⟨?_, h2, h3⟩
      have : j ≠ c := fun h => hs (by rw [hj, h])
      omega

theorem fragmentOf_pos (msgID : Nat) (m0 : TunnelMessageBlockEx) (ds : List I2NPMessage)
    (k : Nat) (hk : 0 < k) :
    fragmentOf msgID m0 ds k
      = followOnFragment msgID k (decide (k = ds.length)) (ds.getD (k - 1) noData) := by
  have : k ≠ 0 := by omega
  simp [fragmentOf, this]

theorem step_early (P : Params) (ourHash : List Nat) (isInbound : Bool) (msgID : Nat)
    (m0 : TunnelMessageBlockEx) (ds : List I2NPMessage) (ep : TunnelEndpoint)
    (next k : Nat) (hid : msgID ≠ 0)
    (hinv : ReasmInv P isInbound msgID m0 ds ep next none)
    (hk1 : next < k) (hk2 : k ≤ ds.length) :
    ReasmInv P isInbound msgID m0 ds (feed P ourHash ep (fragmentOf msgID m0 ds k)).1 next
      (some k) ∧
    (feed P ourHash ep (fragmentOf msgID m0 ds k)).2 = [] := by
  have hoos := hinv.slot_none rfl
  have hfeed : feed P ourHash ep (fragmentOf msgID m0 ds k)
      = (TunnelEndpoint.mk ep.m_IsInbound ep.m_NumReceivedBytes ep.m_IncompleteMessages
          (StdMap.insert ep.m_OutOfSequenceFragments msgID
            (Fragment.mk k (decide (k = ds.length)) (ds.getD (k - 1) noData))), []) := by
    rw [fragmentOf_pos msgID m0 ds k (by omega)]
    by_cases h0 : next = 0
    · have hinc := hinv.inc_none (Or.inl h0)
      simp [feed, followOnFragment, dispatchFragment, hid, HandleFollowOnFragment, hinc,
        AddOutOfSequenceFragment, hoos]
    · obtain ⟨e, hfind, hnext, _⟩ := hinv.inc_some (by omega) (by omega)
      have hne : ¬ k = e.nextFragmentNum := by omega
      simp [feed, followOnFragment, dispatchFragment, hid, HandleFollowOnFragment, hfind,
        hne, AddOutOfSequenceFragment, hoos]
  rw [hfeed]
  refine ⟨⟨hinv.inbound, hinv.next_le, hinv.inc_none, hinv.inc_some, ?_, ?_⟩, rfl⟩
  · intro h
    cases h
  · intro j hj
    cases hj
    exact ⟨hk1, hk2, StdMap.find_insert_self _ _ hoos⟩

theorem step_inseq (P : Params) (ourHash : List Nat) (isInbound : Bool) (msgID : Nat)
    (m0 : TunnelMessageBlockEx) (ds : List I2NPMessage) (ep : TunnelEndpoint)
    (next : Nat) (slot : Option Nat) (hid : msgID ≠ 0) (hlen : ds.length ≤ 63)
    (hne : ds ≠ [])
    (hsize : max m0.data.offset P.NEW_MESSAGE_OFFSET
      + (m0.data.bytes.length + (joinBytes ds).length) < P.I2NP_MAX_MESSAGE_SIZE)
    (hinv : ReasmInv P isInbound msgID m0 ds ep next slot)
    (hn : next ≤ ds.length) :
    (slot = some (next + 1) →
      ReasmInv P isInbound msgID m0 ds (feed P ourHash ep (fragmentOf msgID m0 ds next)).1
        (next + 2) none ∧
      (next + 1 = ds.length →
        IsWhole isInbound ourHash m0 ds (feed P ourHash ep (fragmentOf msgID m0 ds next)).2) ∧
      (next + 1 < ds.length → (feed P ourHash ep (fragmentOf msgID m0 ds next)).2 = [])) ∧
    (slot ≠ some (next + 1) →
      ReasmInv P isInbound msgID m0 ds (feed P ourHash ep (fragmentOf msgID m0 ds next)).1
        (next + 1) slot ∧
      (next = ds.length →
        IsWhole isInbound ourHash m0 ds (feed P ourHash ep (fragmentOf msgID m0 ds next)).2) ∧
      (next < ds.length → (feed P ourHash ep (fragmentOf msgID m0 ds next)).2 = [])) := by
  have hpos : 0 < ds.length := List.length_pos.mpr hne
  have hss : ∀ j, slot = some j → next + 1 ≤ j ∧ j ≤ ds.length ∧
      StdMap.find ep.m_OutOfSequenceFragments msgID
        = some (Fragment.mk j (decide (j = ds.length)) (ds.getD (j - 1) noData)) := by
    intro j hj
    obtain ⟨h1, h2, h3⟩ := hinv.slot_some j hj
    exact ⟨h1, h2, h3⟩
  by_cases h0 : next = 0
  · -- the first fragment arrives: the entry is created, then the table is drained
    subst h0
    have hinc := hinv.inc_none (Or.inl rfl)
    have hfeed : feed P ourHash ep (fragmentOf msgID m0 ds 0)
        = HandleOutOfSequenceFragment P ourHash
            (TunnelEndpoint.mk ep.m_IsInbound ep.m_NumReceivedBytes
              (StdMap.insert ep.m_IncompleteMessages msgID
                (TunnelMessageBlockEx.mk m0.deliveryType m0.hash m0.tunnelID m0.data 1))
              ep.m_OutOfSequenceFragments) msgID
            (TunnelMessageBlockEx.mk m0.deliveryType m0.hash m0.tunnelID m0.data 1) := by
      simp [feed, fragmentOf, firstFragment, dispatchFragment, hid, hinc]
    rw [hfeed]
    have hd := drain_inv P ourHash isInbound msgID m0 ds
      (TunnelEndpoint.mk ep.m_IsInbound ep.m_NumReceivedBytes
        (StdMap.insert ep.m_IncompleteMessages msgID
          (TunnelMessageBlockEx.mk m0.deliveryType m0.hash m0.tunnelID m0.data 1))
        ep.m_OutOfSequenceFragments)
      (TunnelMessageBlockEx.mk m0.deliveryType m0.hash m0.tunnelID m0.data 1) 1 slot
      hlen (le_refl 1) hpos hinv.inbound (StdMap.find_insert_self _ _ hinc) rfl
      (by simp [joinBytes]) (by simp) rfl rfl rfl hinv.slot_none hss
    refine ⟨fun hs => ?_, fun hs => ?_⟩
    · obtain ⟨h1, h2, h3⟩ := hd.1 hs
      exact ⟨h1, fun h => h2 (by omega), fun h => h3 (by omega)⟩
    · obtain ⟨h1, h2⟩ := hd.2 hs
      exact ⟨h1, fun h => by omega, fun _ => h2⟩
  · -- a follow-on fragment arrives in sequence
    obtain ⟨e, hfind, hnext, hbytes, hoff, hdt, hhash, htid⟩ := hinv.inc_some (by omega) hn
    have hjoin : joinBytes (ds.take next)
        = joinBytes (ds.take (next - 1)) ++ (ds.getD (next - 1) noData).bytes := by
      have := joinBytes_take_succ ds (next - 1) (by omega)
      rwa [Nat.sub_add_cancel (by omega)] at this
    have hcheck : e.data.len + (ds.getD (next - 1) noData).bytes.length
        < P.I2NP_MAX_MESSAGE_SIZE := by
      have h1 := joinBytes_take_length_le ds next
      have h2 := congrArg List.length hjoin
      simp only [List.length_append] at h2
      simp only [I2NPMessage.len, hbytes, List.length_append]
      omega
    rw [fragmentOf_pos msgID m0 ds next (by omega)]
    generalize ds.getD (next - 1) noData = d at hjoin hcheck ⊢
    by_cases hl : next = ds.length
    · -- it is the last fragment: the message is complete
      rw [decide_eq_true hl]
      have hfeed : feed P ourHash ep
          (followOnFragment msgID next true d)
          = (TunnelEndpoint.mk ep.m_IsInbound ep.m_NumReceivedBytes
              (StdMap.erase ep.m_IncompleteMessages msgID) ep.m_OutOfSequenceFragments,
            [HandleNextMessage ep.m_IsInbound ourHash
              (TunnelMessageBlockEx.mk e.deliveryType e.hash e.tunnelID
                ((growFor P e.data d.bytes.length).concat
                  d.bytes) e.nextFragmentNum)]) := by
        simp [feed, followOnFragment, dispatchFragment, hid, HandleFollowOnFragment, hfind,
          hnext, hcheck, I2NPMessage.GetLength, I2NPMessage.GetBuffer]
      rw [hfeed]
      have hslot : slot = none := by
        cases hs : slot with
        | none => rfl
        | some j =>
          obtain ⟨h1, h2, _⟩ := hinv.slot_some j hs
          omega
      refine ⟨fun hs => ?_, fun _ => ⟨⟨hinv.inbound, by omega, ?_, ?_, ?_, ?_⟩, ?_, ?_⟩⟩
      · rw [hslot] at hs
        cases hs
      · intro _
        exact StdMap.find_erase_self _ _
      · intro _ h
        omega
      · intro _
        exact hinv.slot_none hslot
      · intro j hj
        rw [hslot] at hj
        cases hj
      · intro _
        refine ⟨TunnelMessageBlockEx.mk e.deliveryType e.hash e.tunnelID
          ((growFor P e.data d.bytes.length).concat
            d.bytes) e.nextFragmentNum,
          by rw [hinv.inbound], ?_, hdt, hhash, htid⟩
        simp only [I2NPMessage.concat, growFor_bytes, hbytes, List.append_assoc]
        rw [← hjoin, hl, joinBytes_take_all]
      · intro h
        omega
    · -- more fragments are expected: the entry is updated, then the table is drained
      rw [decide_eq_false hl]
      have hfeed : feed P ourHash ep
          (followOnFragment msgID next false d)
          = HandleOutOfSequenceFragment P ourHash
              (TunnelEndpoint.mk ep.m_IsInbound ep.m_NumReceivedBytes
                (StdMap.assign ep.m_IncompleteMessages msgID
                  (TunnelMessageBlockEx.mk e.deliveryType e.hash e.tunnelID
                    ((growFor P e.data d.bytes.length).concat
                      d.bytes) ((e.nextFragmentNum + 1) % 256)))
                ep.m_OutOfSequenceFragments) msgID
              (TunnelMessageBlockEx.mk e.deliveryType e.hash e.tunnelID
                ((growFor P e.data d.bytes.length).concat
                  d.bytes) ((e.nextFragmentNum + 1) % 256)) := by
        simp [feed, followOnFragment, dispatchFragment, hid, HandleFollowOnFragment, hfind,
          hnext, hcheck, I2NPMessage.GetLength, I2NPMessage.GetBuffer]
      rw [hfeed]
      have hd := drain_inv P ourHash isInbound msgID m0 ds
        (TunnelEndpoint.mk ep.m_IsInbound ep.m_NumReceivedBytes
          (StdMap.assign ep.m_IncompleteMessages msgID
            (TunnelMessageBlockEx.mk e.deliveryType e.hash e.tunnelID
              ((growFor P e.data d.bytes.length).concat
                d.bytes) ((e.nextFragmentNum + 1) % 256)))
          ep.m_OutOfSequenceFragments)
        (TunnelMessageBlockEx.mk e.deliveryType e.hash e.tunnelID
          ((growFor P e.data d.bytes.length).concat
            d.bytes) ((e.nextFragmentNum + 1) % 256))
        (next + 1) slot hlen (by omega) (by omega) hinv.inbound
        (StdMap.find_assign_self _ _ _)
        (by simp only [hnext]; omega)
        (by
          simp only [I2NPMessage.concat, growFor_bytes, hbytes, List.append_assoc,
            Nat.add_sub_cancel]
          rw [hjoin])
        (by
          have := growFor_offset_le P e.data d.bytes.length
          simp only [I2NPMessage.concat]
          omega)
        hdt hhash htid hinv.slot_none hss
      refine ⟨fun hs => ?_, fun hs => ?_⟩
      · exact hd.1 hs
      · obtain ⟨h1, h2⟩ := hd.2 hs
        exact ⟨h1, fun h => absurd h hl, fun _ => h2⟩

theorem arrivalOK_next_le (n : Nat) (order : List Nat) :
    ∀ (next : Nat) (slot : Option Nat), arrivalOK n next slot order = true → next ≤ n := by
  induction order with
  | nil =>
    intro next slot h
    simp only [arrivalOK, Bool.and_eq_true, decide_eq_true_eq] at h
    omega
  | cons k rest ih =>
    intro next slot h
    unfold arrivalOK at h
    split at h
    · split at h
      · have := ih _ _ h
        omega
      · have := ih _ _ h
        omega
    · split at h
      · exact ih _ _ h
      · cases h

theorem feedAll_cons (P : Params) (ourHash : List Nat) (ep : TunnelEndpoint) (f : FragmentInfo)
    (rest : List FragmentInfo) :
    feedAll P ourHash ep (f :: rest)
      = ((feedAll P ourHash (feed P ourHash ep f).1 rest).1,
         (feed P ourHash ep f).2 ++ (feedAll P ourHash (feed P ourHash ep f).1 rest).2) := rfl

theorem reassembly_main (P : Params) (ourHash : List Nat) (isInbound : Bool) (msgID : Nat)
    (m0 : TunnelMessageBlockEx) (ds : List I2NPMessage) (hid : msgID ≠ 0)
    (hlen : ds.length ≤ 63) (hne : ds ≠ [])
    (hsize : max m0.data.offset P.NEW_MESSAGE_OFFSET
      + (m0.data.bytes.length + (joinBytes ds).length) < P.I2NP_MAX_MESSAGE_SIZE)
    (order : List Nat) :
    ∀ (next : Nat) (slot : Option Nat) (ep : TunnelEndpoint),
      ReasmInv P isInbound msgID m0 ds ep next slot →
      arrivalOK (ds.length + 1) next slot order = true →
      ReasmInv P isInbound msgID m0 ds
        (feedAll P ourHash ep (order.map (fragmentOf msgID m0 ds))).1 (ds.length + 1) none ∧
      (next = ds.length + 1 →
        (feedAll P ourHash ep (order.map (fragmentOf msgID m0 ds))).2 = []) ∧
      (next ≤ ds.length →
        IsWhole isInbound ourHash m0 ds
          (feedAll P ourHash ep (order.map (fragmentOf msgID m0 ds))).2) := by
  induction order with
  | nil =>
    intro next slot ep hinv hok
    simp only [arrivalOK, Bool.and_eq_true, decide_eq_true_eq] at hok
    obtain ⟨h1, h2⟩ := hok
    subst h1 h2
    exact ⟨hinv, fun _ => rfl, fun h => by omega⟩
  | cons k rest ih =>
    intro next slot ep hinv hok
    rw [List.map_cons, feedAll_cons]
    unfold arrivalOK at hok
    split at hok
    · rename_i hk
      subst hk
      split at hok
      · rename_i hs
        have hle := arrivalOK_next_le _ _ _ _ hok
        obtain ⟨h1, h2, h3⟩ :=
          (step_inseq P ourHash isInbound msgID m0 ds ep k slot hid hlen hne hsize hinv
            (by omega)).1 hs
        obtain ⟨g1, g2, g3⟩ := ih _ _ _ h1 hok
        refine ⟨g1, fun h => by omega, fun _ => ?_⟩
        by_cases hc : k + 1 = ds.length
        · rw [g2 (by omega), List.append_nil]
          exact h2 hc
        · rw [h3 (by omega), List.nil_append]
          exact g3 (by omega)
      · rename_i hs
        have hle := arrivalOK_next_le _ _ _ _ hok
        obtain ⟨h1, h2, h3⟩ :=
          (step_inseq P ourHash isInbound msgID m0 ds ep k slot hid hlen hne hsize hinv
            (by omega)).2 hs
        obtain ⟨g1, g2, g3⟩ := ih _ _ _ h1 hok
        refine ⟨g1, fun h => by omega, fun _ => ?_⟩
        by_cases hc : k = ds.length
        · rw [g2 (by omega), List.append_nil]
          exact h2 hc
        · rw [h3 (by omega), List.nil_append]
          exact g3 (by omega)
    · split at hok
      · rename_i hk hc
        obtain ⟨c1, c2, c3⟩ := hc
        subst c3
        obtain ⟨h1, h2⟩ :=
          step_early P ourHash isInbound msgID m0 ds ep next k hid hinv c1 (by omega)
        obtain ⟨g1, _, g3⟩ := ih _ _ _ h1 hok
        refine ⟨g1, fun h => by omega, fun h => ?_⟩
        rw [h2, List.nil_append]
        exact g3 h
      · cases hok

/-- C6 as amended (out-of-order reassembly). A message with non-zero msgID is split into a
first fragment `m0` with the fragmented bit and follow-on fragments `ds` numbered 1, 2, ..,
the last one flagged last, at most 63 of them, of a total length below the I2NP maximum, and
neither table of the endpoint holds an entry for the msgID. For every arrival order of these
fragments in which each fragment arrives either as the next expected one or ahead of it while
no other fragment of the message waits out of sequence (`arrivalOK`), the endpoint hands
exactly one message to `HandleNextMessage`, after the last arrival, and its bytes are the
fragments in fragment-number order; both tables end without an entry for the msgID. -/
theorem reassembly_one_waiting (P : Params) (ourHash : List Nat) (ep : TunnelEndpoint)
    (msgID : Nat) (m0 : TunnelMessageBlockEx) (ds : List I2NPMessage) (order : List Nat)
    (hid : msgID ≠ 0) (hne : ds ≠ []) (hlen : ds.length ≤ 63)
    (hinc : StdMap.find ep.m_IncompleteMessages msgID = none)
    (hoos : StdMap.find ep.m_OutOfSequenceFragments msgID = none)
    (hsize : max m0.data.offset P.NEW_MESSAGE_OFFSET
      + (m0.data.bytes.length + (joinBytes ds).length) < P.I2NP_MAX_MESSAGE_SIZE)
    (hok : arrivalOK (ds.length + 1) 0 none order = true) :
    (∃ blk : TunnelMessageBlockEx,
      (feedAll P ourHash ep (order.map (fragmentOf msgID m0 ds))).2
        = [HandleNextMessage ep.m_IsInbound ourHash blk] ∧
      blk.data.bytes = m0.data.bytes ++ joinBytes ds ∧
      blk.deliveryType = m0.deliveryType ∧ blk.hash = m0.hash ∧
      blk.tunnelID = m0.tunnelID) ∧
    StdMap.find (feedAll P ourHash ep (order.map (fragmentOf msgID m0 ds))).1.m_IncompleteMessages
      msgID = none ∧
    StdMap.find
      (feedAll P ourHash ep (order.map (fragmentOf msgID m0 ds))).1.m_OutOfSequenceFragments
      msgID = none := by
  have hinv : ReasmInv P ep.m_IsInbound msgID m0 ds ep 0 none := by
    refine ⟨rfl, by omega, fun _ => hinc, fun h => by omega, fun _ => hoos, ?_⟩
    intro j hj
    cases hj
  obtain ⟨g1, _, g3⟩ :=
    reassembly_main P ourHash ep.m_IsInbound msgID m0 ds hid hlen hne hsize order 0 none ep
      hinv hok
  exact ⟨g3 (by omega), g1.inc_none (Or.inr rfl), g1.slot_none rfl⟩

/-- Every arrival order accepted by `arrivalOK` is a permutation of the fragment numbers. -/
theorem arrivalOK_perm (n : Nat) (order : List Nat) :
    ∀ (next : Nat) (slot : Option Nat), arrivalOK n next slot order = true →
      (List.range next ++ slot.toList ++ order).Perm (List.range n) := by
  induction order with
  | nil =>
    intro next slot h
    simp only [arrivalOK, Bool.and_eq_true, decide_eq_true_eq] at h
    obtain ⟨h1, h2⟩ := h
    subst h1 h2
    simp
  | cons k rest ih =>
    intro next slot h
    unfold arrivalOK at h
    split at h
    · rename_i hk
      subst hk
      split at h
      · rename_i hs
        subst hs
        have := ih _ _ h
        refine List.Perm.trans ?_ this
        simp only [List.range_succ, Option.toList, List.append_assoc, List.nil_append,
          List.singleton_append]
        refine List.Perm.append_left _ ?_
        exact List.Perm.swap _ _ _
      · have := ih _ _ h
        refine List.Perm.trans ?_ this
        simp only [List.range_succ, List.append_assoc, List.singleton_append]
        refine List.Perm.append_left _ ?_
        exact List.perm_middle
    · split at h
      · rename_i hc
        obtain ⟨_, _, c3⟩ := hc
        subst c3
        have := ih _ _ h
        simpa using this
      · cases h

/-- Counterexample to C6 as stated: the three fragments of a message arriving in the order
2, 1, 0 (a permutation of 0, 1, 2) are never reassembled: nothing is handed to
`HandleNextMessage`, fragment 1 is lost and the message stays incomplete. -/
theorem reassembly_order_2_1_0 :
    [2, 1, 0].Perm (List.range 3) ∧
    (feedAll exampleParams [] exampleEndpoint
      ([2, 1, 0].map
        (fragmentOf 7 (exampleBlock 1 10) [exampleData 1 11, exampleData 1 12]))).2 = [] ∧
    (StdMap.find (feedAll exampleParams [] exampleEndpoint
      ([2, 1, 0].map
        (fragmentOf 7 (exampleBlock 1 10)
          [exampleData 1 11, exampleData 1 12]))).1.m_IncompleteMessages 7).isSome = true := by
  refine ⟨by decide, by decide, by decide⟩

/-- Witness of C6 as amended: four fragments arriving in the order 2, 0, 1, 3. -/
theorem reassembly_one_waiting_witness :
    ∃ blk : TunnelMessageBlockEx,
      (feedAll exampleParams [] exampleEndpoint
        ([2, 0, 1, 3].map
          (fragmentOf 7 (exampleBlock 1 10)
            [exampleData 1 11, exampleData 1 12, exampleData 1 13]))).2
        = [HandleNextMessage true [] blk] ∧
      blk.data.bytes = [10, 11, 12, 13] :=
  (reassembly_one_waiting exampleParams [] exampleEndpoint 7 (exampleBlock 1 10)
    [exampleData 1 11, exampleData 1 12, exampleData 1 13] [2, 0, 1, 3]
    (by decide) (by decide) (by decide) rfl rfl (by decide) (by decide)).1.imp
    (fun _ h => ⟨h.1, h.2.1⟩)

/-! ## Checksum of a TunnelData message -/

theorem memchr0_some (l : List Nat) :
    ∀ (n z : Nat), memchr0 l n = some z →
      z < n ∧ l[z]? = some 0 ∧ ∀ i, i < z → l[i]? ≠ some 0 := by
  induction l with
  | nil =>
    intro n z h
    simp [memchr0] at h
  | cons b rest ih =>
    intro n z h
    cases n with
    | zero => simp [memchr0] at h
    | succ n =>
      unfold memchr0 at h
      split at h
      · rename_i hb
        cases h
        refine ⟨by omega, by simp [hb], ?_⟩
        intro i hi
        omega
      · rename_i hb
        cases hm : memchr0 rest n with
        | none => simp [hm] at h
        | some w =>
          simp only [hm, Option.map_some', Option.some.injEq] at h
          subst h
          obtain ⟨h1, h2, h3⟩ := ih n w hm
          refine ⟨by omega, by simpa using h2, ?_⟩
          intro i hi
          cases i with
          | zero => simpa using hb
          | succ j =>
            simpa using h3 j (by omega)

theorem memchr0_none (l : List Nat) :
    ∀ (n : Nat), memchr0 l n = none → ∀ i, i < n → l[i]? ≠ some 0 := by
  induction l with
  | nil =>
    intro n _ i _
    simp
  | cons b rest ih =>
    intro n h i hi
    cases n with
    | zero => omega
    | succ n =>
      unfold memchr0 at h
      split at h
      · cases h
      · rename_i hb
        cases hm : memchr0 rest n with
        | some w => simp [hm] at h
        | none =>
          cases i with
          | zero => simpa using hb
          | succ j => simpa using ih n hm j (by omega)

theorem memchr0_of_first (l : List Nat) :
    ∀ (n z : Nat), z < n → l[z]? = some 0 → (∀ i, i < z → l[i]? ≠ some 0) →
      memchr0 l n = some z := by
  intro n z hz h0 hbefore
  cases hm : memchr0 l n with
  | none => exact absurd h0 (memchr0_none l n hm z hz)
  | some w =>
    obtain ⟨_, h2, h3⟩ := memchr0_some l n w hm
    have h4 : ¬ w < z := fun h => hbefore w h h2
    have h5 : ¬ z < w := fun h => h3 z h h0
    have : w = z := by omega
    rw [this]

/-- C4 (checksum enforcement). With `region` the decrypted bytes after the 4-byte checksum:
if none of its first 1004 bytes is zero, or if the first zero is at index `z` and the first
four bytes of the SHA-256 of the bytes from just after that zero to the end of the 1028-byte
payload followed by the 16-byte IV differ from the checksum, then
`HandleDecryptedTunnelDataMsg` hands nothing to `HandleNextMessage` and leaves both tables as
they were; whenever it hands something over or changes a table, such a zero exists and the
checksum agrees. -/
theorem checksum_enforcement (P : Params) (sha256 : List Nat → List Nat) (ourHash : List Nat)
    (ep : TunnelEndpoint) (msg : I2NPMessage) :
    ((∀ i, i < TUNNEL_DATA_ENCRYPTED_SIZE - 4 → (msg.GetPayload.drop 24)[i]? ≠ some 0) →
      (HandleDecryptedTunnelDataMsg P sha256 ourHash ep msg).2 = [] ∧
      (HandleDecryptedTunnelDataMsg P sha256 ourHash ep msg).1.m_IncompleteMessages
        = ep.m_IncompleteMessages ∧
      (HandleDecryptedTunnelDataMsg P sha256 ourHash ep msg).1.m_OutOfSequenceFragments
        = ep.m_OutOfSequenceFragments) ∧
    (∀ z, z < TUNNEL_DATA_ENCRYPTED_SIZE - 4 → (msg.GetPayload.drop 24)[z]? = some 0 →
      (∀ i, i < z → (msg.GetPayload.drop 24)[i]? ≠ some 0) →
      (sha256 ((msg.GetPayload.drop (25 + z)).take (TUNNEL_DATA_MSG_SIZE - (25 + z))
          ++ (msg.GetPayload.drop 4).take 16)).take 4 ≠ (msg.GetPayload.drop 20).take 4 →
      (HandleDecryptedTunnelDataMsg P sha256 ourHash ep msg).2 = [] ∧
      (HandleDecryptedTunnelDataMsg P sha256 ourHash ep msg).1.m_IncompleteMessages
        = ep.m_IncompleteMessages ∧
      (HandleDecryptedTunnelDataMsg P sha256 ourHash ep msg).1.m_OutOfSequenceFragments
        = ep.m_OutOfSequenceFragments) ∧
    (((HandleDecryptedTunnelDataMsg P sha256 ourHash ep msg).2 ≠ [] ∨
      (HandleDecryptedTunnelDataMsg P sha256 ourHash ep msg).1.m_IncompleteMessages
        ≠ ep.m_IncompleteMessages ∨
      (HandleDecryptedTunnelDataMsg P sha256 ourHash ep msg).1.m_OutOfSequenceFragments
        ≠ ep.m_OutOfSequenceFragments) →
      ∃ z, z < TUNNEL_DATA_ENCRYPTED_SIZE - 4 ∧ (msg.GetPayload.drop 24)[z]? = some 0 ∧
        (∀ i, i < z → (msg.GetPayload.drop 24)[i]? ≠ some 0) ∧
        (sha256 ((msg.GetPayload.drop (25 + z)).take (TUNNEL_DATA_MSG_SIZE - (25 + z))
            ++ (msg.GetPayload.drop 4).take 16)).take 4 = (msg.GetPayload.drop 20).take 4) := by
  have hdrop : (msg.GetPayload.drop 20).drop 4 = msg.GetPayload.drop 24 := by
    rw [List.drop_drop]
  refine ⟨?_, ?_, ?_⟩
  · intro hno
    have hm : memchr0 (msg.GetPayload.drop 24) (TUNNEL_DATA_ENCRYPTED_SIZE - 4) = none := by
      cases h : memchr0 (msg.GetPayload.drop 24) (TUNNEL_DATA_ENCRYPTED_SIZE - 4) with
      | none => rfl
      | some w =>
        obtain ⟨h1, h2, _⟩ := memchr0_some _ _ _ h
        exact absurd h2 (hno w h1)
    refine ⟨?_, ?_, ?_⟩ <;> simp [HandleDecryptedTunnelDataMsg, hdrop, hm]
  · intro z hz h0 hbefore hck
    have hm := memchr0_of_first _ _ _ hz h0 hbefore
    have e : 20 + 4 + z + 1 = 25 + z := by omega
    refine ⟨?_, ?_, ?_⟩ <;> simp [HandleDecryptedTunnelDataMsg, hdrop, hm, e, hck]
  · intro hch
    cases hm : memchr0 (msg.GetPayload.drop 24) (TUNNEL_DATA_ENCRYPTED_SIZE - 4) with
    | none =>
      exfalso
      simp only [HandleDecryptedTunnelDataMsg, hdrop, hm] at hch
      simp at hch
    | some z =>
      obtain ⟨h1, h2, h3⟩ := memchr0_some _ _ _ hm
      refine ⟨z, h1, h2, h3, ?_⟩
      by_contra hck
      have e : 20 + 4 + z + 1 = 25 + z := by omega
      simp only [HandleDecryptedTunnelDataMsg, hdrop, hm, e, ne_eq, hck, not_false_eq_true,
        if_true] at hch
      simp at hch

/-- The example TunnelData message passes the checksum and its message is handed over. -/
theorem HandleDecryptedTunnelDataMsg_example (ourHash : List Nat) (ep : TunnelEndpoint) :
    HandleDecryptedTunnelDataMsg exampleParams exampleSha256 ourHash ep exampleTunnelData
      = (TunnelEndpoint.mk ep.m_IsInbound (ep.m_NumReceivedBytes + 1028)
          ep.m_IncompleteMessages ep.m_OutOfSequenceFragments,
         [HandleNextMessage ep.m_IsInbound ourHash
           (TunnelMessageBlockEx.mk 0 [] 0
             (I2NPMessage.mk 46 4096 (List.replicate 1000 5) none) 0)]) := by
  have key : ∀ r : List Nat, r.length = 1000 → r.sum % 256 = 136 →
      HandleDecryptedTunnelDataMsg exampleParams exampleSha256 ourHash ep
        (I2NPMessage.mk 2 4096 ([0, 0, 0, 0, 0, 0, 0, 0, 0, 0, 0, 0, 0, 0, 0, 0,
          0, 0, 0, 0, 0, 0, 0, 0, 0, 0, 0, 0, 0, 0, 0, 0, 0, 0, 0, 0,
          115, 115, 115, 115, 0, 0, 3, 232] ++ r) none)
      = (TunnelEndpoint.mk ep.m_IsInbound (ep.m_NumReceivedBytes + 1028)
          ep.m_IncompleteMessages ep.m_OutOfSequenceFragments,
         [HandleNextMessage ep.m_IsInbound ourHash
           (TunnelMessageBlockEx.mk 0 [] 0 (I2NPMessage.mk 46 4096 r none) 0)]) := by
    intro r hr hs
    have h1 : r.take 1000 = r := List.take_of_length_le (by omega)
    have h2 : r.take 1003 = r := List.take_of_length_le (by omega)
    simp [HandleDecryptedTunnelDataMsg, I2NPMessage.GetPayload, I2NP_HEADER_SIZE, memchr0,
      TUNNEL_DATA_ENCRYPTED_SIZE, TUNNEL_DATA_MSG_SIZE, exampleSha256, handleFragments,
      readFragment, dispatchFragment, bufbe16toh, fixed, h1, h2, hr, eDeliveryTypeTunnel,
      eDeliveryTypeRouter]
    omega
  exact key (List.replicate 1000 5) (by simp only [List.length_replicate])
    (by simp only [List.sum_replicate, smul_eq_mul])

/-- Witness of C4: the example message is handed over, so its region has a first zero after
which the checksum agrees. -/
theorem checksum_enforcement_witness :
    ∃ z, z < TUNNEL_DATA_ENCRYPTED_SIZE - 4 ∧
      (exampleTunnelData.GetPayload.drop 24)[z]? = some 0 ∧
      (∀ i, i < z → (exampleTunnelData.GetPayload.drop 24)[i]? ≠ some 0) ∧
      (exampleSha256
        ((exampleTunnelData.GetPayload.drop (25 + z)).take (TUNNEL_DATA_MSG_SIZE - (25 + z))
          ++ (exampleTunnelData.GetPayload.drop 4).take 16)).take 4
        = (exampleTunnelData.GetPayload.drop 20).take 4 :=
  (checksum_enforcement exampleParams exampleSha256 [] exampleEndpoint exampleTunnelData).2.2
    (Or.inl (by rw [HandleDecryptedTunnelDataMsg_example]; exact List.cons_ne_nil _ _))

/-! ## Size of a reassembled message -/

/-- C8 (reassembly size bound), the code on the two paths. The entry `e` of the incomplete
table expects fragment `k`, fragment `k + 1` waits out of sequence, and fragment `k` arrives.
If `e.data.len` plus its size reaches `I2NP_MAX_MESSAGE_SIZE`, the in-sequence path removes
the entry and joins nothing. Otherwise the fragment is joined and then the waiting fragment
is joined as well by `HandleOutOfSequenceFragment`, which makes no test against
`I2NP_MAX_MESSAGE_SIZE`: the entry stays in the table with the bytes of all three, whatever
their total length. -/
theorem drain_without_size_check (P : Params) (ourHash : List Nat) (ep : TunnelEndpoint)
    (msgID k : Nat) (e : TunnelMessageBlockEx) (d1 d2 : I2NPMessage)
    (hid : msgID ≠ 0)
    (hfind : StdMap.find ep.m_IncompleteMessages msgID = some e)
    (hk : e.nextFragmentNum = k)
    (hoos : StdMap.find ep.m_OutOfSequenceFragments msgID
      = some (Fragment.mk ((k + 1) % 256) false d2)) :
    (P.I2NP_MAX_MESSAGE_SIZE ≤ e.data.len + d1.bytes.length →
      (feed P ourHash ep (followOnFragment msgID k false d1)).2 = [] ∧
      StdMap.find (feed P ourHash ep (followOnFragment msgID k false d1)).1.m_IncompleteMessages
        msgID = none) ∧
    (e.data.len + d1.bytes.length < P.I2NP_MAX_MESSAGE_SIZE →
      (feed P ourHash ep (followOnFragment msgID k false d1)).2 = [] ∧
      ∃ e', StdMap.find
          (feed P ourHash ep (followOnFragment msgID k false d1)).1.m_IncompleteMessages msgID
          = some e' ∧
        e'.data.bytes = e.data.bytes ++ d1.bytes ++ d2.bytes ∧
        e'.data.GetLength = e.data.bytes.length + d1.bytes.length + d2.bytes.length) := by
  constructor
  · intro hbig
    have hnot : ¬ e.data.len + d1.bytes.length < P.I2NP_MAX_MESSAGE_SIZE := by omega
    have hfeed : feed P ourHash ep (followOnFragment msgID k false d1)
        = (TunnelEndpoint.mk ep.m_IsInbound ep.m_NumReceivedBytes
            (StdMap.erase ep.m_IncompleteMessages msgID) ep.m_OutOfSequenceFragments, []) := by
      simp [feed, followOnFragment, dispatchFragment, hid, HandleFollowOnFragment, hfind, hk,
        hnot, I2NPMessage.GetLength]
    rw [hfeed]
    exact ⟨rfl, StdMap.find_erase_self _ _⟩
  · intro hsmall
    have hfeed : feed P ourHash ep (followOnFragment msgID k false d1)
        = HandleOutOfSequenceFragment P ourHash
            (TunnelEndpoint.mk ep.m_IsInbound ep.m_NumReceivedBytes
              (StdMap.assign ep.m_IncompleteMessages msgID
                (TunnelMessageBlockEx.mk e.deliveryType e.hash e.tunnelID
                  ((growFor P e.data d1.bytes.length).concat d1.bytes)
                  ((e.nextFragmentNum + 1) % 256)))
              ep.m_OutOfSequenceFragments) msgID
            (TunnelMessageBlockEx.mk e.deliveryType e.hash e.tunnelID
              ((growFor P e.data d1.bytes.length).concat d1.bytes)
              ((e.nextFragmentNum + 1) % 256)) := by
      simp [feed, followOnFragment, dispatchFragment, hid, HandleFollowOnFragment, hfind, hk,
        hsmall, I2NPMessage.GetLength, I2NPMessage.GetBuffer]
    rw [hfeed, HandleOutOfSequenceFragment_more P ourHash
      (TunnelEndpoint.mk ep.m_IsInbound ep.m_NumReceivedBytes
        (StdMap.assign ep.m_IncompleteMessages msgID
          (TunnelMessageBlockEx.mk e.deliveryType e.hash e.tunnelID
            ((growFor P e.data d1.bytes.length).concat d1.bytes)
            ((e.nextFragmentNum + 1) % 256)))
        ep.m_OutOfSequenceFragments) msgID
      (TunnelMessageBlockEx.mk e.deliveryType e.hash e.tunnelID
        ((growFor P e.data d1.bytes.length).concat d1.bytes)
        ((e.nextFragmentNum + 1) % 256))
      (Fragment.mk ((k + 1) % 256) false d2) hoos (by simp [hk]) rfl]
    refine ⟨rfl, _, StdMap.find_assign_self _ _ _, ?_, ?_⟩
    · simp [I2NPMessage.concat, growFor_bytes]
    · simp [I2NPMessage.concat, growFor_bytes, I2NPMessage.GetLength, Nat.add_assoc]

/-- Witness of C8: with `I2NP_MAX_MESSAGE_SIZE` scaled down to 64, an entry of 40 bytes
expecting fragment 2 and fragment 3 (20 bytes) waiting, fragment 2 (10 bytes) passes the test
of the in-sequence path and the entry ends with 70 bytes, above the maximum. -/
theorem drain_without_size_check_witness :
    ∃ e', StdMap.find
        (feed smallParams [] exampleEndpointNearMax
          (followOnFragment 7 2 false (exampleData 10 2))).1.m_IncompleteMessages 7 = some e' ∧
      e'.data.GetLength = 70 ∧ smallParams.I2NP_MAX_MESSAGE_SIZE = 64 :=
  (((drain_without_size_check smallParams [] exampleEndpointNearMax 7 2
      { data := exampleData 40 1, nextFragmentNum := 2 } (exampleData 10 2)
      (exampleData 20 3) (by decide) rfl rfl rfl).2 (by decide)).2).imp
    (fun _ h => ⟨h.1, h.2.2, rfl⟩)

/-! ## Duplicates -/

theorem HandleOutOfSequenceFragment_cases (P : Params) (ourHash : List Nat)
    (ep : TunnelEndpoint) (msgID : Nat) (msg : TunnelMessageBlockEx) :
    HandleOutOfSequenceFragment P ourHash ep msgID msg = (ep, []) ∨
    ((HandleOutOfSequenceFragment P ourHash ep msgID msg).1.m_IncompleteMessages
        = StdMap.erase ep.m_IncompleteMessages msgID ∧
      (HandleOutOfSequenceFragment P ourHash ep msgID msg).1.m_OutOfSequenceFragments
        = StdMap.erase ep.m_OutOfSequenceFragments msgID) ∨
    ((HandleOutOfSequenceFragment P ourHash ep msgID msg).2 = [] ∧
      ∃ d, (HandleOutOfSequenceFragment P ourHash ep msgID msg).1.m_IncompleteMessages
        = StdMap.assign ep.m_IncompleteMessages msgID
            (TunnelMessageBlockEx.mk msg.deliveryType msg.hash msg.tunnelID d
              ((msg.nextFragmentNum + 1) % 256))) := by
  cases hf : StdMap.find ep.m_OutOfSequenceFragments msgID with
  | none => exact Or.inl (HandleOutOfSequenceFragment_none P ourHash ep msgID msg hf)
  | some f =>
    by_cases hn : f.fragmentNum = msg.nextFragmentNum
    · cases hl : f.isLastFragment with
      | true =>
        rw [HandleOutOfSequenceFragment_last P ourHash ep msgID msg f hf hn hl]
        exact Or.inr (Or.inl ⟨rfl, rfl⟩)
      | false =>
        rw [HandleOutOfSequenceFragment_more P ourHash ep msgID msg f hf hn hl]
        exact Or.inr (Or.inr ⟨rfl, _, rfl⟩)
    · exact Or.inl (HandleOutOfSequenceFragment_ne P ourHash ep msgID msg f hf hn)

theorem AddOutOfSequenceFragment_incomplete (ep : TunnelEndpoint) (msgID fragmentNum : Nat)
    (isLast : Bool) (data : I2NPMessage) :
    (AddOutOfSequenceFragment ep msgID fragmentNum isLast data).m_IncompleteMessages
      = ep.m_IncompleteMessages := by
  unfold AddOutOfSequenceFragment
  split <;> rfl

theorem HandleFollowOnFragment_next_ne (P : Params) (ourHash : List Nat) (ep : TunnelEndpoint)
    (msgID : Nat) (isLast : Bool) (m : TunnelMessageBlockEx) :
    ∀ e', StdMap.find (HandleFollowOnFragment P ourHash ep msgID isLast m).1.m_IncompleteMessages
        msgID = some e' → m.nextFragmentNum ≠ e'.nextFragmentNum := by
  intro e' he'
  unfold HandleFollowOnFragment at he'
  simp only at he'
  split at he'
  · rename_i e hfind
    split at he'
    · rename_i hnext
      split at he'
      · split at he'
        · simp [StdMap.find_erase_self] at he'
        · rcases HandleOutOfSequenceFragment_cases P ourHash
            (TunnelEndpoint.mk ep.m_IsInbound ep.m_NumReceivedBytes
              (StdMap.assign ep.m_IncompleteMessages msgID
                (TunnelMessageBlockEx.mk e.deliveryType e.hash e.tunnelID
                  ((growFor P e.data m.data.GetLength).concat
                    (m.data.GetBuffer.take m.data.GetLength))
                  ((e.nextFragmentNum + 1) % 256)))
              ep.m_OutOfSequenceFragments) msgID
            (TunnelMessageBlockEx.mk e.deliveryType e.hash e.tunnelID
              ((growFor P e.data m.data.GetLength).concat
                (m.data.GetBuffer.take m.data.GetLength))
              ((e.nextFragmentNum + 1) % 256)) with h | h | h
          · rw [h] at he'
            simp only [StdMap.find_assign_self, Option.some.injEq] at he'
            subst he'
            simp only
            omega
          · rw [h.1] at he'
            simp [StdMap.find_erase_self] at he'
          · obtain ⟨_, d, hd⟩ := h
            rw [hd] at he'
            simp only [StdMap.find_assign_self, Option.some.injEq] at he'
            subst he'
            simp only
            omega
      · simp [StdMap.find_erase_self] at he'
    · rename_i hnext
      rw [AddOutOfSequenceFragment_incomplete, hfind] at he'
      cases he'
      exact hnext
  · rename_i hfind
    rw [AddOutOfSequenceFragment_incomplete, hfind] at he'
    cases he'

theorem HandleFollowOnFragment_no_match (P : Params) (ourHash : List Nat) (ep : TunnelEndpoint)
    (msgID : Nat) (isLast : Bool) (m : TunnelMessageBlockEx)
    (h : ∀ e, StdMap.find ep.m_IncompleteMessages msgID = some e →
      m.nextFragmentNum ≠ e.nextFragmentNum) :
    HandleFollowOnFragment P ourHash ep msgID isLast m
      = (AddOutOfSequenceFragment ep msgID m.nextFragmentNum isLast m.data, []) := by
  unfold HandleFollowOnFragment
  simp only
  split
  · rename_i e hfind
    simp [h e hfind]
  · rfl

/-- C9 as amended (duplicates). A fragment of a fragmented message (a follow-on fragment, or a
first fragment with the fragmented bit) fed a second time right after the first feed is never
handed to `HandleNextMessage` by the second feed. A duplicate follow-on fragment leaves the
incomplete table as it is (it is at most stored in the out-of-sequence table); a duplicate
first fragment whose entry is still in the incomplete table leaves the whole state as it is.
Nothing is said of unfragmented messages, which are handed over on every feed. -/
theorem duplicate_fragment (P : Params) (ourHash : List Nat) (ep : TunnelEndpoint)
    (f : FragmentInfo) (hfrag : f.isFollowOnFragment = true ∨ f.isLastFragment = false) :
    (feed P ourHash (feed P ourHash ep f).1 f).2 = [] ∧
    (f.isFollowOnFragment = true →
      (feed P ourHash (feed P ourHash ep f).1 f).1.m_IncompleteMessages
        = (feed P ourHash ep f).1.m_IncompleteMessages) ∧
    (f.isFollowOnFragment = false →
      (StdMap.find (feed P ourHash ep f).1.m_IncompleteMessages f.msgID).isSome = true →
      feed P ourHash (feed P ourHash ep f).1 f = ((feed P ourHash ep f).1, [])) := by
  obtain ⟨fo, la, msgID, num, m, nx⟩ := f
  simp only at hfrag
  by_cases hid : msgID = 0
  · -- a fragmented message without msgID is dropped both times
    subst hid
    have h1 : ∀ ep', feed P ourHash ep' (FragmentInfo.mk fo la 0 num m nx) = (ep', []) := by
      intro ep'
      rcases hfrag with h | h <;> simp [feed, dispatchFragment, h]
    rw [h1, h1]
    exact ⟨rfl, fun _ => rfl, fun _ _ => rfl⟩
  cases fo with
  | true =>
    -- follow-on fragment
    have hfeed : ∀ ep', feed P ourHash ep' (FragmentInfo.mk true la msgID num m nx)
        = HandleFollowOnFragment P ourHash ep' msgID la
            (TunnelMessageBlockEx.mk m.deliveryType m.hash m.tunnelID m.data num) := by
      intro ep'
      simp [feed, dispatchFragment, hid]
    rw [hfeed, hfeed]
    have hne := HandleFollowOnFragment_next_ne P ourHash ep msgID la
      (TunnelMessageBlockEx.mk m.deliveryType m.hash m.tunnelID m.data num)
    rw [HandleFollowOnFragment_no_match P ourHash _ msgID la _ hne]
    exact ⟨rfl, fun _ => AddOutOfSequenceFragment_incomplete _ _ _ _ _, fun h => by cases h⟩
  | false =>
    -- first fragment with the fragmented bit
    have hla : la = false := by
      rcases hfrag with h | h
      · cases h
      · exact h
    subst hla
    have hsome : ∀ ep' e, StdMap.find ep'.m_IncompleteMessages msgID = some e →
        feed P ourHash ep' (FragmentInfo.mk false false msgID num m nx) = (ep', []) := by
      intro ep' e he
      simp [feed, dispatchFragment, hid, he]
    have hnone : ∀ ep', StdMap.find ep'.m_IncompleteMessages msgID = none →
        feed P ourHash ep' (FragmentInfo.mk false false msgID num m nx)
          = HandleOutOfSequenceFragment P ourHash
              (TunnelEndpoint.mk ep'.m_IsInbound ep'.m_NumReceivedBytes
                (StdMap.insert ep'.m_IncompleteMessages msgID
                  (TunnelMessageBlockEx.mk m.deliveryType m.hash m.tunnelID m.data 1))
                ep'.m_OutOfSequenceFragments) msgID
              (TunnelMessageBlockEx.mk m.deliveryType m.hash m.tunnelID m.data 1) := by
      intro ep' he
      simp [feed, dispatchFragment, hid, he]
    have hlast : ∀ s1 : TunnelEndpoint,
        (∀ e, StdMap.find s1.m_IncompleteMessages msgID = some e →
          feed P ourHash s1 (FragmentInfo.mk false false msgID num m nx) = (s1, [])) →
        (StdMap.find s1.m_IncompleteMessages msgID).isSome = true →
        feed P ourHash s1 (FragmentInfo.mk false false msgID num m nx) = (s1, []) := by
      intro s1 h hs
      cases hc : StdMap.find s1.m_IncompleteMessages msgID with
      | none => simp [hc] at hs
      | some e => exact h e hc
    cases hinc : StdMap.find ep.m_IncompleteMessages msgID with
    | some e =>
      rw [hsome ep e hinc, hsome ep e hinc]
      exact ⟨rfl, (fun h => by cases h), fun _ _ => rfl⟩
    | none =>
      refine ⟨?_, (fun h => by cases h), fun _ hs => hlast _ (fun e he => hsome _ e he) hs⟩
      rw [hnone ep hinc]
      have hc := HandleOutOfSequenceFragment_cases P ourHash
        (TunnelEndpoint.mk ep.m_IsInbound ep.m_NumReceivedBytes
          (StdMap.insert ep.m_IncompleteMessages msgID
            (TunnelMessageBlockEx.mk m.deliveryType m.hash m.tunnelID m.data 1))
          ep.m_OutOfSequenceFragments) msgID
        (TunnelMessageBlockEx.mk m.deliveryType m.hash m.tunnelID m.data 1)
      generalize HandleOutOfSequenceFragment P ourHash
        (TunnelEndpoint.mk ep.m_IsInbound ep.m_NumReceivedBytes
          (StdMap.insert ep.m_IncompleteMessages msgID
            (TunnelMessageBlockEx.mk m.deliveryType m.hash m.tunnelID m.data 1))
          ep.m_OutOfSequenceFragments) msgID
        (TunnelMessageBlockEx.mk m.deliveryType m.hash m.tunnelID m.data 1) = r at hc ⊢
      rcases hc with h | h | h
      · subst h
        rw [hsome _ _ (StdMap.find_insert_self _ _ hinc)]
      · obtain ⟨h1, h2⟩ := h
        have g1 : StdMap.find r.1.m_IncompleteMessages msgID = none := by
          rw [h1]
          exact StdMap.find_erase_self _ _
        have g2 : StdMap.find r.1.m_OutOfSequenceFragments msgID = none := by
          rw [h2]
          exact StdMap.find_erase_self _ _
        rw [hnone r.1 g1, HandleOutOfSequenceFragment_none P ourHash
          (TunnelEndpoint.mk r.1.m_IsInbound r.1.m_NumReceivedBytes
            (StdMap.insert r.1.m_IncompleteMessages msgID
              (TunnelMessageBlockEx.mk m.deliveryType m.hash m.tunnelID m.data 1))
            r.1.m_OutOfSequenceFragments) msgID _ g2]
      · obtain ⟨_, d, hd⟩ := h
        have g1 : StdMap.find r.1.m_IncompleteMessages msgID
            = some (TunnelMessageBlockEx.mk m.deliveryType m.hash m.tunnelID d
              ((1 + 1) % 256)) := by
          rw [hd]
          exact StdMap.find_assign_self _ _ _
        rw [hsome r.1 _ g1]

/-- Witness of C9 as amended: a follow-on fragment fed twice is not handed over by the second
feed. -/
theorem duplicate_fragment_witness :
    (feed exampleParams [] (feed exampleParams [] exampleEndpoint
        (followOnFragment 7 1 false (exampleData 1 11))).1
      (followOnFragment 7 1 false (exampleData 1 11))).2 = [] :=
  (duplicate_fragment exampleParams [] exampleEndpoint
    (followOnFragment 7 1 false (exampleData 1 11)) (Or.inl rfl)).1

/-- Counterexample to C9 as stated. The example TunnelData message, which carries one
unfragmented message, is fed twice to `HandleDecryptedTunnelDataMsg`: the first feed hands the
message to `HandleNextMessage` (it is completed and dispatched) and the second feed hands the
same message over again. And a duplicate arriving while the message is incomplete changes the
eventual dispatches: the fragments 0, 1, 3, 2 of a four-fragment message are reassembled, but
with fragment 1 fed twice (0, 1, 1, 3, 2) the duplicate takes the out-of-sequence slot,
fragment 3 is lost and nothing is ever dispatched. -/
theorem duplicate_redelivered :
    (HandleDecryptedTunnelDataMsg exampleParams exampleSha256 [] exampleEndpoint
        exampleTunnelData).2
      = [HandleNextMessage true []
          (TunnelMessageBlockEx.mk 0 [] 0
            (I2NPMessage.mk 46 4096 (List.replicate 1000 5) none) 0)] ∧
    (HandleDecryptedTunnelDataMsg exampleParams exampleSha256 []
        (HandleDecryptedTunnelDataMsg exampleParams exampleSha256 [] exampleEndpoint
          exampleTunnelData).1 exampleTunnelData).2
      = [HandleNextMessage true []
          (TunnelMessageBlockEx.mk 0 [] 0
            (I2NPMessage.mk 46 4096 (List.replicate 1000 5) none) 0)] ∧
    (feedAll exampleParams [] exampleEndpoint
      ([0, 1, 3, 2].map
        (fragmentOf 7 (exampleBlock 1 10)
          [exampleData 1 11, exampleData 1 12, exampleData 1 13]))).2
      = [Effect.handleI2NPMessage (I2NPMessage.mk 2 4096 [10, 11, 12, 13] none)] ∧
    (feedAll exampleParams [] exampleEndpoint
      ([0, 1, 1, 3, 2].map
        (fragmentOf 7 (exampleBlock 1 10)
          [exampleData 1 11, exampleData 1 12, exampleData 1 13]))).2 = [] := by
  refine ⟨?_, ?_, by decide, by decide⟩
  · rw [HandleDecryptedTunnelDataMsg_example]
    rfl
  · rw [HandleDecryptedTunnelDataMsg_example, HandleDecryptedTunnelDataMsg_example]
    rfl

/-! ## Lemmas on bytes -/

theorem fixed_length (n : Nat) (l : List Nat) : (fixed n l).length = n := by
  simp only [fixed, List.length_append, List.length_take, List.length_replicate]
  omega

theorem fixed_of_length (n : Nat) (l : List Nat) (h : l.length = n) : fixed n l = l := by
  simp [fixed, h]

theorem fixed_append (l r : List Nat) : fixed l.length (l ++ r) = l := by
  simp [fixed]

theorem fixed_append_of_length (n : Nat) (l r : List Nat) (h : l.length = n) :
    fixed n (l ++ r) = l := by
  subst h
  exact fixed_append l r

theorem fixed_fixed (n : Nat) (l : List Nat) : fixed n (fixed n l) = fixed n l :=
  fixed_of_length n _ (fixed_length n l)

theorem htobe16buf_length (n : Nat) : (htobe16buf n).length = 2 := rfl

theorem htobe32buf_length (n : Nat) : (htobe32buf n).length = 4 := rfl

theorem htobe64buf_length (n : Nat) : (htobe64buf n).length = 8 := rfl

theorem bufbe16toh_htobe16buf (n : Nat) (rest : List Nat) :
    bufbe16toh (htobe16buf n ++ rest) = n % 65536 := by
  simp only [bufbe16toh, htobe16buf, List.cons_append, List.nil_append, List.getD_cons_zero,
    List.getD_cons_succ]
  omega

theorem bufbe32toh_htobe32buf (n : Nat) (rest : List Nat) :
    bufbe32toh (htobe32buf n ++ rest) = n % 4294967296 := by
  simp only [bufbe32toh, htobe32buf, List.cons_append, List.nil_append, List.getD_cons_zero,
    List.getD_cons_succ]
  omega

theorem drop_length_append (l r : List Nat) : (l ++ r).drop l.length = r := by
  simp

theorem drop_append_of_length (n : Nat) (l r : List Nat) (h : l.length = n) :
    (l ++ r).drop n = r := by
  subst h
  simp

theorem drop_add_append (l r : List Nat) (k : Nat) : (l ++ r).drop (l.length + k) = r.drop k := by
  rw [← List.drop_drop, drop_length_append]

theorem getD_length_append (l r : List Nat) (d : Nat) : (l ++ r).getD l.length d = r.getD 0 d := by
  simp [List.getD_eq_getElem?_getD, List.getElem?_append_right]

/-! ## Outbound tag selection -/

theorem selectTag_first (P : Params) (ts : Nat) (expired rest : List SessionTag)
    (T : SessionTag)
    (hexp : ∀ t ∈ expired, t.creationTime + P.OUTGOING_TAGS_EXPIRATION_TIMEOUT ≤ ts)
    (hT : ts < T.creationTime + P.OUTGOING_TAGS_EXPIRATION_TIMEOUT) :
    selectTag P ts (expired ++ T :: rest) = (some T, rest) := by
  induction expired with
  | nil => simp [selectTag, hT]
  | cons t tl ih =>
    have h1 : ¬ ts < t.creationTime + P.OUTGOING_TAGS_EXPIRATION_TIMEOUT := by
      have := hexp t (List.mem_cons_self _ _)
      omega
    simp only [List.cons_append, selectTag, h1, if_false]
    exact ih (fun x hx => hexp x (List.mem_cons_of_mem _ hx))

theorem selectTag_none (P : Params) (ts : Nat) (pool : List SessionTag)
    (hexp : ∀ t ∈ pool, t.creationTime + P.OUTGOING_TAGS_EXPIRATION_TIMEOUT ≤ ts) :
    selectTag P ts pool = (none, []) := by
  induction pool with
  | nil => rfl
  | cons t tl ih =>
    have h1 : ¬ ts < t.creationTime + P.OUTGOING_TAGS_EXPIRATION_TIMEOUT := by
      have := hexp t (List.mem_cons_self _ _)
      omega
    simp only [selectTag, h1, if_false]
    exact ih (fun x hx => hexp x (List.mem_cons_of_mem _ hx))

theorem CreateDeliveryStatusClove_session (P : Params) (C : Crypto) (now : Env)
    (wrap : List Nat → GarlicRoutingSession → I2NPMessage → Option WrapResult)
    (rnd : List Nat) (s : GarlicRoutingSession) (owner : Option GarlicDestination)
    (msgID : Nat) (b : Built)
    (h : CreateDeliveryStatusClove P C now wrap rnd s owner msgID = some b) :
    b.session = s := by
  unfold CreateDeliveryStatusClove at h
  split at h
  · cases h
    rfl
  · split at h
    · cases h
      rfl
    · simp only at h
      split at h
      · cases h
      · split at h
        · cases h
        · cases h
          rfl

theorem resubmitLeaseSet_tags (P : Params) (now : Env) (s : GarlicRoutingSession) :
    (resubmitLeaseSet P now s).m_SessionTags = s.m_SessionTags := by
  unfold resubmitLeaseSet
  split <;> rfl

theorem deliveryStatusAttached_tags (b : Built) (msgID : Nat)
    (newTags : Option UnconfirmedTags) :
    (deliveryStatusAttached b msgID newTags).session.m_SessionTags
      = b.session.m_SessionTags := by
  cases newTags <;> rfl

theorem attachDeliveryStatus_tags (P : Params) (C : Crypto) (now : Env)
    (wrap : List Nat → GarlicRoutingSession → I2NPMessage → Option WrapResult)
    (rnd : List Nat) (s : GarlicRoutingSession) (o : GarlicDestination) (msgID : Nat)
    (newTags : Option UnconfirmedTags) (b : Built) (n : Nat)
    (h : attachDeliveryStatus P C now wrap rnd s o msgID newTags = some (b, n)) :
    b.session.m_SessionTags = s.m_SessionTags := by
  unfold attachDeliveryStatus at h
  split at h
  · split at h
    · cases h
    · rename_i b0 hb0
      have e0 := CreateDeliveryStatusClove_session _ _ _ _ _ _ _ _ _ hb0
      split at h
      · cases h
        rw [deliveryStatusAttached_tags, e0]
      · cases h
        rw [e0]
  · cases h
    rfl

theorem attachLeaseSet_tags (P : Params) (C : Crypto) (now : Env) (o : GarlicDestination)
    (msgID : Nat) (b : Built) (n : Nat) (b1 : Built) (n1 : Nat)
    (h : attachLeaseSet P C now o msgID b n = some (b1, n1)) :
    b1.session.m_SessionTags = b.session.m_SessionTags := by
  unfold attachLeaseSet at h
  split at h
  · simp only at h
    split at h
    · cases h
    · cases h
      rfl
  · cases h
    rfl

theorem ownerCloves_tags (P : Params) (C : Crypto) (now : Env)
    (wrap : List Nat → GarlicRoutingSession → I2NPMessage → Option WrapResult)
    (rnd : List Nat) (s : GarlicRoutingSession) (o : GarlicDestination) (msgID : Nat)
    (newTags : Option UnconfirmedTags) (b : Built) (n : Nat)
    (h : ownerCloves P C now wrap rnd s o msgID newTags = some (b, n)) :
    b.session.m_SessionTags = s.m_SessionTags := by
  unfold ownerCloves at h
  split at h
  · cases h
  · rename_i b1 n1 h1
    rw [attachLeaseSet_tags _ _ _ _ _ _ _ _ _ h, attachDeliveryStatus_tags _ _ _ _ _ _ _ _ _ _ _ h1,
      resubmitLeaseSet_tags]

theorem CreateGarlicPayload_tags (P : Params) (C : Crypto) (now : Env)
    (wrap : List Nat → GarlicRoutingSession → I2NPMessage → Option WrapResult)
    (rnd : List Nat) (s : GarlicRoutingSession) (owner : Option GarlicDestination)
    (msg : Option I2NPMessage) (newTags : Option UnconfirmedTags) (b : Built)
    (h : CreateGarlicPayload P C now wrap rnd s owner msg newTags = some b) :
    b.session.m_SessionTags = s.m_SessionTags := by
  unfold CreateGarlicPayload at h
  simp only at h
  cases owner with
  | none =>
    simp only at h
    cases h
    rfl
  | some o =>
    simp only at h
    split at h
    · cases h
    · rename_i b1 n1 h1
      cases h
      exact ownerCloves_tags _ _ _ _ _ _ _ _ _ b1 n1 h1

theorem CreateAESBlock_tags (P : Params) (C : Crypto) (now : Env)
    (wrap : List Nat → GarlicRoutingSession → I2NPMessage → Option WrapResult)
    (rnd : List Nat) (s : GarlicRoutingSession) (owner : Option GarlicDestination)
    (msg : Option I2NPMessage) (iv : List Nat) (b : Built)
    (h : CreateAESBlock P C now wrap rnd s owner msg iv = some b) :
    b.session.m_SessionTags = s.m_SessionTags := by
  unfold CreateAESBlock at h
  simp only at h
  split at h
  · cases h
  · rename_i b1 h1
    cases h
    exact CreateGarlicPayload_tags _ _ _ _ _ _ _ _ _ b1 h1

theorem GetPayload_FillI2NPMessageHeader (sha256 : List Nat → List Nat) (now : Env)
    (rnd : List Nat) (m : I2NPMessage) (msgType replyMsgID : Nat) :
    (FillI2NPMessageHeader sha256 now rnd m msgType replyMsgID).1.GetPayload
      = m.GetPayload := by
  simp only [FillI2NPMessageHeader, I2NPMessage.GetPayload, I2NP_HEADER_SIZE]
  have hl : ([msgType % 256] ++ htobe32buf (if replyMsgID ≠ 0 then replyMsgID
      else (GenerateWord32 rnd).1) ++ htobe64buf (now.tms + 5000)
      ++ htobe16buf m.GetPayloadLength ++ [(sha256 (m.bytes.drop 16)).getD 0 0]).length = 16 := by
    simp [htobe32buf_length, htobe64buf_length, htobe16buf_length]
  exact drop_append_of_length 16 _ _ hl

theorem frameGarlic_spec (P : Params) (C : Crypto) (now : Env)
    (wrap : List Nat → GarlicRoutingSession → I2NPMessage → Option WrapResult)
    (s : GarlicRoutingSession) (owner : Option GarlicDestination)
    (msg : Option I2NPMessage) (front iv rnd : List Nat) (wr : WrapResult)
    (h : frameGarlic P C now wrap s owner msg front iv rnd = some wr) :
    wr.session.m_SessionTags = s.m_SessionTags ∧
    ∃ g b, wr.msg = some g ∧ CreateAESBlock P C now wrap rnd s owner msg iv = some b ∧
      g.GetPayload = htobe32buf (front.length + b.bytes.length) ++ front ++ b.bytes := by
  unfold frameGarlic at h
  simp only at h
  split at h
  · cases h
  · rename_i b hb
    cases h
    refine ⟨CreateAESBlock_tags _ _ _ _ _ _ _ _ _ b hb, _, b, rfl, hb, ?_⟩
    rw [GetPayload_FillI2NPMessageHeader]
    simp [I2NPMessage.GetPayload, I2NPMessage.concat, NewI2NPMessage, I2NP_HEADER_SIZE]

/-! ## The wrap returns -/

theorem CreateDeliveryStatusClove_returns (P : Params) (C : Crypto) (now : Env)
    (wrap : List Nat → GarlicRoutingSession → I2NPMessage → Option WrapResult)
    (rnd : List Nat) (s : GarlicRoutingSession) (owner : Option GarlicDestination)
    (msgID : Nat)
    (hwrap : ∀ o, owner = some o → ∀ r1 key tag m1, ∃ r g,
      wrap r1 (GarlicRoutingSession.ofKeyTag now key tag) m1 = some r ∧ r.msg = some g) :
    ∃ b, CreateDeliveryStatusClove P C now wrap rnd s owner msgID = some b := by
  unfold CreateDeliveryStatusClove
  cases owner with
  | none => exact ⟨_, rfl⟩
  | some o =>
    simp only
    cases o.nextInboundTunnel with
    | none => exact ⟨_, rfl⟩
    | some t =>
      simp only
      obtain ⟨r, g, hr, hg⟩ := hwrap o rfl
        (GenerateBlock (GenerateBlock (CreateDeliveryStatusMsg P C.sha256 now rnd msgID).2 32).2
          32).2
        (GenerateBlock (CreateDeliveryStatusMsg P C.sha256 now rnd msgID).2 32).1
        (GenerateBlock (GenerateBlock (CreateDeliveryStatusMsg P C.sha256 now rnd msgID).2 32).2
          32).1
        (CreateDeliveryStatusMsg P C.sha256 now rnd msgID).1
      rw [hr]
      simp only [hg]
      exact ⟨_, rfl⟩

theorem attachDeliveryStatus_returns (P : Params) (C : Crypto) (now : Env)
    (wrap : List Nat → GarlicRoutingSession → I2NPMessage → Option WrapResult)
    (rnd : List Nat) (s : GarlicRoutingSession) (o : GarlicDestination) (msgID : Nat)
    (newTags : Option UnconfirmedTags)
    (hwrap : ∀ r1 key tag m1, ∃ r g,
      wrap r1 (GarlicRoutingSession.ofKeyTag now key tag) m1 = some r ∧ r.msg = some g) :
    ∃ b n, attachDeliveryStatus P C now wrap rnd s o msgID newTags = some (b, n) := by
  unfold attachDeliveryStatus
  split
  · obtain ⟨b, hb⟩ := CreateDeliveryStatusClove_returns P C now wrap rnd s (some o) msgID
      (fun _ _ => hwrap)
    rw [hb]
    simp only
    split
    · exact ⟨_, _, rfl⟩
    · exact ⟨_, _, rfl⟩
  · exact ⟨_, _, rfl⟩

theorem attachLeaseSet_returns (P : Params) (C : Crypto) (now : Env) (o : GarlicDestination)
    (msgID : Nat) (b : Built) (n : Nat) (hls : o.leaseSet ≠ none) :
    ∃ b1 n1, attachLeaseSet P C now o msgID b n = some (b1, n1) := by
  unfold attachLeaseSet
  split
  · simp only
    cases hl : o.leaseSet with
    | none => exact absurd hl hls
    | some ls =>
      simp only [CreateDatabaseStoreMsg]
      exact ⟨_, _, rfl⟩
  · exact ⟨_, _, rfl⟩

theorem ownerCloves_returns (P : Params) (C : Crypto) (now : Env)
    (wrap : List Nat → GarlicRoutingSession → I2NPMessage → Option WrapResult)
    (rnd : List Nat) (s : GarlicRoutingSession) (o : GarlicDestination) (msgID : Nat)
    (newTags : Option UnconfirmedTags) (hls : o.leaseSet ≠ none)
    (hwrap : ∀ r1 key tag m1, ∃ r g,
      wrap r1 (GarlicRoutingSession.ofKeyTag now key tag) m1 = some r ∧ r.msg = some g) :
    ∃ b n, ownerCloves P C now wrap rnd s o msgID newTags = some (b, n) := by
  unfold ownerCloves
  obtain ⟨b, n, h⟩ := attachDeliveryStatus_returns P C now wrap rnd (resubmitLeaseSet P now s) o
    msgID newTags hwrap
  rw [h]
  exact attachLeaseSet_returns P C now o msgID b n hls

theorem CreateGarlicPayload_returns (P : Params) (C : Crypto) (now : Env)
    (wrap : List Nat → GarlicRoutingSession → I2NPMessage → Option WrapResult)
    (rnd : List Nat) (s : GarlicRoutingSession) (owner : Option GarlicDestination)
    (msg : Option I2NPMessage) (newTags : Option UnconfirmedTags)
    (howner : ∀ o, owner = some o → o.leaseSet ≠ none ∧ ∀ r1 key tag m1, ∃ r g,
      wrap r1 (GarlicRoutingSession.ofKeyTag now key tag) m1 = some r ∧ r.msg = some g) :
    ∃ b, CreateGarlicPayload P C now wrap rnd s owner msg newTags = some b := by
  unfold CreateGarlicPayload
  simp only
  cases owner with
  | none => exact ⟨_, rfl⟩
  | some o =>
    simp only
    obtain ⟨b, n, h⟩ := ownerCloves_returns P C now wrap (GenerateWord32 rnd).2 s o
      (GenerateWord32 rnd).1 newTags (howner o rfl).1 (howner o rfl).2
    rw [h]
    exact ⟨_, rfl⟩

theorem CreateAESBlock_returns (P : Params) (C : Crypto) (now : Env)
    (wrap : List Nat → GarlicRoutingSession → I2NPMessage → Option WrapResult)
    (rnd : List Nat) (s : GarlicRoutingSession) (owner : Option GarlicDestination)
    (msg : Option I2NPMessage) (iv : List Nat)
    (howner : ∀ o, owner = some o → o.leaseSet ≠ none ∧ ∀ r1 key tag m1, ∃ r g,
      wrap r1 (GarlicRoutingSession.ofKeyTag now key tag) m1 = some r ∧ r.msg = some g) :
    ∃ b, CreateAESBlock P C now wrap rnd s owner msg iv = some b := by
  unfold CreateAESBlock
  simp only
  obtain ⟨b, h⟩ := CreateGarlicPayload_returns P C now wrap
    (if (owner.isSome && decide (s.m_NumTags ≠ 0) &&
        decide ((s.m_SessionTags.length : Int) ≤ Int.tdiv (s.m_NumTags * 2) 3)) = true
      then (GenerateSessionTags now rnd s).2 else rnd)
    s owner msg
    (if (owner.isSome && decide (s.m_NumTags ≠ 0) &&
        decide ((s.m_SessionTags.length : Int) ≤ Int.tdiv (s.m_NumTags * 2) 3)) = true
      then some (GenerateSessionTags now rnd s).1 else none) howner
  rw [h]
  exact ⟨_, rfl⟩

theorem frameGarlic_returns (P : Params) (C : Crypto) (now : Env)
    (wrap : List Nat → GarlicRoutingSession → I2NPMessage → Option WrapResult)
    (s : GarlicRoutingSession) (owner : Option GarlicDestination)
    (msg : Option I2NPMessage) (front iv rnd : List Nat)
    (howner : ∀ o, owner = some o → o.leaseSet ≠ none ∧ ∀ r1 key tag m1, ∃ r g,
      wrap r1 (GarlicRoutingSession.ofKeyTag now key tag) m1 = some r ∧ r.msg = some g) :
    ∃ wr g, frameGarlic P C now wrap s owner msg front iv rnd = some wr ∧ wr.msg = some g := by
  unfold frameGarlic
  simp only
  obtain ⟨b, h⟩ := CreateAESBlock_returns P C now wrap rnd s owner msg iv howner
  rw [h]
  exact ⟨_, _, rfl, rfl⟩

theorem WrapSingleMessageNoOwner_returns (P : Params) (C : Crypto) (now : Env)
    (hto : 0 < P.OUTGOING_TAGS_EXPIRATION_TIMEOUT) (r1 key tag : List Nat) (m1 : I2NPMessage) :
    ∃ r g, WrapSingleMessageNoOwner P C now r1 (GarlicRoutingSession.ofKeyTag now key tag) m1
      = some r ∧ r.msg = some g := by
  unfold WrapSingleMessageNoOwner WrapSingleMessageWith
  have hsel : findTag P now (GarlicRoutingSession.ofKeyTag now key tag)
      = (some { tag := fixed 32 tag, creationTime := now.ts }, []) := by
    have h1 : now.ts < now.ts + P.OUTGOING_TAGS_EXPIRATION_TIMEOUT := by omega
    simp [findTag, GarlicRoutingSession.ofKeyTag, selectTag, h1]
  simp only [hsel]
  exact frameGarlic_returns P C now _ _ none (some m1) _ _ r1 (fun o h => by cases h)

theorem WrapSingleMessage_returns (P : Params) (C : Crypto) (now : Env) (rnd : List Nat)
    (s : GarlicRoutingSession) (owner : Option GarlicDestination) (msg : Option I2NPMessage)
    (hto : 0 < P.OUTGOING_TAGS_EXPIRATION_TIMEOUT)
    (hls : ∀ o, owner = some o → o.leaseSet ≠ none) :
    ∃ wr, WrapSingleMessage P C now rnd s owner msg = some wr ∧
      (((findTag P now s).1 = none ∧ s.m_Destination = none) ∨ ∃ g, wr.msg = some g) := by
  have howner : ∀ o, owner = some o → o.leaseSet ≠ none ∧ ∀ r1 key tag m1, ∃ r g,
      WrapSingleMessageNoOwner P C now r1 (GarlicRoutingSession.ofKeyTag now key tag) m1
        = some r ∧ r.msg = some g :=
    fun o ho => ⟨hls o ho, WrapSingleMessageNoOwner_returns P C now hto⟩
  unfold WrapSingleMessage WrapSingleMessageWith
  simp only
  cases hsel : (findTag P now s).1 with
  | none =>
    simp only
    cases hd : s.m_Destination with
    | none => exact ⟨_, rfl, Or.inl ⟨trivial, rfl⟩⟩
    | some d =>
      simp only
      obtain ⟨wr, g, h1, h2⟩ := frameGarlic_returns P C now (WrapSingleMessageNoOwner P C now)
        { s with m_Destination := some d, m_SessionTags := (findTag P now s).2 } owner msg
        (fixed 514 (C.elGamalEncrypt d.encryptionPublicKey
          (fixed 32 s.m_SessionKey ++ (GenerateBlock rnd 32).1 ++ List.replicate 158 0) true))
        ((C.sha256 (GenerateBlock rnd 32).1).take 16) (GenerateBlock rnd 32).2 howner
      exact ⟨wr, h1, Or.inr ⟨g, h2⟩⟩
  | some T =>
    simp only
    obtain ⟨wr, g, h1, h2⟩ := frameGarlic_returns P C now (WrapSingleMessageNoOwner P C now)
      { s with m_SessionTags := (findTag P now s).2 } owner msg
      (fixed 32 T.tag) ((C.sha256 (fixed 32 T.tag)).take 16) rnd howner
    exact ⟨wr, h1, Or.inr ⟨g, h2⟩⟩

/-- Claim C2, amended: for a session with numTags > 0, `WrapSingleMessage` returns (the
expiration timeout being positive and the owner, if any, having a lease-set). The expired tags
at the front of the pool are removed, the first tag `T` that is not expired follows the length
field as the 32-byte prefix of the output, and the AES block is built with `T` already out of
the pool, which ends as the tags behind `T` in their order. If every tag of the pool is
expired the pool ends empty; the 514-byte ElGamal block is then the front of the output when
the session has a destination, and the result is null when it has none. -/
theorem outbound_tag_selection (P : Params) (C : Crypto) (now : Env) (rnd : List Nat)
    (s : GarlicRoutingSession) (owner : Option GarlicDestination) (msg : Option I2NPMessage)
    (hnum : s.m_NumTags > 0) (hto : 0 < P.OUTGOING_TAGS_EXPIRATION_TIMEOUT)
    (hls : ∀ o, owner = some o → o.leaseSet ≠ none) :
    ∃ wr, WrapSingleMessage P C now rnd s owner msg = some wr ∧
    (∀ expired T rest, s.m_SessionTags = expired ++ T :: rest →
      (∀ t ∈ expired, t.creationTime + P.OUTGOING_TAGS_EXPIRATION_TIMEOUT ≤ now.ts) →
      now.ts < T.creationTime + P.OUTGOING_TAGS_EXPIRATION_TIMEOUT →
      wr.session.m_SessionTags = rest ∧
      ∃ g b, wr.msg = some g ∧
        CreateAESBlock P C now (WrapSingleMessageNoOwner P C now) rnd
          { s with m_SessionTags := rest } owner msg
          ((C.sha256 (fixed 32 T.tag)).take 16) = some b ∧
        g.GetPayload = htobe32buf (32 + b.bytes.length) ++ fixed 32 T.tag ++ b.bytes) ∧
    ((∀ t ∈ s.m_SessionTags, t.creationTime + P.OUTGOING_TAGS_EXPIRATION_TIMEOUT ≤ now.ts) →
      wr.session.m_SessionTags = [] ∧
      (s.m_Destination = none → wr.msg = none) ∧
      (∀ d, s.m_Destination = some d →
        ∃ g b, wr.msg = some g ∧
          CreateAESBlock P C now (WrapSingleMessageNoOwner P C now) (GenerateBlock rnd 32).2
            { s with m_SessionTags := [] } owner msg
            ((C.sha256 (GenerateBlock rnd 32).1).take 16) = some b ∧
          g.GetPayload = htobe32buf (514 + b.bytes.length)
            ++ fixed 514 (C.elGamalEncrypt d.encryptionPublicKey
                (fixed 32 s.m_SessionKey ++ (GenerateBlock rnd 32).1 ++ List.replicate 158 0)
                true)
            ++ b.bytes)) := by
  obtain ⟨wr, hwrap, _⟩ := WrapSingleMessage_returns P C now rnd s owner msg hto hls
  refine ⟨wr, hwrap, ?_⟩
  unfold WrapSingleMessage WrapSingleMessageWith findTag at hwrap
  simp only [hnum, if_true] at hwrap
  constructor
  · intro expired T rest hpool hexp hT
    rw [hpool, selectTag_first P now.ts expired rest T hexp hT] at hwrap
    simp only at hwrap
    obtain ⟨h1, g, b, hg, hb, hp⟩ := frameGarlic_spec _ _ _ _ _ _ _ _ _ _ _ hwrap
    refine ⟨h1, g, b, hg, hb, ?_⟩
    rw [hp, fixed_length]
  · intro hexp
    rw [selectTag_none P now.ts _ hexp] at hwrap
    simp only at hwrap
    cases hd : s.m_Destination with
    | none =>
      rw [hd] at hwrap
      simp only [Option.some.injEq] at hwrap
      subst hwrap
      exact ⟨rfl, fun _ => rfl, fun d h => by cases h⟩
    | some d =>
      rw [hd] at hwrap
      simp only at hwrap
      obtain ⟨h1, g, b, hg, hb, hp⟩ := frameGarlic_spec _ _ _ _ _ _ _ _ _ _ _ hwrap
      refine ⟨h1, (fun h => by cases h), ?_⟩
      intro d1 hd1
      cases hd1
      refine ⟨g, b, hg, ?_, ?_⟩
      · rw [← hb]
      · rw [hp, fixed_length]

/-- Claim C2 as written fails on a session without destination: the one-shot session has
numTags = 1 and its only tag is expired; the tag is removed, and the wrap returns null
instead of a message with the ElGamal framing. -/
theorem expired_tags_without_destination :
    exampleOneShotSession.m_NumTags > 0 ∧
    (∀ t ∈ exampleOneShotSession.m_SessionTags,
      t.creationTime + exampleParams.OUTGOING_TAGS_EXPIRATION_TIMEOUT ≤ exampleNow.ts) ∧
    (WrapSingleMessage exampleParams exampleCrypto exampleNow [] exampleOneShotSession none
        (some (exampleData 20 7))).map (fun r => (r.msg, r.session.m_SessionTags))
      = some (none, []) := by
  decide

theorem outbound_tag_selection_witness :
    ∃ wr, WrapSingleMessage exampleParams exampleCrypto exampleNow [] exampleSession
        (some exampleOwner) (some exampleInner) = some wr ∧
      wr.session.m_SessionTags = [exampleTag 3 1600] ∧ ∃ g, wr.msg = some g :=
  (outbound_tag_selection exampleParams exampleCrypto exampleNow [] exampleSession
    (some exampleOwner) (some exampleInner) (by decide) (by decide)
    (fun o h => by
      cases h
      decide)).elim
    (fun wr h =>
      have h1 := h.2.1 [exampleTag 1 1000] (exampleTag 2 1500) [exampleTag 3 1600] rfl
        (by decide) (by decide)
      ⟨wr, h.1, h1.1, h1.2.elim (fun g hg => ⟨g, hg.elim (fun _ hb => hb.1)⟩)⟩)

/-! ## Inbound tags -/

theorem StdMap.find_filter_none {κ ν : Type} [DecidableEq κ] (m : StdMap κ ν)
    (p : κ × ν → Bool) (k : κ) (h : StdMap.find m k = none) :
    StdMap.find (List.filter p m) k = none := by
  induction m with
  | nil => rfl
  | cons e rest ih =>
    obtain ⟨a, b⟩ := e
    by_cases h1 : a = k
    · simp [StdMap.find, h1] at h
    · simp only [StdMap.find, h1, if_false] at h
      by_cases h2 : p (a, b) = true
      · simp only [List.filter, h2, StdMap.find, h1, if_false]
        exact ih h
      · have h3 : p (a, b) = false := by simpa using h2
        simp only [List.filter, h3]
        exact ih h

theorem cleanupTags_find_none (P : Params) (now : Env) (dest : GarlicDestination)
    (k : List Nat) (h : StdMap.find dest.m_Tags k = none) :
    StdMap.find (cleanupTags P now dest).m_Tags k = none := by
  unfold cleanupTags
  split
  · simp only
    split
    · exact StdMap.find_filter_none _ _ _ h
    · exact h
  · exact h

/-- Claim C3: a garlic message that passes the length check and whose 32 bytes after the
length field are a tag of the inbound table takes the tag-found branch, and the tag is absent
from the table when `HandleGarlicMessage` returns, whatever `HandleAESBlock` did; any message
with the same 32 bytes handled next, the same message included, does not take the tag-found
branch. -/
theorem inbound_tag_single_use (P : Params) (C : Crypto) (now : Env)
    (dest : GarlicDestination) (msg : I2NPMessage)
    (hlen : bufbe32toh msg.GetPayload ≤ msg.GetLength)
    (htag : (StdMap.find dest.m_Tags (fixed 32 (msg.GetPayload.drop 4))).isSome = true) :
    (HandleGarlicMessage P C now dest msg).tagFound = true ∧
    StdMap.find (HandleGarlicMessage P C now dest msg).dest.m_Tags
      (fixed 32 (msg.GetPayload.drop 4)) = none ∧
    ∀ (later : Env) (again : I2NPMessage),
      fixed 32 (again.GetPayload.drop 4) = fixed 32 (msg.GetPayload.drop 4) →
      (HandleGarlicMessage P C later (HandleGarlicMessage P C now dest msg).dest again).tagFound
        = false := by
  have hnot : ¬ bufbe32toh msg.GetPayload > msg.GetLength := by omega
  obtain ⟨it, hit⟩ := Option.isSome_iff_exists.mp htag
  have hfound : (HandleGarlicMessage P C now dest msg).tagFound = true := by
    unfold HandleGarlicMessage
    simp only [hnot, if_false, hit]
  have hnone : StdMap.find (HandleGarlicMessage P C now dest msg).dest.m_Tags
      (fixed 32 (msg.GetPayload.drop 4)) = none := by
    unfold HandleGarlicMessage
    simp only [hnot, if_false, hit]
    apply cleanupTags_find_none
    exact StdMap.find_erase_self _ _
  refine ⟨hfound, hnone, ?_⟩
  intro later again hsame
  generalize (HandleGarlicMessage P C now dest msg).dest = dest1 at hnone
  unfold HandleGarlicMessage
  simp only
  split
  · rfl
  · rw [hsame, hnone]

set_option maxRecDepth 8000 in
theorem inbound_tag_single_use_witness :
    (HandleGarlicMessage exampleParams exampleCrypto exampleNow exampleDestination
      exampleTaggedGarlic).tagFound = true ∧
    StdMap.find (HandleGarlicMessage exampleParams exampleCrypto exampleNow exampleDestination
      exampleTaggedGarlic).dest.m_Tags (fixed 32 (exampleTaggedGarlic.GetPayload.drop 4))
      = none ∧
    (HandleGarlicMessage exampleParams exampleCrypto exampleNow
      (HandleGarlicMessage exampleParams exampleCrypto exampleNow exampleDestination
        exampleTaggedGarlic).dest exampleTaggedGarlic).tagFound = false :=
  have h := inbound_tag_single_use exampleParams exampleCrypto exampleNow exampleDestination
    exampleTaggedGarlic (by decide) (by decide)
  ⟨h.1, h.2.1, h.2.2 exampleNow exampleTaggedGarlic rfl⟩

/-! ## The clove parser on the layout of the builder -/

theorem castInt_of_lt (len : Nat) (h : len < 2 ^ 31) : castInt len = (len : Int) := by
  unfold castInt Int.bmod
  have h1 : ((len : Int) % ((2 ^ 32 : Nat) : Int)) = (len : Int) := by
    apply Int.emod_eq_of_lt
    · omega
    · have : (len : Int) < 2 ^ 31 := by exact_mod_cast h
      norm_num
      omega
  rw [h1]
  have h2 : (len : Int) < (((2 ^ 32 : Nat) : Int) + 1) / 2 := by
    have : (len : Int) < 2 ^ 31 := by exact_mod_cast h
    norm_num
    omega
  simp [h2]
  omega

theorem GetI2NPMessageLength_append (msg rest : List Nat) (h : 15 ≤ msg.length) :
    GetI2NPMessageLength (msg ++ rest) = GetI2NPMessageLength msg := by
  unfold GetI2NPMessageLength bufbe16toh I2NP_HEADER_SIZE_OFFSET
  have h13 : 13 ≤ msg.length := by omega
  rw [List.drop_append_of_le_length h13]
  have hl : (msg.drop 13).length = msg.length - 13 := List.length_drop _ _
  have h0 : 0 < (msg.drop 13).length := by omega
  have h1 : 1 < (msg.drop 13).length := by omega
  simp only [List.getD_eq_getElem?_getD]
  rw [List.getElem?_append_left h0, List.getElem?_append_left h1]

theorem GetI2NPMessageLength_ge (msg : List Nat) : 16 ≤ GetI2NPMessageLength msg := by
  unfold GetI2NPMessageLength I2NP_HEADER_SIZE
  omega

theorem cloveBytes_cons (c : Clove) (cs : List Clove) :
    cloveBytes (c :: cs) = c.bytes ++ cloveBytes cs := by
  simp [cloveBytes]

theorem cloveBytes_append (cs ds : List Clove) :
    cloveBytes (cs ++ ds) = cloveBytes cs ++ cloveBytes ds := by
  simp [cloveBytes]

theorem Clove.bytes_length (c : Clove) :
    c.bytes.length = c.instructions.length + c.msg.length + c.trailer.length := by
  simp [Clove.bytes]
  omega

theorem getD_pre_append (pre l post : List Nat) (h : 0 < l.length) :
    (pre ++ l ++ post).getD pre.length 0 = l.getD 0 0 := by
  rw [List.append_assoc, getD_length_append]
  cases l with
  | nil => simp at h
  | cons a t => rfl

theorem drop_pre_append (pre l post : List Nat) (k : Nat) :
    (pre ++ l ++ post).drop (pre.length + k) = (l ++ post).drop k := by
  rw [List.append_assoc, drop_add_append]

theorem fixed_append_of_le (n : Nat) (l r : List Nat) (h : n ≤ l.length) :
    fixed n (l ++ r) = fixed n l := by
  unfold fixed
  rw [List.take_append_of_le_length h]
  have e1 : n - (l ++ r).length = 0 := by
    rw [List.length_append]
    omega
  have e2 : n - l.length = 0 := by omega
  rw [e1, e2]

theorem handleCloves_succ (P : Params) (payload : List Nat) (len : Nat)
    (sender : Option InboundTunnel) (n pos : Nat) :
    handleCloves P payload len sender (n + 1) pos =
    (let flag := payload.getD pos 0
    let pos1 := pos + 1
    let pos2 := if flag &&& 0x80 ≠ 0 then pos1 + 32 else pos1
    let deliveryType := (flag >>> 5) &&& 0x03
    let pos3 :=
      if deliveryType = eGarlicDeliveryTypeLocal then pos2
      else if deliveryType = eGarlicDeliveryTypeDestination then pos2 + 32
      else if deliveryType = eGarlicDeliveryTypeTunnel then pos2 + 32 + 4
      else pos2 + 32
    let msgLen := GetI2NPMessageLength (payload.drop pos3)
    let msg := fixed msgLen (payload.drop pos3)
    let action : CloveAction :=
      if deliveryType = eGarlicDeliveryTypeLocal then .handleI2NPMessage msg len sender
      else if deliveryType = eGarlicDeliveryTypeDestination then
        .handleI2NPMessage msg len sender
      else if deliveryType = eGarlicDeliveryTypeTunnel then
        let gwHash := fixed 32 (payload.drop pos2)
        let gwTunnel := bufbe32toh (payload.drop (pos2 + 32))
        let tunnel : Option Nat :=
          match sender with
          | some t => if t.hasPool then t.nextOutboundTunnel else none
          | none => none
        match tunnel with
        | some _ =>
          .sendTunnelDataMsg gwHash gwTunnel (CreateI2NPMessage P (payload.drop pos3) msgLen sender)
        | none => .noOutboundTunnel gwHash gwTunnel msg
      else .routerNotSupported
    let pos4 := pos3 + msgLen + 4 + 8 + 3
    if (pos4 : Int) > castInt len then { cloves := [action], stop := pos4 }
    else
      let r := handleCloves P payload len sender n pos4
      { cloves := action :: r.cloves, stop := r.stop }) := by
  rfl

theorem handleCloves_step (P : Params) (len : Nat) (sender : Option InboundTunnel)
    (pre post : List Nat) (c : Clove) (n : Nat) (hwf : c.WellFormed)
    (hlen : pre.length + c.bytes.length ≤ len) (hint : len < 2 ^ 31) :
    handleCloves P (pre ++ c.bytes ++ post) len sender (n + 1) pre.length =
      { cloves := c.action P len sender ::
          (handleCloves P (pre ++ c.bytes ++ post) len sender n
            (pre.length + c.bytes.length)).cloves,
        stop := (handleCloves P (pre ++ c.bytes ++ post) len sender n
            (pre.length + c.bytes.length)).stop } := by
  have hm16 : 16 ≤ c.msg.length := by
    rw [← hwf.msg]
    exact GetI2NPMessageLength_ge _
  have hi : 0 < c.instructions.length := by
    rcases hwf.instructions with h | h | h
    · rw [h]
      decide
    · omega
    · omega
  have hb : 0 < c.bytes.length := by
    rw [Clove.bytes_length]
    omega
  have hflag : (pre ++ c.bytes ++ post).getD pre.length 0 = c.instructions.getD 0 0 := by
    rw [getD_pre_append pre c.bytes post hb]
    unfold Clove.bytes
    rw [List.append_assoc]
    cases hc : c.instructions with
    | nil => simp [hc] at hi
    | cons a t => rfl
  have hmsg : ∀ k, k = c.instructions.length →
      (pre ++ c.bytes ++ post).drop (pre.length + k) = c.msg ++ (c.trailer ++ post) := by
    intro k hk
    rw [drop_pre_append, hk]
    unfold Clove.bytes
    rw [List.append_assoc, List.append_assoc, drop_length_append]
  have hlenmsg : ∀ rest, GetI2NPMessageLength (c.msg ++ rest) = c.msg.length := by
    intro rest
    rw [GetI2NPMessageLength_append _ _ (by omega), hwf.msg]
  have hcast := castInt_of_lt len hint
  have hbl := Clove.bytes_length c
  have htr := hwf.trailer
  rw [handleCloves_succ]
  simp only [hflag]
  rcases hwf.instructions with h | h | h
  · -- Local
    have h0 : c.instructions.getD 0 0 = 0 := by rw [h]; rfl
    have hl1 : c.instructions.length = 1 := by rw [h]; rfl
    have e1 : (0 : Nat) &&& 128 = 0 := by decide
    have e2 : ((0 : Nat) >>> 5) &&& 3 = eGarlicDeliveryTypeLocal := by decide
    simp only [h0, e1, e2, ne_eq, not_true_eq_false, if_false, if_true]
    rw [hmsg 1 hl1.symm, hlenmsg, fixed_append]
    have hpos : pre.length + 1 + c.msg.length + 4 + 8 + 3 = pre.length + c.bytes.length := by
      omega
    rw [hpos, hcast]
    have hno : ¬ (((pre.length + c.bytes.length : Nat) : Int) > (len : Int)) := by
      have : ((pre.length + c.bytes.length : Nat) : Int) ≤ (len : Int) := by exact_mod_cast hlen
      omega
    rw [if_neg hno]
    have ha : c.action P len sender = CloveAction.handleI2NPMessage c.msg len sender := by
      unfold Clove.action
      rw [h0]
      simp
    rw [ha]
  · -- Destination
    obtain ⟨hl1, h0⟩ := h
    have e1 : (32 : Nat) &&& 128 = 0 := by decide
    have e2 : ((32 : Nat) >>> 5) &&& 3 = eGarlicDeliveryTypeDestination := by decide
    have e3 : eGarlicDeliveryTypeDestination ≠ eGarlicDeliveryTypeLocal := by decide
    simp only [h0, e1, e2, e3, ne_eq, not_true_eq_false, if_false, if_true]
    rw [hmsg (1 + 32) (by omega), hlenmsg, fixed_append]
    have hpos : pre.length + 1 + 32 + c.msg.length + 4 + 8 + 3
        = pre.length + c.bytes.length := by
      omega
    rw [hpos, hcast]
    have hno : ¬ (((pre.length + c.bytes.length : Nat) : Int) > (len : Int)) := by
      have : ((pre.length + c.bytes.length : Nat) : Int) ≤ (len : Int) := by exact_mod_cast hlen
      omega
    rw [if_neg hno]
    have ha : c.action P len sender = CloveAction.handleI2NPMessage c.msg len sender := by
      unfold Clove.action
      rw [h0]
      simp
    rw [ha]
  · -- Tunnel
    obtain ⟨hl1, h0⟩ := h
    have e1 : (96 : Nat) &&& 128 = 0 := by decide
    have e2 : ((96 : Nat) >>> 5) &&& 3 = eGarlicDeliveryTypeTunnel := by decide
    have e3 : eGarlicDeliveryTypeTunnel ≠ eGarlicDeliveryTypeLocal := by decide
    have e4 : eGarlicDeliveryTypeTunnel ≠ eGarlicDeliveryTypeDestination := by decide
    simp only [h0, e1, e2, e3, e4, ne_eq, not_true_eq_false, if_false, if_true]
    rw [hmsg (1 + 32 + 4) (by omega), hlenmsg, fixed_append]
    have hpos : pre.length + 1 + 32 + 4 + c.msg.length + 4 + 8 + 3
        = pre.length + c.bytes.length := by
      omega
    rw [hpos, hcast]
    have hno : ¬ (((pre.length + c.bytes.length : Nat) : Int) > (len : Int)) := by
      have : ((pre.length + c.bytes.length : Nat) : Int) ≤ (len : Int) := by exact_mod_cast hlen
      omega
    rw [if_neg hno]
    -- the gateway hash and the tunnel id are read from the instructions
    have hinstr : ∀ k, k ≤ c.instructions.length →
        (pre ++ c.bytes ++ post).drop (pre.length + k)
          = c.instructions.drop k ++ (c.msg ++ (c.trailer ++ post)) := by
      intro k hk
      rw [drop_pre_append]
      unfold Clove.bytes
      rw [List.append_assoc, List.append_assoc, List.drop_append_of_le_length hk]
    have hhash : fixed 32 ((pre ++ c.bytes ++ post).drop (pre.length + 1))
        = fixed 32 (c.instructions.drop 1) := by
      rw [hinstr 1 (by omega)]
      apply fixed_append_of_le
      rw [List.length_drop]
      omega
    have htid : bufbe32toh ((pre ++ c.bytes ++ post).drop (pre.length + 1 + 32))
        = bufbe32toh (c.instructions.drop 33) := by
      rw [Nat.add_assoc, hinstr (1 + 32) (by omega)]
      have hd : (c.instructions.drop (1 + 32)).length = 4 := by
        rw [List.length_drop]
        omega
      unfold bufbe32toh
      simp only [List.getD_eq_getElem?_getD]
      rw [List.getElem?_append_left (by omega), List.getElem?_append_left (by omega),
        List.getElem?_append_left (by omega), List.getElem?_append_left (by omega)]
    rw [hhash, htid]
    have hcreate : CreateI2NPMessage P (c.msg ++ (c.trailer ++ post)) c.msg.length sender
        = CreateI2NPMessage P c.msg c.msg.length sender := by
      unfold CreateI2NPMessage
      rw [fixed_append, fixed_of_length _ _ rfl]
    rw [hcreate]
    unfold Clove.action
    rw [h0]
    simp

theorem handleCloves_cloves (P : Params) (len : Nat) (sender : Option InboundTunnel)
    (hint : len < 2 ^ 31) (cs : List Clove) :
    ∀ (pre post : List Nat), (∀ c ∈ cs, c.WellFormed) →
      pre.length + (cloveBytes cs).length ≤ len →
      handleCloves P (pre ++ cloveBytes cs ++ post) len sender cs.length pre.length =
        { cloves := cs.map (Clove.action P len sender),
          stop := pre.length + (cloveBytes cs).length } := by
  induction cs with
  | nil =>
    intro pre post _ _
    simp [handleCloves, cloveBytes]
  | cons c cs ih =>
    intro pre post hwf hlen
    rw [cloveBytes_cons, List.length_append] at hlen
    have e : pre ++ cloveBytes (c :: cs) ++ post = pre ++ c.bytes ++ (cloveBytes cs ++ post) := by
      rw [cloveBytes_cons]
      simp only [List.append_assoc]
    rw [e, List.length_cons,
      handleCloves_step P len sender pre (cloveBytes cs ++ post) c cs.length
        (hwf c (List.mem_cons_self _ _)) (by omega) hint]
    have e2 : pre ++ c.bytes ++ (cloveBytes cs ++ post) = (pre ++ c.bytes) ++ cloveBytes cs ++ post := by
      simp only [List.append_assoc]
    have e3 : pre.length + c.bytes.length = (pre ++ c.bytes).length := by
      rw [List.length_append]
    rw [e2, e3, ih (pre ++ c.bytes) post (fun x hx => hwf x (List.mem_cons_of_mem _ hx))
      (by rw [List.length_append]; omega)]
    simp only [List.map_cons, cloveBytes_cons, List.length_append]
    congr 1
    omega

/-! ## The AES block read back -/

theorem subSizeT_of_le (a b : Nat) (hb : b ≤ a) (ha : a < 2 ^ 64) : subSizeT a b = a - b := by
  unfold subSizeT
  have h1 : b % 2 ^ 64 = b := Nat.mod_eq_of_lt (by omega)
  rw [h1]
  have h2 : a + 2 ^ 64 - b = (a - b) + 2 ^ 64 := by omega
  rw [h2, Nat.add_mod_right]
  exact Nat.mod_eq_of_lt (by omega)

theorem HandleGarlicPayload_cloves (P : Params) (sender : Option InboundTunnel)
    (cs : List Clove) (tr rest : List Nat) (len : Nat)
    (hwf : ∀ c ∈ cs, c.WellFormed) (hcount : cs.length < 256)
    (hlen : 1 + (cloveBytes cs).length ≤ len) (hint : len < 2 ^ 31) :
    HandleGarlicPayload P ([cs.length % 256] ++ cloveBytes cs ++ tr ++ rest) len sender =
      { cloves := cs.map (Clove.action P len sender),
        stop := 1 + (cloveBytes cs).length } := by
  unfold HandleGarlicPayload
  have h0 : ([cs.length % 256] ++ cloveBytes cs ++ tr ++ rest).getD 0 0 = cs.length := by
    simp only [List.append_assoc, List.singleton_append, List.getD_cons_zero]
    exact Nat.mod_eq_of_lt hcount
  rw [h0]
  have e : [cs.length % 256] ++ cloveBytes cs ++ tr ++ rest
      = [cs.length % 256] ++ cloveBytes cs ++ (tr ++ rest) := by
    simp only [List.append_assoc]
  rw [e]
  exact handleCloves_cloves P len sender hint cs [cs.length % 256] (tr ++ rest) hwf hlen

theorem HandleAESBlock_block (P : Params) (C : Crypto) (now : Env) (dest : GarlicDestination)
    (key : List Nat) (sender : Option InboundTunnel) (K : Nat) (tags payload rest : List Nat)
    (len : Nat) (cs : List Clove) (tr : List Nat)
    (hK : K < 65536) (htags : tags.length = K * 32)
    (hpayload : payload = [cs.length % 256] ++ cloveBytes cs ++ tr)
    (hwf : ∀ c ∈ cs, c.WellFormed) (hcount : cs.length < 256)
    (hlen : 2 + K * 32 + 4 + 32 + 1 + payload.length ≤ len) (hint : len < 2 ^ 31) :
    (HandleAESBlock P C now dest
      (htobe16buf K ++ (tags ++ (htobe32buf payload.length
        ++ (fixed 32 (C.sha256 payload) ++ ([0] ++ (payload ++ rest))))))
      len key sender).payload =
      some (payload, { cloves := cs.map (Clove.action P payload.length sender),
                       stop := 1 + (cloveBytes cs).length }) := by
  have hpl : payload.length = 1 + (cloveBytes cs).length + tr.length := by
    rw [hpayload]
    simp only [List.length_append, List.length_singleton]
  unfold HandleAESBlock
  simp only
  rw [bufbe16toh_htobe16buf, Nat.mod_eq_of_lt hK]
  have hl1 : subSizeT len 2 = len - 2 := subSizeT_of_le _ _ (by omega) (by omega)
  rw [hl1]
  have hc1 : ¬ (K > 0 ∧ K * 32 > len - 2) := by omega
  rw [if_neg hc1]
  have hd2 : (htobe16buf K ++ (tags ++ (htobe32buf payload.length
        ++ (fixed 32 (C.sha256 payload) ++ ([0] ++ (payload ++ rest)))))).drop 2
      = tags ++ (htobe32buf payload.length
        ++ (fixed 32 (C.sha256 payload) ++ ([0] ++ (payload ++ rest)))) :=
    drop_append_of_length 2 _ _ (htobe16buf_length K)
  rw [hd2, drop_append_of_length (K * 32) _ _ htags]
  have hl2 : subSizeT (len - 2) (K * 32) = len - 2 - K * 32 :=
    subSizeT_of_le _ _ (by omega) (by omega)
  rw [hl2, bufbe32toh_htobe32buf, Nat.mod_eq_of_lt (by omega : payload.length < 4294967296)]
  have hc2 : ¬ (payload.length > len - 2 - K * 32) := by omega
  rw [if_neg hc2]
  have hd4 : (htobe32buf payload.length
        ++ (fixed 32 (C.sha256 payload) ++ ([0] ++ (payload ++ rest)))).drop 4
      = fixed 32 (C.sha256 payload) ++ ([0] ++ (payload ++ rest)) :=
    drop_append_of_length 4 _ _ (htobe32buf_length _)
  have hd36 : (htobe32buf payload.length
        ++ (fixed 32 (C.sha256 payload) ++ ([0] ++ (payload ++ rest)))).drop (4 + 32)
      = [0] ++ (payload ++ rest) := by
    rw [← List.drop_drop, hd4]
    exact drop_append_of_length 32 _ _ (fixed_length _ _)
  rw [hd4, hd36, fixed_append_of_length 32 _ _ (fixed_length _ _)]
  have hflag : ([0] ++ (payload ++ rest)).getD 0 0 = 0 := rfl
  have hd1 : ([0] ++ (payload ++ rest)).drop 1 = payload ++ rest := rfl
  simp only [hflag, ne_eq, not_true_eq_false, if_false, hd1]
  rw [fixed_append]
  simp only [ne_eq, not_true_eq_false, if_false]
  subst hpayload
  rw [HandleGarlicPayload_cloves P sender cs tr rest _ hwf hcount (by omega) (by omega)]

/-! ## The layout written by the builders -/

theorem FillI2NPMessageHeader_bytes (sha256 : List Nat → List Nat) (now : Env)
    (rnd : List Nat) (m : I2NPMessage) (msgType replyMsgID : Nat) :
    (FillI2NPMessageHeader sha256 now rnd m msgType replyMsgID).1.bytes =
      ([msgType % 256]
        ++ htobe32buf (if replyMsgID ≠ 0 then replyMsgID else (GenerateWord32 rnd).1)
        ++ htobe64buf (now.tms + 5000))
      ++ (htobe16buf m.GetPayloadLength ++ ([(sha256 m.GetPayload).getD 0 0] ++ m.GetPayload)) := by
  simp only [FillI2NPMessageHeader, List.append_assoc]

theorem FillI2NPMessageHeader_agrees (sha256 : List Nat → List Nat) (now : Env)
    (rnd : List Nat) (m : I2NPMessage) (msgType replyMsgID : Nat) :
    HeaderAgrees (FillI2NPMessageHeader sha256 now rnd m msgType replyMsgID).1.bytes := by
  unfold HeaderAgrees
  rw [FillI2NPMessageHeader_bytes]
  have h13 : ([msgType % 256]
        ++ htobe32buf (if replyMsgID ≠ 0 then replyMsgID else (GenerateWord32 rnd).1)
        ++ htobe64buf (now.tms + 5000)).length = 13 := rfl
  have hpl : m.GetPayload.length = m.GetPayloadLength := by
    unfold I2NPMessage.GetPayload I2NPMessage.GetPayloadLength
    rw [List.length_drop]
  intro hlt
  simp only [List.length_append, h13, htobe16buf_length, List.length_singleton, hpl] at hlt ⊢
  unfold GetI2NPMessageLength I2NP_HEADER_SIZE_OFFSET I2NP_HEADER_SIZE
  rw [drop_append_of_length 13 _ _ h13, bufbe16toh_htobe16buf, Nat.mod_eq_of_lt (by omega)]
  omega

theorem FillI2NPMessageHeader_type (sha256 : List Nat → List Nat) (now : Env)
    (rnd : List Nat) (m : I2NPMessage) (msgType replyMsgID : Nat) :
    (FillI2NPMessageHeader sha256 now rnd m msgType replyMsgID).1.bytes.getD 0 0
      = msgType % 256 := by
  rw [FillI2NPMessageHeader_bytes]
  rfl

theorem frameGarlic_agrees (P : Params) (C : Crypto) (now : Env)
    (wrap : List Nat → GarlicRoutingSession → I2NPMessage → Option WrapResult)
    (s : GarlicRoutingSession) (owner : Option GarlicDestination)
    (msg : Option I2NPMessage) (front iv rnd : List Nat) (wr : WrapResult) (g : I2NPMessage)
    (h : frameGarlic P C now wrap s owner msg front iv rnd = some wr) (hg : wr.msg = some g) :
    HeaderAgrees g.bytes := by
  unfold frameGarlic at h
  simp only at h
  split at h
  · cases h
  · cases h
    cases hg
    exact FillI2NPMessageHeader_agrees _ _ _ _ _ _

theorem WrapSingleMessageWith_agrees (P : Params) (C : Crypto) (now : Env)
    (wrap : List Nat → GarlicRoutingSession → I2NPMessage → Option WrapResult)
    (rnd : List Nat) (s : GarlicRoutingSession) (owner : Option GarlicDestination)
    (msg : Option I2NPMessage) (wr : WrapResult) (g : I2NPMessage)
    (h : WrapSingleMessageWith P C now wrap rnd s owner msg = some wr) (hg : wr.msg = some g) :
    HeaderAgrees g.bytes := by
  unfold WrapSingleMessageWith at h
  simp only at h
  split at h
  · split at h
    · cases h
      cases hg
    · exact frameGarlic_agrees _ _ _ _ _ _ _ _ _ _ _ _ h hg
  · exact frameGarlic_agrees _ _ _ _ _ _ _ _ _ _ _ _ h hg

theorem CreateDatabaseStoreMsg_agrees (P : Params) (sha256 : List Nat → List Nat) (now : Env)
    (rnd : List Nat) (leaseSet : Option LeaseSet) (replyToken : Nat)
    (r : I2NPMessage × List Nat)
    (h : CreateDatabaseStoreMsg P sha256 now rnd leaseSet replyToken = some r) :
    HeaderAgrees r.1.bytes ∧ r.1.bytes.getD 0 0 = P.eI2NPDatabaseStore % 256 := by
  unfold CreateDatabaseStoreMsg at h
  split at h
  · cases h
  · simp only [Option.some.injEq] at h
    subst h
    exact ⟨FillI2NPMessageHeader_agrees _ _ _ _ _ _, FillI2NPMessageHeader_type _ _ _ _ _ _⟩

theorem CreateGarlicClove_clove (now : Env) (rnd : List Nat) (s : GarlicRoutingSession)
    (msg : I2NPMessage) (isDestination : Bool) :
    ∃ c : Clove, (CreateGarlicClove now rnd s msg isDestination).1 = c.bytes ∧
      c.msg = msg.bytes ∧ c.trailer.length = 15 ∧
      (c.instructions = [0] ∨ (c.instructions.length = 33 ∧ c.instructions.getD 0 0 = 32)) := by
  unfold CreateGarlicClove
  simp only
  have hfix : fixed msg.GetLength msg.GetBuffer = msg.bytes := fixed_of_length _ _ rfl
  rw [hfix]
  split
  · rename_i d _
    refine ⟨⟨[(eGarlicDeliveryTypeDestination <<< 5) % 256] ++ fixed 32 d.identHash, msg.bytes,
      htobe32buf (GenerateWord32 rnd).1 ++ htobe64buf (now.tms + 5000) ++ [0, 0, 0]⟩,
      ?_, rfl, by rfl, Or.inr ⟨?_, rfl⟩⟩
    · simp only [Clove.bytes, List.append_assoc]
    · simp only [List.length_append, List.length_singleton, fixed_length]
  · refine ⟨⟨[0], msg.bytes,
      htobe32buf (GenerateWord32 rnd).1 ++ htobe64buf (now.tms + 5000) ++ [0, 0, 0]⟩,
      ?_, rfl, by rfl, Or.inl rfl⟩
    simp only [Clove.bytes, List.append_assoc]

theorem CreateDeliveryStatusClove_clove (P : Params) (C : Crypto) (now : Env)
    (wrap : List Nat → GarlicRoutingSession → I2NPMessage → Option WrapResult)
    (rnd : List Nat) (s : GarlicRoutingSession) (owner : Option GarlicDestination)
    (msgID : Nat) (b : Built)
    (hwrap : ∀ r1 s1 m1 r g, wrap r1 s1 m1 = some r → r.msg = some g → HeaderAgrees g.bytes)
    (h : CreateDeliveryStatusClove P C now wrap rnd s owner msgID = some b) :
    b.bytes = [] ∨
    ∃ c : Clove, b.bytes = c.bytes ∧ 0 < b.bytes.length ∧ c.Laid ∧
      c.instructions.getD 0 0 = 96 := by
  unfold CreateDeliveryStatusClove at h
  split at h
  · cases h
    exact Or.inl rfl
  · split at h
    · cases h
      exact Or.inl rfl
    · rename_i o inboundTunnel _
      simp only at h
      split at h
      · cases h
      · rename_i r hr
        split at h
        · cases h
        · rename_i wrapped hwrapped
          cases h
          right
          refine ⟨⟨[(eGarlicDeliveryTypeTunnel <<< 5) % 256]
              ++ fixed 32 inboundTunnel.nextIdentHash ++ htobe32buf inboundTunnel.nextTunnelID,
            wrapped.bytes,
            htobe32buf (GenerateWord32 r.rnd).1 ++ htobe64buf (now.tms + 5000) ++ [0, 0, 0]⟩,
            ?_, ?_, ⟨by rfl, ?_, Or.inr (Or.inr ⟨?_, rfl⟩)⟩, rfl⟩
          · have hfix : fixed wrapped.GetLength wrapped.GetBuffer = wrapped.bytes :=
              fixed_of_length _ _ rfl
            simp only [Clove.bytes, List.append_assoc, hfix]
          · simp only [List.length_append, List.length_singleton]
            omega
          · exact hwrap _ _ _ _ _ hr hwrapped
          · simp only [List.length_append, List.length_singleton, fixed_length,
              htobe32buf_length]

theorem cloveBytes_nil : cloveBytes [] = [] := rfl

theorem cloveBytes_singleton (c : Clove) : cloveBytes [c] = c.bytes := by
  simp [cloveBytes]

theorem attachDeliveryStatus_cloves (P : Params) (C : Crypto) (now : Env)
    (wrap : List Nat → GarlicRoutingSession → I2NPMessage → Option WrapResult)
    (rnd : List Nat) (s : GarlicRoutingSession) (o : GarlicDestination) (msgID : Nat)
    (newTags : Option UnconfirmedTags) (b : Built) (n : Nat)
    (hwrap : ∀ r1 s1 m1 r g, wrap r1 s1 m1 = some r → r.msg = some g → HeaderAgrees g.bytes)
    (h : attachDeliveryStatus P C now wrap rnd s o msgID newTags = some (b, n)) :
    ∃ ds : List Clove, b.bytes = cloveBytes ds ∧ n = ds.length ∧ ds.length ≤ 1 ∧
      ∀ c ∈ ds, c.Laid ∧ c.instructions.getD 0 0 = 96 := by
  unfold attachDeliveryStatus at h
  split at h
  · split at h
    · cases h
    · rename_i b0 hb0
      have hc := CreateDeliveryStatusClove_clove P C now wrap rnd s (some o) msgID b0 hwrap hb0
      split at h
      · rename_i hpos
        cases h
        rcases hc with hc | ⟨c, hc, _, hlaid, hflag⟩
        · rw [hc] at hpos
          simp at hpos
        · refine ⟨[c], ?_, rfl, by simp, ?_⟩
          · rw [cloveBytes_singleton]
            exact hc
          · intro x hx
            rw [List.mem_singleton] at hx
            subst hx
            exact ⟨hlaid, hflag⟩
      · rename_i hpos
        cases h
        rcases hc with hc | ⟨c, hc, hlen, _, _⟩
        · exact ⟨[], hc, rfl, by simp, by simp⟩
        · exact absurd hlen hpos
  · cases h
    exact ⟨[], rfl, rfl, by simp, by simp⟩

theorem attachLeaseSet_cloves (P : Params) (C : Crypto) (now : Env) (o : GarlicDestination)
    (msgID : Nat) (b : Built) (n : Nat) (b1 : Built) (n1 : Nat)
    (h : attachLeaseSet P C now o msgID b n = some (b1, n1)) :
    ∃ ls : List Clove, b1.bytes = b.bytes ++ cloveBytes ls ∧ n1 = n + ls.length ∧
      ls.length ≤ 1 ∧
      ∀ c ∈ ls, c.Laid ∧ c.instructions = [0] ∧
        c.msg.getD 0 0 = P.eI2NPDatabaseStore % 256 := by
  unfold attachLeaseSet at h
  split at h
  · simp only at h
    split at h
    · cases h
    · rename_i leaseSet hls
      cases h
      obtain ⟨hagree, htype⟩ := CreateDatabaseStoreMsg_agrees _ _ _ _ _ _ _ hls
      refine ⟨[⟨[0], leaseSet.1.bytes,
        htobe32buf (GenerateWord32 leaseSet.2).1 ++ htobe64buf (now.tms + 5000) ++ [0, 0, 0]⟩],
        ?_, rfl, by simp, ?_⟩
      · have hfix : fixed leaseSet.1.GetLength leaseSet.1.GetBuffer = leaseSet.1.bytes :=
          fixed_of_length _ _ rfl
        simp only [CreateGarlicClove, cloveBytes_singleton, Clove.bytes, List.append_assoc, hfix]
      · intro x hx
        rw [List.mem_singleton] at hx
        subst hx
        exact ⟨⟨by rfl, hagree, Or.inl rfl⟩, rfl, htype⟩
  · cases h
    exact ⟨[], by simp [cloveBytes_nil], rfl, by simp, by simp⟩

theorem ownerCloves_cloves (P : Params) (C : Crypto) (now : Env)
    (wrap : List Nat → GarlicRoutingSession → I2NPMessage → Option WrapResult)
    (rnd : List Nat) (s : GarlicRoutingSession) (o : GarlicDestination) (msgID : Nat)
    (newTags : Option UnconfirmedTags) (b : Built) (n : Nat)
    (hwrap : ∀ r1 s1 m1 r g, wrap r1 s1 m1 = some r → r.msg = some g → HeaderAgrees g.bytes)
    (h : ownerCloves P C now wrap rnd s o msgID newTags = some (b, n)) :
    ∃ ds ls : List Clove, b.bytes = cloveBytes (ds ++ ls) ∧ n = (ds ++ ls).length ∧
      ds.length ≤ 1 ∧ (∀ c ∈ ds, c.Laid ∧ c.instructions.getD 0 0 = 96) ∧
      ls.length ≤ 1 ∧
      (∀ c ∈ ls, c.Laid ∧ c.instructions = [0] ∧
        c.msg.getD 0 0 = P.eI2NPDatabaseStore % 256) := by
  unfold ownerCloves at h
  split at h
  · cases h
  · rename_i b1 n1 h1
    obtain ⟨ds, hds, hn, hdl, hdlaid⟩ :=
      attachDeliveryStatus_cloves P C now wrap rnd _ o msgID newTags b1 n1 hwrap h1
    obtain ⟨ls, hls, hn2, hll, hllaid⟩ := attachLeaseSet_cloves P C now o msgID b1 n1 b n h
    refine ⟨ds, ls, ?_, ?_, hdl, hdlaid, hll, hllaid⟩
    · rw [hls, hds, cloveBytes_append]
    · rw [hn2, hn, List.length_append]

theorem attachMessage_layout (P : Params) (now : Env) (b : Built) (n : Nat) (m : I2NPMessage)
    (x y : Nat) (ds ls : List Clove)
    (hb : b.bytes = cloveBytes (ds ++ ls)) (hn : n = (ds ++ ls).length)
    (hdl : ds.length ≤ 1) (hdlaid : ∀ c ∈ ds, c.Laid ∧ c.instructions.getD 0 0 = 96)
    (hll : ls.length ≤ 1)
    (hllaid : ∀ c ∈ ls, c.Laid ∧ c.instructions = [0] ∧
      c.msg.getD 0 0 = P.eI2NPDatabaseStore % 256) :
    ∃ (cm : Clove) (tr : List Nat),
      [(attachMessage now b n (some m)).2.2 % 256] ++ (attachMessage now b n (some m)).1
          ++ [0, 0, 0] ++ htobe32buf x ++ htobe64buf y
        = [(ds ++ ls ++ [cm]).length % 256] ++ cloveBytes (ds ++ ls ++ [cm]) ++ tr ∧
      tr.length = 15 ∧ PayloadLayout P m.bytes ds ls cm := by
  obtain ⟨cm, hcm, hmsg, htr, hinstr⟩ := CreateGarlicClove_clove now b.rnd b.session m
    (match b.session.m_Destination with
      | some d => d.isDestination
      | none => false)
  refine ⟨cm, [0, 0, 0] ++ htobe32buf x ++ htobe64buf y, ?_, by rfl,
    ⟨hdl, hdlaid, hll, hllaid, hmsg, htr, hinstr⟩⟩
  simp only [attachMessage, hcm, hb, hn, cloveBytes_append, cloveBytes_singleton,
    List.length_append, List.length_singleton, List.append_assoc, Nat.add_assoc]

theorem CreateGarlicPayload_cloves (P : Params) (C : Crypto) (now : Env)
    (wrap : List Nat → GarlicRoutingSession → I2NPMessage → Option WrapResult)
    (rnd : List Nat) (s : GarlicRoutingSession) (owner : Option GarlicDestination)
    (m : I2NPMessage) (newTags : Option UnconfirmedTags) (bp : Built)
    (hwrap : ∀ r1 s1 m1 r g, wrap r1 s1 m1 = some r → r.msg = some g → HeaderAgrees g.bytes)
    (h : CreateGarlicPayload P C now wrap rnd s owner (some m) newTags = some bp) :
    ∃ (ds ls : List Clove) (cm : Clove) (tr : List Nat),
      bp.bytes = [(ds ++ ls ++ [cm]).length % 256] ++ cloveBytes (ds ++ ls ++ [cm]) ++ tr ∧
      tr.length = 15 ∧ PayloadLayout P m.bytes ds ls cm := by
  unfold CreateGarlicPayload at h
  simp only at h
  cases owner with
  | none =>
    simp only [Option.some.injEq] at h
    subst h
    obtain ⟨cm, tr, he, htr, hlay⟩ := attachMessage_layout P now (Built.mk [] s none
      (GenerateWord32 rnd).2) 0 m (GenerateWord32 rnd).1 (now.tms + 5000) [] [] rfl rfl
      (by simp) (by simp) (by simp) (by simp)
    exact ⟨[], [], cm, tr, he, htr, hlay⟩
  | some o =>
    simp only at h
    split at h
    · cases h
    · rename_i b n hbn
      simp only [Option.some.injEq] at h
      subst h
      obtain ⟨ds, ls, hb, hn, hdl, hdlaid, hll, hllaid⟩ :=
        ownerCloves_cloves P C now wrap _ s o _ newTags b n hwrap hbn
      obtain ⟨cm, tr, he, htr, hlay⟩ := attachMessage_layout P now b n m (GenerateWord32 rnd).1
        (now.tms + 5000) ds ls hb hn hdl hdlaid hll hllaid
      exact ⟨ds, ls, cm, tr, he, htr, hlay⟩

theorem generateTags_length (ts : Nat) (n : Nat) :
    ∀ rnd : List Nat, (generateTags ts n rnd).1.length = n := by
  induction n with
  | zero =>
    intro rnd
    rfl
  | succ n ih =>
    intro rnd
    simp only [generateTags, List.length_cons, ih]

theorem tags_flatten_length (l : List SessionTag) :
    ((l.map (fun g => fixed 32 g.tag)).flatten).length = l.length * 32 := by
  induction l with
  | nil => rfl
  | cons a t ih =>
    simp only [List.map_cons, List.flatten_cons, List.length_append, fixed_length, ih,
      List.length_cons]
    omega

theorem htobe16buf_mod (n : Nat) : htobe16buf (n % 65536) = htobe16buf n := by
  unfold htobe16buf
  congr 1
  · omega
  · congr 1
    omega

theorem padded_length (block : List Nat) :
    (block ++ List.replicate ((16 - block.length % 16) % 16) 0).length % 16 = 0 := by
  rw [List.length_append, List.length_replicate]
  omega

theorem CreateAESBlock_layout (P : Params) (C : Crypto) (now : Env)
    (wrap : List Nat → GarlicRoutingSession → I2NPMessage → Option WrapResult)
    (rnd : List Nat) (s : GarlicRoutingSession) (owner : Option GarlicDestination)
    (m : I2NPMessage) (iv : List Nat) (b : Built) (hnum : 0 ≤ s.m_NumTags)
    (hwrap : ∀ r1 s1 m1 r g, wrap r1 s1 m1 = some r → r.msg = some g → HeaderAgrees g.bytes)
    (h : CreateAESBlock P C now wrap rnd s owner (some m) iv = some b) :
    ∃ (padded : List Nat) (K : Nat) (tags payload pad : List Nat) (ds ls : List Clove)
      (cm : Clove) (tr : List Nat),
      b.bytes = fixed padded.length (C.aesEncrypt s.m_SessionKey iv padded) ∧
      padded = htobe16buf K ++ (tags ++ (htobe32buf payload.length
        ++ (fixed 32 (C.sha256 payload) ++ ([0] ++ (payload ++ pad))))) ∧
      padded.length % 16 = 0 ∧ tags.length = K * 32 ∧
      payload = [(ds ++ ls ++ [cm]).length % 256] ++ cloveBytes (ds ++ ls ++ [cm]) ++ tr ∧
      tr.length = 15 ∧ PayloadLayout P m.bytes ds ls cm := by
  unfold CreateAESBlock at h
  simp only at h
  cases hc : (owner.isSome && decide (s.m_NumTags ≠ 0) &&
      decide ((s.m_SessionTags.length : Int) ≤ Int.tdiv (s.m_NumTags * 2) 3))
  · -- no new tags
    simp only [hc, Bool.false_eq_true, if_false] at h
    split at h
    · cases h
    · rename_i bp hbp
      simp only [Option.some.injEq] at h
      subst h
      obtain ⟨ds, ls, cm, tr, hbytes, htr, hlay⟩ :=
        CreateGarlicPayload_cloves P C now wrap _ s owner m _ bp hwrap hbp
      generalize hblock : ([0, 0] ++ [] ++ htobe32buf bp.bytes.length
        ++ fixed 32 (C.sha256 bp.bytes) ++ [0] ++ bp.bytes) = block
      refine ⟨block ++ List.replicate ((16 - block.length % 16) % 16) 0, 0, [], bp.bytes,
        List.replicate ((16 - block.length % 16) % 16) 0, ds, ls, cm, tr, rfl, ?_,
        padded_length _, rfl, hbytes, htr, hlay⟩
      rw [← hblock]
      simp only [htobe16buf, List.append_assoc, List.nil_append, Nat.zero_div, Nat.zero_mod]
  · -- new tags
    simp only [hc, if_true] at h
    split at h
    · cases h
    · rename_i bp hbp
      simp only [Option.some.injEq] at h
      subst h
      obtain ⟨ds, ls, cm, tr, hbytes, htr, hlay⟩ :=
        CreateGarlicPayload_cloves P C now wrap _ s owner m _ bp hwrap hbp
      generalize hblock : (htobe16buf ((GenerateSessionTags now rnd s).1.numTags % 65536).toNat
        ++ ((GenerateSessionTags now rnd s).1.sessionTags.map (fun g => fixed 32 g.tag)).flatten
        ++ htobe32buf bp.bytes.length
        ++ fixed 32 (C.sha256 bp.bytes) ++ [0] ++ bp.bytes) = block
      refine ⟨block ++ List.replicate ((16 - block.length % 16) % 16) 0, s.m_NumTags.toNat,
        ((GenerateSessionTags now rnd s).1.sessionTags.map (fun g => fixed 32 g.tag)).flatten,
        bp.bytes, List.replicate ((16 - block.length % 16) % 16) 0, ds, ls, cm, tr, rfl, ?_,
        padded_length _, ?_, hbytes, htr, hlay⟩
      · rw [← hblock]
        have hcount : ((GenerateSessionTags now rnd s).1.numTags % 65536).toNat
            = s.m_NumTags.toNat % 65536 := by
          simp only [GenerateSessionTags]
          omega
        rw [hcount, htobe16buf_mod]
        simp only [List.append_assoc]
      · rw [tags_flatten_length]
        simp only [GenerateSessionTags, generateTags_length]

/-! ## The garlic message read back -/

theorem GetLength_of_GetPayload (recv : I2NPMessage) (l : List Nat)
    (hp : recv.GetPayload = l) : l.length ≤ recv.GetLength := by
  rw [← hp]
  unfold I2NPMessage.GetPayload I2NPMessage.GetLength
  rw [List.length_drop]
  omega

theorem HandleGarlicMessage_tag (P : Params) (C : Crypto) (later : Env)
    (dest : GarlicDestination) (recv : I2NPMessage) (tag data : List Nat) (it : InboundTag)
    (hp : recv.GetPayload = htobe32buf (32 + data.length) ++ (tag ++ data))
    (htl : tag.length = 32) (hsmall : 32 + data.length < 4294967296)
    (hfind : StdMap.find dest.m_Tags tag = some it) :
    (HandleGarlicMessage P C later dest recv).payload =
      (HandleAESBlock P C later dest
        (fixed data.length (C.aesDecrypt it.key ((C.sha256 tag).take 16) data) ++ [])
        data.length it.key recv.sender).payload := by
  have hlen := GetLength_of_GetPayload recv _ hp
  simp only [List.length_append, htobe32buf_length, htl] at hlen
  unfold HandleGarlicMessage
  simp only
  rw [hp, bufbe32toh_htobe32buf, Nat.mod_eq_of_lt hsmall]
  have h1 : ¬ (32 + data.length > recv.GetLength) := by omega
  rw [if_neg h1, drop_append_of_length 4 _ _ (htobe32buf_length _),
    fixed_append_of_length 32 _ _ htl]
  simp only [hfind]
  have h2 : 32 + data.length ≥ 32 := by omega
  rw [if_pos h2, drop_append_of_length 32 _ _ htl]
  have h3 : 32 + data.length - 32 = data.length := by omega
  rw [h3, fixed_of_length _ _ rfl]
  have h4 : (tag ++ data).drop (32 + data.length) = [] := by
    apply List.drop_eq_nil_of_le
    rw [List.length_append]
    omega
  rw [h4]

theorem HandleGarlicMessage_new (P : Params) (C : Crypto) (later : Env)
    (dest : GarlicDestination) (recv : I2NPMessage) (front data eg : List Nat)
    (hp : recv.GetPayload = htobe32buf (514 + data.length) ++ (front ++ data))
    (hfl : front.length = 514) (hsmall : 514 + data.length < 4294967296)
    (hfind : StdMap.find dest.m_Tags (fixed 32 front) = none)
    (hdec : C.elGamalDecrypt dest.encryptionPrivateKey front true = some eg) :
    (HandleGarlicMessage P C later dest recv).payload =
      (HandleAESBlock P C later dest
        (fixed data.length (C.aesDecrypt (fixed 32 eg)
          ((C.sha256 (fixed 32 (eg.drop 32))).take 16) data) ++ [])
        data.length (fixed 32 eg) recv.sender).payload := by
  have hlen := GetLength_of_GetPayload recv _ hp
  simp only [List.length_append, htobe32buf_length, hfl] at hlen
  unfold HandleGarlicMessage
  simp only
  rw [hp, bufbe32toh_htobe32buf, Nat.mod_eq_of_lt hsmall]
  have h1 : ¬ (514 + data.length > recv.GetLength) := by omega
  rw [if_neg h1, drop_append_of_length 4 _ _ (htobe32buf_length _),
    fixed_append_of_le 32 _ _ (by omega)]
  simp only [hfind]
  have h2 : 514 + data.length ≥ 514 := by omega
  rw [if_pos h2, fixed_append_of_length 514 _ _ hfl]
  simp only [hdec]
  rw [drop_append_of_length 514 _ _ hfl]
  have h3 : 514 + data.length - 514 = data.length := by omega
  rw [h3, fixed_of_length _ _ rfl]
  have h4 : (front ++ data).drop (514 + data.length) = [] := by
    apply List.drop_eq_nil_of_le
    rw [List.length_append]
    omega
  rw [h4]

theorem msg_length_le_cloveBytes (cs : List Clove) (c : Clove) (hc : c ∈ cs) :
    c.msg.length ≤ (cloveBytes cs).length := by
  induction cs with
  | nil => cases hc
  | cons a t ih =>
    rw [cloveBytes_cons, List.length_append, Clove.bytes_length]
    rcases List.mem_cons.mp hc with h | h
    · subst h
      omega
    · have := ih h
      omega

theorem Clove.Laid.wellFormed {c : Clove} (h : c.Laid) (hlen : c.msg.length < 65552) :
    c.WellFormed :=
  ⟨h.trailer, h.msg hlen, h.instructions⟩

theorem Clove.action_of_tunnel (P : Params) (len : Nat) (sender : Option InboundTunnel)
    (c : Clove) (h : c.instructions.getD 0 0 = 96) :
    (c.action P len sender).isTunnel = true := by
  unfold Clove.action
  rw [if_pos h]
  simp only
  split <;> rfl

theorem Clove.action_of_local (P : Params) (len : Nat) (sender : Option InboundTunnel)
    (c : Clove) (h : c.instructions.getD 0 0 ≠ 96) :
    c.action P len sender = CloveAction.handleI2NPMessage c.msg len sender := by
  unfold Clove.action
  rw [if_neg h]

theorem block_read_back (P : Params) (C : Crypto) (later : Env) (dest : GarlicDestination)
    (key iv : List Nat) (sender : Option InboundTunnel) (m data padded : List Nat) (K : Nat)
    (tags payload pad : List Nat) (ds ls : List Clove) (cm : Clove) (tr : List Nat)
    (haes : ∀ k v x, x.length % 16 = 0 →
      fixed x.length (C.aesDecrypt k v (fixed x.length (C.aesEncrypt k v x))) = x)
    (hm : GetI2NPMessageLength m = m.length)
    (hdata : data = fixed padded.length (C.aesEncrypt key iv padded))
    (hpadded : padded = htobe16buf K ++ (tags ++ (htobe32buf payload.length
        ++ (fixed 32 (C.sha256 payload) ++ ([0] ++ (payload ++ pad))))))
    (hmod : padded.length % 16 = 0) (htags : tags.length = K * 32)
    (hpayload : payload
      = [(ds ++ ls ++ [cm]).length % 256] ++ cloveBytes (ds ++ ls ++ [cm]) ++ tr)
    (htr : tr.length = 15) (hlay : PayloadLayout P m ds ls cm)
    (hsize : padded.length < 65536) :
    ∃ (pr : PayloadResult) (dsA lsA : List CloveAction),
      (HandleAESBlock P C later dest (fixed data.length (C.aesDecrypt key iv data) ++ [])
        data.length key sender).payload = some (payload, pr) ∧
      pr.cloves = dsA ++ lsA ++ [CloveAction.handleI2NPMessage m payload.length sender] ∧
      dsA.length ≤ 1 ∧ (∀ a ∈ dsA, a.isTunnel = true) ∧
      lsA.length ≤ 1 ∧
      (∀ a ∈ lsA, ∃ x, a = CloveAction.handleI2NPMessage x payload.length sender ∧
        x.getD 0 0 = P.eI2NPDatabaseStore % 256) ∧
      pr.stop + 15 = payload.length := by
  have hdl : data.length = padded.length := by
    rw [hdata, fixed_length]
  have hdec : fixed data.length (C.aesDecrypt key iv data) ++ [] = padded := by
    rw [List.append_nil, hdl, hdata]
    exact haes key iv padded hmod
  have hplen : padded.length = 2 + K * 32 + 4 + 32 + 1 + payload.length + pad.length := by
    rw [hpadded]
    simp only [List.length_append, htobe16buf_length, htobe32buf_length, fixed_length,
      List.length_singleton, htags]
    omega
  have hpl : payload.length = 1 + (cloveBytes (ds ++ ls ++ [cm])).length + tr.length := by
    rw [hpayload]
    simp only [List.length_append, List.length_singleton]
  have hcount : (ds ++ ls ++ [cm]).length < 256 := by
    have h1 := hlay.ds_length
    have h2 := hlay.ls_length
    simp only [List.length_append, List.length_singleton]
    omega
  have hwf : ∀ c ∈ ds ++ ls ++ [cm], c.WellFormed := by
    intro c hc
    have hle := msg_length_le_cloveBytes _ c hc
    rcases List.mem_append.mp hc with h | h
    · rcases List.mem_append.mp h with h | h
      · exact (hlay.ds_laid c h).1.wellFormed (by omega)
      · exact (hlay.ls_laid c h).1.wellFormed (by omega)
    · rw [List.mem_singleton] at h
      subst h
      refine ⟨hlay.cm_trailer, ?_, ?_⟩
      · rw [hlay.cm_msg]
        exact hm
      · rcases hlay.cm_instructions with h | h
        · exact Or.inl h
        · exact Or.inr (Or.inl h)
  have hblock := HandleAESBlock_block P C later dest key sender K tags payload pad
    data.length (ds ++ ls ++ [cm]) tr (by omega) htags hpayload hwf hcount (by omega) (by omega)
  rw [hdec, hpadded]
  refine ⟨_, ds.map (Clove.action P payload.length sender),
    ls.map (Clove.action P payload.length sender), hblock, ?_, ?_, ?_, ?_, ?_, ?_⟩
  · have hcm : cm.action P payload.length sender
        = CloveAction.handleI2NPMessage m payload.length sender := by
      rw [Clove.action_of_local, hlay.cm_msg]
      rcases hlay.cm_instructions with h | h
      · rw [h]
        decide
      · rw [h.2]
        decide
    simp only [List.map_append, List.map_cons, List.map_nil, hcm]
  · rw [List.length_map]
    exact hlay.ds_length
  · intro a ha
    obtain ⟨c, hc, rfl⟩ := List.mem_map.mp ha
    exact Clove.action_of_tunnel P _ sender c (hlay.ds_laid c hc).2
  · rw [List.length_map]
    exact hlay.ls_length
  · intro a ha
    obtain ⟨c, hc, rfl⟩ := List.mem_map.mp ha
    obtain ⟨_, hinstr, htype⟩ := hlay.ls_laid c hc
    refine ⟨c.msg, ?_, htype⟩
    apply Clove.action_of_local
    rw [hinstr]
    decide
  · simp only
    omega

theorem round_trip_of_wrap (P : Params) (C : Crypto) (now later : Env) (rnd : List Nat)
    (s : GarlicRoutingSession) (owner : Option GarlicDestination) (m : I2NPMessage)
    (wr : WrapResult) (g : I2NPMessage) (dest : GarlicDestination) (recv : I2NPMessage)
    (hm : GetI2NPMessageLength m.GetBuffer = m.GetLength)
    (hnum : 0 ≤ s.m_NumTags)
    (haes : ∀ k v x, x.length % 16 = 0 →
      fixed x.length (C.aesDecrypt k v (fixed x.length (C.aesEncrypt k v x))) = x)
    (hwrap : WrapSingleMessage P C now rnd s owner (some m) = some wr)
    (hg : wr.msg = some g) (hsize : g.GetLength < 65536)
    (hrecv : recv.bytes = g.bytes)
    (htag : ∀ T, (findTag P now s).1 = some T →
      ∃ it, StdMap.find dest.m_Tags (fixed 32 T.tag) = some it ∧ it.key = s.m_SessionKey)
    (hnew : (findTag P now s).1 = none →
      ∃ d, s.m_Destination = some d ∧ s.m_SessionKey.length = 32 ∧
        StdMap.find dest.m_Tags (fixed 32 (fixed 514 (C.elGamalEncrypt d.encryptionPublicKey
          (fixed 32 s.m_SessionKey ++ (GenerateBlock rnd 32).1 ++ List.replicate 158 0)
          true))) = none ∧
        ∀ x, x.length = 222 →
          C.elGamalDecrypt dest.encryptionPrivateKey
            (fixed 514 (C.elGamalEncrypt d.encryptionPublicKey x true)) true = some x) :
    ∃ (payload : List Nat) (pr : PayloadResult) (dsA lsA : List CloveAction),
      (HandleGarlicMessage P C later dest recv).payload = some (payload, pr) ∧
      pr.cloves = dsA ++ lsA
        ++ [CloveAction.handleI2NPMessage m.GetBuffer payload.length recv.sender] ∧
      dsA.length ≤ 1 ∧ (∀ a ∈ dsA, a.isTunnel = true) ∧
      lsA.length ≤ 1 ∧
      (∀ a ∈ lsA, ∃ x, a = CloveAction.handleI2NPMessage x payload.length recv.sender ∧
        x.getD 0 0 = P.eI2NPDatabaseStore % 256) ∧
      pr.stop + 15 = payload.length := by
  have hwa : ∀ r1 s1 m1 r g1, WrapSingleMessageNoOwner P C now r1 s1 m1 = some r →
      r.msg = some g1 → HeaderAgrees g1.bytes := by
    intro r1 s1 m1 r g1 h1 h2
    exact WrapSingleMessageWith_agrees P C now _ r1 s1 none (some m1) r g1 h1 h2
  have hrp : recv.GetPayload = g.GetPayload := by
    unfold I2NPMessage.GetPayload
    rw [hrecv]
  have hgl : g.GetPayload.length ≤ g.GetLength := GetLength_of_GetPayload g _ rfl
  unfold WrapSingleMessage WrapSingleMessageWith at hwrap
  simp only at hwrap
  cases hsel : (findTag P now s).1 with
  | some T =>
    obtain ⟨it, hfind, hkey⟩ := htag T hsel
    rw [hsel] at hwrap
    simp only at hwrap
    obtain ⟨_, g1, b, hg1, hb, hp⟩ := frameGarlic_spec _ _ _ _ _ _ _ _ _ _ _ hwrap
    rw [hg] at hg1
    cases hg1
    obtain ⟨padded, K, tags, payload, pad, ds, ls, cm, tr, hbytes, hpadded, hmod, htags,
      hpayload, htr, hlay⟩ := CreateAESBlock_layout P C now _ rnd
        { s with m_SessionTags := (findTag P now s).2 } owner m _ b hnum hwa hb
    have hfl : (fixed 32 T.tag).length = 32 := fixed_length _ _
    rw [hfl, List.append_assoc] at hp
    rw [hp] at hgl
    simp only [List.length_append, htobe32buf_length, hfl] at hgl
    have hbl : b.bytes.length = padded.length := by
      rw [hbytes, fixed_length]
    obtain ⟨pr, dsA, lsA, h1, h2, h3, h4, h5, h6, h7⟩ :=
      block_read_back P C later dest s.m_SessionKey ((C.sha256 (fixed 32 T.tag)).take 16)
        recv.sender m.GetBuffer b.bytes padded K tags payload pad ds ls cm tr haes hm hbytes
        hpadded hmod htags hpayload htr hlay (by omega)
    refine ⟨payload, pr, dsA, lsA, ?_, h2, h3, h4, h5, h6, h7⟩
    rw [HandleGarlicMessage_tag P C later dest recv (fixed 32 T.tag) b.bytes it
      (hrp.trans hp) hfl (by omega) hfind, hkey]
    exact h1
  | none =>
    obtain ⟨d, hd, hkl, hfind1, hdec⟩ := hnew hsel
    rw [hsel] at hwrap
    simp only at hwrap
    rw [hd] at hwrap
    simp only at hwrap
    obtain ⟨_, g1, b, hg1, hb, hp⟩ := frameGarlic_spec _ _ _ _ _ _ _ _ _ _ _ hwrap
    rw [hg] at hg1
    cases hg1
    obtain ⟨padded, K, tags, payload, pad, ds, ls, cm, tr, hbytes, hpadded, hmod, htags,
      hpayload, htr, hlay⟩ := CreateAESBlock_layout P C now _ _
        { s with m_Destination := some d, m_SessionTags := (findTag P now s).2 } owner m _ b
        hnum hwa hb
    have hfl : (fixed 514 (C.elGamalEncrypt d.encryptionPublicKey
        (fixed 32 s.m_SessionKey ++ (GenerateBlock rnd 32).1 ++ List.replicate 158 0)
        true)).length = 514 := fixed_length _ _
    rw [hfl, List.append_assoc] at hp
    rw [hp] at hgl
    simp only [List.length_append, htobe32buf_length, hfl] at hgl
    have hbl : b.bytes.length = padded.length := by
      rw [hbytes, fixed_length]
    have hpre : (GenerateBlock rnd 32).1.length = 32 := fixed_length _ _
    have hxl : (fixed 32 s.m_SessionKey ++ (GenerateBlock rnd 32).1
        ++ List.replicate 158 0).length = 222 := by
      simp only [List.length_append, fixed_length, hpre, List.length_replicate]
    have hdec1 := hdec _ hxl
    have hk : fixed 32 (fixed 32 s.m_SessionKey ++ (GenerateBlock rnd 32).1
        ++ List.replicate 158 0) = s.m_SessionKey := by
      rw [List.append_assoc, fixed_append_of_length 32 _ _ (fixed_length _ _),
        fixed_of_length _ _ hkl]
    have hiv : fixed 32 ((fixed 32 s.m_SessionKey ++ (GenerateBlock rnd 32).1
        ++ List.replicate 158 0).drop 32) = (GenerateBlock rnd 32).1 := by
      rw [List.append_assoc, drop_append_of_length 32 _ _ (fixed_length _ _),
        fixed_append_of_length 32 _ _ hpre]
    obtain ⟨pr, dsA, lsA, h1, h2, h3, h4, h5, h6, h7⟩ :=
      block_read_back P C later dest s.m_SessionKey
        ((C.sha256 (GenerateBlock rnd 32).1).take 16)
        recv.sender m.GetBuffer b.bytes padded K tags payload pad ds ls cm tr haes hm hbytes
        hpadded hmod htags hpayload htr hlay (by omega)
    refine ⟨payload, pr, dsA, lsA, ?_, h2, h3, h4, h5, h6, h7⟩
    rw [HandleGarlicMessage_new P C later dest recv _ b.bytes _
      (hrp.trans hp) hfl (by omega) hfind1 hdec1, hk, hiv]
    exact h1

/-- Claim C1: round trip of the garlic framing. Let `m` be an I2NP message whose header
gives its length, wrapped on a session whose tag count is not negative (the expiration
timeout being positive and the owner, if any, having a lease-set), for a peer that shares the
session key: with existing-session framing the tag used is in the peer's inbound table with
the session key; with new-session framing the session has a destination whose ElGamal block
the peer's private key decrypts, and the first 32 bytes of that block are not one of the
peer's tags. With ciphers whose decryption undoes the encryption, `WrapSingleMessage` returns
a garlic message `g`, and when `g` is short enough for the 16-bit size field of an I2NP
header, `HandleGarlicMessage` on the bytes of `g` hands the payload to the clove parser; the
cloves parsed are at most one DeliveryStatus clove, of delivery type Tunnel, at most one
LeaseSet clove, a DatabaseStore message handled locally, and last the message `m`, byte for
byte; the parser stops where the 15 bytes of certificate, msgID and expiration begin. -/
theorem garlic_round_trip (P : Params) (C : Crypto) (now later : Env) (rnd : List Nat)
    (s : GarlicRoutingSession) (owner : Option GarlicDestination) (m : I2NPMessage)
    (dest : GarlicDestination)
    (hm : GetI2NPMessageLength m.GetBuffer = m.GetLength)
    (hnum : 0 ≤ s.m_NumTags)
    (hto : 0 < P.OUTGOING_TAGS_EXPIRATION_TIMEOUT)
    (hls : ∀ o, owner = some o → o.leaseSet ≠ none)
    (haes : ∀ k v x, x.length % 16 = 0 →
      fixed x.length (C.aesDecrypt k v (fixed x.length (C.aesEncrypt k v x))) = x)
    (htag : ∀ T, (findTag P now s).1 = some T →
      ∃ it, StdMap.find dest.m_Tags (fixed 32 T.tag) = some it ∧ it.key = s.m_SessionKey)
    (hnew : (findTag P now s).1 = none →
      ∃ d, s.m_Destination = some d ∧ s.m_SessionKey.length = 32 ∧
        StdMap.find dest.m_Tags (fixed 32 (fixed 514 (C.elGamalEncrypt d.encryptionPublicKey
          (fixed 32 s.m_SessionKey ++ (GenerateBlock rnd 32).1 ++ List.replicate 158 0)
          true))) = none ∧
        ∀ x, x.length = 222 →
          C.elGamalDecrypt dest.encryptionPrivateKey
            (fixed 514 (C.elGamalEncrypt d.encryptionPublicKey x true)) true = some x) :
    ∃ wr g, WrapSingleMessage P C now rnd s owner (some m) = some wr ∧ wr.msg = some g ∧
      (g.GetLength < 65536 → ∀ recv : I2NPMessage, recv.bytes = g.bytes →
        ∃ (payload : List Nat) (pr : PayloadResult) (dsA lsA : List CloveAction),
          (HandleGarlicMessage P C later dest recv).payload = some (payload, pr) ∧
          pr.cloves = dsA ++ lsA
            ++ [CloveAction.handleI2NPMessage m.GetBuffer payload.length recv.sender] ∧
          dsA.length ≤ 1 ∧ (∀ a ∈ dsA, a.isTunnel = true) ∧
          lsA.length ≤ 1 ∧
          (∀ a ∈ lsA, ∃ x, a = CloveAction.handleI2NPMessage x payload.length recv.sender ∧
            x.getD 0 0 = P.eI2NPDatabaseStore % 256) ∧
          pr.stop + 15 = payload.length) := by
  obtain ⟨wr, hwrap, hmsg⟩ := WrapSingleMessage_returns P C now rnd s owner (some m) hto hls
  rcases hmsg with ⟨hsel, hd⟩ | ⟨g, hg⟩
  · obtain ⟨d, hd1, _⟩ := hnew hsel
    rw [hd] at hd1
    cases hd1
  · refine ⟨wr, g, hwrap, hg, ?_⟩
    intro hsize recv hrecv
    exact round_trip_of_wrap P C now later rnd s owner m wr g dest recv hm hnum haes hwrap hg
      hsize hrecv htag hnew

set_option maxRecDepth 8000 in
theorem garlic_round_trip_witness :
    WrapSingleMessage exampleParams exampleCrypto exampleNow [] exampleSession none
        (some exampleInner) = some exampleWrapResult ∧
    exampleWrapResult.msg = some exampleGarlic ∧
    ∃ payload pr dsA lsA,
      (HandleGarlicMessage exampleParams exampleCrypto exampleNow examplePeer
        exampleGarlic).payload = some (payload, pr) ∧
      pr.cloves = dsA ++ lsA
        ++ [CloveAction.handleI2NPMessage exampleInner.GetBuffer payload.length
            exampleGarlic.sender] ∧
      pr.stop + 15 = payload.length := by
  have hs : WrapSingleMessage exampleParams exampleCrypto exampleNow [] exampleSession none
      (some exampleInner) = some exampleWrapResult := by decide
  have hg : exampleWrapResult.msg = some exampleGarlic := by decide
  have hsel : (findTag exampleParams exampleNow exampleSession).1 = some (exampleTag 2 1500) := by
    decide
  have hfind : StdMap.find examplePeer.m_Tags (fixed 32 (exampleTag 2 1500).tag)
      = some { creationTime := 1500, key := exampleSession.m_SessionKey } := by
    decide
  obtain ⟨wr, g, h1, h2, h3⟩ := garlic_round_trip exampleParams exampleCrypto exampleNow
    exampleNow [] exampleSession none exampleInner examplePeer (by decide) (by decide)
    (by decide) (fun o h => by cases h)
    (fun _ _ x _ => by
      show fixed x.length (fixed x.length x) = x
      rw [fixed_of_length _ _ rfl, fixed_of_length _ _ rfl])
    (fun T hT => by
      rw [hsel] at hT
      cases hT
      exact ⟨_, hfind, rfl⟩)
    (fun hnone => by
      rw [hsel] at hnone
      cases hnone)
  rw [hs] at h1
  cases h1
  rw [hg] at h2
  cases h2
  obtain ⟨payload, pr, dsA, lsA, h4, h5, _, _, _, _, h6⟩ := h3 (by decide) exampleGarlic rfl
  exact ⟨hs, hg, payload, pr, dsA, lsA, h4, h5, h6⟩

/-! ## Build records: the scan -/

theorem findOurRecord_some (records ourHash : List Nat) (n : Nat) :
    ∀ (i0 i : Nat), findOurRecord records ourHash n i0 = some i →
      i0 ≤ i ∧ i < i0 + n ∧ isOurRecord records ourHash i ∧
      ∀ j, i0 ≤ j → j < i → ¬ isOurRecord records ourHash j := by
  induction n with
  | zero =>
    intro i0 i h
    simp [findOurRecord] at h
  | succ n ih =>
    intro i0 i h
    unfold findOurRecord at h
    simp only at h
    split at h
    · rename_i hm
      cases h
      exact ⟨Nat.le_refl _, by omega, hm, fun j h1 h2 => by omega⟩
    · rename_i hm
      obtain ⟨h1, h2, h3, h4⟩ := ih (i0 + 1) i h
      refine ⟨by omega, by omega, h3, ?_⟩
      intro j hj1 hj2
      by_cases hj : j = i0
      · subst hj
        exact hm
      · exact h4 j (by omega) hj2

theorem findOurRecord_none (records ourHash : List Nat) (n : Nat) :
    ∀ (i0 : Nat), (∀ j, i0 ≤ j → j < i0 + n → ¬ isOurRecord records ourHash j) →
      findOurRecord records ourHash n i0 = none := by
  induction n with
  | zero =>
    intro i0 _
    rfl
  | succ n ih =>
    intro i0 h
    unfold findOurRecord
    simp only
    have h0 := h i0 (Nat.le_refl _) (by omega)
    unfold isOurRecord at h0
    rw [if_neg h0]
    exact ih (i0 + 1) (fun j h1 h2 => h j (by omega) (by omega))

theorem findOurRecord_first (records ourHash : List Nat) (n : Nat) :
    ∀ (i0 i : Nat), i0 ≤ i → i < i0 + n → isOurRecord records ourHash i →
      (∀ j, i0 ≤ j → j < i → ¬ isOurRecord records ourHash j) →
      findOurRecord records ourHash n i0 = some i := by
  induction n with
  | zero =>
    intro i0 i h1 h2
    omega
  | succ n ih =>
    intro i0 i h1 h2 h3 h4
    unfold findOurRecord
    simp only
    by_cases hi : i = i0
    · subst hi
      unfold isOurRecord at h3
      rw [if_pos h3]
    · have h0 := h4 i0 (Nat.le_refl _) (by omega)
      unfold isOurRecord at h0
      rw [if_neg h0]
      exact ih (i0 + 1) i (by omega) (by omega) h3 (fun j hj1 hj2 => h4 j (by omega) hj2)

/-! ## Build records: bytes written and bytes kept -/

theorem getElem?_drop_take (l : List Nat) (a n k : Nat) :
    ((l.drop a).take n)[k]? = if k < n then l[a + k]? else none := by
  rw [List.getElem?_take]
  split
  · rw [List.getElem?_drop]
  · rfl

theorem length_writeAt (l : List Nat) (p : Nat) (d : List Nat) (hp : p + d.length ≤ l.length) :
    (writeAt l p d).length = l.length := by
  unfold writeAt
  simp only [List.length_append, List.length_take, List.length_drop]
  omega

theorem getElem?_writeAt (l : List Nat) (p : Nat) (d : List Nat) (k : Nat)
    (hp : p ≤ l.length) :
    (writeAt l p d)[k]? =
      if k < p then l[k]? else if k < p + d.length then d[k - p]? else l[k]? := by
  unfold writeAt
  have hl : (l.take p).length = p := by
    rw [List.length_take]
    omega
  by_cases h1 : k < p
  · rw [if_pos h1, List.append_assoc, List.getElem?_append_left (by omega),
      List.getElem?_take_of_lt h1]
  · rw [if_neg h1, List.append_assoc, List.getElem?_append_right (by omega), hl]
    by_cases h2 : k < p + d.length
    · rw [if_pos h2, List.getElem?_append_left (by omega)]
    · rw [if_neg h2, List.getElem?_append_right (by omega), List.getElem?_drop]
      congr 1
      omega

theorem drop_take_writeAt_self (l : List Nat) (p : Nat) (d : List Nat)
    (hp : p ≤ l.length) : ((writeAt l p d).drop p).take d.length = d := by
  apply List.ext_getElem?
  intro k
  rw [getElem?_drop_take, getElem?_writeAt l p d (p + k) hp]
  by_cases hk : k < d.length
  · rw [if_pos hk, if_neg (by omega), if_pos (by omega)]
    congr 1
    omega
  · rw [if_neg hk]
    symm
    exact List.getElem?_eq_none (by omega)

theorem drop_take_writeAt_of_disjoint (l : List Nat) (p : Nat) (d : List Nat) (a n : Nat)
    (hp : p ≤ l.length) (hdis : a + n ≤ p ∨ p + d.length ≤ a) :
    ((writeAt l p d).drop a).take n = (l.drop a).take n := by
  apply List.ext_getElem?
  intro k
  rw [getElem?_drop_take, getElem?_drop_take, getElem?_writeAt l p d (a + k) hp]
  by_cases hk : k < n
  · rw [if_pos hk, if_pos hk]
    rcases hdis with h | h
    · rw [if_pos (by omega)]
    · rw [if_neg (by omega), if_neg (by omega)]
  · rw [if_neg hk, if_neg hk]

theorem getD_writeAt_of_disjoint (l : List Nat) (p : Nat) (d : List Nat) (a : Nat)
    (hp : p ≤ l.length) (hdis : a < p ∨ p + d.length ≤ a) :
    (writeAt l p d).getD a 0 = l.getD a 0 := by
  rw [List.getD_eq_getElem?_getD, List.getD_eq_getElem?_getD, getElem?_writeAt l p d a hp]
  rcases hdis with h | h
  · rw [if_pos h]
  · rw [if_neg (by omega), if_neg (by omega)]

theorem getD_writeAt_self (l : List Nat) (p x : Nat) (hp : p ≤ l.length) :
    (writeAt l p [x]).getD p 0 = x := by
  rw [List.getD_eq_getElem?_getD, getElem?_writeAt l p [x] p hp, if_neg (by omega),
    if_pos (by simp)]
  simp

theorem recordAt_writeAt_self (l : List Nat) (j : Nat) (d : List Nat)
    (hd : d.length = TUNNEL_BUILD_RECORD_SIZE) (hl : j * TUNNEL_BUILD_RECORD_SIZE ≤ l.length) :
    recordAt (writeAt l (j * TUNNEL_BUILD_RECORD_SIZE) d) j = d := by
  unfold recordAt
  have h := drop_take_writeAt_self l (j * TUNNEL_BUILD_RECORD_SIZE) d hl
  rw [hd] at h
  exact h

theorem recordAt_writeAt_ne (l : List Nat) (j k : Nat) (d : List Nat)
    (hd : d.length = TUNNEL_BUILD_RECORD_SIZE) (hl : j * TUNNEL_BUILD_RECORD_SIZE ≤ l.length)
    (hk : k ≠ j) :
    recordAt (writeAt l (j * TUNNEL_BUILD_RECORD_SIZE) d) k = recordAt l k := by
  unfold recordAt
  apply drop_take_writeAt_of_disjoint l _ d _ _ hl
  rw [hd]
  unfold TUNNEL_BUILD_RECORD_SIZE
  rcases Nat.lt_or_gt_of_ne hk with h | h
  · left
    have : (k + 1) * 528 ≤ j * 528 := Nat.mul_le_mul_right 528 h
    omega
  · right
    have : (j + 1) * 528 ≤ k * 528 := Nat.mul_le_mul_right 528 h
    omega

theorem recordAt_length (l : List Nat) (j : Nat)
    (hl : (j + 1) * TUNNEL_BUILD_RECORD_SIZE ≤ l.length) :
    (recordAt l j).length = TUNNEL_BUILD_RECORD_SIZE := by
  unfold recordAt
  rw [List.length_take, List.length_drop]
  have : (j + 1) * TUNNEL_BUILD_RECORD_SIZE = j * TUNNEL_BUILD_RECORD_SIZE + TUNNEL_BUILD_RECORD_SIZE := by
    ring
  omega

theorem encryptReplies_spec (C : Crypto) (key iv : List Nat)
    (hlen : ∀ k v x, (C.aesEncrypt k v x).length = x.length) (n : Nat) :
    ∀ (j : Nat) (records : List Nat), (j + n) * TUNNEL_BUILD_RECORD_SIZE ≤ records.length →
      (encryptReplies C key iv n j records).length = records.length ∧
      ∀ k, (j ≤ k ∧ k < j + n →
          recordAt (encryptReplies C key iv n j records) k
            = C.aesEncrypt key iv (recordAt records k)) ∧
        (k < j ∨ j + n ≤ k →
          recordAt (encryptReplies C key iv n j records) k = recordAt records k) := by
  induction n with
  | zero =>
    intro j records _
    refine ⟨rfl, fun k => ⟨fun h => by omega, fun _ => rfl⟩⟩
  | succ n ih =>
    intro j records hl
    have hj1 : (j + 1) * TUNNEL_BUILD_RECORD_SIZE ≤ records.length := by
      have : (j + 1) * TUNNEL_BUILD_RECORD_SIZE ≤ (j + (n + 1)) * TUNNEL_BUILD_RECORD_SIZE :=
        Nat.mul_le_mul_right _ (by omega)
      omega
    have hj0 : j * TUNNEL_BUILD_RECORD_SIZE ≤ records.length := by
      have : j * TUNNEL_BUILD_RECORD_SIZE ≤ (j + 1) * TUNNEL_BUILD_RECORD_SIZE :=
        Nat.mul_le_mul_right _ (by omega)
      omega
    have hrec : (recordAt records j).length = TUNNEL_BUILD_RECORD_SIZE := recordAt_length _ _ hj1
    have henc : ((C.aesEncrypt key iv (recordAt records j)).take TUNNEL_BUILD_RECORD_SIZE)
        = C.aesEncrypt key iv (recordAt records j) := by
      apply List.take_of_length_le
      rw [hlen, hrec]
    have hencl : (C.aesEncrypt key iv (recordAt records j)).length = TUNNEL_BUILD_RECORD_SIZE := by
      rw [hlen, hrec]
    have hstep : encryptReplies C key iv (n + 1) j records
        = encryptReplies C key iv n (j + 1)
            (writeAt records (j * TUNNEL_BUILD_RECORD_SIZE)
              (C.aesEncrypt key iv (recordAt records j))) := by
      conv_lhs => unfold encryptReplies
      simp only
      rw [← henc]
      rfl
    have hwl : (writeAt records (j * TUNNEL_BUILD_RECORD_SIZE)
        (C.aesEncrypt key iv (recordAt records j))).length = records.length := by
      apply length_writeAt
      rw [hencl]
      have : (j + 1) * TUNNEL_BUILD_RECORD_SIZE
          = j * TUNNEL_BUILD_RECORD_SIZE + TUNNEL_BUILD_RECORD_SIZE := by ring
      omega
    obtain ⟨h1, h2⟩ := ih (j + 1) (writeAt records (j * TUNNEL_BUILD_RECORD_SIZE)
      (C.aesEncrypt key iv (recordAt records j))) (by
        rw [hwl]
        have : j + 1 + n = j + (n + 1) := by omega
        rw [this]
        exact hl)
    rw [hstep]
    refine ⟨h1.trans hwl, fun k => ⟨?_, ?_⟩⟩
    · intro hk
      by_cases hkj : k = j
      · subst hkj
        rw [(h2 k).2 (Or.inl (by omega)), recordAt_writeAt_self _ _ _ hencl hj0]
      · rw [(h2 k).1 ⟨by omega, by omega⟩, recordAt_writeAt_ne _ _ _ _ hencl hj0 hkj]
    · intro hk
      rw [(h2 k).2 (by omega), recordAt_writeAt_ne _ _ _ _ hencl hj0 (by omega)]


theorem writeBuildResponse_spec (P : Params) (C : Crypto) (records : List Nat) (pos ret : Nat)
    (hret : P.BUILD_RESPONSE_RECORD_RET_OFFSET
      = P.BUILD_RESPONSE_RECORD_PADDING_OFFSET + P.BUILD_RESPONSE_RECORD_PADDING_SIZE)
    (hretlt : P.BUILD_RESPONSE_RECORD_RET_OFFSET < TUNNEL_BUILD_RECORD_SIZE)
    (hhash : P.BUILD_RESPONSE_RECORD_HASH_OFFSET + 32 ≤ P.BUILD_RESPONSE_RECORD_PADDING_OFFSET ∨
      P.BUILD_RESPONSE_RECORD_RET_OFFSET + 1 ≤ P.BUILD_RESPONSE_RECORD_HASH_OFFSET)
    (hhashle : P.BUILD_RESPONSE_RECORD_HASH_OFFSET + 32 ≤ TUNNEL_BUILD_RECORD_SIZE)
    (hsha : ∀ x, (C.sha256 x).length = 32)
    (hrec : pos + TUNNEL_BUILD_RECORD_SIZE ≤ records.length) :
    (writeBuildResponse P C records pos ret).length = records.length ∧
    ((writeBuildResponse P C records pos ret).drop
        (pos + P.BUILD_RESPONSE_RECORD_HASH_OFFSET)).take 32
      = C.sha256 ((records.drop (pos + P.BUILD_RESPONSE_RECORD_PADDING_OFFSET)).take
          P.BUILD_RESPONSE_RECORD_PADDING_SIZE ++ [ret]) ∧
    ((writeBuildResponse P C records pos ret).drop
        (pos + P.BUILD_RESPONSE_RECORD_PADDING_OFFSET)).take P.BUILD_RESPONSE_RECORD_PADDING_SIZE
      = (records.drop (pos + P.BUILD_RESPONSE_RECORD_PADDING_OFFSET)).take
          P.BUILD_RESPONSE_RECORD_PADDING_SIZE ∧
    (writeBuildResponse P C records pos ret).getD (pos + P.BUILD_RESPONSE_RECORD_RET_OFFSET) 0
      = ret ∧
    ∀ a n, a + n ≤ pos ∨ pos + TUNNEL_BUILD_RECORD_SIZE ≤ a →
      ((writeBuildResponse P C records pos ret).drop a).take n = (records.drop a).take n := by
  unfold TUNNEL_BUILD_RECORD_SIZE at hretlt hhashle hrec
  have hl1 : (writeAt records (pos + P.BUILD_RESPONSE_RECORD_RET_OFFSET) [ret]).length
      = records.length := length_writeAt _ _ _ (by simp only [List.length_singleton]; omega)
  -- the bytes that are hashed
  have hin : ((writeAt records (pos + P.BUILD_RESPONSE_RECORD_RET_OFFSET) [ret]).drop
      (pos + P.BUILD_RESPONSE_RECORD_PADDING_OFFSET)).take
        (P.BUILD_RESPONSE_RECORD_PADDING_SIZE + 1)
      = (records.drop (pos + P.BUILD_RESPONSE_RECORD_PADDING_OFFSET)).take
          P.BUILD_RESPONSE_RECORD_PADDING_SIZE ++ [ret] := by
    apply List.ext_getElem?
    intro k
    rw [getElem?_drop_take, getElem?_writeAt _ _ _ _ (by omega)]
    have hpl : ((records.drop (pos + P.BUILD_RESPONSE_RECORD_PADDING_OFFSET)).take
        P.BUILD_RESPONSE_RECORD_PADDING_SIZE).length = P.BUILD_RESPONSE_RECORD_PADDING_SIZE := by
      rw [List.length_take, List.length_drop]
      omega
    by_cases h1 : k < P.BUILD_RESPONSE_RECORD_PADDING_SIZE
    · rw [if_pos (by omega), if_pos (by omega), List.getElem?_append_left (by omega),
        getElem?_drop_take, if_pos h1]
    · by_cases h2 : k = P.BUILD_RESPONSE_RECORD_PADDING_SIZE
      · rw [if_pos (by omega), if_neg (by omega), if_pos (by simp only [List.length_singleton]; omega),
          List.getElem?_append_right (by omega), hpl]
        congr 1
        omega
      · rw [if_neg (by omega)]
        symm
        apply List.getElem?_eq_none
        simp only [List.length_append, hpl, List.length_singleton]
        omega
  unfold writeBuildResponse
  simp only
  rw [hin]
  have hsl := hsha ((records.drop (pos + P.BUILD_RESPONSE_RECORD_PADDING_OFFSET)).take
          P.BUILD_RESPONSE_RECORD_PADDING_SIZE ++ [ret])
  refine ⟨?_, ?_, ?_, ?_, ?_⟩
  · rw [length_writeAt _ _ _ (by rw [hl1, hsl]; omega), hl1]
  · have h := drop_take_writeAt_self
      (writeAt records (pos + P.BUILD_RESPONSE_RECORD_RET_OFFSET) [ret])
      (pos + P.BUILD_RESPONSE_RECORD_HASH_OFFSET)
      (C.sha256 ((records.drop (pos + P.BUILD_RESPONSE_RECORD_PADDING_OFFSET)).take
          P.BUILD_RESPONSE_RECORD_PADDING_SIZE ++ [ret])) (by rw [hl1]; omega)
    rw [hsl] at h
    exact h
  · rw [drop_take_writeAt_of_disjoint _ _ _ _ _ (by rw [hl1]; omega) (by rw [hsl]; omega),
      drop_take_writeAt_of_disjoint _ _ _ _ _ (by omega)
        (by simp only [List.length_singleton]; omega)]
  · rw [getD_writeAt_of_disjoint _ _ _ _ (by rw [hl1]; omega) (by rw [hsl]; omega),
      getD_writeAt_self _ _ _ (by omega)]
  · intro a n ha
    unfold TUNNEL_BUILD_RECORD_SIZE at ha
    rw [drop_take_writeAt_of_disjoint _ _ _ _ _ (by rw [hl1]; omega) (by rw [hsl]; omega),
      drop_take_writeAt_of_disjoint _ _ _ _ _ (by omega)
        (by simp only [List.length_singleton]; omega)]

/-! ## Build records: the reply -/

theorem HandleBuildRequestRecords_of_find (P : Params) (C : Crypto) (router : RouterState)
    (num : Nat) (records clearText : List Nat) (i : Nat)
    (hfind : findOurRecord records router.identHash num 0 = some i) :
    (HandleBuildRequestRecords P C router num records clearText).found = true ∧
    (HandleBuildRequestRecords P C router num records clearText).clearText
      = (C.elGamalDecrypt router.encryptionPrivateKey
          (((records.drop (i * TUNNEL_BUILD_RECORD_SIZE)).drop
            BUILD_REQUEST_RECORD_ENCRYPTED_OFFSET).take 512) false).getD clearText ∧
    (HandleBuildRequestRecords P C router num records clearText).records
      = encryptReplies C
          (((HandleBuildRequestRecords P C router num records clearText).clearText.drop
            BUILD_REQUEST_RECORD_REPLY_KEY_OFFSET).take 32)
          (((HandleBuildRequestRecords P C router num records clearText).clearText.drop
            BUILD_REQUEST_RECORD_REPLY_IV_OFFSET).take 16)
          num 0
          (writeBuildResponse P C records (i * TUNNEL_BUILD_RECORD_SIZE)
            (buildResponseRet P router)) := by
  simp only [HandleBuildRequestRecords, hfind]
  exact ⟨trivial, trivial, trivial⟩

/-- Claim C11, amended: when `HandleBuildRequestRecords` finds its record in a message of
`num` records, the record before the reply encryption holds the `ret` byte (0 or 30) directly
after the padding bytes of the request, which are left as they were, and the hash field holds
the SHA-256 of those padding bytes followed by the `ret` byte (a layout such as
`hash(32) | padding(495) | ret(1)`: the source hashes `PADDING_SIZE + 1` bytes from the
padding offset, so `ret` follows the padding and the hash field lies outside both); the other
records are left as they were. Then every one of the `num` records is encrypted over its 528
bytes with the reply key and the reply IV of the decrypted request, each from that same IV. -/
theorem build_response_record (P : Params) (C : Crypto) (router : RouterState)
    (num : Nat) (records clearText : List Nat) (i : Nat)
    (hfind : findOurRecord records router.identHash num 0 = some i)
    (hlen : records.length = num * TUNNEL_BUILD_RECORD_SIZE)
    (hret : P.BUILD_RESPONSE_RECORD_RET_OFFSET
      = P.BUILD_RESPONSE_RECORD_PADDING_OFFSET + P.BUILD_RESPONSE_RECORD_PADDING_SIZE)
    (hretlt : P.BUILD_RESPONSE_RECORD_RET_OFFSET < TUNNEL_BUILD_RECORD_SIZE)
    (hhash : P.BUILD_RESPONSE_RECORD_HASH_OFFSET + 32 ≤ P.BUILD_RESPONSE_RECORD_PADDING_OFFSET ∨
      P.BUILD_RESPONSE_RECORD_RET_OFFSET + 1 ≤ P.BUILD_RESPONSE_RECORD_HASH_OFFSET)
    (hhashle : P.BUILD_RESPONSE_RECORD_HASH_OFFSET + 32 ≤ TUNNEL_BUILD_RECORD_SIZE)
    (hsha : ∀ x, (C.sha256 x).length = 32)
    (haes : ∀ k v x, (C.aesEncrypt k v x).length = x.length) :
    ∃ response : List Nat,
      response = writeBuildResponse P C records (i * TUNNEL_BUILD_RECORD_SIZE)
        (buildResponseRet P router) ∧
      ((recordAt response i).drop P.BUILD_RESPONSE_RECORD_HASH_OFFSET).take 32
        = C.sha256 (((recordAt records i).drop P.BUILD_RESPONSE_RECORD_PADDING_OFFSET).take
            P.BUILD_RESPONSE_RECORD_PADDING_SIZE ++ [buildResponseRet P router]) ∧
      ((recordAt response i).drop P.BUILD_RESPONSE_RECORD_PADDING_OFFSET).take
          P.BUILD_RESPONSE_RECORD_PADDING_SIZE
        = ((recordAt records i).drop P.BUILD_RESPONSE_RECORD_PADDING_OFFSET).take
            P.BUILD_RESPONSE_RECORD_PADDING_SIZE ∧
      (recordAt response i).getD P.BUILD_RESPONSE_RECORD_RET_OFFSET 0
        = buildResponseRet P router ∧
      (buildResponseRet P router = 0 ∨ buildResponseRet P router = 30) ∧
      (∀ j, j < num → j ≠ i → recordAt response j = recordAt records j) ∧
      ∀ j, j < num →
        recordAt (HandleBuildRequestRecords P C router num records clearText).records j
          = C.aesEncrypt
              (((HandleBuildRequestRecords P C router num records clearText).clearText.drop
                BUILD_REQUEST_RECORD_REPLY_KEY_OFFSET).take 32)
              (((HandleBuildRequestRecords P C router num records clearText).clearText.drop
                BUILD_REQUEST_RECORD_REPLY_IV_OFFSET).take 16)
              (recordAt response j) := by
  obtain ⟨_, hi, _, _⟩ := findOurRecord_some records router.identHash num 0 i hfind
  have hrec : i * TUNNEL_BUILD_RECORD_SIZE + TUNNEL_BUILD_RECORD_SIZE ≤ records.length := by
    rw [hlen]
    have : (i + 1) * TUNNEL_BUILD_RECORD_SIZE ≤ num * TUNNEL_BUILD_RECORD_SIZE :=
      Nat.mul_le_mul_right _ (by omega)
    have h2 : (i + 1) * TUNNEL_BUILD_RECORD_SIZE
        = i * TUNNEL_BUILD_RECORD_SIZE + TUNNEL_BUILD_RECORD_SIZE := by ring
    omega
  obtain ⟨hl, h1, h2, h3, h4⟩ := writeBuildResponse_spec P C records
    (i * TUNNEL_BUILD_RECORD_SIZE) (buildResponseRet P router) hret hretlt hhash hhashle hsha hrec
  obtain ⟨_, _, hrecs⟩ := HandleBuildRequestRecords_of_find P C router num records clearText i hfind
  -- a field of the record of index `i` is a field of the message
  have hfield : ∀ (l : List Nat) (a n : Nat), a + n ≤ TUNNEL_BUILD_RECORD_SIZE →
      ((recordAt l i).drop a).take n = (l.drop (i * TUNNEL_BUILD_RECORD_SIZE + a)).take n := by
    intro l a n han
    apply List.ext_getElem?
    intro k
    unfold recordAt
    rw [getElem?_drop_take, getElem?_drop_take, getElem?_drop_take]
    by_cases hk : k < n
    · rw [if_pos hk, if_pos hk, if_pos (by omega), Nat.add_assoc]
    · rw [if_neg hk, if_neg hk]
  have hbyte : ∀ (l : List Nat) (a : Nat), a < TUNNEL_BUILD_RECORD_SIZE →
      (recordAt l i).getD a 0 = l.getD (i * TUNNEL_BUILD_RECORD_SIZE + a) 0 := by
    intro l a ha
    unfold recordAt
    rw [List.getD_eq_getElem?_getD, List.getD_eq_getElem?_getD, getElem?_drop_take, if_pos ha]
  have hps : P.BUILD_RESPONSE_RECORD_PADDING_OFFSET + P.BUILD_RESPONSE_RECORD_PADDING_SIZE
      ≤ TUNNEL_BUILD_RECORD_SIZE := by omega
  refine ⟨_, rfl, ?_, ?_, ?_, ?_, ?_, ?_⟩
  · rw [hfield _ _ _ hhashle, hfield _ _ _ hps, h1]
  · rw [hfield _ _ _ hps, hfield _ _ _ hps, h2]
  · rw [hbyte _ _ hretlt, h3]
  · unfold buildResponseRet
    split
    · exact Or.inl rfl
    · exact Or.inr rfl
  · intro j hj hji
    unfold recordAt
    apply h4
    rcases Nat.lt_or_gt_of_ne hji with h | h
    · left
      have : (j + 1) * TUNNEL_BUILD_RECORD_SIZE ≤ i * TUNNEL_BUILD_RECORD_SIZE :=
        Nat.mul_le_mul_right _ h
      have h2 : (j + 1) * TUNNEL_BUILD_RECORD_SIZE
          = j * TUNNEL_BUILD_RECORD_SIZE + TUNNEL_BUILD_RECORD_SIZE := by ring
      omega
    · right
      have : (i + 1) * TUNNEL_BUILD_RECORD_SIZE ≤ j * TUNNEL_BUILD_RECORD_SIZE :=
        Nat.mul_le_mul_right _ h
      have h2 : (i + 1) * TUNNEL_BUILD_RECORD_SIZE
          = i * TUNNEL_BUILD_RECORD_SIZE + TUNNEL_BUILD_RECORD_SIZE := by ring
      omega
  · intro j hj
    rw [hrecs]
    have hspec := encryptReplies_spec C
      (((HandleBuildRequestRecords P C router num records clearText).clearText.drop
        BUILD_REQUEST_RECORD_REPLY_KEY_OFFSET).take 32)
      (((HandleBuildRequestRecords P C router num records clearText).clearText.drop
        BUILD_REQUEST_RECORD_REPLY_IV_OFFSET).take 16) haes num 0
      (writeBuildResponse P C records (i * TUNNEL_BUILD_RECORD_SIZE) (buildResponseRet P router))
      (by rw [hl, hlen, Nat.zero_add])
    exact (hspec.2 j).1 ⟨Nat.zero_le _, by omega⟩

set_option maxRecDepth 100000 in
theorem response_hash_spec_layout :
    (HandleBuildRequestRecords specLayoutParams exampleCrypto exampleRouterClosed 1
      exampleBuildRecords []).found = true ∧
    ((HandleBuildRequestRecords specLayoutParams exampleCrypto exampleRouterClosed 1
      exampleBuildRecords []).records.drop 495).take 32
      ≠ exampleCrypto.sha256
        ((HandleBuildRequestRecords specLayoutParams exampleCrypto exampleRouterClosed 1
            exampleBuildRecords []).records.take 495
          ++ [(HandleBuildRequestRecords specLayoutParams exampleCrypto exampleRouterClosed 1
            exampleBuildRecords []).records.getD 527 0]) := by
  decide


theorem build_response_record_witness :
    ∃ response : List Nat,
      ((recordAt response 0).drop 0).take 32
        = exampleCrypto.sha256 (((recordAt exampleBuildRecords 0).drop 32).take 495 ++ [30]) ∧
      (recordAt response 0).getD 527 0 = 30 ∧
      recordAt (HandleBuildRequestRecords exampleParams exampleCrypto exampleRouterClosed 1
        exampleBuildRecords []).records 0 = recordAt response 0 := by
  have hfind : findOurRecord exampleBuildRecords exampleRouterClosed.identHash 1 0 = some 0 := by
    simp only [findOurRecord, exampleBuildRecords, exampleRouterClosed,
      BUILD_REQUEST_RECORD_TO_PEER_OFFSET, Nat.zero_mul, List.drop_zero, List.take_replicate]
    rfl
  obtain ⟨response, _, h1, _, h3, _, _, h6⟩ := build_response_record exampleParams exampleCrypto
    exampleRouterClosed 1 exampleBuildRecords [] 0 hfind
    (by simp only [exampleBuildRecords, List.length_replicate, TUNNEL_BUILD_RECORD_SIZE])
    (by decide) (by decide) (by decide) (by decide)
    (fun x => List.length_replicate _ _) (fun _ _ _ => rfl)
  exact ⟨response, h1, h3, h6 0 (by decide)⟩

/-- Claim C12: `HandleBuildRequestRecords` scans the records in index order. When the record
of index `i` is the first of the `num` records whose `toPeer` is the first 16 bytes of the
local identity hash, it returns true, decrypts the request of that record and writes the reply
into that record before all records are encrypted. When no record matches it returns false,
leaves the records (and the clear text) as they were and creates no transit tunnel. -/
theorem build_record_matching (P : Params) (C : Crypto) (router : RouterState)
    (num : Nat) (records clearText : List Nat) :
    (∀ i, i < num → isOurRecord records router.identHash i →
      (∀ j, j < i → ¬ isOurRecord records router.identHash j) →
      (HandleBuildRequestRecords P C router num records clearText).found = true ∧
      (HandleBuildRequestRecords P C router num records clearText).clearText
        = (C.elGamalDecrypt router.encryptionPrivateKey
            (((records.drop (i * TUNNEL_BUILD_RECORD_SIZE)).drop
              BUILD_REQUEST_RECORD_ENCRYPTED_OFFSET).take 512) false).getD clearText ∧
      (HandleBuildRequestRecords P C router num records clearText).records
        = encryptReplies C
            (((HandleBuildRequestRecords P C router num records clearText).clearText.drop
              BUILD_REQUEST_RECORD_REPLY_KEY_OFFSET).take 32)
            (((HandleBuildRequestRecords P C router num records clearText).clearText.drop
              BUILD_REQUEST_RECORD_REPLY_IV_OFFSET).take 16)
            num 0
            (writeBuildResponse P C records (i * TUNNEL_BUILD_RECORD_SIZE)
              (buildResponseRet P router))) ∧
    ((∀ j, j < num → ¬ isOurRecord records router.identHash j) →
      (HandleBuildRequestRecords P C router num records clearText).found = false ∧
      (HandleBuildRequestRecords P C router num records clearText).records = records ∧
      (HandleBuildRequestRecords P C router num records clearText).clearText = clearText ∧
      (HandleBuildRequestRecords P C router num records clearText).router = router) := by
  constructor
  · intro i hi hours hfirst
    have hfind := findOurRecord_first records router.identHash num 0 i (Nat.zero_le _)
      (by omega) hours (fun j _ hj => hfirst j hj)
    exact HandleBuildRequestRecords_of_find P C router num records clearText i hfind
  · intro hnone
    have hfind := findOurRecord_none records router.identHash num 0
      (fun j _ hj => hnone j (by omega))
    simp only [HandleBuildRequestRecords, hfind]
    exact ⟨trivial, trivial, trivial, trivial⟩

theorem build_record_matching_witness :
    (HandleBuildRequestRecords exampleParams exampleCrypto exampleRouterClosed 1
      exampleBuildRecords []).found = true ∧
    (HandleBuildRequestRecords exampleParams exampleCrypto exampleOtherRouter 1
      exampleBuildRecords []).found = false ∧
    (HandleBuildRequestRecords exampleParams exampleCrypto exampleOtherRouter 1
      exampleBuildRecords []).records = exampleBuildRecords := by
  have h := build_record_matching exampleParams exampleCrypto exampleRouterClosed 1
    exampleBuildRecords []
  have h2 := build_record_matching exampleParams exampleCrypto exampleOtherRouter 1
    exampleBuildRecords []
  have hours : isOurRecord exampleBuildRecords exampleRouterClosed.identHash 0 := by
    simp only [isOurRecord, exampleBuildRecords, exampleRouterClosed,
      BUILD_REQUEST_RECORD_TO_PEER_OFFSET, Nat.zero_mul, List.drop_zero, List.take_replicate]
    rfl
  have hnot : ∀ j, j < 1 → ¬ isOurRecord exampleBuildRecords exampleOtherRouter.identHash j := by
    intro j hj
    have hj0 : j = 0 := by omega
    subst hj0
    simp only [isOurRecord, exampleBuildRecords, exampleOtherRouter,
      BUILD_REQUEST_RECORD_TO_PEER_OFFSET, Nat.zero_mul, List.drop_zero, List.take_replicate]
    decide
  exact ⟨(h.1 0 (by decide) hours (fun j hj => by omega)).1, (h2.2 hnot).1, (h2.2 hnot).2.1⟩

/-! ## Tunnel configuration: the chain of hops -/

theorem getElem?_updateHop (hops : List TunnelHopConfig) (i : Nat)
    (f : TunnelHopConfig → TunnelHopConfig) (j : Nat) :
    (updateHop hops i f)[j]? = if i = j then (hops[j]?).map f else hops[j]? := by
  unfold updateHop
  cases h : hops[i]? with
  | none =>
    simp only
    by_cases hij : i = j
    · subst hij
      rw [if_pos rfl, h]
      rfl
    · rw [if_neg hij]
  | some x =>
    simp only
    rw [List.getElem?_set]
    by_cases hij : i = j
    · subst hij
      have hlt : i < hops.length := by
        by_contra hc
        rw [List.getElem?_eq_none (by omega)] at h
        cases h
      rw [if_pos rfl, if_pos rfl, if_pos hlt, h]
      rfl
    · rw [if_neg hij, if_neg hij]

theorem length_updateHop (hops : List TunnelHopConfig) (i : Nat)
    (f : TunnelHopConfig → TunnelHopConfig) : (updateHop hops i f).length = hops.length := by
  unfold updateHop
  split
  · exact List.length_set _ _ _
  · rfl

theorem length_SetNext (hops : List TunnelHopConfig) (this n : Nat) :
    (SetNext hops this n).length = hops.length := by
  unfold SetNext
  simp only
  split <;> simp only [length_updateHop]

theorem getElem?_SetNext (hops : List TunnelHopConfig) (this n : Nat)
    (ht hn : TunnelHopConfig) (hthis : hops[this]? = some ht) (hnext : hops[n]? = some hn)
    (hne : this ≠ n) (j : Nat) :
    (SetNext hops this n)[j]? =
      if j = this then
        some { ht with next := some n, isEndpoint := false, nextRouter := some hn.router,
                       nextTunnelID := hn.tunnelID }
      else if j = n then some { hn with prev := some this, isGateway := false }
      else hops[j]? := by
  unfold SetNext
  simp only
  have h2n : (updateHop (updateHop hops this (fun h => { h with next := some n })) n
      (fun h => { h with prev := some this, isGateway := false }))[n]?
      = some { hn with prev := some this, isGateway := false } := by
    rw [getElem?_updateHop, if_pos rfl, getElem?_updateHop, if_neg hne, hnext]
    rfl
  rw [h2n]
  simp only
  rw [getElem?_updateHop]
  by_cases h1 : j = this
  · subst h1
    rw [if_pos rfl, if_pos rfl, getElem?_updateHop, if_neg (Ne.symm hne), getElem?_updateHop,
      if_pos rfl, hthis]
    rfl
  · rw [if_neg (Ne.symm h1), if_neg h1, getElem?_updateHop]
    by_cases h2 : j = n
    · subst h2
      rw [if_pos rfl, if_pos rfl, getElem?_updateHop, if_neg hne, hnext]
      rfl
    · rw [if_neg (Ne.symm h2), if_neg h2, getElem?_updateHop, if_neg (Ne.symm h1)]

theorem HopChain.first_step (c : TunnelConfig) (hc : HopChain [] c) (it : RouterInfo)
    (hop : TunnelHopConfig) (hr : hop.router = it) (hg : hop.isGateway = true)
    (he : hop.isEndpoint = true) (hn : hop.next = none) (hp : hop.prev = none) :
    HopChain ([] ++ [it])
      (TunnelConfig.mk (c.hops ++ [hop]) (some c.hops.length) (some c.hops.length)) := by
  have hl : c.hops.length = 0 := hc.length
  have hnil : c.hops = [] := List.length_eq_zero.mp hl
  refine ⟨?_, ?_, ?_, ?_⟩
  · simp [hl]
  · simp [hl]
  · simp [hl]
  · intro j h hj
    simp only [hnil, List.nil_append] at hj ⊢
    cases j with
    | zero =>
      simp only [List.getElem?_cons_zero, Option.some.injEq] at hj
      subst hj
      refine ⟨by simp [hr], by simp [hg], by simp [he], by simp [hn], by simp [hp], ?_⟩
      intro n hn1
      simp at hn1
    | succ j =>
      simp at hj

theorem HopChain.next_step (done : List RouterInfo) (c : TunnelConfig) (hc : HopChain done c)
    (k : Nat) (hk : done.length = k + 1) (it : RouterInfo)
    (hop : TunnelHopConfig) (hr : hop.router = it)
    (he : hop.isEndpoint = true) (hn : hop.next = none) :
    HopChain (done ++ [it])
      (TunnelConfig.mk (SetNext (c.hops ++ [hop]) k c.hops.length) c.m_FirstHop
        (some c.hops.length)) := by
  have hl : c.hops.length = k + 1 := hc.length.trans hk
  obtain ⟨ht, hht⟩ : ∃ ht, c.hops[k]? = some ht := by
    have : k < c.hops.length := by omega
    exact ⟨c.hops[k], List.getElem?_eq_getElem this⟩
  have h1k : (c.hops ++ [hop])[k]? = some ht := by
    rw [List.getElem?_append_left (by omega)]
    exact hht
  have h1n : (c.hops ++ [hop])[c.hops.length]? = some hop := List.getElem?_concat_length _ _
  have hget := getElem?_SetNext (c.hops ++ [hop]) k c.hops.length ht hop h1k h1n (by omega)
  have hkt := hc.hop k ht hht
  have hdl : (done ++ [it]).length = k + 2 := by
    rw [List.length_append, hk]
    rfl
  refine ⟨?_, ?_, ?_, ?_⟩
  · simp only [length_SetNext, List.length_append, List.length_singleton, hl, hk]
  · simp only [hc.first, hk, hdl]
    rfl
  · simp only [hl, hdl]
    rfl
  · intro j h hj
    simp only at hj ⊢
    rw [hget] at hj
    rw [hdl]
    by_cases hjk : j = k
    · -- the hop that was last
      subst hjk
      rw [if_pos rfl] at hj
      cases hj
      refine ⟨?_, ?_, ?_, ?_, ?_, ?_⟩
      · rw [List.getElem?_append_left (by omega)]
        exact hkt.1
      · exact hkt.2.1
      · simp
      · simp [hl]
      · exact hkt.2.2.2.2.1
      · intro n hn1
        rw [hget, if_neg (by omega), if_pos (by omega)] at hn1
        cases hn1
        exact ⟨rfl, rfl⟩
    · rw [if_neg hjk] at hj
      by_cases hjn : j = c.hops.length
      · -- the new hop
        rw [if_pos hjn] at hj
        cases hj
        rw [hjn, hl]
        refine ⟨?_, ?_, ?_, ?_, ?_, ?_⟩
        · rw [List.getElem?_append_right (by omega), hk]
          simp [hr]
        · simp
        · simp [he]
        · simp [hn]
        · simp
        · intro n hn1
          rw [List.getElem?_eq_none (by
            simp only [length_SetNext, List.length_append, List.length_singleton]
            omega)] at hn1
          cases hn1
      · -- an earlier hop
        rw [if_neg hjn] at hj
        have hjlt : j < k := by
          by_contra hcon
          rw [List.getElem?_eq_none (by simp only [List.length_append, List.length_singleton]; omega)] at hj
          cases hj
        rw [List.getElem?_append_left (by omega)] at hj
        have hjt := hc.hop j h hj
        rw [hk] at hjt
        refine ⟨?_, ?_, ?_, ?_, ?_, ?_⟩
        · rw [List.getElem?_append_left (by omega)]
          exact hjt.1
        · exact hjt.2.1
        · rw [hjt.2.2.1]
          have e1 : ¬ (j + 1 = k + 1) := by omega
          have e2 : ¬ (j + 1 = k + 2) := by omega
          simp [e1, e2]
        · rw [hjt.2.2.2.1, if_pos (by omega), if_pos (by omega)]
        · exact hjt.2.2.2.2.1
        · intro n hn1
          rw [hget] at hn1
          by_cases hj1 : j + 1 = k
          · rw [if_pos hj1] at hn1
            cases hn1
            have := hjt.2.2.2.2.2 ht (by rw [hj1]; exact hht)
            exact this
          · rw [if_neg hj1, if_neg (by omega), List.getElem?_append_left (by omega)] at hn1
            exact hjt.2.2.2.2.2 n hn1

theorem addHops_chain (rest : List RouterInfo) :
    ∀ (done : List RouterInfo) (rnd : List Nat) (c : TunnelConfig), HopChain done c →
      HopChain (done ++ rest) (TunnelConfig.addHops rest rnd c).1 := by
  induction rest with
  | nil =>
    intro done rnd c hc
    rw [List.append_nil]
    exact hc
  | cons it rest ih =>
    intro done rnd c hc
    have e : done ++ it :: rest = (done ++ [it]) ++ rest := by simp
    rw [e]
    unfold TunnelConfig.addHops
    simp only
    cases hdl : done.length with
    | zero =>
      have hnil : done = [] := List.length_eq_zero.mp hdl
      subst hnil
      have hlast : c.m_LastHop = none := by
        rw [hc.last]
        rfl
      rw [hlast]
      simp only
      exact ih _ _ _ (HopChain.first_step c hc it _ rfl rfl rfl rfl rfl)
    | succ k =>
      have hlast : c.m_LastHop = some k := by
        rw [hc.last, hdl]
        rfl
      rw [hlast]
      simp only
      exact ih _ _ _ (HopChain.next_step done c hc k hdl it _ rfl rfl rfl)

theorem HopChain.empty : HopChain [] (TunnelConfig.mk [] none none) := by
  refine ⟨rfl, rfl, rfl, ?_⟩
  intro j h hj
  simp at hj

theorem addHops_of_peers (rnd : List Nat) (peers : List RouterInfo) :
    HopChain peers (TunnelConfig.addHops peers rnd (TunnelConfig.mk [] none none)).1 := by
  have h := addHops_chain peers [] rnd _ HopChain.empty
  rw [List.nil_append] at h
  exact h

theorem create_inbound (rnd : List Nat) (sharedRouterInfo : RouterInfo)
    (peers : List RouterInfo) (hne : peers ≠ []) :
    ∃ c rnd1, TunnelConfig.create rnd sharedRouterInfo peers none = some (c, rnd1) ∧
      c.hops.length = peers.length ∧ c.m_FirstHop = some 0 ∧
      c.m_LastHop = some (peers.length - 1) ∧
      ∀ j h, c.hops[j]? = some h →
        some h.router = peers[j]? ∧ h.isGateway = decide (j = 0) ∧ h.isEndpoint = false ∧
        (j + 1 = peers.length → h.nextRouter = some sharedRouterInfo) := by
  have hc := addHops_of_peers rnd peers
  have hpos : peers.length ≠ 0 := fun h => hne (List.length_eq_zero.mp h)
  have hfirst := hc.first
  have hlast := hc.last
  rw [if_neg hpos] at hfirst hlast
  obtain ⟨hl, hhl⟩ : ∃ hl, (TunnelConfig.addHops peers rnd
      (TunnelConfig.mk [] none none)).1.hops[peers.length - 1]? = some hl := by
    have hlt : peers.length - 1 < (TunnelConfig.addHops peers rnd
        (TunnelConfig.mk [] none none)).1.hops.length := by
      rw [hc.length]
      omega
    exact ⟨_, List.getElem?_eq_getElem hlt⟩
  unfold TunnelConfig.create
  simp only [hlast, hhl]
  refine ⟨_, _, rfl, ?_, hfirst, rfl, ?_⟩
  · simp only [List.length_set]
    exact hc.length
  · intro j h hj
    simp only at hj
    rw [List.getElem?_set] at hj
    by_cases hjl : peers.length - 1 = j
    · rw [if_pos hjl, if_pos (by rw [hc.length]; omega)] at hj
      cases hj
      have hk := hc.hop (peers.length - 1) hl hhl
      subst hjl
      exact ⟨hk.1, hk.2.1, rfl, fun _ => rfl⟩
    · rw [if_neg hjl] at hj
      have hk := hc.hop j h hj
      have hjlt : j < peers.length := by
        by_contra hcon
        rw [List.getElem?_eq_none (by rw [hc.length]; omega)] at hj
        cases hj
      refine ⟨hk.1, hk.2.1, ?_, fun h1 => by omega⟩
      rw [hk.2.2.1]
      have e : ¬ (j + 1 = peers.length) := by omega
      simp [e]

theorem create_outbound (rnd : List Nat) (sharedRouterInfo : RouterInfo)
    (peers : List RouterInfo) (reply : TunnelConfig) (replyFirstHop : TunnelHopConfig)
    (hne : peers ≠ []) (hreply : reply.GetFirstHop = some replyFirstHop) :
    ∃ c rnd1, TunnelConfig.create rnd sharedRouterInfo peers (some reply) = some (c, rnd1) ∧
      c.hops.length = peers.length ∧ c.m_FirstHop = some 0 ∧
      c.m_LastHop = some (peers.length - 1) ∧
      ∀ j h, c.hops[j]? = some h →
        some h.router = peers[j]? ∧ h.isGateway = false ∧
        h.isEndpoint = decide (j + 1 = peers.length) ∧
        (j + 1 = peers.length → h.nextRouter = some replyFirstHop.router ∧
          h.nextTunnelID = replyFirstHop.tunnelID) := by
  have hc := addHops_of_peers rnd peers
  have hpos : peers.length ≠ 0 := fun h => hne (List.length_eq_zero.mp h)
  have hfirst := hc.first
  have hlast := hc.last
  rw [if_neg hpos] at hfirst hlast
  unfold TunnelConfig.create
  simp only [hfirst, hlast, hreply]
  refine ⟨_, _, rfl, ?_, rfl, rfl, ?_⟩
  · simp only [length_updateHop]
    exact hc.length
  · intro j h hj
    simp only at hj
    rw [getElem?_updateHop, getElem?_updateHop] at hj
    have hjlt : j < peers.length := by
      by_contra hcon
      have hnone : (TunnelConfig.addHops peers rnd
          (TunnelConfig.mk [] none none)).1.hops[j]? = none :=
        List.getElem?_eq_none (by rw [hc.length]; omega)
      rw [hnone] at hj
      split at hj <;> split at hj <;> cases hj
    obtain ⟨h0, hh0⟩ : ∃ h0, (TunnelConfig.addHops peers rnd
        (TunnelConfig.mk [] none none)).1.hops[j]? = some h0 :=
      ⟨_, List.getElem?_eq_getElem (by rw [hc.length]; exact hjlt)⟩
    have hk := hc.hop j h0 hh0
    rw [hh0] at hj
    by_cases hjl : peers.length - 1 = j
    · rw [if_pos hjl] at hj
      by_cases hj0 : 0 = j
      · rw [if_pos hj0] at hj
        cases hj
        refine ⟨hk.1, rfl, ?_, fun _ => ⟨rfl, rfl⟩⟩
        have e : j + 1 = peers.length := by omega
        simp [TunnelHopConfig.SetReplyHop, e]
      · rw [if_neg hj0] at hj
        cases hj
        refine ⟨hk.1, ?_, ?_, fun _ => ⟨rfl, rfl⟩⟩
        · simp only [TunnelHopConfig.SetReplyHop]
          rw [hk.2.1]
          have e : ¬ (j = 0) := by omega
          simp [e]
        · have e : j + 1 = peers.length := by omega
          simp [TunnelHopConfig.SetReplyHop, e]
    · rw [if_neg hjl] at hj
      have e : ¬ (j + 1 = peers.length) := by omega
      by_cases hj0 : 0 = j
      · rw [if_pos hj0] at hj
        cases hj
        refine ⟨hk.1, rfl, ?_, fun h1 => absurd h1 e⟩
        simp only
        rw [hk.2.2.1]
      · rw [if_neg hj0] at hj
        cases hj
        refine ⟨hk.1, ?_, hk.2.2.1, fun h1 => absurd h1 e⟩
        rw [hk.2.1]
        have e0 : ¬ (j = 0) := by omega
        simp [e0]

/-- Claim C13, amended: for every non-empty ordered peer list, the `TunnelConfig` built from
it, inbound (without a reply config) or outbound (with one that has a first hop), has one hop
per peer in order, every hop other than the last has isEndpoint = false and every hop other
than the first has isGateway = false. The last hop of an outbound tunnel has isEndpoint =
true; the last hop of an inbound tunnel has isEndpoint = false (`SetNextRouter` clears it) and
its nextRouter is the local router, and the first hop of an inbound tunnel has isGateway =
true. -/
theorem chain_assembly_flags (rnd : List Nat) (sharedRouterInfo : RouterInfo)
    (peers : List RouterInfo) (reply : Option TunnelConfig) (hne : peers ≠ [])
    (hreply : ∀ r, reply = some r → r.GetFirstHop ≠ none) :
    ∃ c rnd1, TunnelConfig.create rnd sharedRouterInfo peers reply = some (c, rnd1) ∧
      c.hops.length = peers.length ∧
      (∀ j h, c.hops[j]? = some h →
        some h.router = peers[j]? ∧ (j + 1 < peers.length → h.isEndpoint = false) ∧
        (0 < j → h.isGateway = false)) ∧
      (∃ last, c.GetLastHop = some last ∧ last.isEndpoint = reply.isSome ∧
        (reply = none → last.nextRouter = some sharedRouterInfo)) ∧
      (reply = none → ∃ first, c.GetFirstHop = some first ∧ first.isGateway = true) := by
  have hpos : 0 < peers.length := by
    rcases Nat.eq_zero_or_pos peers.length with h | h
    · exact absurd (List.length_eq_zero.mp h) hne
    · exact h
  cases reply with
  | none =>
    obtain ⟨c, rnd1, hcr, hlen, hfirst, hlast, hhop⟩ :=
      create_inbound rnd sharedRouterInfo peers hne
    obtain ⟨hl, hhl⟩ : ∃ hl, c.hops[peers.length - 1]? = some hl :=
      ⟨_, List.getElem?_eq_getElem (by rw [hlen]; omega)⟩
    obtain ⟨hf, hhf⟩ : ∃ hf, c.hops[0]? = some hf :=
      ⟨_, List.getElem?_eq_getElem (by rw [hlen]; omega)⟩
    refine ⟨c, rnd1, hcr, hlen, ?_, ?_, ?_⟩
    · intro j h hj
      have hk := hhop j h hj
      refine ⟨hk.1, fun _ => hk.2.2.1, fun h0 => ?_⟩
      rw [hk.2.1]
      have e : ¬ (j = 0) := by omega
      simp [e]
    · refine ⟨hl, ?_, (hhop _ hl hhl).2.2.1, fun _ => (hhop _ hl hhl).2.2.2 (by omega)⟩
      simp [TunnelConfig.GetLastHop, hlast, hhl]
    · intro _
      refine ⟨hf, ?_, ?_⟩
      · simp [TunnelConfig.GetFirstHop, hfirst, hhf]
      · rw [(hhop 0 hf hhf).2.1]
        rfl
  | some r =>
    obtain ⟨rf, hrf⟩ := Option.ne_none_iff_exists'.mp (hreply r rfl)
    obtain ⟨c, rnd1, hcr, hlen, hfirst, hlast, hhop⟩ :=
      create_outbound rnd sharedRouterInfo peers r rf hne hrf
    obtain ⟨hl, hhl⟩ : ∃ hl, c.hops[peers.length - 1]? = some hl :=
      ⟨_, List.getElem?_eq_getElem (by rw [hlen]; omega)⟩
    refine ⟨c, rnd1, hcr, hlen, ?_, ?_, fun h => by cases h⟩
    · intro j h hj
      have hk := hhop j h hj
      refine ⟨hk.1, fun h1 => ?_, fun _ => hk.2.1⟩
      rw [hk.2.2.1]
      have e : ¬ (j + 1 = peers.length) := by omega
      simp [e]
    · refine ⟨hl, ?_, ?_, fun h => by cases h⟩
      · simp [TunnelConfig.GetLastHop, hlast, hhl]
      · rw [(hhop _ hl hhl).2.2.1]
        have e : peers.length - 1 + 1 = peers.length := by omega
        simp [e]

/-- Claim C13 as written fails for an inbound tunnel: the config built from one peer without
a reply config has a last hop with isEndpoint = false. -/
theorem inbound_last_hop_not_endpoint :
    ((TunnelConfig.create [] (exampleRouterInfo 0) [exampleRouterInfo 1] none).bind
      (fun c => c.1.GetLastHop)).map (fun h => h.isEndpoint) = some false := by
  decide

theorem chain_assembly_flags_witness :
    ∃ c rnd1, TunnelConfig.create [] (exampleRouterInfo 0)
        [exampleRouterInfo 1, exampleRouterInfo 2] (some exampleReplyConfig) = some (c, rnd1) ∧
      c.hops.length = 2 ∧ ∃ last, c.GetLastHop = some last ∧ last.isEndpoint = true := by
  obtain ⟨c, rnd1, h1, h2, _, ⟨last, h4, h5, _⟩, _⟩ := chain_assembly_flags []
    (exampleRouterInfo 0) [exampleRouterInfo 1, exampleRouterInfo 2] (some exampleReplyConfig)
    (by decide) (fun r hr => by
      cases hr
      decide)
  exact ⟨c, rnd1, h1, h2, last, h4, h5⟩

/-- Claim C14: for every non-empty peer list and every reply config `R` with a first hop,
the `TunnelConfig` built with `R` has a first hop with isGateway = false, so `IsInbound ()`
is false, and its last hop has nextRouter = R.firstHop.router and nextTunnelID =
R.firstHop.tunnelID; the `TunnelConfig` built without a reply config has `IsInbound ()` true.
A one-hop list is included. -/
theorem outbound_chain_kind (rnd : List Nat) (sharedRouterInfo : RouterInfo)
    (peers : List RouterInfo) (R : TunnelConfig) (replyFirstHop : TunnelHopConfig)
    (hne : peers ≠ []) (hreply : R.GetFirstHop = some replyFirstHop) :
    (∃ c rnd1, TunnelConfig.create rnd sharedRouterInfo peers (some R) = some (c, rnd1) ∧
      (∃ first, c.GetFirstHop = some first ∧ first.isGateway = false) ∧
      c.IsInbound = some false ∧
      ∃ last, c.GetLastHop = some last ∧ last.nextRouter = some replyFirstHop.router ∧
        last.nextTunnelID = replyFirstHop.tunnelID) ∧
    ∃ c rnd1, TunnelConfig.create rnd sharedRouterInfo peers none = some (c, rnd1) ∧
      c.IsInbound = some true := by
  have hpos : 0 < peers.length := by
    rcases Nat.eq_zero_or_pos peers.length with h | h
    · exact absurd (List.length_eq_zero.mp h) hne
    · exact h
  constructor
  · obtain ⟨c, rnd1, hcr, hlen, hfirst, hlast, hhop⟩ :=
      create_outbound rnd sharedRouterInfo peers R replyFirstHop hne hreply
    obtain ⟨hl, hhl⟩ : ∃ hl, c.hops[peers.length - 1]? = some hl :=
      ⟨_, List.getElem?_eq_getElem (by rw [hlen]; omega)⟩
    obtain ⟨hf, hhf⟩ : ∃ hf, c.hops[0]? = some hf :=
      ⟨_, List.getElem?_eq_getElem (by rw [hlen]; omega)⟩
    have hgf : c.GetFirstHop = some hf := by
      simp [TunnelConfig.GetFirstHop, hfirst, hhf]
    refine ⟨c, rnd1, hcr, ⟨hf, hgf, (hhop 0 hf hhf).2.1⟩, ?_, hl, ?_, ?_⟩
    · simp [TunnelConfig.IsInbound, hgf, (hhop 0 hf hhf).2.1]
    · simp [TunnelConfig.GetLastHop, hlast, hhl]
    · exact (hhop _ hl hhl).2.2.2 (by omega)
  · obtain ⟨c, rnd1, hcr, hlen, hfirst, hlast, hhop⟩ :=
      create_inbound rnd sharedRouterInfo peers hne
    obtain ⟨hf, hhf⟩ : ∃ hf, c.hops[0]? = some hf :=
      ⟨_, List.getElem?_eq_getElem (by rw [hlen]; omega)⟩
    have hgf : c.GetFirstHop = some hf := by
      simp [TunnelConfig.GetFirstHop, hfirst, hhf]
    refine ⟨c, rnd1, hcr, ?_⟩
    simp [TunnelConfig.IsInbound, hgf, (hhop 0 hf hhf).2.1]

theorem outbound_chain_kind_witness :
    ∃ c rnd1, TunnelConfig.create [] (exampleRouterInfo 0) [exampleRouterInfo 1]
        (some exampleReplyConfig) = some (c, rnd1) ∧
      c.IsInbound = some false ∧
      ∃ last, c.GetLastHop = some last ∧ last.nextRouter = some (exampleRouterInfo 7) ∧
        last.nextTunnelID = 700 := by
  obtain ⟨⟨c, rnd1, h1, _, h3, h4⟩, _⟩ := outbound_chain_kind [] (exampleRouterInfo 0)
    [exampleRouterInfo 1] exampleReplyConfig exampleReplyHop (by decide) rfl
  exact ⟨c, rnd1, h1, h3, h4⟩

/-! ## Confirmations -/

theorem TagsConfirmed_leaseSet (P : Params) (now : Env) (s : GarlicRoutingSession)
    (msgID : Nat) :
    (TagsConfirmed P now s msgID).m_LeaseSetUpdateStatus = s.m_LeaseSetUpdateStatus ∧
    (TagsConfirmed P now s msgID).m_LeaseSetUpdateMsgID = s.m_LeaseSetUpdateMsgID := by
  unfold TagsConfirmed
  split <;> exact ⟨rfl, rfl⟩

/-- Claim C17, amended: `MessageConfirmed (msgID)` sets the lease-set state to UpToDate
exactly when msgID equals leaseSetUpdateMsgID, in whatever state the session is; a
confirmation with a different msgID leaves the lease-set state unchanged. The recorded
leaseSetUpdateMsgID is never changed. -/
theorem lease_set_confirmation (P : Params) (now : Env) (s : GarlicRoutingSession)
    (owner : Option GarlicDestination) (msgID : Nat) :
    (msgID = s.m_LeaseSetUpdateMsgID →
      (MessageConfirmed P now s owner msgID).1.m_LeaseSetUpdateStatus
        = LeaseSetUpdateStatus.eLeaseSetUpToDate) ∧
    (msgID ≠ s.m_LeaseSetUpdateMsgID →
      (MessageConfirmed P now s owner msgID).1.m_LeaseSetUpdateStatus
        = s.m_LeaseSetUpdateStatus) ∧
    (MessageConfirmed P now s owner msgID).1.m_LeaseSetUpdateMsgID = s.m_LeaseSetUpdateMsgID := by
  obtain ⟨h1, h2⟩ := TagsConfirmed_leaseSet P now s msgID
  unfold MessageConfirmed
  simp only [h2]
  refine ⟨?_, ?_, ?_⟩
  · intro h
    rw [if_pos h]
  · intro h
    rw [if_neg h]
    exact h1
  · split
    · rfl
    · first | rfl | exact h2

/-- Claim C17 as written fails: a session in state Updated whose leaseSetUpdateMsgID is 5 is
set to UpToDate by the confirmation of msgID 5. -/
theorem confirmation_in_state_updated :
    exampleUpdatedSession.m_LeaseSetUpdateStatus = LeaseSetUpdateStatus.eLeaseSetUpdated ∧
    (MessageConfirmed exampleParams exampleNow exampleUpdatedSession none 5).1.m_LeaseSetUpdateStatus
      = LeaseSetUpdateStatus.eLeaseSetUpToDate := by
  decide

theorem lease_set_confirmation_witness :
    (MessageConfirmed exampleParams exampleNow exampleUpdatedSession none 5).1.m_LeaseSetUpdateStatus
      = LeaseSetUpdateStatus.eLeaseSetUpToDate ∧
    (MessageConfirmed exampleParams exampleNow exampleUpdatedSession none 6).1.m_LeaseSetUpdateStatus
      = LeaseSetUpdateStatus.eLeaseSetUpdated :=
  ⟨(lease_set_confirmation exampleParams exampleNow exampleUpdatedSession none 5).1 rfl,
   (lease_set_confirmation exampleParams exampleNow exampleUpdatedSession none 6).2.1
    (by decide)⟩

/-- Claim C19: for a msgID with a pending batch B, `TagsConfirmed (msgID)` removes the entry
(the other entries stay) and, if now < B.tagsCreationTime + OUTGOING_TAGS_EXPIRATION_TIMEOUT,
appends the numTags tags of B to the back of the pool in batch order, otherwise adds nothing
to the pool; for a msgID with no pending batch the session is unchanged. -/
theorem tag_batch_promotion (P : Params) (now : Env) (s : GarlicRoutingSession) (msgID : Nat) :
    (∀ B, StdMap.find s.m_UnconfirmedTagsMsgs msgID = some B →
      (TagsConfirmed P now s msgID).m_UnconfirmedTagsMsgs
        = StdMap.erase s.m_UnconfirmedTagsMsgs msgID ∧
      StdMap.find (TagsConfirmed P now s msgID).m_UnconfirmedTagsMsgs msgID = none ∧
      (∀ k, k ≠ msgID → StdMap.find (TagsConfirmed P now s msgID).m_UnconfirmedTagsMsgs k
        = StdMap.find s.m_UnconfirmedTagsMsgs k) ∧
      (now.ts < B.tagsCreationTime + P.OUTGOING_TAGS_EXPIRATION_TIMEOUT →
        (TagsConfirmed P now s msgID).m_SessionTags
          = s.m_SessionTags ++ B.sessionTags.take B.numTags.toNat ∧
        (B.sessionTags.length = B.numTags.toNat →
          (TagsConfirmed P now s msgID).m_SessionTags = s.m_SessionTags ++ B.sessionTags)) ∧
      (¬ now.ts < B.tagsCreationTime + P.OUTGOING_TAGS_EXPIRATION_TIMEOUT →
        (TagsConfirmed P now s msgID).m_SessionTags = s.m_SessionTags)) ∧
    (StdMap.find s.m_UnconfirmedTagsMsgs msgID = none → TagsConfirmed P now s msgID = s) := by
  refine ⟨?_, ?_⟩
  · intro B hB
    have hu : (TagsConfirmed P now s msgID).m_UnconfirmedTagsMsgs
        = StdMap.erase s.m_UnconfirmedTagsMsgs msgID := by
      unfold TagsConfirmed
      rw [hB]
    have hp : (TagsConfirmed P now s msgID).m_SessionTags
        = if now.ts < B.tagsCreationTime + P.OUTGOING_TAGS_EXPIRATION_TIMEOUT then
            s.m_SessionTags ++ B.sessionTags.take B.numTags.toNat
          else s.m_SessionTags := by
      unfold TagsConfirmed
      rw [hB]
    refine ⟨hu, ?_, ?_, ?_, ?_⟩
    · rw [hu]
      exact StdMap.find_erase_self _ _
    · intro k hk
      rw [hu]
      exact StdMap.find_erase_ne _ (Ne.symm hk)
    · intro h
      rw [hp, if_pos h]
      refine ⟨rfl, ?_⟩
      intro hl
      rw [← hl, List.take_length]
    · intro h
      rw [hp, if_neg h]
  · intro h
    unfold TagsConfirmed
    rw [h]

theorem tag_batch_promotion_witness :
    (TagsConfirmed exampleParams exampleNow exampleSubmittedSession 5).m_SessionTags
      = exampleSubmittedSession.m_SessionTags ++ [exampleTag 7 1900, exampleTag 8 1900] ∧
    TagsConfirmed exampleParams exampleNow exampleSubmittedSession 6
      = exampleSubmittedSession :=
  ⟨(((tag_batch_promotion exampleParams exampleNow exampleSubmittedSession 5).1
      exampleBatch rfl).2.2.2.1 (by decide)).2 rfl,
   (tag_batch_promotion exampleParams exampleNow exampleSubmittedSession 6).2 rfl⟩

/-- Claim C18: when msgID = leaseSetUpdateMsgID and unconfirmedTagsMsgs[msgID] exists,
`MessageConfirmed (msgID)` both promotes that batch into the pool (if it is not age-expired;
the entry is removed either way) and sets the lease-set state to UpToDate. -/
theorem one_ack_confirms_both (P : Params) (now : Env) (s : GarlicRoutingSession)
    (owner : Option GarlicDestination) (msgID : Nat) (B : UnconfirmedTags)
    (hid : msgID = s.m_LeaseSetUpdateMsgID)
    (hB : StdMap.find s.m_UnconfirmedTagsMsgs msgID = some B) :
    (MessageConfirmed P now s owner msgID).1.m_LeaseSetUpdateStatus
      = LeaseSetUpdateStatus.eLeaseSetUpToDate ∧
    (now.ts < B.tagsCreationTime + P.OUTGOING_TAGS_EXPIRATION_TIMEOUT →
      (MessageConfirmed P now s owner msgID).1.m_SessionTags
        = s.m_SessionTags ++ B.sessionTags.take B.numTags.toNat) ∧
    (¬ now.ts < B.tagsCreationTime + P.OUTGOING_TAGS_EXPIRATION_TIMEOUT →
      (MessageConfirmed P now s owner msgID).1.m_SessionTags = s.m_SessionTags) ∧
    (MessageConfirmed P now s owner msgID).1.m_UnconfirmedTagsMsgs
      = StdMap.erase s.m_UnconfirmedTagsMsgs msgID ∧
    (MessageConfirmed P now s owner msgID).2 = owner := by
  have h2 := (TagsConfirmed_leaseSet P now s msgID).2
  have hm : MessageConfirmed P now s owner msgID
      = ({ TagsConfirmed P now s msgID with
            m_LeaseSetUpdateStatus := LeaseSetUpdateStatus.eLeaseSetUpToDate }, owner) := by
    unfold MessageConfirmed
    simp only [h2]
    rw [if_pos hid]
  have hu : (TagsConfirmed P now s msgID).m_UnconfirmedTagsMsgs
      = StdMap.erase s.m_UnconfirmedTagsMsgs msgID := by
    unfold TagsConfirmed
    rw [hB]
  have hp : (TagsConfirmed P now s msgID).m_SessionTags
      = if now.ts < B.tagsCreationTime + P.OUTGOING_TAGS_EXPIRATION_TIMEOUT then
          s.m_SessionTags ++ B.sessionTags.take B.numTags.toNat
        else s.m_SessionTags := by
    unfold TagsConfirmed
    rw [hB]
  rw [hm]
  refine ⟨rfl, ?_, ?_, hu, rfl⟩
  · intro h
    show (TagsConfirmed P now s msgID).m_SessionTags = _
    rw [hp, if_pos h]
  · intro h
    show (TagsConfirmed P now s msgID).m_SessionTags = _
    rw [hp, if_neg h]

theorem one_ack_confirms_both_witness :
    (MessageConfirmed exampleParams exampleNow exampleSubmittedSession
        (some exampleOwner) 5).1.m_LeaseSetUpdateStatus
      = LeaseSetUpdateStatus.eLeaseSetUpToDate ∧
    (MessageConfirmed exampleParams exampleNow exampleSubmittedSession
        (some exampleOwner) 5).1.m_SessionTags
      = exampleSubmittedSession.m_SessionTags ++ [exampleTag 7 1900, exampleTag 8 1900] :=
  ⟨(one_ack_confirms_both exampleParams exampleNow exampleSubmittedSession
      (some exampleOwner) 5 exampleBatch rfl rfl).1,
   (one_ack_confirms_both exampleParams exampleNow exampleSubmittedSession
      (some exampleOwner) 5 exampleBatch rfl rfl).2.1 (by decide)⟩

theorem HandleDeliveryStatusMessage_of_find (P : Params) (now : Env) (w : GarlicRegistry)
    (msg : I2NPMessage) (id : Nat) (s : GarlicRoutingSession)
    (hc : StdMap.find w.dest.m_CreatedSessions (bufbe32toh msg.GetPayload) = some id)
    (hs : StdMap.find w.sessions id = some s) :
    HandleDeliveryStatusMessage P now w msg
      = GarlicRegistry.mk
          (RemoveCreatedSession
            ((MessageConfirmed P now s (some w.dest) (bufbe32toh msg.GetPayload)).2.getD w.dest)
            (bufbe32toh msg.GetPayload))
          (StdMap.assign w.sessions id
            (MessageConfirmed P now s (some w.dest) (bufbe32toh msg.GetPayload)).1) := by
  unfold HandleDeliveryStatusMessage
  simp only [hc, hs]

theorem HandleDeliveryStatusMessage_of_none (P : Params) (now : Env) (w : GarlicRegistry)
    (msg : I2NPMessage)
    (hc : StdMap.find w.dest.m_CreatedSessions (bufbe32toh msg.GetPayload) = none) :
    HandleDeliveryStatusMessage P now w msg = w := by
  unfold HandleDeliveryStatusMessage
  simp only [hc]

/-- Claim C20: `HandleDeliveryStatusMessage` for a msgID present in createdSessions calls
`MessageConfirmed (msgID)` on the session once and removes createdSessions[msgID]; the other
sessions are untouched; handling a second DeliveryStatus with the same msgID, at any clock
value, leaves the destination and every session unchanged. -/
theorem idempotent_acknowledgement (P : Params) (now : Env) (w : GarlicRegistry)
    (msg : I2NPMessage) (id : Nat) (s : GarlicRoutingSession)
    (hc : StdMap.find w.dest.m_CreatedSessions (bufbe32toh msg.GetPayload) = some id)
    (hs : StdMap.find w.sessions id = some s) :
    (HandleDeliveryStatusMessage P now w msg).sessions
      = StdMap.assign w.sessions id
          (MessageConfirmed P now s (some w.dest) (bufbe32toh msg.GetPayload)).1 ∧
    StdMap.find (HandleDeliveryStatusMessage P now w msg).sessions id
      = some (MessageConfirmed P now s (some w.dest) (bufbe32toh msg.GetPayload)).1 ∧
    (∀ k, k ≠ id → StdMap.find (HandleDeliveryStatusMessage P now w msg).sessions k
      = StdMap.find w.sessions k) ∧
    StdMap.find (HandleDeliveryStatusMessage P now w msg).dest.m_CreatedSessions
      (bufbe32toh msg.GetPayload) = none ∧
    ∀ (now2 : Env) (msg2 : I2NPMessage),
      bufbe32toh msg2.GetPayload = bufbe32toh msg.GetPayload →
      HandleDeliveryStatusMessage P now2 (HandleDeliveryStatusMessage P now w msg) msg2
        = HandleDeliveryStatusMessage P now w msg := by
  have h := HandleDeliveryStatusMessage_of_find P now w msg id s hc hs
  have hnone : StdMap.find (HandleDeliveryStatusMessage P now w msg).dest.m_CreatedSessions
      (bufbe32toh msg.GetPayload) = none := by
    rw [h]
    exact StdMap.find_erase_self _ _
  refine ⟨?_, ?_, ?_, hnone, ?_⟩
  · rw [h]
  · rw [h]
    exact StdMap.find_assign_self _ _ _
  · intro k hk
    rw [h]
    exact StdMap.find_assign_ne _ _ (Ne.symm hk)
  · intro now2 msg2 h2
    apply HandleDeliveryStatusMessage_of_none
    rw [h2]
    exact hnone

set_option maxRecDepth 8000 in
theorem idempotent_acknowledgement_witness :
    StdMap.find (HandleDeliveryStatusMessage exampleParams exampleNow exampleRegistry
      exampleAck).dest.m_CreatedSessions 5 = none ∧
    HandleDeliveryStatusMessage exampleParams exampleNow
        (HandleDeliveryStatusMessage exampleParams exampleNow exampleRegistry exampleAck)
        exampleAck
      = HandleDeliveryStatusMessage exampleParams exampleNow exampleRegistry exampleAck :=
  ⟨(idempotent_acknowledgement exampleParams exampleNow exampleRegistry exampleAck 0
      exampleSubmittedSession (by decide) (by decide)).2.2.2.1,
   (idempotent_acknowledgement exampleParams exampleNow exampleRegistry exampleAck 0
      exampleSubmittedSession (by decide) (by decide)).2.2.2.2 exampleNow exampleAck rfl⟩

/-! ## The steps of a wrap, read back from its result -/

theorem CreateGarlicPayload_inv (P : Params) (C : Crypto) (now : Env)
    (wrap : List Nat → GarlicRoutingSession → I2NPMessage → Option WrapResult)
    (rnd : List Nat) (s : GarlicRoutingSession) (o : GarlicDestination)
    (msg : Option I2NPMessage) (newTags : Option UnconfirmedTags) (bp : Built)
    (h : CreateGarlicPayload P C now wrap rnd s (some o) msg newTags = some bp) :
    ∃ b n, ownerCloves P C now wrap (GenerateWord32 rnd).2 s o (GenerateWord32 rnd).1 newTags
        = some (b, n) ∧
      bp.session = b.session ∧ bp.owner = b.owner ∧
      bp.bytes = [(attachMessage now b n msg).2.2 % 256] ++ (attachMessage now b n msg).1
        ++ [0, 0, 0] ++ htobe32buf (GenerateWord32 rnd).1 ++ htobe64buf (now.tms + 5000) := by
  unfold CreateGarlicPayload at h
  simp only at h
  split at h
  · cases h
  · rename_i b n hbn
    simp only [Option.some.injEq] at h
    subst h
    exact ⟨b, n, hbn, rfl, rfl, rfl⟩

theorem CreateAESBlock_inv (P : Params) (C : Crypto) (now : Env)
    (wrap : List Nat → GarlicRoutingSession → I2NPMessage → Option WrapResult)
    (rnd : List Nat) (s : GarlicRoutingSession) (owner : Option GarlicDestination)
    (msg : Option I2NPMessage) (iv : List Nat) (b : Built)
    (h : CreateAESBlock P C now wrap rnd s owner msg iv = some b) :
    ∃ (rnd1 : List Nat) (newTags : Option UnconfirmedTags) (bp : Built)
      (tagsPart pad : List Nat),
      CreateGarlicPayload P C now wrap rnd1 s owner msg newTags = some bp ∧
      b.session = bp.session ∧ b.owner = bp.owner ∧
      b.bytes = fixed (tagsPart ++ htobe32buf bp.bytes.length
            ++ fixed 32 (C.sha256 bp.bytes) ++ [0] ++ bp.bytes ++ pad).length
          (C.aesEncrypt s.m_SessionKey iv (tagsPart ++ htobe32buf bp.bytes.length
            ++ fixed 32 (C.sha256 bp.bytes) ++ [0] ++ bp.bytes ++ pad)) := by
  unfold CreateAESBlock at h
  simp only at h
  split at h
  · cases h
  · rename_i bp hbp
    simp only [Option.some.injEq] at h
    subst h
    exact ⟨_, _, bp, _, _, hbp, rfl, rfl, rfl⟩

theorem frameGarlic_inv (P : Params) (C : Crypto) (now : Env)
    (wrap : List Nat → GarlicRoutingSession → I2NPMessage → Option WrapResult)
    (s : GarlicRoutingSession) (owner : Option GarlicDestination)
    (msg : Option I2NPMessage) (front iv rnd : List Nat) (wr : WrapResult)
    (h : frameGarlic P C now wrap s owner msg front iv rnd = some wr) :
    ∃ g b, wr.msg = some g ∧ CreateAESBlock P C now wrap rnd s owner msg iv = some b ∧
      wr.session = b.session ∧ wr.owner = b.owner ∧
      g.GetPayload = htobe32buf (front.length + b.bytes.length) ++ front ++ b.bytes := by
  unfold frameGarlic at h
  simp only at h
  split at h
  · cases h
  · rename_i b hb
    cases h
    refine ⟨_, b, rfl, hb, rfl, rfl, ?_⟩
    rw [GetPayload_FillI2NPMessageHeader]
    simp [I2NPMessage.GetPayload, I2NPMessage.concat, NewI2NPMessage, I2NP_HEADER_SIZE]

theorem WrapSingleMessageWith_inv (P : Params) (C : Crypto) (now : Env)
    (wrap : List Nat → GarlicRoutingSession → I2NPMessage → Option WrapResult)
    (rnd : List Nat) (s : GarlicRoutingSession) (owner : Option GarlicDestination)
    (msg : Option I2NPMessage) (wr : WrapResult) (g : I2NPMessage)
    (h : WrapSingleMessageWith P C now wrap rnd s owner msg = some wr)
    (hg : wr.msg = some g) :
    ∃ (front iv rnd0 : List Nat) (b : Built),
      CreateAESBlock P C now wrap rnd0 { s with m_SessionTags := (findTag P now s).2 } owner
        msg iv = some b ∧
      wr.session = b.session ∧ wr.owner = b.owner ∧
      g.GetPayload = htobe32buf (front.length + b.bytes.length) ++ front ++ b.bytes := by
  unfold WrapSingleMessageWith at h
  simp only at h
  split at h
  · split at h
    · cases h
      cases hg
    · obtain ⟨g1, b, hg1, hb, hs, ho, hp⟩ := frameGarlic_inv _ _ _ _ _ _ _ _ _ _ _ h
      rw [hg] at hg1
      cases hg1
      exact ⟨_, _, _, b, hb, hs, ho, hp⟩
  · obtain ⟨g1, b, hg1, hb, hs, ho, hp⟩ := frameGarlic_inv _ _ _ _ _ _ _ _ _ _ _ h
    rw [hg] at hg1
    cases hg1
    exact ⟨_, _, _, b, hb, hs, ho, hp⟩

/-- A wrap of an owned session that gives a message went through `ownerCloves`; the message
carries the payload of the cloves then laid out, with the msgID given to `ownerCloves`. -/
theorem WrapSingleMessage_payload (P : Params) (C : Crypto) (now : Env) (rnd : List Nat)
    (s : GarlicRoutingSession) (o : GarlicDestination) (msg : Option I2NPMessage)
    (wr : WrapResult) (g : I2NPMessage)
    (h : WrapSingleMessage P C now rnd s (some o) msg = some wr) (hg : wr.msg = some g) :
    ∃ (rnd1 : List Nat) (newTags : Option UnconfirmedTags) (b : Built) (n msgID : Nat),
      ownerCloves P C now (WrapSingleMessageNoOwner P C now) rnd1
        { s with m_SessionTags := (findTag P now s).2 } o msgID newTags = some (b, n) ∧
      wr.session = b.session ∧ wr.owner = b.owner ∧
      CarriesPayload C s.m_SessionKey g
        ([(attachMessage now b n msg).2.2 % 256] ++ (attachMessage now b n msg).1
          ++ [0, 0, 0] ++ htobe32buf msgID ++ htobe64buf (now.tms + 5000)) := by
  obtain ⟨front, iv, rnd0, ba, hba, hs, ho, hp⟩ :=
    WrapSingleMessageWith_inv P C now _ rnd s (some o) msg wr g h hg
  obtain ⟨rnd1, newTags, bp, tagsPart, pad, hbp, hs1, ho1, hbytes⟩ :=
    CreateAESBlock_inv P C now _ rnd0 _ (some o) msg iv ba hba
  obtain ⟨b, n, hoc, hs2, ho2, hpay⟩ := CreateGarlicPayload_inv P C now _ rnd1 _ o msg newTags bp hbp
  refine ⟨_, newTags, b, n, _, hoc, by rw [hs, hs1, hs2], by rw [ho, ho1, ho2], ?_⟩
  refine ⟨front, iv, tagsPart, pad, ?_⟩
  rw [hp, hbytes, hpay, fixed_length]

/-! ## The lease-set in the steps of `CreateGarlicPayload` -/

theorem resubmitLeaseSet_of_ne (P : Params) (now : Env) (s : GarlicRoutingSession)
    (h : s.m_LeaseSetUpdateStatus ≠ LeaseSetUpdateStatus.eLeaseSetSubmitted) :
    resubmitLeaseSet P now s = s := by
  unfold resubmitLeaseSet
  rw [if_neg]
  exact fun hc => h hc.1

theorem resubmitLeaseSet_wait (P : Params) (now : Env) (s : GarlicRoutingSession)
    (h : now.tms ≤ s.m_LeaseSetSubmissionTime + P.LEASET_CONFIRMATION_TIMEOUT) :
    resubmitLeaseSet P now s = s := by
  unfold resubmitLeaseSet
  rw [if_neg]
  intro hc
  have := hc.2
  omega

theorem resubmitLeaseSet_retry (P : Params) (now : Env) (s : GarlicRoutingSession)
    (hst : s.m_LeaseSetUpdateStatus = LeaseSetUpdateStatus.eLeaseSetSubmitted)
    (h : now.tms > s.m_LeaseSetSubmissionTime + P.LEASET_CONFIRMATION_TIMEOUT) :
    resubmitLeaseSet P now s
      = { s with m_LeaseSetUpdateStatus := LeaseSetUpdateStatus.eLeaseSetUpdated } := by
  unfold resubmitLeaseSet
  rw [if_pos ⟨hst, h⟩]

theorem CreateDeliveryStatusClove_no_tunnel (P : Params) (C : Crypto) (now : Env)
    (wrap : List Nat → GarlicRoutingSession → I2NPMessage → Option WrapResult)
    (rnd : List Nat) (s : GarlicRoutingSession) (o : GarlicDestination) (msgID : Nat)
    (ht : o.nextInboundTunnel = none) :
    CreateDeliveryStatusClove P C now wrap rnd s (some o) msgID
      = some { bytes := [], session := s, owner := some o, rnd := rnd } := by
  unfold CreateDeliveryStatusClove
  simp only [ht]

theorem CreateDeliveryStatusClove_tunnel (P : Params) (C : Crypto) (now : Env)
    (wrap : List Nat → GarlicRoutingSession → I2NPMessage → Option WrapResult)
    (rnd : List Nat) (s : GarlicRoutingSession) (o : GarlicDestination) (msgID : Nat)
    (t : InboundTunnel) (b : Built) (ht : o.nextInboundTunnel = some t)
    (h : CreateDeliveryStatusClove P C now wrap rnd s (some o) msgID = some b) :
    ∃ (c : Clove) (o1 : GarlicDestination), b.bytes = c.bytes ∧ 0 < b.bytes.length ∧
      c.instructions = [96] ++ fixed 32 t.nextIdentHash ++ htobe32buf t.nextTunnelID ∧
      c.trailer.length = 15 ∧ b.session = s ∧ b.owner = some o1 ∧
      o1.m_CreatedSessions = o.m_CreatedSessions := by
  unfold CreateDeliveryStatusClove at h
  simp only [ht] at h
  split at h
  · cases h
  · rename_i r hr
    split at h
    · cases h
    · rename_i wrapped hwrapped
      cases h
      refine ⟨⟨[96] ++ fixed 32 t.nextIdentHash ++ htobe32buf t.nextTunnelID, wrapped.bytes,
        htobe32buf (GenerateWord32 r.rnd).1 ++ htobe64buf (now.tms + 5000) ++ [0, 0, 0]⟩,
        _, ?_, ?_, rfl, by rfl, rfl, rfl, rfl⟩
      · have hfix : fixed wrapped.GetLength wrapped.GetBuffer = wrapped.bytes :=
          fixed_of_length _ _ rfl
        have h96 : (eGarlicDeliveryTypeTunnel <<< 5) % 256 = 96 := by decide
        simp only [Clove.bytes, List.append_assoc, hfix, h96]
      · simp only [List.length_append, List.length_singleton]
        omega

/-- The DeliveryStatus step: at most one clove, of delivery type Tunnel. When the step is
taken (new tags, or a lease-set to send), the clove is there exactly when the owner has an
inbound tunnel, it is addressed to that tunnel, and the owner then holds the session under
the msgID. The lease-set fields of the session are not touched. -/
theorem attachDeliveryStatus_ds (P : Params) (C : Crypto) (now : Env)
    (wrap : List Nat → GarlicRoutingSession → I2NPMessage → Option WrapResult)
    (rnd : List Nat) (s : GarlicRoutingSession) (o : GarlicDestination) (msgID : Nat)
    (newTags : Option UnconfirmedTags) (b : Built) (n : Nat)
    (h : attachDeliveryStatus P C now wrap rnd s o msgID newTags = some (b, n)) :
    ∃ ds : List Clove, b.bytes = cloveBytes ds ∧ n = ds.length ∧ ds.length ≤ 1 ∧
      (∀ c ∈ ds, c.instructions.getD 0 0 = 96 ∧ c.trailer.length = 15) ∧
      (newTags.isSome ∨ s.m_LeaseSetUpdateStatus = LeaseSetUpdateStatus.eLeaseSetUpdated →
        (o.nextInboundTunnel = none → ds = [] ∧ b.owner = some o) ∧
        (∀ t, o.nextInboundTunnel = some t → ∃ c o1, ds = [c] ∧
          c.instructions = [96] ++ fixed 32 t.nextIdentHash ++ htobe32buf t.nextTunnelID ∧
          b.owner = some o1 ∧ StdMap.find o1.m_CreatedSessions msgID = some s.id)) ∧
      (¬ (newTags.isSome ∨ s.m_LeaseSetUpdateStatus = LeaseSetUpdateStatus.eLeaseSetUpdated) →
        ds = [] ∧ b.owner = some o) ∧
      b.session.m_LeaseSetUpdateStatus = s.m_LeaseSetUpdateStatus ∧
      b.session.m_LeaseSetUpdateMsgID = s.m_LeaseSetUpdateMsgID ∧
      b.session.m_LeaseSetSubmissionTime = s.m_LeaseSetSubmissionTime := by
  unfold attachDeliveryStatus at h
  by_cases hcond : newTags.isSome ∨
      s.m_LeaseSetUpdateStatus = LeaseSetUpdateStatus.eLeaseSetUpdated
  · rw [if_pos hcond] at h
    cases ht : o.nextInboundTunnel with
    | none =>
      rw [CreateDeliveryStatusClove_no_tunnel P C now wrap rnd s o msgID ht] at h
      simp only [List.length_nil, gt_iff_lt, Nat.lt_irrefl, if_false, Option.some.injEq,
        Prod.mk.injEq] at h
      obtain ⟨hb, hn⟩ := h
      subst hb
      subst hn
      refine ⟨[], rfl, rfl, by simp, by simp, fun _ => ⟨fun _ => ⟨rfl, rfl⟩, ?_⟩,
        fun hc => absurd hcond hc, rfl, rfl, rfl⟩
      intro t htt
      cases htt
    | some t =>
      split at h
      · cases h
      · rename_i b0 hb0
        obtain ⟨c, o1, hbytes, hpos, hinstr, htr, hsess, hown, hcs⟩ :=
          CreateDeliveryStatusClove_tunnel P C now wrap rnd s o msgID t b0 ht hb0
        rw [if_pos hpos] at h
        simp only [Option.some.injEq, Prod.mk.injEq] at h
        obtain ⟨hb, hn⟩ := h
        subst hb
        subst hn
        have hsl : ∀ x : GarlicRoutingSession,
            (deliveryStatusAttached b0 msgID newTags).session = x →
            x.m_LeaseSetUpdateStatus = s.m_LeaseSetUpdateStatus ∧
            x.m_LeaseSetUpdateMsgID = s.m_LeaseSetUpdateMsgID ∧
            x.m_LeaseSetSubmissionTime = s.m_LeaseSetSubmissionTime ∧ x.id = s.id := by
          intro x hx
          subst hx
          unfold deliveryStatusAttached
          cases newTags with
          | none => simp [hsess]
          | some T => simp [hsess]
        obtain ⟨hl1, hl2, hl3, hl4⟩ := hsl _ rfl
        refine ⟨[c], ?_, rfl, by simp, ?_, fun _ => ⟨?_, ?_⟩, fun hc => absurd hcond hc,
          hl1, hl2, hl3⟩
        · rw [cloveBytes_singleton]
          exact hbytes
        · intro x hx
          rw [List.mem_singleton] at hx
          subst hx
          rw [hinstr]
          exact ⟨rfl, htr⟩
        · intro hn
          cases hn
        · intro t1 ht1
          cases ht1
          refine ⟨c, DeliveryStatusSent o1 (deliveryStatusAttached b0 msgID newTags).session
            msgID, rfl, hinstr, ?_, ?_⟩
          · simp only [deliveryStatusAttached, hown, Option.map_some']
          · rw [← hl4]
            exact StdMap.find_assign_self _ _ _
  · rw [if_neg hcond] at h
    simp only [Option.some.injEq, Prod.mk.injEq] at h
    obtain ⟨hb, hn⟩ := h
    subst hb
    subst hn
    exact ⟨[], rfl, rfl, by simp, by simp, fun hc => absurd hc hcond,
      fun _ => ⟨rfl, rfl⟩, rfl, rfl, rfl⟩

/-- The LeaseSet step in state Updated: one clove of local delivery holding the DatabaseStore
message of the lease-set of the owner; the state becomes Submitted under the msgID, at the
time of the call. -/
theorem attachLeaseSet_updated (P : Params) (C : Crypto) (now : Env) (o : GarlicDestination)
    (msgID : Nat) (b : Built) (n : Nat) (b1 : Built) (n1 : Nat)
    (hst : b.session.m_LeaseSetUpdateStatus = LeaseSetUpdateStatus.eLeaseSetUpdated)
    (h : attachLeaseSet P C now o msgID b n = some (b1, n1)) :
    (∃ (c : Clove) (dsm : I2NPMessage × List Nat), b1.bytes = b.bytes ++ cloveBytes [c] ∧
      c.instructions = [0] ∧
      CreateDatabaseStoreMsg P C.sha256 now b.rnd o.leaseSet 0 = some dsm ∧
      c.msg = dsm.1.bytes ∧ c.msg.getD 0 0 = P.eI2NPDatabaseStore % 256 ∧
      c.trailer.length = 15) ∧
    n1 = n + 1 ∧ b1.owner = b.owner ∧
    b1.session.m_LeaseSetUpdateStatus = LeaseSetUpdateStatus.eLeaseSetSubmitted ∧
    b1.session.m_LeaseSetUpdateMsgID = msgID ∧
    b1.session.m_LeaseSetSubmissionTime = now.tms := by
  unfold attachLeaseSet at h
  rw [if_pos hst] at h
  simp only at h
  split at h
  · cases h
  · rename_i leaseSet hls
    cases h
    obtain ⟨_, htype⟩ := CreateDatabaseStoreMsg_agrees _ _ _ _ _ _ _ hls
    refine ⟨⟨⟨[0], leaseSet.1.bytes,
      htobe32buf (GenerateWord32 leaseSet.2).1 ++ htobe64buf (now.tms + 5000) ++ [0, 0, 0]⟩,
      leaseSet, ?_, rfl, hls, rfl, htype, by rfl⟩, rfl, rfl, rfl, rfl, rfl⟩
    have hfix : fixed leaseSet.1.GetLength leaseSet.1.GetBuffer = leaseSet.1.bytes :=
      fixed_of_length _ _ rfl
    simp only [CreateGarlicClove, cloveBytes_singleton, Clove.bytes, List.append_assoc, hfix]

theorem attachLeaseSet_other (P : Params) (C : Crypto) (now : Env) (o : GarlicDestination)
    (msgID : Nat) (b : Built) (n : Nat)
    (hst : b.session.m_LeaseSetUpdateStatus ≠ LeaseSetUpdateStatus.eLeaseSetUpdated) :
    attachLeaseSet P C now o msgID b n = some (b, n) := by
  unfold attachLeaseSet
  rw [if_neg hst]

/-- The clove of the message itself, when a message is presented. -/
theorem attachMessage_cloves (now : Env) (b : Built) (n : Nat) (msg : Option I2NPMessage) :
    ∃ cms : List Clove, (attachMessage now b n msg).1 = b.bytes ++ cloveBytes cms ∧
      (attachMessage now b n msg).2.2 = n + cms.length ∧
      cms.map Clove.msg = (msg.map I2NPMessage.bytes).toList ∧
      ∀ c ∈ cms, c.trailer.length = 15 ∧
        (c.instructions = [0] ∨ (c.instructions.length = 33 ∧ c.instructions.getD 0 0 = 32)) := by
  cases msg with
  | none => exact ⟨[], by simp [attachMessage, cloveBytes_nil], rfl, rfl, by simp⟩
  | some m =>
    obtain ⟨cm, hcm, hmsg, htr, hinstr⟩ := CreateGarlicClove_clove now b.rnd b.session m
      (match b.session.m_Destination with
        | some d => d.isDestination
        | none => false)
    refine ⟨[cm], ?_, rfl, ?_, ?_⟩
    · simp only [attachMessage, cloveBytes_singleton]
      exact congrArg (fun x => b.bytes ++ x) hcm
    · simp [hmsg]
    · intro x hx
      rw [List.mem_singleton] at hx
      subst hx
      exact ⟨htr, hinstr⟩

theorem resubmitLeaseSet_fields (P : Params) (now : Env) (s : GarlicRoutingSession) :
    (resubmitLeaseSet P now s).id = s.id ∧
    (resubmitLeaseSet P now s).m_LeaseSetUpdateMsgID = s.m_LeaseSetUpdateMsgID ∧
    (resubmitLeaseSet P now s).m_LeaseSetSubmissionTime = s.m_LeaseSetSubmissionTime := by
  unfold resubmitLeaseSet
  split <;> exact ⟨rfl, rfl, rfl⟩

/-- What `ownerCloves` lays out and leaves in the session, by the lease-set state after the
resubmission test. -/
theorem ownerCloves_leaseSet (P : Params) (C : Crypto) (now : Env)
    (wrap : List Nat → GarlicRoutingSession → I2NPMessage → Option WrapResult)
    (rnd : List Nat) (s : GarlicRoutingSession) (o : GarlicDestination) (msgID : Nat)
    (newTags : Option UnconfirmedTags) (b : Built) (n : Nat)
    (h : ownerCloves P C now wrap rnd s o msgID newTags = some (b, n)) :
    ∃ ds ls : List Clove, b.bytes = cloveBytes (ds ++ ls) ∧ n = (ds ++ ls).length ∧
      (∀ c ∈ ds, c.instructions.getD 0 0 = 96) ∧
      ((resubmitLeaseSet P now s).m_LeaseSetUpdateStatus
          = LeaseSetUpdateStatus.eLeaseSetUpdated →
        (∃ (c : Clove) (dsm : I2NPMessage × List Nat) (r : List Nat), ls = [c] ∧
          c.instructions = [0] ∧
          CreateDatabaseStoreMsg P C.sha256 now r o.leaseSet 0 = some dsm ∧
          c.msg = dsm.1.bytes ∧ c.msg.getD 0 0 = P.eI2NPDatabaseStore % 256) ∧
        b.session.m_LeaseSetUpdateStatus = LeaseSetUpdateStatus.eLeaseSetSubmitted ∧
        b.session.m_LeaseSetUpdateMsgID = msgID ∧
        b.session.m_LeaseSetSubmissionTime = now.tms ∧
        (o.nextInboundTunnel = none → ds = []) ∧
        (∀ t, o.nextInboundTunnel = some t → ∃ c o1, ds = [c] ∧
          c.instructions = [96] ++ fixed 32 t.nextIdentHash ++ htobe32buf t.nextTunnelID ∧
          b.owner = some o1 ∧ StdMap.find o1.m_CreatedSessions msgID = some s.id)) ∧
      ((resubmitLeaseSet P now s).m_LeaseSetUpdateStatus
          ≠ LeaseSetUpdateStatus.eLeaseSetUpdated →
        ls = [] ∧
        b.session.m_LeaseSetUpdateStatus = (resubmitLeaseSet P now s).m_LeaseSetUpdateStatus ∧
        b.session.m_LeaseSetUpdateMsgID = s.m_LeaseSetUpdateMsgID ∧
        b.session.m_LeaseSetSubmissionTime = s.m_LeaseSetSubmissionTime) := by
  unfold ownerCloves at h
  split at h
  · cases h
  · rename_i b0 n0 h0
    obtain ⟨hid, hmid, htime⟩ := resubmitLeaseSet_fields P now s
    obtain ⟨ds, hds, hn0, _, hflag, hreq, _, hl1, hl2, hl3⟩ :=
      attachDeliveryStatus_ds P C now wrap rnd _ o msgID newTags b0 n0 h0
    by_cases hst : (resubmitLeaseSet P now s).m_LeaseSetUpdateStatus
        = LeaseSetUpdateStatus.eLeaseSetUpdated
    · obtain ⟨⟨c, dsm, hb, hinstr, hdsm, hmsg, htype, _⟩, hn, hown, hs1, hs2, hs3⟩ :=
        attachLeaseSet_updated P C now o msgID b0 n0 b n (hl1.trans hst) h
      refine ⟨ds, [c], ?_, ?_, fun x hx => (hflag x hx).1, fun _ => ⟨⟨c, dsm, b0.rnd, rfl,
        hinstr, hdsm, hmsg, htype⟩, hs1, hs2, hs3, ?_, ?_⟩, fun hc => absurd hst hc⟩
      · rw [hb, hds, cloveBytes_append]
      · rw [hn, hn0, List.length_append, List.length_singleton]
      · intro ht
        exact ((hreq (Or.inr hst)).1 ht).1
      · intro t ht
        obtain ⟨c1, o1, hc1, hi1, ho1, hf1⟩ := (hreq (Or.inr hst)).2 t ht
        exact ⟨c1, o1, hc1, hi1, hown.trans ho1, hid ▸ hf1⟩
    · have hne : b0.session.m_LeaseSetUpdateStatus ≠ LeaseSetUpdateStatus.eLeaseSetUpdated := by
        rw [hl1]
        exact hst
      rw [attachLeaseSet_other P C now o msgID b0 n0 hne] at h
      simp only [Option.some.injEq, Prod.mk.injEq] at h
      obtain ⟨hb, hn⟩ := h
      subst hb
      subst hn
      refine ⟨ds, [], ?_, ?_, fun x hx => (hflag x hx).1, fun hc => absurd hc hst,
        fun _ => ⟨rfl, hl1, hl2.trans hmid, hl3.trans htime⟩⟩
      · rw [List.append_nil]
        exact hds
      · rw [List.append_nil]
        exact hn0

/-- A wrap of an owned session that gives a message: the cloves of its payload are the
DeliveryStatus cloves `ds`, of delivery type Tunnel, the LeaseSet cloves `ls` and the clove
of the message; `ls` and the lease-set fields left in the session are as `ownerCloves`
decides by the state after the resubmission test. -/
theorem WrapSingleMessage_leaseSet (P : Params) (C : Crypto) (now : Env) (rnd : List Nat)
    (s : GarlicRoutingSession) (o : GarlicDestination) (msg : Option I2NPMessage)
    (wr : WrapResult) (g : I2NPMessage)
    (h : WrapSingleMessage P C now rnd s (some o) msg = some wr) (hg : wr.msg = some g) :
    ∃ (ds ls cms : List Clove) (msgID : Nat),
      CarriesPayload C s.m_SessionKey g
        (garlicPayloadOf (ds ++ ls ++ cms) msgID (now.tms + 5000)) ∧
      (∀ c ∈ ds, c.instructions.getD 0 0 = 96) ∧
      cms.map Clove.msg = (msg.map I2NPMessage.bytes).toList ∧
      ((resubmitLeaseSet P now s).m_LeaseSetUpdateStatus
          = LeaseSetUpdateStatus.eLeaseSetUpdated →
        (∃ (c : Clove) (dsm : I2NPMessage × List Nat) (r : List Nat), ls = [c] ∧
          c.instructions = [0] ∧
          CreateDatabaseStoreMsg P C.sha256 now r o.leaseSet 0 = some dsm ∧
          c.msg = dsm.1.bytes ∧ c.msg.getD 0 0 = P.eI2NPDatabaseStore % 256) ∧
        wr.session.m_LeaseSetUpdateStatus = LeaseSetUpdateStatus.eLeaseSetSubmitted ∧
        wr.session.m_LeaseSetUpdateMsgID = msgID ∧
        wr.session.m_LeaseSetSubmissionTime = now.tms ∧
        (o.nextInboundTunnel = none → ds = []) ∧
        (∀ t, o.nextInboundTunnel = some t → ∃ c o1, ds = [c] ∧
          c.instructions = [96] ++ fixed 32 t.nextIdentHash ++ htobe32buf t.nextTunnelID ∧
          wr.owner = some o1 ∧ StdMap.find o1.m_CreatedSessions msgID = some s.id)) ∧
      ((resubmitLeaseSet P now s).m_LeaseSetUpdateStatus
          ≠ LeaseSetUpdateStatus.eLeaseSetUpdated →
        ls = [] ∧
        wr.session.m_LeaseSetUpdateStatus = (resubmitLeaseSet P now s).m_LeaseSetUpdateStatus ∧
        wr.session.m_LeaseSetUpdateMsgID = s.m_LeaseSetUpdateMsgID ∧
        wr.session.m_LeaseSetSubmissionTime = s.m_LeaseSetSubmissionTime) := by
  obtain ⟨rnd1, newTags, b, n, msgID, hoc, hs, ho, hcarry⟩ :=
    WrapSingleMessage_payload P C now rnd s o msg wr g h hg
  obtain ⟨ds, ls, hb, hn, hflag, hup, hother⟩ :=
    ownerCloves_leaseSet P C now _ rnd1 _ o msgID newTags b n hoc
  obtain ⟨cms, hcb, hcn, hcm, _⟩ := attachMessage_cloves now b n msg
  have hres : (resubmitLeaseSet P now { s with m_SessionTags := (findTag P now s).2 }).m_LeaseSetUpdateStatus
      = (resubmitLeaseSet P now s).m_LeaseSetUpdateStatus := by
    unfold resubmitLeaseSet
    simp only
    split <;> rfl
  rw [hres] at hup hother
  refine ⟨ds, ls, cms, msgID, ?_, hflag, hcm, ?_, ?_⟩
  · have hpay : [(attachMessage now b n msg).2.2 % 256] ++ (attachMessage now b n msg).1
        ++ [0, 0, 0] ++ htobe32buf msgID ++ htobe64buf (now.tms + 5000)
        = garlicPayloadOf (ds ++ ls ++ cms) msgID (now.tms + 5000) := by
      unfold garlicPayloadOf
      rw [hcb, hcn, hb, hn, ← cloveBytes_append, ← List.length_append]
    rw [← hpay]
    exact hcarry
  · intro hst
    obtain ⟨hc, h1, h2, h3, h4, h5⟩ := hup hst
    rw [hs, ho]
    exact ⟨hc, h1, h2, h3, h4, h5⟩
  · intro hst
    obtain ⟨h0, h1, h2, h3⟩ := hother hst
    rw [hs]
    exact ⟨h0, h1, h2, h3⟩

theorem WrapSingleMessage_message (P : Params) (C : Crypto) (now : Env) (rnd : List Nat)
    (s : GarlicRoutingSession) (o : GarlicDestination) (msg : Option I2NPMessage)
    (hto : 0 < P.OUTGOING_TAGS_EXPIRATION_TIMEOUT) (hls : o.leaseSet ≠ none)
    (hd : s.m_Destination ≠ none) :
    ∃ wr g, WrapSingleMessage P C now rnd s (some o) msg = some wr ∧ wr.msg = some g := by
  obtain ⟨wr, hwr, hcase⟩ := WrapSingleMessage_returns P C now rnd s (some o) msg hto
    (fun o1 ho1 => by cases ho1; exact hls)
  rcases hcase with ⟨_, hnone⟩ | ⟨g, hg⟩
  · exact absurd hnone hd
  · exact ⟨wr, g, hwr, hg⟩

/-! ## The wrap returns when the lease-set to send is there -/

theorem resubmitLeaseSet_status_congr (P : Params) (now : Env) (s s1 : GarlicRoutingSession)
    (h1 : s1.m_LeaseSetUpdateStatus = s.m_LeaseSetUpdateStatus)
    (h2 : s1.m_LeaseSetSubmissionTime = s.m_LeaseSetSubmissionTime) :
    (resubmitLeaseSet P now s1).m_LeaseSetUpdateStatus
      = (resubmitLeaseSet P now s).m_LeaseSetUpdateStatus := by
  unfold resubmitLeaseSet
  rw [h1, h2]
  split
  · rfl
  · exact h1

theorem attachLeaseSet_returns_when (P : Params) (C : Crypto) (now : Env)
    (o : GarlicDestination) (msgID : Nat) (b : Built) (n : Nat)
    (hls : b.session.m_LeaseSetUpdateStatus = LeaseSetUpdateStatus.eLeaseSetUpdated →
      o.leaseSet ≠ none) :
    ∃ b1 n1, attachLeaseSet P C now o msgID b n = some (b1, n1) := by
  by_cases hst : b.session.m_LeaseSetUpdateStatus = LeaseSetUpdateStatus.eLeaseSetUpdated
  · exact attachLeaseSet_returns P C now o msgID b n (hls hst)
  · exact ⟨b, n, attachLeaseSet_other P C now o msgID b n hst⟩

theorem ownerCloves_returns_when (P : Params) (C : Crypto) (now : Env)
    (wrap : List Nat → GarlicRoutingSession → I2NPMessage → Option WrapResult)
    (rnd : List Nat) (s : GarlicRoutingSession) (o : GarlicDestination) (msgID : Nat)
    (newTags : Option UnconfirmedTags)
    (hls : (resubmitLeaseSet P now s).m_LeaseSetUpdateStatus
      = LeaseSetUpdateStatus.eLeaseSetUpdated → o.leaseSet ≠ none)
    (hwrap : ∀ r1 key tag m1, ∃ r g,
      wrap r1 (GarlicRoutingSession.ofKeyTag now key tag) m1 = some r ∧ r.msg = some g) :
    ∃ b n, ownerCloves P C now wrap rnd s o msgID newTags = some (b, n) := by
  unfold ownerCloves
  obtain ⟨b, n, h⟩ := attachDeliveryStatus_returns P C now wrap rnd (resubmitLeaseSet P now s) o
    msgID newTags hwrap
  obtain ⟨_, _, _, _, _, _, _, hst, _, _⟩ :=
    attachDeliveryStatus_ds P C now wrap rnd _ o msgID newTags b n h
  rw [h]
  exact attachLeaseSet_returns_when P C now o msgID b n (fun hb => hls (hst ▸ hb))

theorem CreateGarlicPayload_returns_when (P : Params) (C : Crypto) (now : Env)
    (wrap : List Nat → GarlicRoutingSession → I2NPMessage → Option WrapResult)
    (rnd : List Nat) (s : GarlicRoutingSession) (owner : Option GarlicDestination)
    (msg : Option I2NPMessage) (newTags : Option UnconfirmedTags)
    (howner : ∀ o, owner = some o →
      ((resubmitLeaseSet P now s).m_LeaseSetUpdateStatus
        = LeaseSetUpdateStatus.eLeaseSetUpdated → o.leaseSet ≠ none) ∧
      ∀ r1 key tag m1, ∃ r g,
        wrap r1 (GarlicRoutingSession.ofKeyTag now key tag) m1 = some r ∧ r.msg = some g) :
    ∃ b, CreateGarlicPayload P C now wrap rnd s owner msg newTags = some b := by
  unfold CreateGarlicPayload
  simp only
  cases owner with
  | none => exact ⟨_, rfl⟩
  | some o =>
    simp only
    obtain ⟨b, n, h⟩ := ownerCloves_returns_when P C now wrap (GenerateWord32 rnd).2 s o
      (GenerateWord32 rnd).1 newTags (howner o rfl).1 (howner o rfl).2
    rw [h]
    exact ⟨_, rfl⟩

theorem CreateAESBlock_returns_when (P : Params) (C : Crypto) (now : Env)
    (wrap : List Nat → GarlicRoutingSession → I2NPMessage → Option WrapResult)
    (rnd : List Nat) (s : GarlicRoutingSession) (owner : Option GarlicDestination)
    (msg : Option I2NPMessage) (iv : List Nat)
    (howner : ∀ o, owner = some o →
      ((resubmitLeaseSet P now s).m_LeaseSetUpdateStatus
        = LeaseSetUpdateStatus.eLeaseSetUpdated → o.leaseSet ≠ none) ∧
      ∀ r1 key tag m1, ∃ r g,
        wrap r1 (GarlicRoutingSession.ofKeyTag now key tag) m1 = some r ∧ r.msg = some g) :
    ∃ b, CreateAESBlock P C now wrap rnd s owner msg iv = some b := by
  unfold CreateAESBlock
  simp only
  obtain ⟨b, h⟩ := CreateGarlicPayload_returns_when P C now wrap
    (if (owner.isSome && decide (s.m_NumTags ≠ 0) &&
        decide ((s.m_SessionTags.length : Int) ≤ Int.tdiv (s.m_NumTags * 2) 3)) = true
      then (GenerateSessionTags now rnd s).2 else rnd)
    s owner msg
    (if (owner.isSome && decide (s.m_NumTags ≠ 0) &&
        decide ((s.m_SessionTags.length : Int) ≤ Int.tdiv (s.m_NumTags * 2) 3)) = true
      then some (GenerateSessionTags now rnd s).1 else none) howner
  rw [h]
  exact ⟨_, rfl⟩

theorem frameGarlic_returns_when (P : Params) (C : Crypto) (now : Env)
    (wrap : List Nat → GarlicRoutingSession → I2NPMessage → Option WrapResult)
    (s : GarlicRoutingSession) (owner : Option GarlicDestination)
    (msg : Option I2NPMessage) (front iv rnd : List Nat)
    (howner : ∀ o, owner = some o →
      ((resubmitLeaseSet P now s).m_LeaseSetUpdateStatus
        = LeaseSetUpdateStatus.eLeaseSetUpdated → o.leaseSet ≠ none) ∧
      ∀ r1 key tag m1, ∃ r g,
        wrap r1 (GarlicRoutingSession.ofKeyTag now key tag) m1 = some r ∧ r.msg = some g) :
    ∃ wr g, frameGarlic P C now wrap s owner msg front iv rnd = some wr ∧ wr.msg = some g := by
  unfold frameGarlic
  simp only
  obtain ⟨b, h⟩ := CreateAESBlock_returns_when P C now wrap rnd s owner msg iv howner
  rw [h]
  exact ⟨_, _, rfl, rfl⟩

theorem WrapSingleMessage_returns_when (P : Params) (C : Crypto) (now : Env) (rnd : List Nat)
    (s : GarlicRoutingSession) (owner : Option GarlicDestination) (msg : Option I2NPMessage)
    (hto : 0 < P.OUTGOING_TAGS_EXPIRATION_TIMEOUT)
    (hls : ∀ o, owner = some o →
      (resubmitLeaseSet P now s).m_LeaseSetUpdateStatus
        = LeaseSetUpdateStatus.eLeaseSetUpdated → o.leaseSet ≠ none) :
    ∃ wr, WrapSingleMessage P C now rnd s owner msg = some wr ∧
      (((findTag P now s).1 = none ∧ s.m_Destination = none) ∨ ∃ g, wr.msg = some g) := by
  have howner : ∀ s1 : GarlicRoutingSession,
      s1.m_LeaseSetUpdateStatus = s.m_LeaseSetUpdateStatus →
      s1.m_LeaseSetSubmissionTime = s.m_LeaseSetSubmissionTime →
      ∀ o, owner = some o →
      ((resubmitLeaseSet P now s1).m_LeaseSetUpdateStatus
        = LeaseSetUpdateStatus.eLeaseSetUpdated → o.leaseSet ≠ none) ∧
      ∀ r1 key tag m1, ∃ r g,
        WrapSingleMessageNoOwner P C now r1 (GarlicRoutingSession.ofKeyTag now key tag) m1
          = some r ∧ r.msg = some g :=
    fun s1 h1 h2 o ho =>
      ⟨fun hst => hls o ho ((resubmitLeaseSet_status_congr P now s s1 h1 h2) ▸ hst),
        WrapSingleMessageNoOwner_returns P C now hto⟩
  unfold WrapSingleMessage WrapSingleMessageWith
  simp only
  cases hsel : (findTag P now s).1 with
  | none =>
    simp only
    cases hd : s.m_Destination with
    | none => exact ⟨_, rfl, Or.inl ⟨trivial, rfl⟩⟩
    | some d =>
      simp only
      obtain ⟨wr, g, h1, h2⟩ := frameGarlic_returns_when P C now
        (WrapSingleMessageNoOwner P C now)
        { s with m_Destination := some d, m_SessionTags := (findTag P now s).2 } owner msg
        (fixed 514 (C.elGamalEncrypt d.encryptionPublicKey
          (fixed 32 s.m_SessionKey ++ (GenerateBlock rnd 32).1 ++ List.replicate 158 0) true))
        ((C.sha256 (GenerateBlock rnd 32).1).take 16) (GenerateBlock rnd 32).2
        (howner _ rfl rfl)
      exact ⟨wr, h1, Or.inr ⟨g, h2⟩⟩
  | some T =>
    simp only
    obtain ⟨wr, g, h1, h2⟩ := frameGarlic_returns_when P C now
      (WrapSingleMessageNoOwner P C now)
      { s with m_SessionTags := (findTag P now s).2 } owner msg
      (fixed 32 T.tag) ((C.sha256 (fixed 32 T.tag)).take 16) rnd (howner _ rfl rfl)
    exact ⟨wr, h1, Or.inr ⟨g, h2⟩⟩

theorem WrapSingleMessage_message_when (P : Params) (C : Crypto) (now : Env) (rnd : List Nat)
    (s : GarlicRoutingSession) (o : GarlicDestination) (msg : Option I2NPMessage)
    (hto : 0 < P.OUTGOING_TAGS_EXPIRATION_TIMEOUT)
    (hls : (resubmitLeaseSet P now s).m_LeaseSetUpdateStatus
      = LeaseSetUpdateStatus.eLeaseSetUpdated → o.leaseSet ≠ none)
    (hd : s.m_Destination ≠ none) :
    ∃ wr g, WrapSingleMessage P C now rnd s (some o) msg = some wr ∧ wr.msg = some g := by
  obtain ⟨wr, hwr, hcase⟩ := WrapSingleMessage_returns_when P C now rnd s (some o) msg hto
    (fun o1 ho1 => by cases ho1; exact hls)
  rcases hcase with ⟨_, hnone⟩ | ⟨g, hg⟩
  · exact absurd hnone hd
  · exact ⟨wr, g, hwr, hg⟩

theorem MessageConfirmed_of_ne (P : Params) (now : Env) (s : GarlicRoutingSession)
    (owner : Option GarlicDestination) (msgID : Nat) (h : msgID ≠ s.m_LeaseSetUpdateMsgID) :
    (MessageConfirmed P now s owner msgID).1.m_LeaseSetUpdateStatus
      = s.m_LeaseSetUpdateStatus := by
  obtain ⟨h1, h2⟩ := TagsConfirmed_leaseSet P now s msgID
  unfold MessageConfirmed
  simp only [h2]
  rw [if_neg h]
  exact h1

/-! ## Lease-set submission and retry -/

/-- Claim C15, amended: for a session with an owner, `WrapSingleMessage` returns a message
when the owner has a lease-set whenever one is to be sent (the session has the destination
its constructor gives it and the expiration timeout is positive). The cloves of its payload
are the DeliveryStatus cloves `ds` (tunnel delivery), the LeaseSet cloves `ls` and the clove
of the message. In state Updated, the owner having a lease-set, `ls` is one clove of local
delivery holding the DatabaseStore message of the lease-set of the owner, the session ends in
state Submitted, leaseSetUpdateMsgID is the msgID written in the trailer of the payload of
that same message and leaseSetSubmissionTime is now. In state DoNotSend or UpToDate there is
no LeaseSet clove and the state, with the recorded msgID and time, is unchanged, whether the
owner has a lease-set or not. -/
theorem lease_set_submission (P : Params) (C : Crypto) (now : Env) (rnd : List Nat)
    (s : GarlicRoutingSession) (o : GarlicDestination) (msg : Option I2NPMessage)
    (hto : 0 < P.OUTGOING_TAGS_EXPIRATION_TIMEOUT)
    (hls : (resubmitLeaseSet P now s).m_LeaseSetUpdateStatus
      = LeaseSetUpdateStatus.eLeaseSetUpdated → o.leaseSet ≠ none)
    (hd : s.m_Destination ≠ none) :
    ∃ wr g, WrapSingleMessage P C now rnd s (some o) msg = some wr ∧ wr.msg = some g ∧
      ∃ (ds ls cms : List Clove) (msgID : Nat),
        CarriesPayload C s.m_SessionKey g
          (garlicPayloadOf (ds ++ ls ++ cms) msgID (now.tms + 5000)) ∧
        (∀ c ∈ ds, c.instructions.getD 0 0 = 96) ∧
        cms.map Clove.msg = (msg.map I2NPMessage.bytes).toList ∧
        (s.m_LeaseSetUpdateStatus = LeaseSetUpdateStatus.eLeaseSetUpdated →
          (∃ (c : Clove) (dsm : I2NPMessage × List Nat) (r : List Nat), ls = [c] ∧
            c.instructions = [0] ∧
            CreateDatabaseStoreMsg P C.sha256 now r o.leaseSet 0 = some dsm ∧
            c.msg = dsm.1.bytes ∧ c.msg.getD 0 0 = P.eI2NPDatabaseStore % 256) ∧
          wr.session.m_LeaseSetUpdateStatus = LeaseSetUpdateStatus.eLeaseSetSubmitted ∧
          wr.session.m_LeaseSetUpdateMsgID = msgID ∧
          wr.session.m_LeaseSetSubmissionTime = now.tms) ∧
        (s.m_LeaseSetUpdateStatus = LeaseSetUpdateStatus.eLeaseSetDoNotSend ∨
            s.m_LeaseSetUpdateStatus = LeaseSetUpdateStatus.eLeaseSetUpToDate →
          ls = [] ∧ wr.session.m_LeaseSetUpdateStatus = s.m_LeaseSetUpdateStatus ∧
          wr.session.m_LeaseSetUpdateMsgID = s.m_LeaseSetUpdateMsgID ∧
          wr.session.m_LeaseSetSubmissionTime = s.m_LeaseSetSubmissionTime) := by
  obtain ⟨wr, g, hwr, hg⟩ := WrapSingleMessage_message_when P C now rnd s o msg hto hls hd
  obtain ⟨ds, ls, cms, msgID, hcarry, hflag, hcm, hup, hother⟩ :=
    WrapSingleMessage_leaseSet P C now rnd s o msg wr g hwr hg
  refine ⟨wr, g, hwr, hg, ds, ls, cms, msgID, hcarry, hflag, hcm, ?_, ?_⟩
  · intro hst
    have hre : resubmitLeaseSet P now s = s :=
      resubmitLeaseSet_of_ne P now s (by rw [hst]; decide)
    rw [hre] at hup
    obtain ⟨hc, h1, h2, h3, _, _⟩ := hup hst
    exact ⟨hc, h1, h2, h3⟩
  · intro hst
    have hre : resubmitLeaseSet P now s = s :=
      resubmitLeaseSet_of_ne P now s (by rcases hst with h | h <;> rw [h] <;> decide)
    rw [hre] at hother
    exact hother (by rcases hst with h | h <;> rw [h] <;> decide)

theorem lease_set_submission_witness :
    exampleUpdatedSession.m_LeaseSetUpdateStatus = LeaseSetUpdateStatus.eLeaseSetUpdated ∧
    ∃ wr g, WrapSingleMessage exampleParams exampleCrypto exampleNow [] exampleUpdatedSession
        (some exampleOwner) (some exampleInner) = some wr ∧ wr.msg = some g ∧
      ∃ (ds ls cms : List Clove) (msgID : Nat),
        CarriesPayload exampleCrypto exampleUpdatedSession.m_SessionKey g
          (garlicPayloadOf (ds ++ ls ++ cms) msgID (exampleNow.tms + 5000)) ∧
        (∀ c ∈ ds, c.instructions.getD 0 0 = 96) ∧
        cms.map Clove.msg = [exampleInner.bytes] ∧
        (exampleUpdatedSession.m_LeaseSetUpdateStatus
            = LeaseSetUpdateStatus.eLeaseSetUpdated →
          (∃ (c : Clove) (dsm : I2NPMessage × List Nat) (r : List Nat), ls = [c] ∧
            c.instructions = [0] ∧
            CreateDatabaseStoreMsg exampleParams exampleCrypto.sha256 exampleNow r
              exampleOwner.leaseSet 0 = some dsm ∧
            c.msg = dsm.1.bytes ∧ c.msg.getD 0 0 = exampleParams.eI2NPDatabaseStore % 256) ∧
          wr.session.m_LeaseSetUpdateStatus = LeaseSetUpdateStatus.eLeaseSetSubmitted ∧
          wr.session.m_LeaseSetUpdateMsgID = msgID ∧
          wr.session.m_LeaseSetSubmissionTime = exampleNow.tms) ∧
        (exampleUpdatedSession.m_LeaseSetUpdateStatus
              = LeaseSetUpdateStatus.eLeaseSetDoNotSend ∨
            exampleUpdatedSession.m_LeaseSetUpdateStatus
              = LeaseSetUpdateStatus.eLeaseSetUpToDate →
          ls = [] ∧
          wr.session.m_LeaseSetUpdateStatus = exampleUpdatedSession.m_LeaseSetUpdateStatus ∧
          wr.session.m_LeaseSetUpdateMsgID = exampleUpdatedSession.m_LeaseSetUpdateMsgID ∧
          wr.session.m_LeaseSetSubmissionTime
            = exampleUpdatedSession.m_LeaseSetSubmissionTime) :=
  ⟨rfl, lease_set_submission exampleParams exampleCrypto exampleNow [] exampleUpdatedSession
    exampleOwner (some exampleInner) (by decide) (fun _ => by decide) (by decide)⟩

set_option maxRecDepth 100000 in
/-- Counterexample to C15 as stated: a session in state Updated whose owner has an inbound
tunnel and no lease-set. `CreateDatabaseStoreMsg` returns null for the null lease-set and the
wrap dereferences it: no message with a LeaseSet clove is returned and no state is left. -/
theorem submission_without_lease_set :
    exampleUpdatedSession.m_LeaseSetUpdateStatus = LeaseSetUpdateStatus.eLeaseSetUpdated ∧
    exampleOwnerNoLeaseSet.leaseSet = none ∧
    CreateDatabaseStoreMsg exampleParams exampleCrypto.sha256 exampleNow []
      exampleOwnerNoLeaseSet.leaseSet 0 = none ∧
    WrapSingleMessage exampleParams exampleCrypto exampleNow [] exampleUpdatedSession
      (some exampleOwnerNoLeaseSet) (some exampleInner) = none := by
  decide

/-- Claim C16, amended: for an owned session in state Submitted (with its destination, the
expiration timeout positive), `WrapSingleMessage` returns a message whose cloves are the
DeliveryStatus cloves `ds`, the LeaseSet cloves `ls` and the clove of the message. At
now > leaseSetSubmissionTime + LEASET_CONFIRMATION_TIMEOUT, the owner having a lease-set, the
state is first reverted to Updated: the LeaseSet clove is embedded again, the DeliveryStatus
clove is asked for under the new msgID (it is in the message, addressed to the inbound tunnel,
and the owner waits for the msgID, whenever the owner has an inbound tunnel; without one it
is skipped), and the session ends in Submitted with leaseSetUpdateMsgID replaced by the msgID
of the trailer and the submission time now. At now <= leaseSetSubmissionTime +
LEASET_CONFIRMATION_TIMEOUT there is no LeaseSet clove and the recorded msgID and time are
kept, whether the owner has a lease-set or not. Either way only the confirmation of the one
recorded msgID ends the submission. -/
theorem lease_set_retry (P : Params) (C : Crypto) (now : Env) (rnd : List Nat)
    (s : GarlicRoutingSession) (o : GarlicDestination) (msg : Option I2NPMessage)
    (hto : 0 < P.OUTGOING_TAGS_EXPIRATION_TIMEOUT)
    (hls : now.tms > s.m_LeaseSetSubmissionTime + P.LEASET_CONFIRMATION_TIMEOUT →
      o.leaseSet ≠ none)
    (hd : s.m_Destination ≠ none)
    (hst : s.m_LeaseSetUpdateStatus = LeaseSetUpdateStatus.eLeaseSetSubmitted) :
    ∃ wr g, WrapSingleMessage P C now rnd s (some o) msg = some wr ∧ wr.msg = some g ∧
      ∃ (ds ls cms : List Clove) (msgID : Nat),
        CarriesPayload C s.m_SessionKey g
          (garlicPayloadOf (ds ++ ls ++ cms) msgID (now.tms + 5000)) ∧
        (∀ c ∈ ds, c.instructions.getD 0 0 = 96) ∧
        cms.map Clove.msg = (msg.map I2NPMessage.bytes).toList ∧
        wr.session.m_LeaseSetUpdateStatus = LeaseSetUpdateStatus.eLeaseSetSubmitted ∧
        (∀ (later : Env) (owner : Option GarlicDestination) (id : Nat),
          id ≠ wr.session.m_LeaseSetUpdateMsgID →
          (MessageConfirmed P later wr.session owner id).1.m_LeaseSetUpdateStatus
            = LeaseSetUpdateStatus.eLeaseSetSubmitted) ∧
        (now.tms > s.m_LeaseSetSubmissionTime + P.LEASET_CONFIRMATION_TIMEOUT →
          (resubmitLeaseSet P now s).m_LeaseSetUpdateStatus
            = LeaseSetUpdateStatus.eLeaseSetUpdated ∧
          (∃ (c : Clove) (dsm : I2NPMessage × List Nat) (r : List Nat), ls = [c] ∧
            c.instructions = [0] ∧
            CreateDatabaseStoreMsg P C.sha256 now r o.leaseSet 0 = some dsm ∧
            c.msg = dsm.1.bytes ∧ c.msg.getD 0 0 = P.eI2NPDatabaseStore % 256) ∧
          (o.nextInboundTunnel = none → ds = []) ∧
          (∀ t, o.nextInboundTunnel = some t → ∃ c o1, ds = [c] ∧
            c.instructions = [96] ++ fixed 32 t.nextIdentHash ++ htobe32buf t.nextTunnelID ∧
            wr.owner = some o1 ∧ StdMap.find o1.m_CreatedSessions msgID = some s.id) ∧
          wr.session.m_LeaseSetUpdateMsgID = msgID ∧
          wr.session.m_LeaseSetSubmissionTime = now.tms) ∧
        (now.tms ≤ s.m_LeaseSetSubmissionTime + P.LEASET_CONFIRMATION_TIMEOUT →
          ls = [] ∧
          wr.session.m_LeaseSetUpdateMsgID = s.m_LeaseSetUpdateMsgID ∧
          wr.session.m_LeaseSetSubmissionTime = s.m_LeaseSetSubmissionTime) := by
  have hls1 : (resubmitLeaseSet P now s).m_LeaseSetUpdateStatus
      = LeaseSetUpdateStatus.eLeaseSetUpdated → o.leaseSet ≠ none := by
    intro hup
    by_cases hlate : now.tms > s.m_LeaseSetSubmissionTime + P.LEASET_CONFIRMATION_TIMEOUT
    · exact hls hlate
    · rw [resubmitLeaseSet_wait P now s (by omega), hst] at hup
      cases hup
  obtain ⟨wr, g, hwr, hg⟩ := WrapSingleMessage_message_when P C now rnd s o msg hto hls1 hd
  obtain ⟨ds, ls, cms, msgID, hcarry, hflag, hcm, hup, hother⟩ :=
    WrapSingleMessage_leaseSet P C now rnd s o msg wr g hwr hg
  have hsub : wr.session.m_LeaseSetUpdateStatus = LeaseSetUpdateStatus.eLeaseSetSubmitted := by
    by_cases hlate : now.tms > s.m_LeaseSetSubmissionTime + P.LEASET_CONFIRMATION_TIMEOUT
    · have hre := resubmitLeaseSet_retry P now s hst hlate
      rw [hre] at hup
      exact (hup rfl).2.1
    · have hre := resubmitLeaseSet_wait P now s (by omega)
      rw [hre] at hother
      rw [(hother (by rw [hst]; decide)).2.1]
      exact hst
  refine ⟨wr, g, hwr, hg, ds, ls, cms, msgID, hcarry, hflag, hcm, hsub, ?_, ?_, ?_⟩
  · intro later owner id hid
    rw [MessageConfirmed_of_ne P later wr.session owner id hid]
    exact hsub
  · intro hlate
    have hre := resubmitLeaseSet_retry P now s hst hlate
    rw [hre] at hup
    obtain ⟨hc, _, h2, h3, h4, h5⟩ := hup rfl
    rw [hre]
    exact ⟨rfl, hc, h4, h5, h2, h3⟩
  · intro hwait
    have hre := resubmitLeaseSet_wait P now s hwait
    rw [hre] at hother
    obtain ⟨h0, _, h2, h3⟩ := hother (by rw [hst]; decide)
    exact ⟨h0, h2, h3⟩

theorem lease_set_retry_witness :
    exampleLateSession.m_LeaseSetUpdateStatus = LeaseSetUpdateStatus.eLeaseSetSubmitted ∧
    exampleNow.tms > exampleLateSession.m_LeaseSetSubmissionTime
      + exampleParams.LEASET_CONFIRMATION_TIMEOUT ∧
    ∃ wr g, WrapSingleMessage exampleParams exampleCrypto exampleNow [] exampleLateSession
        (some exampleOwner) (some exampleInner) = some wr ∧ wr.msg = some g ∧
      wr.session.m_LeaseSetUpdateStatus = LeaseSetUpdateStatus.eLeaseSetSubmitted ∧
      wr.session.m_LeaseSetSubmissionTime = exampleNow.tms := by
  obtain ⟨wr, g, h1, h2, _, _, _, _, _, _, _, hsub, _, hlate, _⟩ :=
    lease_set_retry exampleParams exampleCrypto exampleNow [] exampleLateSession exampleOwner
      (some exampleInner) (by decide) (fun _ => by decide) (by decide) rfl
  exact ⟨rfl, by decide, wr, g, h1, h2, hsub, (hlate (by decide)).2.2.2.2.2⟩

set_option maxRecDepth 100000 in
/-- Counterexample to C16 as stated: a session in state Submitted, its submission older than
the confirmation timeout, whose owner has no lease-set. The state is reverted to Updated,
`CreateDatabaseStoreMsg` returns null for the null lease-set and the wrap dereferences it: no
LeaseSet clove is embedded again. -/
theorem retry_without_lease_set :
    exampleLateSession.m_LeaseSetUpdateStatus = LeaseSetUpdateStatus.eLeaseSetSubmitted ∧
    exampleNow.tms > exampleLateSession.m_LeaseSetSubmissionTime
      + exampleParams.LEASET_CONFIRMATION_TIMEOUT ∧
    (resubmitLeaseSet exampleParams exampleNow exampleLateSession).m_LeaseSetUpdateStatus
      = LeaseSetUpdateStatus.eLeaseSetUpdated ∧
    exampleOwnerNoLeaseSet.leaseSet = none ∧
    WrapSingleMessage exampleParams exampleCrypto exampleNow [] exampleLateSession
      (some exampleOwnerNoLeaseSet) (some exampleInner) = none := by
  decide

/-! ## The sweep of the outbound tags -/

theorem foldl_RemoveCreatedSession_find (l : List (Nat × UnconfirmedTags))
    (o : GarlicDestination) (k : Nat) :
    StdMap.find (l.foldl (fun d e => RemoveCreatedSession d e.1) o).m_CreatedSessions k
      = if k ∈ l.map Prod.fst then none else StdMap.find o.m_CreatedSessions k := by
  induction l generalizing o with
  | nil => simp
  | cons e rest ih =>
    rw [List.foldl_cons, ih]
    by_cases hk : k ∈ rest.map Prod.fst
    · have : k ∈ (e :: rest).map Prod.fst := by
        rw [List.map_cons]
        exact List.mem_cons_of_mem _ hk
      rw [if_pos hk, if_pos this]
    · rw [if_neg hk]
      by_cases he : e.1 = k
      · have : k ∈ (e :: rest).map Prod.fst := by
          rw [List.map_cons, ← he]
          exact List.mem_cons_self _ _
        rw [if_pos this]
        unfold RemoveCreatedSession
        rw [← he]
        exact StdMap.find_erase_self _ _
      · have : k ∉ (e :: rest).map Prod.fst := by
          rw [List.map_cons, List.mem_cons]
          rintro (h | h)
          · exact he h.symm
          · exact hk h
        rw [if_neg this]
        unfold RemoveCreatedSession
        exact StdMap.find_erase_ne _ he

theorem foldl_RemoveCreatedSession_fields (l : List (Nat × UnconfirmedTags))
    (o : GarlicDestination) :
    (l.foldl (fun d e => RemoveCreatedSession d e.1) o).m_Tags = o.m_Tags ∧
    (l.foldl (fun d e => RemoveCreatedSession d e.1) o).m_Sessions = o.m_Sessions ∧
    (l.foldl (fun d e => RemoveCreatedSession d e.1) o).m_LastTagsCleanupTime
      = o.m_LastTagsCleanupTime := by
  induction l generalizing o with
  | nil => exact ⟨rfl, rfl, rfl⟩
  | cons e rest ih =>
    rw [List.foldl_cons]
    exact ih _

/-- Claim C23: `CleanupExpiredTags` at time ts keeps in the pool exactly the tags with
ts < creationTime + OUTGOING_TAGS_EXPIRATION_TIMEOUT, in their order, and in
unconfirmedTagsMsgs exactly the batches with ts < tagsCreationTime +
OUTGOING_TAGS_EXPIRATION_TIMEOUT; the other fields of the session are untouched. For a
session with an owner the entry of createdSessions under the msgID of each removed batch is
removed, and the entries under every other msgID, those of the batches kept included, are
untouched. -/
theorem outbound_expiry_sweep (P : Params) (now : Env) (s : GarlicRoutingSession)
    (owner : Option GarlicDestination) :
    (CleanupExpiredTags P now s owner).2.1.m_SessionTags
      = s.m_SessionTags.filter
          (fun t => decide (now.ts < t.creationTime + P.OUTGOING_TAGS_EXPIRATION_TIMEOUT)) ∧
    (∀ t, t ∈ (CleanupExpiredTags P now s owner).2.1.m_SessionTags ↔
      t ∈ s.m_SessionTags ∧ ¬ now.ts ≥ t.creationTime + P.OUTGOING_TAGS_EXPIRATION_TIMEOUT) ∧
    ((CleanupExpiredTags P now s owner).2.1.m_SessionTags).Sublist s.m_SessionTags ∧
    (∀ k B, (k, B) ∈ (CleanupExpiredTags P now s owner).2.1.m_UnconfirmedTagsMsgs ↔
      (k, B) ∈ s.m_UnconfirmedTagsMsgs ∧
        ¬ now.ts ≥ B.tagsCreationTime + P.OUTGOING_TAGS_EXPIRATION_TIMEOUT) ∧
    ((CleanupExpiredTags P now s owner).2.1.m_UnconfirmedTagsMsgs).Sublist
      s.m_UnconfirmedTagsMsgs ∧
    (CleanupExpiredTags P now s owner).2.1.m_LeaseSetUpdateStatus = s.m_LeaseSetUpdateStatus ∧
    (owner = none → (CleanupExpiredTags P now s owner).2.2 = none) ∧
    (∀ o, owner = some o → ∃ o1, (CleanupExpiredTags P now s owner).2.2 = some o1 ∧
      (∀ k, (∃ B, (k, B) ∈ s.m_UnconfirmedTagsMsgs ∧
          now.ts ≥ B.tagsCreationTime + P.OUTGOING_TAGS_EXPIRATION_TIMEOUT) →
        StdMap.find o1.m_CreatedSessions k = none) ∧
      (∀ k, (¬ ∃ B, (k, B) ∈ s.m_UnconfirmedTagsMsgs ∧
          now.ts ≥ B.tagsCreationTime + P.OUTGOING_TAGS_EXPIRATION_TIMEOUT) →
        StdMap.find o1.m_CreatedSessions k = StdMap.find o.m_CreatedSessions k) ∧
      o1.m_Tags = o.m_Tags ∧ o1.m_Sessions = o.m_Sessions) := by
  have hfilter : ∀ l : List SessionTag,
      l.filter (fun t => !decide (now.ts ≥ t.creationTime + P.OUTGOING_TAGS_EXPIRATION_TIMEOUT))
        = l.filter
          (fun t => decide (now.ts < t.creationTime + P.OUTGOING_TAGS_EXPIRATION_TIMEOUT)) := by
    intro l
    apply List.filter_congr
    intro t _
    by_cases h : now.ts ≥ t.creationTime + P.OUTGOING_TAGS_EXPIRATION_TIMEOUT
    · have h2 : ¬ now.ts < t.creationTime + P.OUTGOING_TAGS_EXPIRATION_TIMEOUT := by omega
      simp [h, h2]
    · have h2 : now.ts < t.creationTime + P.OUTGOING_TAGS_EXPIRATION_TIMEOUT := by omega
      simp [h, h2]
  refine ⟨?_, ?_, ?_, ?_, ?_, rfl, ?_, ?_⟩
  · simp only [CleanupExpiredTags]
    exact hfilter _
  · intro t
    simp only [CleanupExpiredTags, List.mem_filter, Bool.not_eq_true', decide_eq_false_iff_not]
  · simp only [CleanupExpiredTags]
    exact List.filter_sublist _
  · intro k B
    simp only [CleanupExpiredTags, List.mem_filter, Bool.not_eq_true', decide_eq_false_iff_not]
  · simp only [CleanupExpiredTags]
    exact List.filter_sublist _
  · intro h
    subst h
    rfl
  · intro o h
    subst h
    refine ⟨_, rfl, ?_, ?_, (foldl_RemoveCreatedSession_fields _ o).1,
      (foldl_RemoveCreatedSession_fields _ o).2.1⟩
    · rintro k ⟨B, hmem, hexp⟩
      rw [foldl_RemoveCreatedSession_find, if_pos]
      rw [List.mem_map]
      exact ⟨(k, B), by simp [List.mem_filter, hmem, hexp], rfl⟩
    · intro k hk
      rw [foldl_RemoveCreatedSession_find, if_neg]
      rw [List.mem_map]
      rintro ⟨⟨k1, B⟩, hmem, hk1⟩
      simp only [List.mem_filter, decide_eq_true_eq] at hmem
      simp only at hk1
      subst hk1
      exact hk ⟨B, hmem.1, hmem.2⟩

theorem outbound_expiry_sweep_witness :
    (CleanupExpiredTags exampleParams exampleNow exampleAgedSession
        (some exampleWaitingOwner)).2.1.m_SessionTags
      = [exampleTag 2 1500, exampleTag 3 1600] ∧
    ∃ o1, (CleanupExpiredTags exampleParams exampleNow exampleAgedSession
        (some exampleWaitingOwner)).2.2 = some o1 ∧
      StdMap.find o1.m_CreatedSessions 4 = none ∧
      StdMap.find o1.m_CreatedSessions 5 = some 0 := by
  have h := outbound_expiry_sweep exampleParams exampleNow exampleAgedSession
    (some exampleWaitingOwner)
  obtain ⟨o1, ho1, hrem, hkeep, _, _⟩ := h.2.2.2.2.2.2.2 exampleWaitingOwner rfl
  refine ⟨h.1.trans (by decide), o1, ho1, ?_, ?_⟩
  · exact hrem 4 ⟨{ exampleBatch with tagsCreationTime := 1000 }, by decide, by decide⟩
  · rw [hkeep 5]
    · rfl
    · rintro ⟨B, hmem, hexp⟩
      simp [exampleAgedSession] at hmem
      subst hmem
      revert hexp
      decide

/-! ## Liveness of a session -/

/-- C22 (session liveness), the code. `CleanupExpiredTags` returns
`!m_SessionTags.empty () || m_UnconfirmedTagsMsgs.empty ()`: after the sweep the session is
reported alive exactly when its pool is not empty or NO batch is pending. A session with an
empty pool and a pending batch is reported dead, and a session with an empty pool and no
pending batch is reported alive; the claim asks for the opposite in both cases. -/
theorem session_liveness_flag (P : Params) (now : Env) (s : GarlicRoutingSession)
    (owner : Option GarlicDestination) :
    ((CleanupExpiredTags P now s owner).1 = true ↔
      ((CleanupExpiredTags P now s owner).2.1.m_SessionTags ≠ [] ∨
        (CleanupExpiredTags P now s owner).2.1.m_UnconfirmedTagsMsgs = [])) ∧
    ((CleanupExpiredTags P now s owner).2.1.m_SessionTags = [] →
      (CleanupExpiredTags P now s owner).2.1.m_UnconfirmedTagsMsgs ≠ [] →
      (CleanupExpiredTags P now s owner).1 = false) ∧
    ((CleanupExpiredTags P now s owner).2.1.m_SessionTags = [] →
      (CleanupExpiredTags P now s owner).2.1.m_UnconfirmedTagsMsgs = [] →
      (CleanupExpiredTags P now s owner).1 = true) := by
  have hiff : (CleanupExpiredTags P now s owner).1 = true ↔
      ((CleanupExpiredTags P now s owner).2.1.m_SessionTags ≠ [] ∨
        (CleanupExpiredTags P now s owner).2.1.m_UnconfirmedTagsMsgs = []) := by
    simp only [CleanupExpiredTags, Bool.or_eq_true, Bool.not_eq_true', List.isEmpty_eq_true,
      ne_eq]
    constructor
    · rintro (h | h)
      · left
        intro hc
        rw [hc] at h
        simp at h
      · exact Or.inr h
    · rintro (h | h)
      · left
        cases hp : List.filter (fun t => !decide (now.ts ≥ t.creationTime
            + P.OUTGOING_TAGS_EXPIRATION_TIMEOUT)) s.m_SessionTags with
        | nil => exact absurd hp h
        | cons a l => rfl
      · exact Or.inr h
  refine ⟨hiff, ?_, ?_⟩
  · intro hp hu
    cases hf : (CleanupExpiredTags P now s owner).1 with
    | false => rfl
    | true =>
      rcases hiff.1 hf with h | h
      · exact absurd hp h
      · exact absurd h hu
  · intro _ hu
    exact hiff.2 (Or.inr hu)

/-- Witness of C22: the session with an empty pool and a pending batch is reported dead and
`CleanupRoutingSessions` erases it from the sessions map; the session with an empty pool and
no pending batch is reported alive and kept. -/
theorem session_liveness_flag_witness :
    (CleanupExpiredTags exampleParams exampleNow examplePendingSession none).1 = false ∧
    (CleanupExpiredTags exampleParams exampleNow exampleIdleSession none).1 = true ∧
    (CleanupRoutingSessions exampleParams exampleNow exampleSessionsRegistry).dest.m_Sessions
      = [(List.replicate 32 10, 2)] :=
  ⟨(session_liveness_flag exampleParams exampleNow examplePendingSession none).2.1
      (by decide) (by decide),
   (session_liveness_flag exampleParams exampleNow exampleIdleSession none).2.2
      (by decide) (by decide),
   by decide⟩

/-! ## The registry of sessions -/

theorem StdMap.keys_assign_of_find_none {κ ν : Type} [DecidableEq κ] (m : StdMap κ ν) (k : κ)
    (v : ν) (h : StdMap.find m k = none) :
    (StdMap.assign m k v).map Prod.fst = m.map Prod.fst ++ [k] ∧ k ∉ m.map Prod.fst := by
  induction m with
  | nil => simp [StdMap.assign]
  | cons e rest ih =>
    obtain ⟨a, b⟩ := e
    by_cases h1 : a = k
    · simp [StdMap.find, h1] at h
    · simp only [StdMap.find, h1, if_false] at h
      obtain ⟨ih1, ih2⟩ := ih h
      refine ⟨?_, ?_⟩
      · simp only [StdMap.assign, h1, if_false, List.map_cons, List.cons_append, ih1]
      · simp only [List.map_cons, List.mem_cons, not_or]
        exact ⟨fun hc => h1 hc.symm, ih2⟩

theorem GetRoutingSession_of_find (rnd : List Nat) (w : GarlicRegistry) (addr : Nat)
    (destination : RoutingDestination) (attachLeaseSet : Bool) (id : Nat)
    (h : StdMap.find w.dest.m_Sessions (fixed 32 destination.identHash) = some id) :
    GetRoutingSession rnd w addr destination attachLeaseSet = (id, w, rnd) := by
  unfold GetRoutingSession
  rw [h]

/-- Claim C30: `GetRoutingSession (dest, attachLeaseSet)` returns the session stored under the
identity hash of dest if there is one, whatever attachLeaseSet is, and leaves the registry as
it is. Otherwise it creates a session for dest with an empty pool, numTags = 40 and state
Updated when attachLeaseSet is true, numTags = 4 and state DoNotSend when false, stores it
under the identity hash and returns it; the other entries of the map and the other sessions
are untouched. A second call for the same destination, whatever attachLeaseSet it is given,
returns the same session and changes nothing, and the map keeps one entry per identity
hash. -/
theorem registry_get_or_create (rnd : List Nat) (w : GarlicRegistry) (addr : Nat)
    (destination : RoutingDestination) (attachLeaseSet : Bool) :
    (∀ id, StdMap.find w.dest.m_Sessions (fixed 32 destination.identHash) = some id →
      GetRoutingSession rnd w addr destination attachLeaseSet = (id, w, rnd)) ∧
    (StdMap.find w.dest.m_Sessions (fixed 32 destination.identHash) = none →
      (GetRoutingSession rnd w addr destination attachLeaseSet).1 = addr ∧
      StdMap.find (GetRoutingSession rnd w addr destination attachLeaseSet).2.1.dest.m_Sessions
        (fixed 32 destination.identHash) = some addr ∧
      (∃ s, StdMap.find (GetRoutingSession rnd w addr destination attachLeaseSet).2.1.sessions
          addr = some s ∧
        s.id = addr ∧ s.m_Destination = some destination ∧ s.m_SessionTags = [] ∧
        s.m_UnconfirmedTagsMsgs = [] ∧
        (attachLeaseSet = true → s.m_NumTags = 40 ∧
          s.m_LeaseSetUpdateStatus = LeaseSetUpdateStatus.eLeaseSetUpdated) ∧
        (attachLeaseSet = false → s.m_NumTags = 4 ∧
          s.m_LeaseSetUpdateStatus = LeaseSetUpdateStatus.eLeaseSetDoNotSend)) ∧
      (∀ k, k ≠ fixed 32 destination.identHash →
        StdMap.find (GetRoutingSession rnd w addr destination attachLeaseSet).2.1.dest.m_Sessions
          k = StdMap.find w.dest.m_Sessions k) ∧
      (∀ k, k ≠ addr →
        StdMap.find (GetRoutingSession rnd w addr destination attachLeaseSet).2.1.sessions k
          = StdMap.find w.sessions k)) ∧
    (∀ (rnd2 : List Nat) (addr2 : Nat) (attachLeaseSet2 : Bool),
      GetRoutingSession rnd2 (GetRoutingSession rnd w addr destination attachLeaseSet).2.1
          addr2 destination attachLeaseSet2
        = ((GetRoutingSession rnd w addr destination attachLeaseSet).1,
           (GetRoutingSession rnd w addr destination attachLeaseSet).2.1, rnd2)) ∧
    ((w.dest.m_Sessions.map Prod.fst).Nodup →
      ((GetRoutingSession rnd w addr destination
        attachLeaseSet).2.1.dest.m_Sessions.map Prod.fst).Nodup) := by
  have hnew : StdMap.find w.dest.m_Sessions (fixed 32 destination.identHash) = none →
      ∃ d1 : GarlicDestination,
        d1.m_Sessions = StdMap.assign w.dest.m_Sessions (fixed 32 destination.identHash) addr ∧
        GetRoutingSession rnd w addr destination attachLeaseSet
          = (addr, GarlicRegistry.mk d1
              (StdMap.assign w.sessions addr (GarlicRoutingSession.create rnd addr destination
                (if attachLeaseSet then 40 else 4) attachLeaseSet).1),
             (GarlicRoutingSession.create rnd addr destination
                (if attachLeaseSet then 40 else 4) attachLeaseSet).2) := by
    intro h
    unfold GetRoutingSession
    rw [h]
    exact ⟨_, rfl, rfl⟩
  refine ⟨fun id h => GetRoutingSession_of_find rnd w addr destination attachLeaseSet id h,
    ?_, ?_, ?_⟩
  · intro h
    obtain ⟨d1, hd1, heq⟩ := hnew h
    rw [heq]
    refine ⟨rfl, ?_, ⟨_, StdMap.find_assign_self _ _ _, rfl, rfl,
      rfl, rfl, ?_, ?_⟩, ?_, ?_⟩
    · show StdMap.find d1.m_Sessions _ = _
      rw [hd1]
      exact StdMap.find_assign_self _ _ _
    · intro ha
      subst ha
      exact ⟨rfl, rfl⟩
    · intro ha
      subst ha
      exact ⟨rfl, rfl⟩
    · intro k hk
      show StdMap.find d1.m_Sessions _ = _
      rw [hd1]
      exact StdMap.find_assign_ne _ _ (Ne.symm hk)
    · intro k hk
      exact StdMap.find_assign_ne _ _ (Ne.symm hk)
  · intro rnd2 addr2 al2
    cases hf : StdMap.find w.dest.m_Sessions (fixed 32 destination.identHash) with
    | some id =>
      rw [GetRoutingSession_of_find rnd w addr destination attachLeaseSet id hf]
      exact GetRoutingSession_of_find rnd2 w addr2 destination al2 id hf
    | none =>
      obtain ⟨d1, hd1, heq⟩ := hnew hf
      rw [heq]
      apply GetRoutingSession_of_find
      show StdMap.find d1.m_Sessions _ = _
      rw [hd1]
      exact StdMap.find_assign_self _ _ _
  · intro hnd
    cases hf : StdMap.find w.dest.m_Sessions (fixed 32 destination.identHash) with
    | some id =>
      rw [GetRoutingSession_of_find rnd w addr destination attachLeaseSet id hf]
      exact hnd
    | none =>
      obtain ⟨d1, hd1, heq⟩ := hnew hf
      rw [heq]
      obtain ⟨hk, hnot⟩ := StdMap.keys_assign_of_find_none w.dest.m_Sessions
        (fixed 32 destination.identHash) addr hf
      show (d1.m_Sessions.map Prod.fst).Nodup
      rw [hd1, hk]
      refine List.Nodup.append hnd (List.nodup_singleton _) ?_
      intro a ha hb
      rw [List.mem_singleton] at hb
      subst hb
      exact hnot ha

theorem registry_get_or_create_witness :
    (GetRoutingSession [] exampleEmptyRegistry 1 exampleRoutingDestination true).1 = 1 ∧
    (∃ s, StdMap.find (GetRoutingSession [] exampleEmptyRegistry 1 exampleRoutingDestination
        true).2.1.sessions 1 = some s ∧ s.m_NumTags = 40 ∧
      s.m_LeaseSetUpdateStatus = LeaseSetUpdateStatus.eLeaseSetUpdated) ∧
    (GetRoutingSession [] (GetRoutingSession [] exampleEmptyRegistry 1
        exampleRoutingDestination true).2.1 2 exampleRoutingDestination false).1 = 1 := by
  have h := registry_get_or_create [] exampleEmptyRegistry 1 exampleRoutingDestination true
  obtain ⟨h1, _, ⟨s, hs, _, _, _, _, h40, _⟩, _, _⟩ := h.2.1 (by decide)
  refine ⟨h1, ⟨s, hs, (h40 rfl).1, (h40 rfl).2⟩, ?_⟩
  rw [h.2.2.1 [] 2 false]
  exact h1

/-! ## The digest of the payload of an AES block -/

/-- The start of the payload in an AES block whose fields, from payloadSize on, are at
`fields`: behind the size, the digest and the flag, and behind the new session key when the
flag is not zero. -/
theorem HandleAESBlock_payload (P : Params) (C : Crypto) (now : Env)
    (dest : GarlicDestination) (buf : List Nat) (len : Nat) (key : List Nat)
    (sender : Option InboundTunnel) (start : List Nat)
    (hstart : start =
      if (((buf.drop 2).drop (bufbe16toh buf * 32)).drop (4 + 32)).getD 0 0 ≠ 0 then
        (((buf.drop 2).drop (bufbe16toh buf * 32)).drop (4 + 32)).drop (32 + 1)
      else (((buf.drop 2).drop (bufbe16toh buf * 32)).drop (4 + 32)).drop 1) :
    (HandleAESBlock P C now dest buf len key sender).payload =
      if bufbe16toh buf > 0 ∧ bufbe16toh buf * 32 > subSizeT len 2 then none
      else if bufbe32toh ((buf.drop 2).drop (bufbe16toh buf * 32))
          > subSizeT (subSizeT len 2) (bufbe16toh buf * 32) then none
      else if fixed 32 (C.sha256
          (fixed (bufbe32toh ((buf.drop 2).drop (bufbe16toh buf * 32))) start))
          ≠ fixed 32 (((buf.drop 2).drop (bufbe16toh buf * 32)).drop 4) then none
      else some (fixed (bufbe32toh ((buf.drop 2).drop (bufbe16toh buf * 32))) start,
        HandleGarlicPayload P start (bufbe32toh ((buf.drop 2).drop (bufbe16toh buf * 32)))
          sender) := by
  subst hstart
  unfold HandleAESBlock
  simp only [apply_ite AESBlockResult.payload]

/-- Claim C27: `HandleAESBlock` hands a payload to `HandleGarlicPayload` only when the
SHA-256 digest of the payloadSize bytes of the payload equals the 32 bytes of the payloadHash
field; the payload handed over is those bytes. On a mismatch nothing is handed over, so no
clove is dispatched or forwarded. -/
theorem payload_hash_enforcement (P : Params) (C : Crypto) (now : Env)
    (dest : GarlicDestination) (buf : List Nat) (len : Nat) (key : List Nat)
    (sender : Option InboundTunnel) :
    let tagCount := bufbe16toh buf
    let fields := (buf.drop 2).drop (tagCount * 32)
    let payloadSize := bufbe32toh fields
    let payloadHash := fixed 32 (fields.drop 4)
    let start :=
      if (fields.drop (4 + 32)).getD 0 0 ≠ 0 then (fields.drop (4 + 32)).drop (32 + 1)
      else (fields.drop (4 + 32)).drop 1
    let r := HandleAESBlock P C now dest buf len key sender
    (∀ x, r.payload = some x →
      x.1 = fixed payloadSize start ∧
      fixed 32 (C.sha256 (fixed payloadSize start)) = payloadHash ∧
      x.2 = HandleGarlicPayload P start payloadSize sender) ∧
    (fixed 32 (C.sha256 (fixed payloadSize start)) ≠ payloadHash → r.payload = none) := by
  intro tagCount fields payloadSize payloadHash start r
  have hp := HandleAESBlock_payload P C now dest buf len key sender start rfl
  refine ⟨?_, ?_⟩
  · intro x hx
    have hx2 : (HandleAESBlock P C now dest buf len key sender).payload = some x := hx
    rw [hp] at hx2
    split at hx2
    · cases hx2
    · split at hx2
      · cases hx2
      · split at hx2
        · cases hx2
        · rename_i hhash
          simp only [Option.some.injEq] at hx2
          subst hx2
          exact ⟨rfl, not_not.1 hhash, rfl⟩
  · intro hne
    show (HandleAESBlock P C now dest buf len key sender).payload = none
    rw [hp]
    split
    · rfl
    · split
      · rfl
      · rfl

theorem payload_hash_enforcement_witness :
    (HandleAESBlock exampleParams exampleCrypto exampleNow exampleDestination
      exampleEmptyBlock 39 [] none).payload ≠ none ∧
    (HandleAESBlock exampleParams exampleCrypto exampleNow exampleDestination
      exampleBadHashBlock 39 [] none).payload = none :=
  ⟨by decide,
   (payload_hash_enforcement exampleParams exampleCrypto exampleNow exampleDestination
      exampleBadHashBlock 39 [] none).2 (by decide)⟩

/-! ## The length tests of an AES block -/

theorem HandleAESBlock_dest (P : Params) (C : Crypto) (now : Env)
    (dest : GarlicDestination) (buf : List Nat) (len : Nat) (key : List Nat)
    (sender : Option InboundTunnel) :
    (HandleAESBlock P C now dest buf len key sender).dest =
      if bufbe16toh buf > 0 ∧ bufbe16toh buf * 32 > subSizeT len 2 then dest
      else { dest with m_Tags := addTags now.ts key (buf.drop 2) (bufbe16toh buf) 0
                                   dest.m_Tags } := by
  unfold HandleAESBlock
  simp only [apply_ite AESBlockResult.dest, ite_self]

theorem subSizeT_of_lt (a b : Nat) (hb : b ≤ 2 ^ 64) (hab : a < b) :
    subSizeT a b = a + 2 ^ 64 - b := by
  unfold subSizeT
  by_cases h : b = 2 ^ 64
  · subst h
    simp
    omega
  · have h1 : b % 2 ^ 64 = b := Nat.mod_eq_of_lt (by omega)
    rw [h1]
    exact Nat.mod_eq_of_lt (by omega)

/-- C28 (inbound length checks), the code. The tests of `HandleAESBlock` are
`tagCount*32 > len - 2` and `payloadSize > len - 2 - tagCount*32`, on a `size_t`. For a block
of at least two bytes they keep the tags and the payloadSize bytes of the payload, counted
without the 37 bytes of size, digest and flag (69 with a session key), within len: tags are
stored only if 2 + tagCount*32 <= len and a payload is handed over only if 2 + tagCount*32 +
payloadSize <= len, so the payload may end up to 37 (69) bytes behind the block. For a
block of less than two bytes `len - 2` wraps around and no test fails: the tags read behind
the block are stored and the payload is handed over whenever its digest matches. -/
theorem inbound_length_checks (P : Params) (C : Crypto) (now : Env)
    (dest : GarlicDestination) (buf : List Nat) (len : Nat) (key : List Nat)
    (sender : Option InboundTunnel)
    (htc : bufbe16toh buf < 65536)
    (hps : bufbe32toh ((buf.drop 2).drop (bufbe16toh buf * 32)) < 2 ^ 32) :
    let tagCount := bufbe16toh buf
    let fields := (buf.drop 2).drop (tagCount * 32)
    let payloadSize := bufbe32toh fields
    let payloadHash := fixed 32 (fields.drop 4)
    let start :=
      if (fields.drop (4 + 32)).getD 0 0 ≠ 0 then (fields.drop (4 + 32)).drop (32 + 1)
      else (fields.drop (4 + 32)).drop 1
    let r := HandleAESBlock P C now dest buf len key sender
    (2 ≤ len → len < 2 ^ 64 → r.dest.m_Tags ≠ dest.m_Tags → 2 + tagCount * 32 ≤ len) ∧
    (2 ≤ len → len < 2 ^ 64 → r.payload ≠ none → 2 + tagCount * 32 + payloadSize ≤ len) ∧
    (len < 2 →
      r.dest.m_Tags = addTags now.ts key (buf.drop 2) tagCount 0 dest.m_Tags ∧
      (fixed 32 (C.sha256 (fixed payloadSize start)) = payloadHash →
        r.payload = some (fixed payloadSize start,
          HandleGarlicPayload P start payloadSize sender))) := by
  intro tagCount fields payloadSize payloadHash start r
  have hp := HandleAESBlock_payload P C now dest buf len key sender start rfl
  have hd := HandleAESBlock_dest P C now dest buf len key sender
  refine ⟨?_, ?_, ?_⟩
  · intro h2 h64 hne
    have hsub : subSizeT len 2 = len - 2 := subSizeT_of_le len 2 h2 h64
    by_cases h1 : bufbe16toh buf > 0 ∧ bufbe16toh buf * 32 > subSizeT len 2
    · exfalso
      apply hne
      show (HandleAESBlock P C now dest buf len key sender).dest.m_Tags = _
      rw [hd, if_pos h1]
    · by_cases h0 : bufbe16toh buf > 0
      · have : ¬ bufbe16toh buf * 32 > subSizeT len 2 := fun hc => h1 ⟨h0, hc⟩
        rw [hsub] at this
        show 2 + bufbe16toh buf * 32 ≤ len
        omega
      · show 2 + bufbe16toh buf * 32 ≤ len
        omega
  · intro h2 h64 hne
    have hsub : subSizeT len 2 = len - 2 := subSizeT_of_le len 2 h2 h64
    have hne2 : (HandleAESBlock P C now dest buf len key sender).payload ≠ none := hne
    rw [hp] at hne2
    by_cases h1 : bufbe16toh buf > 0 ∧ bufbe16toh buf * 32 > subSizeT len 2
    · rw [if_pos h1] at hne2
      exact absurd rfl hne2
    · rw [if_neg h1] at hne2
      by_cases h3 : bufbe32toh ((buf.drop 2).drop (bufbe16toh buf * 32))
          > subSizeT (subSizeT len 2) (bufbe16toh buf * 32)
      · rw [if_pos h3] at hne2
        exact absurd rfl hne2
      · have hle : bufbe16toh buf * 32 ≤ len - 2 := by
          by_cases h0 : bufbe16toh buf > 0
          · have : ¬ bufbe16toh buf * 32 > subSizeT len 2 := fun hc => h1 ⟨h0, hc⟩
            rw [hsub] at this
            omega
          · omega
        rw [hsub, subSizeT_of_le (len - 2) (bufbe16toh buf * 32) hle (by omega)] at h3
        show 2 + bufbe16toh buf * 32 + bufbe32toh ((buf.drop 2).drop (bufbe16toh buf * 32))
          ≤ len
        omega
  · intro hlt
    have hsub : subSizeT len 2 = len + 2 ^ 64 - 2 := subSizeT_of_lt len 2 (by norm_num) hlt
    have h1 : ¬ (bufbe16toh buf > 0 ∧ bufbe16toh buf * 32 > subSizeT len 2) := by
      rw [hsub]
      rintro ⟨_, hc⟩
      have : bufbe16toh buf * 32 < 65536 * 32 := by omega
      omega
    have h3 : ¬ bufbe32toh ((buf.drop 2).drop (bufbe16toh buf * 32))
        > subSizeT (subSizeT len 2) (bufbe16toh buf * 32) := by
      rw [hsub, subSizeT_of_le _ _ (by omega) (by omega)]
      have : bufbe16toh buf * 32 < 65536 * 32 := by omega
      omega
    refine ⟨?_, ?_⟩
    · show (HandleAESBlock P C now dest buf len key sender).dest.m_Tags = _
      rw [hd, if_neg h1]
    · intro hhash
      show (HandleAESBlock P C now dest buf len key sender).payload = _
      rw [hp, if_neg h1, if_neg h3, if_neg (not_not.2 hhash)]

set_option maxRecDepth 100000 in
/-- Witness of C28: the garlic message with an AES block of no byte stores the tag of 32 bytes
7 that stands behind the block, and a block of 48 bytes whose payloadSize is 46 has its
payload, which ends at byte 85, handed over. -/
theorem inbound_length_checks_witness :
    StdMap.find (HandleAESBlock exampleParams exampleCrypto exampleNow exampleDestination
      (exampleShortGarlic.GetPayload.drop 36) 0 (List.replicate 32 4) none).dest.m_Tags
      (List.replicate 32 7) = some { creationTime := 2000, key := List.replicate 32 4 } ∧
    StdMap.find (HandleGarlicMessage exampleParams exampleCrypto exampleNow exampleDestination
      exampleShortGarlic).dest.m_Tags (List.replicate 32 7)
      = some { creationTime := 2000, key := List.replicate 32 4 } ∧
    (HandleAESBlock exampleParams exampleCrypto exampleNow exampleDestination
      exampleOverlongBlock 48 [] none).payload
      = some (List.replicate 46 0, { cloves := [], stop := 1 }) := by
  have h := (inbound_length_checks exampleParams exampleCrypto exampleNow exampleDestination
    (exampleShortGarlic.GetPayload.drop 36) 0 (List.replicate 32 4) none (by decide)
    (by decide)).2.2 (by decide)
  refine ⟨?_, by decide, by decide⟩
  rw [h.1]
  decide

/-! ## The sweep of the inbound tags -/

theorem HandleGarlicMessage_sweep (P : Params) (C : Crypto) (now : Env)
    (dest : GarlicDestination) (msg : I2NPMessage)
    (hlen : ¬ bufbe32toh msg.GetPayload > msg.GetLength) :
    ∃ pre : GarlicDestination, pre.m_LastTagsCleanupTime = dest.m_LastTagsCleanupTime ∧
      (HandleGarlicMessage P C now dest msg).dest = cleanupTags P now pre := by
  have haes : ∀ buf len key sender,
      (HandleAESBlock P C now dest buf len key sender).dest.m_LastTagsCleanupTime
        = dest.m_LastTagsCleanupTime := by
    intro buf len key sender
    rw [HandleAESBlock_dest]
    split <;> rfl
  unfold HandleGarlicMessage
  simp only
  rw [if_neg hlen]
  split
  · refine ⟨_, ?_, rfl⟩
    simp only
    split
    · exact haes _ _ _ _
    · rfl
  · refine ⟨_, ?_, rfl⟩
    split
    · split
      · exact haes _ _ _ _
      · rfl
    · rfl

/-- Claim C29, amended: the sweep at the end of `HandleGarlicMessage` at time ts leaves the
table and lastTagsCleanupTime as they are unless ts > lastTagsCleanupTime +
INCOMING_TAGS_EXPIRATION_TIMEOUT; then lastTagsCleanupTime becomes ts, so that no message
handled within the next timeout period sweeps again, and, when lastTagsCleanupTime was not 0
before, exactly the tags with ts > creationTime + INCOMING_TAGS_EXPIRATION_TIMEOUT are
removed and no tag older than the timeout remains. The first time (lastTagsCleanupTime = 0)
no tag is removed and only the time is set. A message that fails the length test returns
before the sweep; every other message ends with the sweep of the table that its handling has
left. -/
theorem inbound_tag_sweep (P : Params) (C : Crypto) (now : Env) (dest : GarlicDestination)
    (msg : I2NPMessage) :
    (∀ pre : GarlicDestination,
      (¬ now.ts > pre.m_LastTagsCleanupTime + P.INCOMING_TAGS_EXPIRATION_TIMEOUT →
        cleanupTags P now pre = pre) ∧
      (now.ts > pre.m_LastTagsCleanupTime + P.INCOMING_TAGS_EXPIRATION_TIMEOUT →
        (cleanupTags P now pre).m_LastTagsCleanupTime = now.ts ∧
        (∀ later : Env, later.ts ≤ now.ts + P.INCOMING_TAGS_EXPIRATION_TIMEOUT →
          cleanupTags P later (cleanupTags P now pre) = cleanupTags P now pre) ∧
        (pre.m_LastTagsCleanupTime ≠ 0 →
          (∀ k v, (k, v) ∈ (cleanupTags P now pre).m_Tags ↔
            (k, v) ∈ pre.m_Tags ∧
              ¬ now.ts > v.creationTime + P.INCOMING_TAGS_EXPIRATION_TIMEOUT) ∧
          ((cleanupTags P now pre).m_Tags).Sublist pre.m_Tags ∧
          ∀ e ∈ (cleanupTags P now pre).m_Tags,
            now.ts ≤ e.2.creationTime + P.INCOMING_TAGS_EXPIRATION_TIMEOUT) ∧
        (pre.m_LastTagsCleanupTime = 0 → (cleanupTags P now pre).m_Tags = pre.m_Tags))) ∧
    (bufbe32toh msg.GetPayload > msg.GetLength →
      (HandleGarlicMessage P C now dest msg).dest = dest) ∧
    (¬ bufbe32toh msg.GetPayload > msg.GetLength →
      ∃ pre : GarlicDestination, pre.m_LastTagsCleanupTime = dest.m_LastTagsCleanupTime ∧
        (HandleGarlicMessage P C now dest msg).dest = cleanupTags P now pre) := by
  refine ⟨?_, ?_, HandleGarlicMessage_sweep P C now dest msg⟩
  · intro pre
    refine ⟨?_, ?_⟩
    · intro h
      unfold cleanupTags
      rw [if_neg h]
    · intro h
      have hlast : (cleanupTags P now pre).m_LastTagsCleanupTime = now.ts := by
        unfold cleanupTags
        rw [if_pos h]
      refine ⟨hlast, ?_, ?_, ?_⟩
      · intro later hl
        generalize cleanupTags P now pre = d at hlast
        unfold cleanupTags
        rw [if_neg]
        rw [hlast]
        omega
      · intro h0
        have ht : (cleanupTags P now pre).m_Tags = pre.m_Tags.filter
            (fun e => !decide (now.ts > e.2.creationTime
              + P.INCOMING_TAGS_EXPIRATION_TIMEOUT)) := by
          unfold cleanupTags
          rw [if_pos h]
          simp only
          rw [if_pos h0]
        rw [ht]
        refine ⟨?_, List.filter_sublist _, ?_⟩
        · intro k v
          simp only [List.mem_filter, Bool.not_eq_true', decide_eq_false_iff_not]
        · intro e he
          simp only [List.mem_filter, Bool.not_eq_true', decide_eq_false_iff_not] at he
          omega
      · intro h0
        unfold cleanupTags
        rw [if_pos h]
        simp only
        rw [if_neg (not_not.2 h0)]
  · intro h
    unfold HandleGarlicMessage
    simp only
    rw [if_pos h]

theorem inbound_tag_sweep_witness :
    (cleanupTags exampleParams { ts := 3000, tms := 3000000 } exampleDestination).m_Tags = [] ∧
    (cleanupTags exampleParams { ts := 3000, tms := 3000000 }
      exampleDestination).m_LastTagsCleanupTime = 3000 ∧
    cleanupTags exampleParams exampleNow exampleDestination = exampleDestination := by
  have h := (inbound_tag_sweep exampleParams exampleCrypto { ts := 3000, tms := 3000000 }
    exampleDestination exampleTaggedGarlic).1 exampleDestination
  have h2 := (inbound_tag_sweep exampleParams exampleCrypto exampleNow
    exampleDestination exampleTaggedGarlic).1 exampleDestination
  refine ⟨by decide, (h.2 (by decide)).1, h2.1 (by decide)⟩

set_option maxRecDepth 100000 in
/-- Counterexample to C29 as stated: on a destination that has never swept, a garlic message
handled at second 2000 runs the sweep (2000 > 0 + 960) and sets lastTagsCleanupTime, but the
tag created at second 1000, older than the timeout, remains in the table. -/
theorem first_sweep_removes_nothing :
    exampleNow.ts > exampleNewDestination.m_LastTagsCleanupTime
      + exampleParams.INCOMING_TAGS_EXPIRATION_TIMEOUT ∧
    (HandleGarlicMessage exampleParams exampleCrypto exampleNow exampleNewDestination
      exampleTaggedGarlic).dest.m_LastTagsCleanupTime = exampleNow.ts ∧
    (HandleGarlicMessage exampleParams exampleCrypto exampleNow exampleNewDestination
      exampleTaggedGarlic).dest.m_Tags
      = [(List.replicate 32 9, { creationTime := 1000, key := List.replicate 32 4 })] ∧
    exampleNow.ts > 1000 + exampleParams.INCOMING_TAGS_EXPIRATION_TIMEOUT := by
  decide

/-! ## The wrap, step by step -/

theorem CreateAESBlock_exact (P : Params) (C : Crypto) (now : Env)
    (wrap : List Nat → GarlicRoutingSession → I2NPMessage → Option WrapResult)
    (rnd : List Nat) (s : GarlicRoutingSession) (owner : Option GarlicDestination)
    (msg : Option I2NPMessage) (iv : List Nat) (b : Built)
    (h : CreateAESBlock P C now wrap rnd s owner msg iv = some b) :
    ∃ bp, CreateGarlicPayload P C now wrap (newTagsRnd now rnd s owner) s owner msg
        (newTagsOf now rnd s owner) = some bp ∧
      b.session = bp.session ∧ b.owner = bp.owner ∧
      b.bytes = aesBlockOf C s.m_SessionKey iv
        (aesPlaintext C (newTagsOf now rnd s owner) bp.bytes) := by
  unfold CreateAESBlock at h
  simp only at h
  unfold newTagsOf newTagsRnd createNewTags
  cases hc : (owner.isSome && decide (s.m_NumTags ≠ 0) &&
      decide ((s.m_SessionTags.length : Int) ≤ Int.tdiv (s.m_NumTags * 2) 3))
  · simp only [hc, Bool.false_eq_true, if_false] at h ⊢
    split at h
    · cases h
    · rename_i bp hbp
      simp only [Option.some.injEq] at h
      subst h
      refine ⟨bp, hbp, rfl, rfl, ?_⟩
      simp only [aesBlockOf, aesPlaintext, List.append_nil]
  · simp only [hc, if_true] at h ⊢
    split at h
    · cases h
    · rename_i bp hbp
      simp only [Option.some.injEq] at h
      subst h
      refine ⟨bp, hbp, rfl, rfl, ?_⟩
      simp only [aesBlockOf, aesPlaintext]

theorem frameGarlic_exact (P : Params) (C : Crypto) (now : Env)
    (wrap : List Nat → GarlicRoutingSession → I2NPMessage → Option WrapResult)
    (s : GarlicRoutingSession) (owner : Option GarlicDestination)
    (msg : Option I2NPMessage) (front iv rnd : List Nat) (wr : WrapResult)
    (h : frameGarlic P C now wrap s owner msg front iv rnd = some wr) :
    ∃ g b, wr.msg = some g ∧ CreateAESBlock P C now wrap rnd s owner msg iv = some b ∧
      wr.session = b.session ∧ wr.owner = b.owner ∧
      g.GetPayload = htobe32buf (front.length + b.bytes.length) ++ front ++ b.bytes ∧
      g.bytes.getD 0 0 = P.eI2NPGarlic % 256 := by
  unfold frameGarlic at h
  simp only at h
  split at h
  · cases h
  · rename_i b hb
    cases h
    refine ⟨_, b, rfl, hb, rfl, rfl, ?_, FillI2NPMessageHeader_type _ _ _ _ _ _⟩
    rw [GetPayload_FillI2NPMessageHeader]
    simp [I2NPMessage.GetPayload, I2NPMessage.concat, NewI2NPMessage, I2NP_HEADER_SIZE]

/-- A wrap that gives a message: its framing, the payload that `CreateGarlicPayload` has laid
out for the batch of `CreateAESBlock`, and the bytes of the message. -/
theorem WrapSingleMessageWith_exact (P : Params) (C : Crypto) (now : Env)
    (wrap : List Nat → GarlicRoutingSession → I2NPMessage → Option WrapResult)
    (rnd : List Nat) (s : GarlicRoutingSession) (owner : Option GarlicDestination)
    (msg : Option I2NPMessage) (wr : WrapResult) (g : I2NPMessage)
    (h : WrapSingleMessageWith P C now wrap rnd s owner msg = some wr)
    (hg : wr.msg = some g) :
    ∃ (front iv rnd0 : List Nat) (bp : Built),
      Framing P C now rnd s front iv rnd0 ∧
      CreateGarlicPayload P C now wrap
        (newTagsRnd now rnd0 { s with m_SessionTags := (findTag P now s).2 } owner)
        { s with m_SessionTags := (findTag P now s).2 } owner msg
        (newTagsOf now rnd0 { s with m_SessionTags := (findTag P now s).2 } owner) = some bp ∧
      wr.session = bp.session ∧ wr.owner = bp.owner ∧
      g.bytes.getD 0 0 = P.eI2NPGarlic % 256 ∧
      g.GetPayload
        = htobe32buf (front.length + (aesBlockOf C s.m_SessionKey iv (aesPlaintext C
            (newTagsOf now rnd0 { s with m_SessionTags := (findTag P now s).2 } owner)
            bp.bytes)).length)
          ++ front ++ aesBlockOf C s.m_SessionKey iv (aesPlaintext C
            (newTagsOf now rnd0 { s with m_SessionTags := (findTag P now s).2 } owner)
            bp.bytes) := by
  unfold WrapSingleMessageWith at h
  simp only at h
  split at h
  · rename_i hsel
    split at h
    · cases h
      cases hg
    · rename_i d hd
      obtain ⟨g1, b, hg1, hb, hs, ho, hp, hty⟩ := frameGarlic_exact _ _ _ _ _ _ _ _ _ _ _ h
      rw [hg] at hg1
      cases hg1
      obtain ⟨bp, hbp, hs1, ho1, hbytes⟩ := CreateAESBlock_exact _ _ _ _ _ _ _ _ _ _ hb
      refine ⟨_, _, _, bp, Or.inr ⟨hsel, d, hd, rfl, rfl, rfl⟩, hbp, hs.trans hs1,
        ho.trans ho1, hty, ?_⟩
      rw [hp, hbytes]
  · rename_i T hsel
    obtain ⟨g1, b, hg1, hb, hs, ho, hp, hty⟩ := frameGarlic_exact _ _ _ _ _ _ _ _ _ _ _ h
    rw [hg] at hg1
    cases hg1
    obtain ⟨bp, hbp, hs1, ho1, hbytes⟩ := CreateAESBlock_exact _ _ _ _ _ _ _ _ _ _ hb
    refine ⟨_, _, _, bp, Or.inl ⟨T, hsel, rfl, rfl, rfl⟩, hbp, hs.trans hs1,
      ho.trans ho1, hty, ?_⟩
    rw [hp, hbytes]

/-! ## The structure of the AES block -/

theorem aesBlockOf_length (C : Crypto) (key iv plain : List Nat) :
    (aesBlockOf C key iv plain).length % 16 = 0 ∧
    plain.length ≤ (aesBlockOf C key iv plain).length ∧
    (aesBlockOf C key iv plain).length < plain.length + 16 := by
  unfold aesBlockOf
  rw [fixed_length, List.length_append, List.length_replicate]
  omega

theorem newTagsOf_some (now : Env) (rnd : List Nat) (s : GarlicRoutingSession)
    (owner : Option GarlicDestination) (h : createNewTags s owner = true) :
    newTagsOf now rnd s owner = some (GenerateSessionTags now rnd s).1 := by
  unfold newTagsOf
  rw [if_pos h]

theorem newTagsOf_none (now : Env) (rnd : List Nat) (s : GarlicRoutingSession)
    (owner : Option GarlicDestination) (h : createNewTags s owner = false) :
    newTagsOf now rnd s owner = none := by
  unfold newTagsOf
  rw [h]
  rfl

theorem GenerateSessionTags_batch (now : Env) (rnd : List Nat) (s : GarlicRoutingSession) :
    (GenerateSessionTags now rnd s).1.numTags = s.m_NumTags ∧
    (GenerateSessionTags now rnd s).1.sessionTags.length = s.m_NumTags.toNat ∧
    (GenerateSessionTags now rnd s).1.tagsCreationTime = now.ts := by
  simp only [GenerateSessionTags, generateTags_length, and_self]

/-- Claim C26: `CreateAESBlock` returns (the owner, if any, has a lease-set and the expiration
timeout is positive, so that no null message is dereferenced; numTags fits the 16 bits of
the count and the digest has 32 bytes). The plaintext that it encrypts is tagCount (2 bytes,
big-endian), tagCount tags of 32 bytes, payloadSize (4 bytes, big-endian), payloadHash (32
bytes), the flag 0 and the payload, followed by the padding. tagCount is numTags and the tags
are those of the batch if a batch was generated, and 0 with no tag otherwise; payloadSize is
the length of the bytes that `CreateGarlicPayload` returns and payloadHash their SHA-256
digest. The size of the block returned is the smallest multiple of 16 that is at least
2 + 32*tagCount + 37 + payloadSize. -/
theorem aes_block_structure (P : Params) (C : Crypto) (now : Env) (rnd : List Nat)
    (s : GarlicRoutingSession) (owner : Option GarlicDestination) (msg : Option I2NPMessage)
    (iv : List Nat)
    (hto : 0 < P.OUTGOING_TAGS_EXPIRATION_TIMEOUT)
    (hls : ∀ o, owner = some o → o.leaseSet ≠ none)
    (hnum : 0 ≤ s.m_NumTags) (hnum2 : s.m_NumTags < 65536)
    (hsha : ∀ x, (C.sha256 x).length = 32) :
    ∃ b bp, CreateAESBlock P C now (WrapSingleMessageNoOwner P C now) rnd s owner msg iv
        = some b ∧
      CreateGarlicPayload P C now (WrapSingleMessageNoOwner P C now)
        (newTagsRnd now rnd s owner) s owner msg (newTagsOf now rnd s owner) = some bp ∧
      ∃ (tagCount : Nat) (tags plain pad : List Nat),
        plain = htobe16buf tagCount ++ tags ++ htobe32buf bp.bytes.length
          ++ C.sha256 bp.bytes ++ [0] ++ bp.bytes ∧
        b.bytes = fixed (plain ++ pad).length
          (C.aesEncrypt s.m_SessionKey iv (plain ++ pad)) ∧
        (createNewTags s owner = true → tagCount = s.m_NumTags.toNat ∧
          tags = ((GenerateSessionTags now rnd s).1.sessionTags.map
            (fun g => fixed 32 g.tag)).flatten) ∧
        (createNewTags s owner = false → tagCount = 0 ∧ tags = []) ∧
        tags.length = 32 * tagCount ∧
        plain.length = 2 + 32 * tagCount + 37 + bp.bytes.length ∧
        b.bytes.length % 16 = 0 ∧
        2 + 32 * tagCount + 37 + bp.bytes.length ≤ b.bytes.length ∧
        b.bytes.length < 2 + 32 * tagCount + 37 + bp.bytes.length + 16 := by
  obtain ⟨b, hb⟩ := CreateAESBlock_returns P C now (WrapSingleMessageNoOwner P C now) rnd s
    owner msg iv (fun o ho => ⟨hls o ho, WrapSingleMessageNoOwner_returns P C now hto⟩)
  obtain ⟨bp, hbp, _, _, hbytes⟩ := CreateAESBlock_exact _ _ _ _ _ _ _ _ _ _ hb
  have hfix : fixed 32 (C.sha256 bp.bytes) = C.sha256 bp.bytes :=
    fixed_of_length _ _ (hsha _)
  obtain ⟨hl1, hl2, hl3⟩ := aesBlockOf_length C s.m_SessionKey iv
    (aesPlaintext C (newTagsOf now rnd s owner) bp.bytes)
  rw [← hbytes] at hl1 hl2 hl3
  cases hc : createNewTags s owner with
  | false =>
    have hplain : aesPlaintext C (newTagsOf now rnd s owner) bp.bytes
        = htobe16buf 0 ++ [] ++ htobe32buf bp.bytes.length ++ C.sha256 bp.bytes ++ [0]
          ++ bp.bytes := by
      rw [newTagsOf_none now rnd s owner hc]
      simp only [aesPlaintext, hfix, List.append_nil]
      rfl
    have hlen : (aesPlaintext C (newTagsOf now rnd s owner) bp.bytes).length
        = 2 + 32 * 0 + 37 + bp.bytes.length := by
      rw [hplain]
      simp only [List.length_append, htobe16buf_length, htobe32buf_length, hsha,
        List.length_nil, List.length_singleton]
      try omega
    refine ⟨b, bp, hb, hbp, 0, [],
      htobe16buf 0 ++ [] ++ htobe32buf bp.bytes.length ++ C.sha256 bp.bytes ++ [0]
        ++ bp.bytes,
      List.replicate ((16 - (htobe16buf 0 ++ [] ++ htobe32buf bp.bytes.length
        ++ C.sha256 bp.bytes ++ [0] ++ bp.bytes).length % 16) % 16) 0,
      rfl, ?_, (fun h => by cases h), (fun _ => ⟨rfl, rfl⟩), rfl, ?_, hl1, ?_, ?_⟩
    · rw [hbytes]
      unfold aesBlockOf
      rw [hplain]
    · rw [← hplain]
      exact hlen
    · rw [← hlen]
      exact hl2
    · rw [← hlen]
      exact hl3
  | true =>
    obtain ⟨hb1, hb2, _⟩ := GenerateSessionTags_batch now rnd s
    have hcount : ((GenerateSessionTags now rnd s).1.numTags % 65536).toNat
        = s.m_NumTags.toNat := by
      rw [hb1]
      omega
    have hplain : aesPlaintext C (newTagsOf now rnd s owner) bp.bytes
        = htobe16buf s.m_NumTags.toNat
          ++ ((GenerateSessionTags now rnd s).1.sessionTags.map
            (fun g => fixed 32 g.tag)).flatten
          ++ htobe32buf bp.bytes.length ++ C.sha256 bp.bytes ++ [0] ++ bp.bytes := by
      rw [newTagsOf_some now rnd s owner hc]
      simp only [aesPlaintext, hfix, hcount]
    have htl : (((GenerateSessionTags now rnd s).1.sessionTags.map
        (fun g => fixed 32 g.tag)).flatten).length = 32 * s.m_NumTags.toNat := by
      rw [tags_flatten_length, hb2]
      omega
    have hlen : (aesPlaintext C (newTagsOf now rnd s owner) bp.bytes).length
        = 2 + 32 * s.m_NumTags.toNat + 37 + bp.bytes.length := by
      rw [hplain]
      simp only [List.length_append, htobe16buf_length, htobe32buf_length, hsha, htl,
        List.length_singleton]
      try omega
    refine ⟨b, bp, hb, hbp, s.m_NumTags.toNat,
      ((GenerateSessionTags now rnd s).1.sessionTags.map (fun g : SessionTag => fixed 32 g.tag)).flatten,
      htobe16buf s.m_NumTags.toNat
        ++ ((GenerateSessionTags now rnd s).1.sessionTags.map
          (fun g : SessionTag => fixed 32 g.tag)).flatten
        ++ htobe32buf bp.bytes.length ++ C.sha256 bp.bytes ++ [0] ++ bp.bytes,
      List.replicate ((16 - (htobe16buf s.m_NumTags.toNat
        ++ ((GenerateSessionTags now rnd s).1.sessionTags.map
          (fun g : SessionTag => fixed 32 g.tag)).flatten
        ++ htobe32buf bp.bytes.length ++ C.sha256 bp.bytes ++ [0] ++ bp.bytes).length % 16)
        % 16) 0,
      rfl, ?_, (fun _ => ⟨rfl, rfl⟩), (fun h => by cases h), htl, ?_, hl1, ?_, ?_⟩
    · rw [hbytes]
      unfold aesBlockOf
      rw [hplain]
    · rw [← hplain]
      exact hlen
    · rw [← hlen]
      exact hl2
    · rw [← hlen]
      exact hl3

theorem aes_block_structure_witness :
    ∃ b, CreateAESBlock exampleParams exampleCrypto exampleNow
        (WrapSingleMessageNoOwner exampleParams exampleCrypto exampleNow) [] exampleSession
        (some exampleOwner) (some exampleInner) [] = some b ∧
      b.bytes.length % 16 = 0 := by
  obtain ⟨b, bp, hb, _, _, _, _, _, _, _, _, _, _, _, h16, _, _⟩ :=
    aes_block_structure exampleParams exampleCrypto exampleNow [] exampleSession
      (some exampleOwner) (some exampleInner) [] (by decide)
      (fun o ho => by cases ho; decide) (by decide) (by decide)
      (fun x => by simp [exampleCrypto, exampleSha256])
  exact ⟨b, hb, h16⟩

/-! ## Failure of the wrap -/

theorem selectTag_eq_none_iff (P : Params) (ts : Nat) (pool : List SessionTag) :
    (selectTag P ts pool).1 = none ↔
      ∀ t ∈ pool, ¬ ts < t.creationTime + P.OUTGOING_TAGS_EXPIRATION_TIMEOUT := by
  induction pool with
  | nil => simp [selectTag]
  | cons t tl ih =>
    by_cases h : ts < t.creationTime + P.OUTGOING_TAGS_EXPIRATION_TIMEOUT
    · simp only [selectTag, h, if_true, List.mem_cons, forall_eq_or_imp, not_true_eq_false,
        false_and]
      exact ⟨(fun hc => by cases hc), (fun hc => hc.elim)⟩
    · simp only [selectTag, h, if_false, List.mem_cons, forall_eq_or_imp, not_false_eq_true,
        true_and]
      exact ih

theorem findTag_eq_none_iff (P : Params) (now : Env) (s : GarlicRoutingSession) :
    (findTag P now s).1 = none ↔
      (s.m_NumTags ≤ 0 ∨
        ∀ t ∈ s.m_SessionTags, ¬ now.ts < t.creationTime + P.OUTGOING_TAGS_EXPIRATION_TIMEOUT) := by
  unfold findTag
  by_cases h : s.m_NumTags > 0
  · rw [if_pos h, selectTag_eq_none_iff]
    constructor
    · exact fun hc => Or.inr hc
    · rintro (hc | hc)
      · omega
      · exact hc
  · rw [if_neg h]
    exact ⟨fun _ => Or.inl (by omega), fun _ => rfl⟩

theorem WrapSingleMessageWith_null (P : Params) (C : Crypto) (now : Env)
    (wrap : List Nat → GarlicRoutingSession → I2NPMessage → Option WrapResult)
    (rnd : List Nat) (s : GarlicRoutingSession) (owner : Option GarlicDestination)
    (msg : Option I2NPMessage) (wr : WrapResult)
    (hsel : (findTag P now s).1 = none) (hd : s.m_Destination = none)
    (h : WrapSingleMessageWith P C now wrap rnd s owner msg = some wr) :
    wr.msg = none := by
  unfold WrapSingleMessageWith at h
  simp only [hsel, hd] at h
  cases h
  rfl

/-- Claim C24, amended: for a session without owner, or whose owner has a lease-set whenever
one is to be sent (state Updated, or Submitted and not confirmed within
LEASET_CONFIRMATION_TIMEOUT), `WrapSingleMessage` returns (the expiration timeout is
positive), and it returns null if and only if no tag was selected and the session has no
destination; no tag is selected exactly when numTags <= 0 or the pool has no unexpired tag.
In every other case it returns an I2NP message of type Garlic whose payload is a 4-byte
big-endian length, the front (32 bytes when a tag was selected, 514 bytes otherwise) and the
AES block, of a multiple of 16 bytes; the length is the number of bytes of the front and the
block, which are all the bytes that follow it. -/
theorem wrap_failure (P : Params) (C : Crypto) (now : Env) (rnd : List Nat)
    (s : GarlicRoutingSession) (owner : Option GarlicDestination) (msg : Option I2NPMessage)
    (hto : 0 < P.OUTGOING_TAGS_EXPIRATION_TIMEOUT)
    (hls : ∀ o, owner = some o →
      (resubmitLeaseSet P now s).m_LeaseSetUpdateStatus
        = LeaseSetUpdateStatus.eLeaseSetUpdated → o.leaseSet ≠ none) :
    ∃ wr, WrapSingleMessage P C now rnd s owner msg = some wr ∧
      (wr.msg = none ↔ ((findTag P now s).1 = none ∧ s.m_Destination = none)) ∧
      ((findTag P now s).1 = none ↔
        (s.m_NumTags ≤ 0 ∨ ∀ t ∈ s.m_SessionTags,
          ¬ now.ts < t.creationTime + P.OUTGOING_TAGS_EXPIRATION_TIMEOUT)) ∧
      (∀ g, wr.msg = some g →
        g.bytes.getD 0 0 = P.eI2NPGarlic % 256 ∧
        ∃ front block : List Nat,
          g.GetPayload = htobe32buf (front.length + block.length) ++ front ++ block ∧
          ((findTag P now s).1 ≠ none → front.length = 32) ∧
          ((findTag P now s).1 = none → front.length = 514) ∧
          block.length % 16 = 0 ∧
          (g.GetPayload.drop 4).length = front.length + block.length ∧
          (front.length + block.length < 2 ^ 32 →
            bufbe32toh g.GetPayload = (g.GetPayload.drop 4).length)) := by
  obtain ⟨wr, hwr, hcase⟩ := WrapSingleMessage_returns_when P C now rnd s owner msg hto hls
  refine ⟨wr, hwr, ?_, findTag_eq_none_iff P now s, ?_⟩
  · constructor
    · intro hnone
      rcases hcase with hc | ⟨g, hg⟩
      · exact hc
      · rw [hnone] at hg
        cases hg
    · rintro ⟨hsel, hd⟩
      exact WrapSingleMessageWith_null P C now _ rnd s owner msg wr hsel hd hwr
  · intro g hg
    obtain ⟨front, iv, rnd0, bp, hframe, _, _, _, hty, hpay⟩ :=
      WrapSingleMessageWith_exact P C now _ rnd s owner msg wr g hwr hg
    obtain ⟨h16, _, _⟩ := aesBlockOf_length C s.m_SessionKey iv (aesPlaintext C
      (newTagsOf now rnd0 { s with m_SessionTags := (findTag P now s).2 } owner) bp.bytes)
    have hdrop : (g.GetPayload.drop 4).length = front.length
        + (aesBlockOf C s.m_SessionKey iv (aesPlaintext C
          (newTagsOf now rnd0 { s with m_SessionTags := (findTag P now s).2 } owner)
          bp.bytes)).length := by
      rw [hpay]
      simp only [List.append_assoc, List.length_drop, List.length_append, htobe32buf_length]
      omega
    refine ⟨hty, front, _, hpay, ?_, ?_, h16, hdrop, ?_⟩
    · intro hsome
      rcases hframe with ⟨T, _, hf, _, _⟩ | ⟨hn, _⟩
      · rw [hf, fixed_length]
      · exact absurd hn hsome
    · intro hn
      rcases hframe with ⟨T, hT, _, _, _⟩ | ⟨_, d, _, hf, _, _⟩
      · rw [hn] at hT
        cases hT
      · rw [hf, fixed_length]
    · intro hlt
      rw [hdrop]
      rw [hpay, List.append_assoc, bufbe32toh_htobe32buf]
      exact Nat.mod_eq_of_lt hlt

theorem wrap_failure_witness :
    ∃ wr, WrapSingleMessage exampleParams exampleCrypto exampleNow [] exampleOneShotSession
        none (some exampleInner) = some wr ∧
      (wr.msg = none ↔ ((findTag exampleParams exampleNow exampleOneShotSession).1 = none ∧
        exampleOneShotSession.m_Destination = none)) := by
  obtain ⟨wr, h1, h2, _⟩ := wrap_failure exampleParams exampleCrypto exampleNow []
    exampleOneShotSession none (some exampleInner) (by decide) (fun o ho => by cases ho)
  exact ⟨wr, h1, h2⟩

set_option maxRecDepth 1000000 in
/-- Counterexample to C24 as stated: for an owner without lease-set and a session in state
Updated, the wrap dereferences the null message of `CreateDatabaseStoreMsg` and returns
neither null nor a message, with a tag selected (and no message to wrap) as well as with an
empty pool and a destination. -/
theorem wrap_without_lease_set :
    (findTag exampleParams exampleNow exampleUpdatedSession).1
      = some (exampleTag 2 1500) ∧
    exampleUpdatedSession.m_Destination ≠ none ∧
    exampleOwnerNoLeaseSet.leaseSet = none ∧
    WrapSingleMessage exampleParams exampleCrypto exampleNow [] exampleUpdatedSession
      (some exampleOwnerNoLeaseSet) none = none ∧
    (findTag exampleParams exampleNow exampleFreshSession).1 = none ∧
    exampleFreshSession.m_Destination ≠ none ∧
    WrapSingleMessage exampleParams exampleCrypto exampleNow [] exampleFreshSession
      (some exampleOwnerNoLeaseSet) (some exampleInner) = none := by
  decide

/-! ## New tags -/

theorem createNewTags_iff (s : GarlicRoutingSession) (owner : Option GarlicDestination)
    (hnum : 0 ≤ s.m_NumTags) :
    createNewTags s owner = true ↔
      owner ≠ none ∧ s.m_NumTags > 0 ∧ 3 * (s.m_SessionTags.length : Int) ≤ 2 * s.m_NumTags := by
  unfold createNewTags
  have hdiv : Int.tdiv (s.m_NumTags * 2) 3 = (s.m_NumTags * 2) / 3 := by
    rw [Int.tdiv_eq_ediv] <;> omega
  rw [hdiv]
  cases owner with
  | none => simp
  | some o =>
    simp only [Option.isSome_some, Bool.true_and, Bool.and_eq_true, decide_eq_true_eq, ne_eq,
      not_false_eq_true, true_and, reduceCtorEq]
    constructor
    · rintro ⟨h1, h2⟩
      refine ⟨by omega, by omega⟩
    · rintro ⟨h1, h2⟩
      refine ⟨by omega, by omega⟩

theorem newMessage_GetPayload (m : I2NPMessage) (payload : List Nat)
    (h : m.bytes.length = 16) : (m.concat payload).GetPayload = payload := by
  unfold I2NPMessage.concat I2NPMessage.GetPayload I2NP_HEADER_SIZE
  exact drop_append_of_length 16 _ _ h

theorem findTag_ofKeyTag (P : Params) (now : Env) (key tag : List Nat)
    (hto : 0 < P.OUTGOING_TAGS_EXPIRATION_TIMEOUT) :
    findTag P now (GarlicRoutingSession.ofKeyTag now key tag)
      = (some { tag := fixed 32 tag, creationTime := now.ts }, []) := by
  have h1 : now.ts < now.ts + P.OUTGOING_TAGS_EXPIRATION_TIMEOUT := by omega
  simp [findTag, GarlicRoutingSession.ofKeyTag, selectTag, h1]

theorem CreateGarlicPayload_no_owner (P : Params) (C : Crypto) (now : Env)
    (wrap : List Nat → GarlicRoutingSession → I2NPMessage → Option WrapResult)
    (rnd : List Nat) (s : GarlicRoutingSession) (m : I2NPMessage) (bp : Built)
    (hd : s.m_Destination = none)
    (h : CreateGarlicPayload P C now wrap rnd s none (some m) none = some bp) :
    bp.session = s ∧ bp.owner = none ∧
    ∃ c : Clove, c.instructions = [0] ∧ c.msg = m.bytes ∧ c.trailer.length = 15 ∧
      bp.bytes = garlicPayloadOf [c] (GenerateWord32 rnd).1 (now.tms + 5000) := by
  unfold CreateGarlicPayload at h
  simp only [attachMessage, Option.some.injEq] at h
  subst h
  refine ⟨rfl, rfl, ⟨[0], m.bytes,
    htobe32buf (GenerateWord32 (GenerateWord32 rnd).2).1 ++ htobe64buf (now.tms + 5000)
      ++ [0, 0, 0]⟩, rfl, rfl, by rfl, ?_⟩
  have hfix : fixed m.GetLength m.GetBuffer = m.bytes := fixed_of_length _ _ rfl
  simp only [garlicPayloadOf, cloveBytes_singleton, Clove.bytes, CreateGarlicClove, hd, hfix,
    List.nil_append, List.length_singleton, List.append_assoc]

theorem ownerCloves_inv (P : Params) (C : Crypto) (now : Env)
    (wrap : List Nat → GarlicRoutingSession → I2NPMessage → Option WrapResult)
    (rnd : List Nat) (s : GarlicRoutingSession) (o : GarlicDestination) (msgID : Nat)
    (newTags : Option UnconfirmedTags) (b : Built) (n : Nat)
    (h : ownerCloves P C now wrap rnd s o msgID newTags = some (b, n)) :
    ∃ b0 n0, attachDeliveryStatus P C now wrap rnd (resubmitLeaseSet P now s) o msgID newTags
        = some (b0, n0) ∧
      attachLeaseSet P C now o msgID b0 n0 = some (b, n) := by
  unfold ownerCloves at h
  split at h
  · cases h
  · rename_i b0 n0 h0
    exact ⟨b0, n0, h0, h⟩

theorem CreateDeliveryStatusClove_wrapped (P : Params) (C : Crypto) (now : Env)
    (wrap : List Nat → GarlicRoutingSession → I2NPMessage → Option WrapResult)
    (rnd : List Nat) (s : GarlicRoutingSession) (o : GarlicDestination) (msgID : Nat)
    (t : InboundTunnel) (b : Built) (ht : o.nextInboundTunnel = some t)
    (h : CreateDeliveryStatusClove P C now wrap rnd s (some o) msgID = some b) :
    ∃ (key tag r1 : List Nat) (wr1 : WrapResult) (g1 : I2NPMessage) (c : Clove),
      wrap r1 (GarlicRoutingSession.ofKeyTag now key tag)
        (CreateDeliveryStatusMsg P C.sha256 now rnd msgID).1 = some wr1 ∧
      wr1.msg = some g1 ∧ b.bytes = c.bytes ∧ 0 < b.bytes.length ∧
      c.instructions = [96] ++ fixed 32 t.nextIdentHash ++ htobe32buf t.nextTunnelID ∧
      c.msg = g1.bytes ∧ c.trailer.length = 15 ∧ b.session = s := by
  unfold CreateDeliveryStatusClove at h
  simp only [ht] at h
  split at h
  · cases h
  · rename_i r hr
    split at h
    · cases h
    · rename_i wrapped hwrapped
      cases h
      refine ⟨_, _, _, r, wrapped,
        ⟨[96] ++ fixed 32 t.nextIdentHash ++ htobe32buf t.nextTunnelID, wrapped.bytes,
          htobe32buf (GenerateWord32 r.rnd).1 ++ htobe64buf (now.tms + 5000) ++ [0, 0, 0]⟩,
        hr, hwrapped, ?_, ?_, rfl, rfl, by rfl, rfl⟩
      · have hfix : fixed wrapped.GetLength wrapped.GetBuffer = wrapped.bytes :=
          fixed_of_length _ _ rfl
        have h96 : (eGarlicDeliveryTypeTunnel <<< 5) % 256 = 96 := by decide
        simp only [Clove.bytes, List.append_assoc, hfix, h96]
      · simp only [List.length_append, List.length_singleton]
        omega

theorem attachDeliveryStatus_wrapped (P : Params) (C : Crypto) (now : Env)
    (wrap : List Nat → GarlicRoutingSession → I2NPMessage → Option WrapResult)
    (rnd : List Nat) (s : GarlicRoutingSession) (o : GarlicDestination) (msgID : Nat)
    (newTags : Option UnconfirmedTags) (t : InboundTunnel) (b : Built) (n : Nat)
    (ht : o.nextInboundTunnel = some t)
    (hcond : newTags.isSome ∨
      s.m_LeaseSetUpdateStatus = LeaseSetUpdateStatus.eLeaseSetUpdated)
    (h : attachDeliveryStatus P C now wrap rnd s o msgID newTags = some (b, n)) :
    ∃ (key tag r1 : List Nat) (wr1 : WrapResult) (g1 : I2NPMessage) (c : Clove),
      wrap r1 (GarlicRoutingSession.ofKeyTag now key tag)
        (CreateDeliveryStatusMsg P C.sha256 now rnd msgID).1 = some wr1 ∧
      wr1.msg = some g1 ∧ b.bytes = cloveBytes [c] ∧ n = 1 ∧
      c.instructions = [96] ++ fixed 32 t.nextIdentHash ++ htobe32buf t.nextTunnelID ∧
      c.msg = g1.bytes ∧ c.trailer.length = 15 ∧
      b.session.m_LeaseSetUpdateStatus = s.m_LeaseSetUpdateStatus := by
  have hstat := (attachDeliveryStatus_ds P C now wrap rnd s o msgID newTags b n h)
  obtain ⟨_, _, _, _, _, _, _, hst, _, _⟩ := hstat
  unfold attachDeliveryStatus at h
  rw [if_pos hcond] at h
  split at h
  · cases h
  · rename_i b0 hb0
    obtain ⟨key, tag, r1, wr1, g1, c, hwr1, hg1, hbytes, hpos, hi, hm, htr, _⟩ :=
      CreateDeliveryStatusClove_wrapped P C now wrap rnd s o msgID t b0 ht hb0
    rw [if_pos hpos] at h
    simp only [Option.some.injEq, Prod.mk.injEq] at h
    obtain ⟨hb, hn⟩ := h
    subst hb
    subst hn
    refine ⟨key, tag, r1, wr1, g1, c, hwr1, hg1, ?_, rfl, hi, hm, htr, hst⟩
    rw [cloveBytes_singleton]
    exact hbytes

theorem CreateDeliveryStatusMsg_payload (P : Params) (sha256 : List Nat → List Nat) (now : Env)
    (rnd : List Nat) (msgID : Nat) (h : msgID ≠ 0) :
    (CreateDeliveryStatusMsg P sha256 now rnd msgID).1.GetPayload
      = htobe32buf msgID ++ htobe64buf now.tms := by
  unfold CreateDeliveryStatusMsg
  simp only
  rw [GetPayload_FillI2NPMessageHeader, if_pos h]
  exact newMessage_GetPayload _ _ (by simp [NewI2NPShortMessage, I2NP_HEADER_SIZE])

theorem oneShot_wrap_layout (P : Params) (C : Crypto) (now : Env) (rnd key tag : List Nat)
    (m : I2NPMessage) (wr : WrapResult) (g : I2NPMessage)
    (hto : 0 < P.OUTGOING_TAGS_EXPIRATION_TIMEOUT)
    (hwr : WrapSingleMessageNoOwner P C now rnd (GarlicRoutingSession.ofKeyTag now key tag) m
      = some wr)
    (hg : wr.msg = some g) :
    ∃ (c : Clove) (msgID : Nat) (block plain payload : List Nat),
      g.GetPayload = htobe32buf (32 + block.length) ++ fixed 32 tag ++ block ∧
      block = aesBlockOf C (fixed 32 key) ((C.sha256 (fixed 32 tag)).take 16) plain ∧
      plain = [0, 0] ++ htobe32buf payload.length ++ fixed 32 (C.sha256 payload) ++ [0]
        ++ payload ∧
      payload = garlicPayloadOf [c] msgID (now.tms + 5000) ∧
      c.instructions = [0] ∧ c.msg = m.bytes ∧ c.trailer.length = 15 ∧
      g.bytes.getD 0 0 = P.eI2NPGarlic % 256 := by
  have hsel := findTag_ofKeyTag P now key tag hto
  obtain ⟨front, iv, rnd1, bp, hframe, hbp, _, _, hty, hpay⟩ :=
    WrapSingleMessageWith_exact P C now _ rnd _ none (some m) wr g hwr hg
  rw [hsel] at hbp hpay
  have hnew : ∀ r (s1 : GarlicRoutingSession), newTagsOf now r s1 none = none :=
    fun r s1 => newTagsOf_none now r s1 none rfl
  rw [hnew] at hbp hpay
  obtain ⟨_, _, c, hc1, hc2, hc3, hbytes⟩ :=
    CreateGarlicPayload_no_owner P C now _ _ _ m bp rfl hbp
  have hfront : front = fixed 32 tag ∧ iv = (C.sha256 (fixed 32 tag)).take 16 := by
    rcases hframe with ⟨T, hT, hf, hiv, _⟩ | ⟨hnone, _⟩
    · rw [hsel] at hT
      simp only [Option.some.injEq] at hT
      subst hT
      simp only [fixed_fixed] at hf hiv
      exact ⟨hf, hiv⟩
    · rw [hsel] at hnone
      cases hnone
  obtain ⟨hf, hiv⟩ := hfront
  subst hf hiv
  refine ⟨c, _, _, _, _, ?_, rfl, rfl, hbytes, hc1, hc2, hc3, hty⟩
  rw [hpay, fixed_length]
  rfl

/-! ## The first message to a destination -/

/-- Claim C25: for a session with an empty pool, numTags = 40 and state Updated, as the
registry creates it with attachLeaseSet = true, whose owner has an inbound tunnel and a
lease-set, `WrapSingleMessage (m)` returns a message with the new-session framing: the
514-byte ElGamal block of the session key and a fresh preIV, then the AES block under the IV
of the first 16 bytes of SHA-256 (preIV). The plaintext of the block has tagCount = 40 with
40 tags of 32 bytes, and its payload has the numCloves byte 3 and the cloves in the order
DeliveryStatus, LeaseSet, m. The first clove, of tunnel delivery to the inbound tunnel, holds
the garlic message in which the one-shot session of a fresh key and tag wraps, as its one
local clove, the DeliveryStatus message made for the msgID of the payload. The second clove,
of local delivery, holds the DatabaseStore message of the lease-set of the owner. -/
theorem first_message (P : Params) (C : Crypto) (now : Env) (rnd : List Nat)
    (s : GarlicRoutingSession) (o : GarlicDestination) (m : I2NPMessage)
    (d : RoutingDestination) (t : InboundTunnel)
    (hpool : s.m_SessionTags = []) (hnum : s.m_NumTags = 40)
    (hst : s.m_LeaseSetUpdateStatus = LeaseSetUpdateStatus.eLeaseSetUpdated)
    (hdest : s.m_Destination = some d)
    (htun : o.nextInboundTunnel = some t) (hls : o.leaseSet ≠ none)
    (hto : 0 < P.OUTGOING_TAGS_EXPIRATION_TIMEOUT) :
    ∃ wr g, WrapSingleMessage P C now rnd s (some o) (some m) = some wr ∧ wr.msg = some g ∧
      ∃ (front preIV block plain tags payload : List Nat) (c1 c2 c3 : Clove) (msgID : Nat)
        (dsm : I2NPMessage × List Nat) (r : List Nat) (key tag r1 r0 : List Nat)
        (wr1 : WrapResult) (g1 : I2NPMessage) (c0 : Clove) (msgID1 : Nat)
        (block1 plain1 payload1 : List Nat),
        g.GetPayload = htobe32buf (514 + block.length) ++ front ++ block ∧
        preIV = (GenerateBlock rnd 32).1 ∧
        front = fixed 514 (C.elGamalEncrypt d.encryptionPublicKey
          (fixed 32 s.m_SessionKey ++ preIV ++ List.replicate 158 0) true) ∧
        block = aesBlockOf C s.m_SessionKey ((C.sha256 preIV).take 16) plain ∧
        plain = htobe16buf 40 ++ tags ++ htobe32buf payload.length
          ++ fixed 32 (C.sha256 payload) ++ [0] ++ payload ∧
        tags.length = 40 * 32 ∧
        payload = garlicPayloadOf [c1, c2, c3] msgID (now.tms + 5000) ∧
        payload.head? = some 3 ∧
        c1.instructions = [96] ++ fixed 32 t.nextIdentHash ++ htobe32buf t.nextTunnelID ∧
        WrapSingleMessageNoOwner P C now r1 (GarlicRoutingSession.ofKeyTag now key tag)
          (CreateDeliveryStatusMsg P C.sha256 now r0 msgID).1 = some wr1 ∧
        wr1.msg = some g1 ∧ c1.msg = g1.bytes ∧ c1.trailer.length = 15 ∧
        g1.bytes.getD 0 0 = P.eI2NPGarlic % 256 ∧
        g1.GetPayload = htobe32buf (32 + block1.length) ++ fixed 32 tag ++ block1 ∧
        block1 = aesBlockOf C (fixed 32 key) ((C.sha256 (fixed 32 tag)).take 16) plain1 ∧
        plain1 = [0, 0] ++ htobe32buf payload1.length ++ fixed 32 (C.sha256 payload1) ++ [0]
          ++ payload1 ∧
        payload1 = garlicPayloadOf [c0] msgID1 (now.tms + 5000) ∧
        c0.instructions = [0] ∧
        c0.msg = (CreateDeliveryStatusMsg P C.sha256 now r0 msgID).1.bytes ∧
        (CreateDeliveryStatusMsg P C.sha256 now r0 msgID).1.bytes.getD 0 0
          = P.eI2NPDeliveryStatus % 256 ∧
        (msgID ≠ 0 → (CreateDeliveryStatusMsg P C.sha256 now r0 msgID).1.GetPayload
          = htobe32buf msgID ++ htobe64buf now.tms) ∧
        c2.instructions = [0] ∧
        CreateDatabaseStoreMsg P C.sha256 now r o.leaseSet 0 = some dsm ∧
        c2.msg = dsm.1.bytes ∧ c2.msg.getD 0 0 = P.eI2NPDatabaseStore % 256 ∧
        c3.msg = m.bytes ∧
        (c3.instructions = [0] ∨
          (c3.instructions.length = 33 ∧ c3.instructions.getD 0 0 = 32)) := by
  obtain ⟨wr, g, hwr, hg⟩ := WrapSingleMessage_message P C now rnd s o (some m) hto hls
    (by rw [hdest]; exact fun hc => by cases hc)
  obtain ⟨front, iv, rnd0, bp, hframe, hbp, _, _, _, hpay⟩ :=
    WrapSingleMessageWith_exact P C now _ rnd s (some o) (some m) wr g hwr hg
  have hfind : findTag P now s = (none, []) := by
    unfold findTag
    rw [hpool, hnum]
    rfl
  have hsel : (findTag P now s).1 = none := by rw [hfind]
  -- the framing
  rcases hframe with ⟨T, hT, _⟩ | ⟨_, d1, hd1, hfront, hiv, hrnd0⟩
  · rw [hsel] at hT
    cases hT
  rw [hdest] at hd1
  cases hd1
  -- the batch
  have hgen : createNewTags { s with m_SessionTags := (findTag P now s).2 } (some o)
      = true := by
    rw [createNewTags_iff _ _ (by show (0 : Int) ≤ s.m_NumTags; omega)]
    refine ⟨(fun hc => by cases hc), ?_, ?_⟩
    · show s.m_NumTags > 0
      omega
    · show 3 * (((findTag P now s).2.length : Nat) : Int) ≤ 2 * s.m_NumTags
      rw [hfind, hnum]
      decide
  have hnew := newTagsOf_some now rnd0 { s with m_SessionTags := (findTag P now s).2 }
    (some o) hgen
  obtain ⟨hb1, hb2, _⟩ := GenerateSessionTags_batch now rnd0
    { s with m_SessionTags := (findTag P now s).2 }
  have hb1c : (GenerateSessionTags now rnd0
      { s with m_SessionTags := (findTag P now s).2 }).1.numTags = 40 := hb1.trans hnum
  have hb2c : (GenerateSessionTags now rnd0
      { s with m_SessionTags := (findTag P now s).2 }).1.sessionTags.length = 40 := by
    rw [hb2]
    show s.m_NumTags.toNat = 40
    rw [hnum]
    rfl
  -- the cloves
  obtain ⟨b, n, hoc, _, _, hbytes⟩ := CreateGarlicPayload_inv P C now _ _ _ o (some m) _ bp hbp
  have hres : (resubmitLeaseSet P now
      { s with m_SessionTags := (findTag P now s).2 }).m_LeaseSetUpdateStatus
      = LeaseSetUpdateStatus.eLeaseSetUpdated := by
    rw [resubmitLeaseSet_of_ne]
    · exact hst
    · show s.m_LeaseSetUpdateStatus ≠ _
      rw [hst]
      decide
  obtain ⟨b0, n0, h0, h1⟩ := ownerCloves_inv P C now _ _ _ o _ _ b n hoc
  obtain ⟨key, tag, r1, wr1, g1, c1, hwr1, hg1, hb0, hn0, hi1, hm1, ht1, hst0⟩ :=
    attachDeliveryStatus_wrapped P C now _ _ _ o _ _ t b0 n0 htun (Or.inr hres) h0
  obtain ⟨⟨c2, dsm, hb1, hi2, hdsm, hm2, hty2, _⟩, hn1, _⟩ :=
    attachLeaseSet_updated P C now o _ b0 n0 b n (hst0.trans hres) h1
  obtain ⟨c0, msgID1, block1, plain1, payload1, hg1pay, hblock1, hplain1, hpayload1, hc0i,
      hc0m, _, hgty⟩ := oneShot_wrap_layout P C now r1 key tag _ wr1 g1 hto hwr1 hg1
  have hb : b.bytes = cloveBytes ([c1] ++ [c2]) := by
    rw [hb1, hb0, cloveBytes_append]
  have hn : n = ([c1] ++ [c2]).length := by
    rw [hn1, hn0]
    rfl
  obtain ⟨cms, hcb, hcn, hcm, hcprop⟩ := attachMessage_cloves now b n (some m)
  obtain ⟨c3, hc3⟩ : ∃ c3, cms = [c3] := by
    cases cms with
    | nil => simp at hcm
    | cons c rest =>
      cases rest with
      | nil => exact ⟨c, rfl⟩
      | cons c' rest' => simp at hcm
  subst hc3
  have hmsg3 : c3.msg = m.bytes := by simpa using hcm
  have hpayload : bp.bytes = garlicPayloadOf [c1, c2, c3]
      (GenerateWord32 (newTagsRnd now rnd0 { s with m_SessionTags := (findTag P now s).2 }
        (some o))).1 (now.tms + 5000) := by
    rw [hbytes]
    unfold garlicPayloadOf
    rw [hcb, hcn, hb, hn, ← cloveBytes_append]
    rfl
  refine ⟨wr, g, hwr, hg, front, (GenerateBlock rnd 32).1,
    aesBlockOf C s.m_SessionKey ((C.sha256 (GenerateBlock rnd 32).1).take 16)
      (aesPlaintext C (some (GenerateSessionTags now rnd0
        { s with m_SessionTags := (findTag P now s).2 }).1) bp.bytes),
    aesPlaintext C (some (GenerateSessionTags now rnd0
      { s with m_SessionTags := (findTag P now s).2 }).1) bp.bytes,
    ((GenerateSessionTags now rnd0
      { s with m_SessionTags := (findTag P now s).2 }).1.sessionTags.map
        (fun x : SessionTag => fixed 32 x.tag)).flatten,
    bp.bytes, c1, c2, c3, _, dsm, b0.rnd, key, tag, r1, _, wr1, g1, c0, msgID1, block1, plain1,
    payload1, ?_, rfl, hfront, rfl, ?_, ?_,
    hpayload, ?_, hi1, hwr1, hg1, hm1, ht1, hgty, hg1pay, hblock1, hplain1, hpayload1, hc0i,
    hc0m, FillI2NPMessageHeader_type _ _ _ _ _ _,
    CreateDeliveryStatusMsg_payload P C.sha256 now _ _, hi2, hdsm, hm2, hty2, hmsg3,
    (hcprop c3 (List.mem_singleton_self _)).2⟩
  · rw [hpay, hnew, ← hiv]
    have hfl : front.length = 514 := by rw [hfront, fixed_length]
    rw [hfl]
  · simp only [aesPlaintext, hb1c]
    rfl
  · rw [tags_flatten_length, hb2c]
  · rw [hpayload]
    rfl

theorem first_message_witness :
    exampleFreshSession.m_NumTags = 40 ∧
    ∃ wr g, WrapSingleMessage exampleParams exampleCrypto exampleNow [] exampleFreshSession
        (some exampleOwner) (some exampleInner) = some wr ∧ wr.msg = some g ∧
      ∃ (front block tags payload : List Nat),
        g.GetPayload = htobe32buf (514 + block.length) ++ front ++ block ∧
        tags.length = 40 * 32 ∧ payload.head? = some 3 := by
  obtain ⟨wr, g, h1, h2, front, preIV, block, plain, tags, payload, c1, c2, c3, msgID, dsm, r,
      key, tag, r1, r0, wr1, g1, c0, msgID1, block1, plain1, payload1, hpay, _, _, _, _, htags,
      _, hhead, _⟩ :=
    first_message exampleParams exampleCrypto exampleNow [] exampleFreshSession exampleOwner
      exampleInner exampleRoutingDestination
      { nextIdentHash := List.replicate 32 6, nextTunnelID := 77, hasPool := true,
        nextOutboundTunnel := some 5 }
      rfl rfl rfl rfl rfl (by decide) (by decide)
  exact ⟨rfl, wr, g, h1, h2, front, block, tags, payload, hpay, htags, hhead⟩

/-! ## I2NP envelope -/

/-- Claim C34: `FillI2NPMessageHeader (type, msgID)` writes the 16 bytes of the header: the
type, the msgID (the one supplied, or a word drawn from the random tape when it is 0),
the expiration now + 5000 ms, the size of the payload and the first byte of its digest. The
payload bytes and the offset are unchanged, and for a payload shorter than 65536 bytes
`GetI2NPMessageLength` of the buffer is the length of the message. -/
theorem header_fill (sha256 : List Nat → List Nat) (now : Env) (rnd : List Nat)
    (m : I2NPMessage) (msgType replyMsgID : Nat) :
    (FillI2NPMessageHeader sha256 now rnd m msgType replyMsgID).1.bytes
      = [msgType % 256]
        ++ htobe32buf (if replyMsgID ≠ 0 then replyMsgID else (GenerateWord32 rnd).1)
        ++ htobe64buf (now.tms + 5000) ++ htobe16buf m.GetPayload.length
        ++ [(sha256 m.GetPayload).getD 0 0] ++ m.GetPayload ∧
    (FillI2NPMessageHeader sha256 now rnd m msgType replyMsgID).1.GetPayload = m.GetPayload ∧
    (FillI2NPMessageHeader sha256 now rnd m msgType replyMsgID).1.offset = m.offset ∧
    (replyMsgID ≠ 0 → (FillI2NPMessageHeader sha256 now rnd m msgType replyMsgID).2 = rnd) ∧
    (replyMsgID = 0 →
      (FillI2NPMessageHeader sha256 now rnd m msgType replyMsgID).2 = (GenerateWord32 rnd).2) ∧
    (m.GetPayload.length < 65536 →
      GetI2NPMessageLength (FillI2NPMessageHeader sha256 now rnd m msgType replyMsgID).1.bytes
        = (FillI2NPMessageHeader sha256 now rnd m msgType replyMsgID).1.GetLength ∧
      (FillI2NPMessageHeader sha256 now rnd m msgType replyMsgID).1.GetLength
        = 16 + m.GetPayload.length ∧
      bufbe16toh ((FillI2NPMessageHeader sha256 now rnd m msgType replyMsgID).1.bytes.drop 13)
        = m.GetPayload.length) := by
  have hpl : m.GetPayloadLength = m.GetPayload.length := by
    unfold I2NPMessage.GetPayload I2NPMessage.GetPayloadLength
    rw [List.length_drop]
  have hb := FillI2NPMessageHeader_bytes sha256 now rnd m msgType replyMsgID
  rw [hpl] at hb
  have h13 : ([msgType % 256]
      ++ htobe32buf (if replyMsgID ≠ 0 then replyMsgID else (GenerateWord32 rnd).1)
      ++ htobe64buf (now.tms + 5000)).length = 13 := rfl
  refine ⟨?_, GetPayload_FillI2NPMessageHeader _ _ _ _ _ _, rfl, ?_, ?_, ?_⟩
  · rw [hb]
    simp only [List.append_assoc]
  · intro h
    simp only [FillI2NPMessageHeader, h, ne_eq, not_false_eq_true, if_true]
  · intro h
    simp only [FillI2NPMessageHeader, h, ne_eq, not_true_eq_false, if_false]
  · intro hlt
    have hlen : (FillI2NPMessageHeader sha256 now rnd m msgType replyMsgID).1.GetLength
        = 16 + m.GetPayload.length := by
      unfold I2NPMessage.GetLength
      rw [hb]
      simp only [List.length_append, h13, htobe16buf_length, List.length_singleton]
      omega
    have h16 : bufbe16toh
        ((FillI2NPMessageHeader sha256 now rnd m msgType replyMsgID).1.bytes.drop 13)
        = m.GetPayload.length := by
      rw [hb, drop_append_of_length 13 _ _ h13, bufbe16toh_htobe16buf,
        Nat.mod_eq_of_lt hlt]
    refine ⟨?_, hlen, h16⟩
    rw [hlen]
    unfold GetI2NPMessageLength I2NP_HEADER_SIZE_OFFSET I2NP_HEADER_SIZE
    rw [h16]
    omega

theorem header_fill_witness :
    GetI2NPMessageLength (FillI2NPMessageHeader exampleSha256 exampleNow [] exampleInner 20
      7).1.bytes = 20 :=
  ((header_fill exampleSha256 exampleNow [] exampleInner 20 7).2.2.2.2.2 (by decide)).1.trans
    (by decide)

/-- Claim C32: `CreateDeliveryStatusMsg (msgID)` gives a message of type DeliveryStatus whose
payload has 12 bytes, msgID (4 bytes, big-endian) and timestamp (8 bytes, big-endian): for
msgID != 0 the msgID given and the current time in milliseconds, for msgID = 0 a word drawn
from the random tape and the value 2. -/
theorem delivery_status_constructor (P : Params) (sha256 : List Nat → List Nat) (now : Env)
    (rnd : List Nat) (msgID : Nat) :
    (CreateDeliveryStatusMsg P sha256 now rnd msgID).1.bytes.getD 0 0
      = P.eI2NPDeliveryStatus % 256 ∧
    (CreateDeliveryStatusMsg P sha256 now rnd msgID).1.GetPayload.length = 12 ∧
    (msgID ≠ 0 →
      (CreateDeliveryStatusMsg P sha256 now rnd msgID).1.GetPayload
        = htobe32buf msgID ++ htobe64buf now.tms ∧
      (msgID < 2 ^ 32 →
        bufbe32toh (CreateDeliveryStatusMsg P sha256 now rnd msgID).1.GetPayload = msgID)) ∧
    (msgID = 0 →
      (CreateDeliveryStatusMsg P sha256 now rnd msgID).1.GetPayload
        = htobe32buf (GenerateWord32 rnd).1 ++ htobe64buf 2) := by
  have hp : (CreateDeliveryStatusMsg P sha256 now rnd msgID).1.GetPayload
      = if msgID ≠ 0 then htobe32buf msgID ++ htobe64buf now.tms
        else htobe32buf (GenerateWord32 rnd).1 ++ htobe64buf 2 := by
    unfold CreateDeliveryStatusMsg
    simp only
    rw [GetPayload_FillI2NPMessageHeader]
    exact newMessage_GetPayload _ _ (by simp [NewI2NPShortMessage, I2NP_HEADER_SIZE])
  refine ⟨FillI2NPMessageHeader_type _ _ _ _ _ _, ?_, ?_, ?_⟩
  · rw [hp]
    split <;> rfl
  · intro h
    rw [hp, if_pos h]
    refine ⟨rfl, fun hlt => ?_⟩
    rw [bufbe32toh_htobe32buf]
    exact Nat.mod_eq_of_lt hlt
  · intro h
    rw [hp, if_neg (not_not.2 h)]

theorem delivery_status_constructor_witness :
    (CreateDeliveryStatusMsg exampleParams exampleSha256 exampleNow [] 5).1.GetPayload
      = [0, 0, 0, 5] ++ htobe64buf 2000000 :=
  ((delivery_status_constructor exampleParams exampleSha256 exampleNow [] 5).2.2.1
    (by decide)).1

theorem CreateDatabaseStoreMsg_payload (P : Params) (sha256 : List Nat → List Nat) (now : Env)
    (rnd : List Nat) (L : LeaseSet) (t : Nat) :
    ∃ r, CreateDatabaseStoreMsg P sha256 now rnd (some L) t = some r ∧
      r.1.GetPayload = fixed 32 L.identHash ++ [1]
        ++ htobe32buf (if (t ≠ 0 && !L.nonExpiredLeases.isEmpty) = true then t else 0)
        ++ (match L.nonExpiredLeases with
            | lease :: _ =>
              if t ≠ 0 then htobe32buf lease.tunnelID ++ fixed 32 lease.tunnelGateway else []
            | [] => [])
        ++ L.buffer := by
  refine ⟨_, rfl, ?_⟩
  rw [GetPayload_FillI2NPMessageHeader]
  exact newMessage_GetPayload _ _ (by simp [NewI2NPShortMessage, I2NP_HEADER_SIZE])

/-- Claim C31: `CreateDatabaseStoreMsg (leaseSet, replyToken)` returns null for a null
lease-set and, for a lease-set L, a DatabaseStore message whose payload is the identity hash
of L (32 bytes), the type 1, the reply token (4 bytes), the reply fields and the bytes of L.
With t != 0 and a lease that is not expired the token is t, the reply fields are the
tunnelID (4 bytes, big-endian) and the tunnelGateway (32 bytes) of the first such lease, and
the payload has 73 + |L| bytes; with t != 0 and no such lease the token is written as 0 and
there are no reply fields (37 + |L| bytes); with t = 0 the payload has 37 + |L| bytes. -/
theorem database_store_lease_set (P : Params) (sha256 : List Nat → List Nat) (now : Env)
    (rnd : List Nat) (L : LeaseSet) (t : Nat) :
    CreateDatabaseStoreMsg P sha256 now rnd none t = none ∧
    ∃ r, CreateDatabaseStoreMsg P sha256 now rnd (some L) t = some r ∧
      r.1.bytes.getD 0 0 = P.eI2NPDatabaseStore % 256 ∧
      (∀ lease rest, t ≠ 0 → L.nonExpiredLeases = lease :: rest →
        r.1.GetPayload = fixed 32 L.identHash ++ [1] ++ htobe32buf t
          ++ (htobe32buf lease.tunnelID ++ fixed 32 lease.tunnelGateway) ++ L.buffer ∧
        r.1.GetPayload.length = 73 + L.buffer.length ∧
        (t < 2 ^ 32 → bufbe32toh (r.1.GetPayload.drop 33) = t)) ∧
      (t ≠ 0 → L.nonExpiredLeases = [] →
        r.1.GetPayload = fixed 32 L.identHash ++ [1] ++ htobe32buf 0 ++ L.buffer ∧
        r.1.GetPayload.length = 37 + L.buffer.length) ∧
      (t = 0 →
        r.1.GetPayload = fixed 32 L.identHash ++ [1] ++ htobe32buf 0 ++ L.buffer ∧
        r.1.GetPayload.length = 37 + L.buffer.length) := by
  refine ⟨rfl, ?_⟩
  obtain ⟨r, hr, hp⟩ := CreateDatabaseStoreMsg_payload P sha256 now rnd L t
  refine ⟨r, hr, (CreateDatabaseStoreMsg_agrees _ _ _ _ _ _ _ hr).2, ?_, ?_, ?_⟩
  · intro lease rest ht hl
    have hp1 : r.1.GetPayload = fixed 32 L.identHash ++ [1] ++ htobe32buf t
        ++ (htobe32buf lease.tunnelID ++ fixed 32 lease.tunnelGateway) ++ L.buffer := by
      rw [hp, hl]
      simp [ht]
    refine ⟨hp1, ?_, fun hlt => ?_⟩
    · rw [hp1]
      simp only [List.length_append, fixed_length, htobe32buf_length, List.length_singleton]
      try omega
    · have h33 : (fixed 32 L.identHash ++ [1]).length = 33 := by
        simp only [List.length_append, fixed_length, List.length_singleton]
      rw [hp1]
      simp only [List.append_assoc] at h33 ⊢
      rw [← List.append_assoc (fixed 32 L.identHash), drop_append_of_length 33 _ _ h33,
        bufbe32toh_htobe32buf]
      exact Nat.mod_eq_of_lt hlt
  · intro ht hl
    have hp1 : r.1.GetPayload = fixed 32 L.identHash ++ [1] ++ htobe32buf 0 ++ L.buffer := by
      rw [hp, hl]
      simp [ht]
    refine ⟨hp1, ?_⟩
    rw [hp1]
    simp only [List.length_append, fixed_length, htobe32buf_length, List.length_singleton]
    try omega
  · intro ht
    have hp1 : r.1.GetPayload = fixed 32 L.identHash ++ [1] ++ htobe32buf 0 ++ L.buffer := by
      rw [hp]
      subst ht
      cases L.nonExpiredLeases <;> simp
    refine ⟨hp1, ?_⟩
    rw [hp1]
    simp only [List.length_append, fixed_length, htobe32buf_length, List.length_singleton]
    try omega

theorem database_store_lease_set_witness :
    ∃ r, CreateDatabaseStoreMsg exampleParams exampleSha256 exampleNow [] (some exampleLeaseSet)
        9 = some r ∧
      r.1.GetPayload = List.replicate 32 8 ++ [1] ++ [0, 0, 0, 9]
        ++ ([0, 0, 0, 66] ++ List.replicate 32 5) ++ [1, 2, 3] ∧
      r.1.GetPayload.length = 76 := by
  obtain ⟨_, r, hr, _, h1, _, _⟩ :=
    database_store_lease_set exampleParams exampleSha256 exampleNow [] exampleLeaseSet 9
  obtain ⟨hp, hl, _⟩ := h1 _ _ (by decide) rfl
  exact ⟨r, hr, hp.trans (by decide), hl⟩

/-- Claim C33: for an inner message with at least I2NP header size + TunnelGateway header
size bytes of room before it, the in-place `CreateTunnelGatewayMsg (tunnelID, msg)` gives a
message whose payload is the tunnelID (4 bytes, big-endian), the inner length (2 bytes,
big-endian) and the bytes of the inner message, header included; it is the payload that the
copying `CreateTunnelGatewayMsg (tunnelID, buf, len)` produces on the same inner bytes. The
inner bytes and the end of the message (len) are unchanged and the offset is smaller by
header size + gateway header size. -/
theorem tunnel_gateway_zero_copy (P : Params) (sha256 : List Nat → List Nat) (now : Env)
    (rnd : List Nat) (eI2NPTunnelGateway tunnelID : Nat) (msg : I2NPMessage)
    (h : I2NP_HEADER_SIZE + TUNNEL_GATEWAY_HEADER_SIZE ≤ msg.offset) :
    (CreateTunnelGatewayMsg P sha256 now rnd eI2NPTunnelGateway tunnelID msg).1.GetPayload
      = htobe32buf tunnelID ++ htobe16buf msg.GetLength ++ msg.bytes ∧
    (CreateTunnelGatewayMsg P sha256 now rnd eI2NPTunnelGateway tunnelID msg).1.GetPayload
      = (CreateTunnelGatewayMsgBuf P sha256 now rnd eI2NPTunnelGateway tunnelID msg.GetBuffer
          msg.GetLength).1.GetPayload ∧
    (CreateTunnelGatewayMsg P sha256 now rnd eI2NPTunnelGateway tunnelID msg).1.bytes.drop
        (I2NP_HEADER_SIZE + TUNNEL_GATEWAY_HEADER_SIZE) = msg.bytes ∧
    (CreateTunnelGatewayMsg P sha256 now rnd eI2NPTunnelGateway tunnelID msg).1.len
      = msg.len ∧
    (CreateTunnelGatewayMsg P sha256 now rnd eI2NPTunnelGateway tunnelID msg).1.offset
        + (I2NP_HEADER_SIZE + TUNNEL_GATEWAY_HEADER_SIZE) = msg.offset ∧
    (CreateTunnelGatewayMsg P sha256 now rnd eI2NPTunnelGateway tunnelID msg).1.bytes.getD 0 0
      = eI2NPTunnelGateway % 256 := by
  have hin : (CreateTunnelGatewayMsg P sha256 now rnd eI2NPTunnelGateway tunnelID msg)
      = FillI2NPMessageHeader sha256 now rnd
          { msg with offset := msg.offset - (I2NP_HEADER_SIZE + TUNNEL_GATEWAY_HEADER_SIZE),
                     bytes := List.replicate I2NP_HEADER_SIZE 0
                       ++ (htobe32buf tunnelID ++ htobe16buf msg.GetLength) ++ msg.bytes }
          eI2NPTunnelGateway 0 := by
    unfold CreateTunnelGatewayMsg
    rw [if_pos h]
  have hpay : (CreateTunnelGatewayMsg P sha256 now rnd eI2NPTunnelGateway tunnelID
      msg).1.GetPayload = htobe32buf tunnelID ++ htobe16buf msg.GetLength ++ msg.bytes := by
    rw [hin, GetPayload_FillI2NPMessageHeader]
    unfold I2NPMessage.GetPayload
    simp only [List.append_assoc]
    exact drop_append_of_length _ _ _ (List.length_replicate _ _)
  have hcopy : (CreateTunnelGatewayMsgBuf P sha256 now rnd eI2NPTunnelGateway tunnelID
      msg.GetBuffer msg.GetLength).1.GetPayload
      = htobe32buf tunnelID ++ htobe16buf msg.GetLength ++ msg.bytes := by
    unfold CreateTunnelGatewayMsgBuf
    simp only
    rw [GetPayload_FillI2NPMessageHeader, newMessage_GetPayload]
    · rw [show fixed msg.GetLength msg.GetBuffer = msg.bytes from fixed_of_length _ _ rfl]
    · unfold NewI2NPMessageLen
      split <;> simp [NewI2NPShortMessage, NewI2NPMessage, I2NP_HEADER_SIZE]
  have hbytes : (CreateTunnelGatewayMsg P sha256 now rnd eI2NPTunnelGateway tunnelID
      msg).1.bytes.drop (I2NP_HEADER_SIZE + TUNNEL_GATEWAY_HEADER_SIZE) = msg.bytes := by
    have h1 : (CreateTunnelGatewayMsg P sha256 now rnd eI2NPTunnelGateway tunnelID
        msg).1.GetPayload.drop TUNNEL_GATEWAY_HEADER_SIZE = msg.bytes := by
      rw [hpay]
      exact drop_append_of_length _ _ _ rfl
    unfold I2NPMessage.GetPayload at h1
    rw [List.drop_drop] at h1
    rw [← h1]
  have hoff : (CreateTunnelGatewayMsg P sha256 now rnd eI2NPTunnelGateway tunnelID
      msg).1.offset + (I2NP_HEADER_SIZE + TUNNEL_GATEWAY_HEADER_SIZE) = msg.offset := by
    rw [hin]
    show msg.offset - (I2NP_HEADER_SIZE + TUNNEL_GATEWAY_HEADER_SIZE)
      + (I2NP_HEADER_SIZE + TUNNEL_GATEWAY_HEADER_SIZE) = msg.offset
    omega
  refine ⟨hpay, hpay.trans hcopy.symm, hbytes, ?_, hoff, ?_⟩
  · have hlen : (CreateTunnelGatewayMsg P sha256 now rnd eI2NPTunnelGateway tunnelID
        msg).1.bytes.length = I2NP_HEADER_SIZE + TUNNEL_GATEWAY_HEADER_SIZE + msg.bytes.length := by
      rw [hin, FillI2NPMessageHeader_bytes]
      simp only [List.length_append, List.length_singleton, htobe32buf_length, htobe64buf_length,
        htobe16buf_length, I2NPMessage.GetPayload, List.length_drop, List.length_replicate,
        I2NP_HEADER_SIZE, TUNNEL_GATEWAY_HEADER_SIZE]
      omega
    unfold I2NPMessage.len
    rw [hlen]
    omega
  · rw [hin]
    exact FillI2NPMessageHeader_type _ _ _ _ _ _

theorem tunnel_gateway_zero_copy_witness :
    (CreateTunnelGatewayMsg exampleParams exampleSha256 exampleNow [] 19 77
        exampleRoomy).1.GetPayload
      = [0, 0, 0, 77] ++ [0, 20] ++ exampleInner.bytes ∧
    (CreateTunnelGatewayMsg exampleParams exampleSha256 exampleNow [] 19 77
        exampleRoomy).1.offset = 18 := by
  have h := tunnel_gateway_zero_copy exampleParams exampleSha256 exampleNow [] 19 77
    exampleRoomy (by decide)
  exact ⟨h.1.trans (by decide), by have := h.2.2.2.2.1; revert this; decide⟩

/-! ## Order on tags -/

theorem getD_drop_one (a : List Nat) (j : Nat) : (a.drop 1).getD j 0 = a.getD (j + 1) 0 := by
  simp only [List.getD_eq_getElem?_getD, List.getElem?_drop]
  rw [Nat.add_comm]

theorem memcmp_swap (n : Nat) : ∀ a b : List Nat, memcmp b a n = - memcmp a b n := by
  induction n with
  | zero => intro a b; simp [memcmp]
  | succ n ih =>
    intro a b
    unfold memcmp
    by_cases h : a.getD 0 0 = b.getD 0 0
    · rw [if_pos h, if_pos h.symm]
      exact ih _ _
    · rw [if_neg h, if_neg (fun h1 => h h1.symm)]
      omega

theorem memcmp_eq_zero_iff (n : Nat) : ∀ a b : List Nat,
    memcmp a b n = 0 ↔ ∀ i, i < n → a.getD i 0 = b.getD i 0 := by
  induction n with
  | zero => intro a b; simp [memcmp]
  | succ n ih =>
    intro a b
    unfold memcmp
    by_cases h : a.getD 0 0 = b.getD 0 0
    · rw [if_pos h, ih]
      constructor
      · intro hall i hi
        cases i with
        | zero => exact h
        | succ i =>
          have := hall i (by omega)
          rwa [getD_drop_one, getD_drop_one] at this
      · intro hall i hi
        rw [getD_drop_one, getD_drop_one]
        exact hall (i + 1) (by omega)
    · rw [if_neg h]
      constructor
      · intro h0
        exact absurd (by omega) h
      · intro hall
        exact absurd (hall 0 (by omega)) h

theorem memcmp_lt_iff (n : Nat) : ∀ a b : List Nat,
    memcmp a b n < 0 ↔
      ∃ i, i < n ∧ (∀ j, j < i → a.getD j 0 = b.getD j 0) ∧ a.getD i 0 < b.getD i 0 := by
  induction n with
  | zero => intro a b; simp [memcmp]
  | succ n ih =>
    intro a b
    unfold memcmp
    by_cases h : a.getD 0 0 = b.getD 0 0
    · rw [if_pos h, ih]
      constructor
      · rintro ⟨i, hi, hbefore, hlt⟩
        refine ⟨i + 1, by omega, ?_, ?_⟩
        · intro j hj
          cases j with
          | zero => exact h
          | succ j =>
            have := hbefore j (by omega)
            rwa [getD_drop_one, getD_drop_one] at this
        · rwa [getD_drop_one, getD_drop_one] at hlt
      · rintro ⟨i, hi, hbefore, hlt⟩
        cases i with
        | zero => omega
        | succ i =>
          refine ⟨i, by omega, ?_, ?_⟩
          · intro j hj
            rw [getD_drop_one, getD_drop_one]
            exact hbefore (j + 1) (by omega)
          · rwa [getD_drop_one, getD_drop_one]
    · rw [if_neg h]
      constructor
      · intro hlt
        exact ⟨0, by omega, fun j hj => absurd hj (Nat.not_lt_zero j), by omega⟩
      · rintro ⟨i, hi, hbefore, hlt⟩
        cases i with
        | zero => omega
        | succ i => exact absurd (hbefore 0 (by omega)) h

theorem memcmp_trans (n : Nat) : ∀ a b c : List Nat,
    memcmp a b n < 0 → memcmp b c n < 0 → memcmp a c n < 0 := by
  induction n with
  | zero => intro a b c h; simp [memcmp] at h
  | succ n ih =>
    intro a b c
    unfold memcmp
    by_cases hab : a.getD 0 0 = b.getD 0 0 <;> by_cases hbc : b.getD 0 0 = c.getD 0 0
    · rw [if_pos hab, if_pos hbc, if_pos (hab.trans hbc)]
      exact ih _ _ _
    · rw [if_pos hab, if_neg hbc, if_neg (fun h => hbc (hab.symm.trans h))]
      intro _ h
      omega
    · rw [if_neg hab, if_pos hbc, if_neg (fun h => hab (h.trans hbc.symm))]
      intro h _
      omega
    · rw [if_neg hab, if_neg hbc]
      intro h1 h2
      have hac : a.getD 0 0 ≠ c.getD 0 0 := by omega
      rw [if_neg hac]
      omega

theorem Tag.operatorLt_iff (a b : Tag) :
    a.operatorLt b = true ↔ memcmp a.m_Buf b.m_Buf 32 < 0 := by
  simp [Tag.operatorLt, Tag.SZ]

theorem Tag.operatorEq_iff (a b : Tag) :
    a.operatorEq b = true ↔ memcmp a.m_Buf b.m_Buf 32 = 0 := by
  simp [Tag.operatorEq, Tag.SZ]

theorem Tag.ll_eq_zero_iff (t : Tag) (i : Nat) :
    t.ll i = 0 ↔ ∀ k, k < 8 → t.byte (8 * i + k) = 0 := by
  unfold Tag.ll
  constructor
  · intro h k hk
    have h8 : k = 0 ∨ k = 1 ∨ k = 2 ∨ k = 3 ∨ k = 4 ∨ k = 5 ∨ k = 6 ∨ k = 7 := by omega
    rcases h8 with h8 | h8 | h8 | h8 | h8 | h8 | h8 | h8 <;> subst h8 <;>
      (try rw [Nat.add_zero]) <;> omega
  · intro h
    have h0 := h 0 (by omega)
    rw [Nat.add_zero] at h0
    rw [h0, h 1 (by omega), h 2 (by omega), h 3 (by omega), h 4 (by omega), h 5 (by omega),
      h 6 (by omega), h 7 (by omega)]
    rfl

theorem Tag.IsZero_iff (t : Tag) : t.IsZero = true ↔ ∀ i, i < 32 → t.byte i = 0 := by
  unfold Tag.IsZero
  rw [List.all_eq_true]
  simp only [List.mem_range, beq_iff_eq, Tag.ll_eq_zero_iff]
  have hsz : Tag.SZ / 8 = 4 := rfl
  rw [hsz]
  constructor
  · intro h i hi
    have := h (i / 8) (by omega) (i % 8) (Nat.mod_lt _ (by omega))
    rwa [Nat.div_add_mod] at this
  · intro h i hi k hk
    exact h _ (by omega)

/-- Claim C35: on tags of 32 bytes `operator<` is the lexicographic order on the bytes, the
first byte the most significant, and `operator==` is equality byte by byte. For all a, b
exactly one of a < b, a == b, b < a holds, `<` is transitive, and `IsZero ()` holds exactly
when the 32 bytes are all zero. -/
theorem identity_hash_order (a b c : Tag) :
    (a.operatorLt b = true ↔
      ∃ i, i < 32 ∧ (∀ j, j < i → a.byte j = b.byte j) ∧ a.byte i < b.byte i) ∧
    (a.operatorEq b = true ↔ ∀ i, i < 32 → a.byte i = b.byte i) ∧
    (a.m_Buf.length = 32 → b.m_Buf.length = 32 → (a.operatorEq b = true ↔ a = b)) ∧
    (a.operatorLt b = true ∨ a.operatorEq b = true ∨ b.operatorLt a = true) ∧
    ¬ (a.operatorLt b = true ∧ a.operatorEq b = true) ∧
    ¬ (a.operatorLt b = true ∧ b.operatorLt a = true) ∧
    ¬ (a.operatorEq b = true ∧ b.operatorLt a = true) ∧
    (a.operatorLt b = true → b.operatorLt c = true → a.operatorLt c = true) ∧
    (a.IsZero = true ↔ ∀ i, i < 32 → a.byte i = 0) := by
  have hswap := memcmp_swap 32 a.m_Buf b.m_Buf
  refine ⟨?_, ?_, ?_, ?_, ?_, ?_, ?_, ?_, Tag.IsZero_iff a⟩
  · rw [Tag.operatorLt_iff]
    exact memcmp_lt_iff 32 _ _
  · rw [Tag.operatorEq_iff]
    exact memcmp_eq_zero_iff 32 _ _
  · intro ha hb
    rw [Tag.operatorEq_iff, memcmp_eq_zero_iff]
    constructor
    · intro h
      have : a.m_Buf = b.m_Buf := by
        apply List.ext_getElem (ha.trans hb.symm)
        intro i h1 h2
        have hi := h i (by omega)
        rw [List.getD_eq_getElem _ _ h1, List.getD_eq_getElem _ _ h2] at hi
        exact hi
      cases a
      cases b
      simp only at this
      rw [this]
    · intro h i _
      rw [h]
  · rw [Tag.operatorLt_iff, Tag.operatorEq_iff, Tag.operatorLt_iff]
    omega
  · rw [Tag.operatorLt_iff, Tag.operatorEq_iff]
    omega
  · rw [Tag.operatorLt_iff, Tag.operatorLt_iff]
    omega
  · rw [Tag.operatorEq_iff, Tag.operatorLt_iff]
    omega
  · rw [Tag.operatorLt_iff, Tag.operatorLt_iff, Tag.operatorLt_iff]
    exact memcmp_trans 32 _ _ _

theorem identity_hash_order_witness :
    (exampleIdent 3 1).operatorLt (exampleIdent 3 2) = true ∧
    (exampleIdent 3 2).operatorLt (exampleIdent 3 9) = true ∧
    (exampleIdent 3 1).operatorLt (exampleIdent 3 9) = true ∧
    ((exampleIdent 3 1).operatorEq (exampleIdent 3 1) = true ↔
      exampleIdent 3 1 = exampleIdent 3 1) :=
  ⟨by decide, by decide,
    (identity_hash_order (exampleIdent 3 1) (exampleIdent 3 2) (exampleIdent 3 9)).2.2.2.2.2.2.2.1
      (by decide) (by decide),
    (identity_hash_order (exampleIdent 3 1) (exampleIdent 3 1) (exampleIdent 3 1)).2.2.1
      (by decide) (by decide)⟩

/-! ## The out-of-sequence table -/

/-- Counterexample to C36 as stated: with fragment 3 of message 7 buffered, the follow-on
fragment 2 of that message, which has to be buffered too, does not replace it: the table
still holds fragment 3 and the new arrival is not kept. -/
theorem buffered_fragment_not_replaced :
    StdMap.find exampleEndpoint.m_IncompleteMessages 7 = none ∧
    StdMap.find exampleEndpointWaiting.m_OutOfSequenceFragments 7
      = some { fragmentNum := 3, isLastFragment := false, data := exampleData 20 3 } ∧
    (HandleFollowOnFragment exampleParams [] exampleEndpointWaiting 7 false
        { data := exampleData 5 9, nextFragmentNum := 2 }).1
      = AddOutOfSequenceFragment exampleEndpointWaiting 7 2 false (exampleData 5 9) ∧
    StdMap.find (AddOutOfSequenceFragment exampleEndpointWaiting 7 2 false
        (exampleData 5 9)).m_OutOfSequenceFragments 7
      = some { fragmentNum := 3, isLastFragment := false, data := exampleData 20 3 } ∧
    StdMap.find (AddOutOfSequenceFragment exampleEndpointWaiting 7 2 false
        (exampleData 5 9)).m_OutOfSequenceFragments 7
      ≠ some { fragmentNum := 2, isLastFragment := false, data := exampleData 5 9 } := by
  refine ⟨by decide, by decide, by decide, by decide, by decide⟩

/-- Claim C36, amended: the out-of-sequence table holds at most one buffered fragment per
msgID, and when a follow-on fragment has to be buffered (no incomplete message under its
msgID, or another fragment number expected) for a msgID that already has a buffered
fragment, the buffered fragment is kept and the new arrival is dropped; for a msgID without
one the new arrival is stored. The entries of the other msgIDs are unchanged. -/
theorem out_of_sequence_keeps_first (P : Params) (ourHash : List Nat) (ep : TunnelEndpoint)
    (msgID : Nat) (isLastFragment : Bool) (m : TunnelMessageBlockEx)
    (hbuf : ∀ msg, StdMap.find ep.m_IncompleteMessages msgID = some msg →
      m.nextFragmentNum ≠ msg.nextFragmentNum) :
    HandleFollowOnFragment P ourHash ep msgID isLastFragment m
      = (AddOutOfSequenceFragment ep msgID m.nextFragmentNum isLastFragment m.data, []) ∧
    ((ep.m_OutOfSequenceFragments.map Prod.fst).Nodup →
      ((AddOutOfSequenceFragment ep msgID m.nextFragmentNum isLastFragment
        m.data).m_OutOfSequenceFragments.map Prod.fst).Nodup) ∧
    (∀ old, StdMap.find ep.m_OutOfSequenceFragments msgID = some old →
      AddOutOfSequenceFragment ep msgID m.nextFragmentNum isLastFragment m.data = ep) ∧
    (StdMap.find ep.m_OutOfSequenceFragments msgID = none →
      StdMap.find (AddOutOfSequenceFragment ep msgID m.nextFragmentNum isLastFragment
        m.data).m_OutOfSequenceFragments msgID
        = some { fragmentNum := m.nextFragmentNum, isLastFragment := isLastFragment,
                 data := m.data }) ∧
    (∀ k, k ≠ msgID →
      StdMap.find (AddOutOfSequenceFragment ep msgID m.nextFragmentNum isLastFragment
        m.data).m_OutOfSequenceFragments k = StdMap.find ep.m_OutOfSequenceFragments k) := by
  refine ⟨?_, ?_, ?_, ?_, ?_⟩
  · unfold HandleFollowOnFragment
    simp only
    cases hf : StdMap.find ep.m_IncompleteMessages msgID with
    | none => rfl
    | some msg =>
      simp only
      rw [if_neg (hbuf msg hf)]
  · intro hnd
    unfold AddOutOfSequenceFragment
    cases hf : StdMap.find ep.m_OutOfSequenceFragments msgID with
    | some old => exact hnd
    | none =>
      simp only [StdMap.insert, hf, List.map_append, List.map_cons, List.map_nil]
      rw [List.nodup_append]
      refine ⟨hnd, List.nodup_singleton _, ?_⟩
      intro a ha hb
      rw [List.mem_singleton] at hb
      subst hb
      exact (StdMap.keys_assign_of_find_none ep.m_OutOfSequenceFragments a
        (Fragment.mk 0 false m.data) hf).2 ha
  · intro old hf
    unfold AddOutOfSequenceFragment
    rw [hf]
  · intro hf
    unfold AddOutOfSequenceFragment
    rw [hf]
    exact StdMap.find_insert_self _ _ hf
  · intro k hk
    unfold AddOutOfSequenceFragment
    cases hf : StdMap.find ep.m_OutOfSequenceFragments msgID with
    | some old => rfl
    | none => exact StdMap.find_insert_ne _ _ (fun h => hk h.symm)

theorem out_of_sequence_keeps_first_witness :
    HandleFollowOnFragment exampleParams [] exampleEndpointWaiting 7 false
        { data := exampleData 5 9, nextFragmentNum := 2 }
      = (exampleEndpointWaiting, []) := by
  have h := out_of_sequence_keeps_first exampleParams [] exampleEndpointWaiting 7 false
    { data := exampleData 5 9, nextFragmentNum := 2 } (by decide)
  rw [h.1, h.2.2.1 _ rfl]

/-! ## The sweep and the wrap agree on expiry -/

theorem CleanupExpiredTags_owner_leaseSet (P : Params) (now : Env) (s : GarlicRoutingSession)
    (owner : Option GarlicDestination) (hls : ∀ o, owner = some o → o.leaseSet ≠ none) :
    ∀ o, (CleanupExpiredTags P now s owner).2.2 = some o → o.leaseSet ≠ none := by
  intro o ho
  unfold CleanupExpiredTags at ho
  simp only at ho
  cases owner with
  | none => cases ho
  | some o0 =>
    simp only [Option.map_some', Option.some.injEq] at ho
    subst ho
    have hfold : ∀ (l : List (Nat × UnconfirmedTags)) (d : GarlicDestination),
        (l.foldl (fun d e => RemoveCreatedSession d e.1) d).leaseSet = d.leaseSet := by
      intro l
      induction l with
      | nil => intro d; rfl
      | cons e rest ih =>
        intro d
        rw [List.foldl_cons]
        exact ih _
    rw [hfold]
    exact hls o0 rfl

/-- Claim C38: the test by which `WrapSingleMessage` accepts a tag of the pool,
now < creationTime + OUTGOING_TAGS_EXPIRATION_TIMEOUT, is the negation of the test by which
`CleanupExpiredTags` removes one. So for every pool and every time ts the tags that survive
`CleanupExpiredTags` at ts are the tags of the pool that a wrap at ts accepts, and a wrap at
ts on a swept pool that is not empty takes the first tag of it and leaves the others: it pops
exactly one tag. The session has numTags > 0, as every session with a tag in its pool. -/
theorem expiry_boundaries_agree (P : Params) (C : Crypto) (now : Env) (rnd : List Nat)
    (s : GarlicRoutingSession) (owner : Option GarlicDestination) (msg : Option I2NPMessage)
    (hnum : 0 < s.m_NumTags) (hto : 0 < P.OUTGOING_TAGS_EXPIRATION_TIMEOUT)
    (hls : ∀ o, owner = some o → o.leaseSet ≠ none) :
    (∀ t, t ∈ (CleanupExpiredTags P now s owner).2.1.m_SessionTags ↔
      t ∈ s.m_SessionTags ∧ (selectTag P now.ts [t]).1 = some t) ∧
    (∀ t, (selectTag P now.ts [t]).1 = some t ↔
      now.ts < t.creationTime + P.OUTGOING_TAGS_EXPIRATION_TIMEOUT) ∧
    (∀ T rest, (CleanupExpiredTags P now s owner).2.1.m_SessionTags = T :: rest →
      findTag P now (CleanupExpiredTags P now s owner).2.1 = (some T, rest) ∧
      ∃ wr g block, WrapSingleMessage P C now rnd (CleanupExpiredTags P now s owner).2.1
          (CleanupExpiredTags P now s owner).2.2 msg = some wr ∧
        wr.msg = some g ∧ wr.session.m_SessionTags = rest ∧
        g.GetPayload = htobe32buf (32 + block.length) ++ fixed 32 T.tag ++ block) := by
  have hsel : ∀ t : SessionTag, (selectTag P now.ts [t]).1 = some t ↔
      now.ts < t.creationTime + P.OUTGOING_TAGS_EXPIRATION_TIMEOUT := by
    intro t
    unfold selectTag
    by_cases h : now.ts < t.creationTime + P.OUTGOING_TAGS_EXPIRATION_TIMEOUT
    · simp only [h, if_true, true_iff]
    · simp only [h, if_false, selectTag, iff_false]
      exact fun hc => by cases hc
  have hmem : ∀ t, t ∈ (CleanupExpiredTags P now s owner).2.1.m_SessionTags ↔
      t ∈ s.m_SessionTags ∧ now.ts < t.creationTime + P.OUTGOING_TAGS_EXPIRATION_TIMEOUT := by
    intro t
    unfold CleanupExpiredTags
    simp only [List.mem_filter, Bool.not_eq_true', decide_eq_false_iff_not, ge_iff_le, not_le]
  refine ⟨fun t => ?_, hsel, ?_⟩
  · rw [hmem, hsel]
  · intro T rest hpool
    have hT : now.ts < T.creationTime + P.OUTGOING_TAGS_EXPIRATION_TIMEOUT :=
      ((hmem T).1 (by rw [hpool]; exact List.mem_cons_self _ _)).2
    have hnum1 : 0 < (CleanupExpiredTags P now s owner).2.1.m_NumTags := hnum
    have hfind : findTag P now (CleanupExpiredTags P now s owner).2.1 = (some T, rest) := by
      unfold findTag
      rw [if_pos hnum1, hpool]
      unfold selectTag
      rw [if_pos hT]
    refine ⟨hfind, ?_⟩
    obtain ⟨wr, hwr, _⟩ := WrapSingleMessage_returns P C now rnd
      (CleanupExpiredTags P now s owner).2.1 (CleanupExpiredTags P now s owner).2.2 msg hto
      (CleanupExpiredTags_owner_leaseSet P now s owner hls)
    have hwr1 := hwr
    unfold WrapSingleMessage WrapSingleMessageWith at hwr1
    simp only [hfind] at hwr1
    obtain ⟨htags, g, b, hg, _, hpay⟩ := frameGarlic_spec _ _ _ _ _ _ _ _ _ _ _ hwr1
    refine ⟨wr, g, b.bytes, hwr, hg, htags, ?_⟩
    rw [hpay, fixed_length]

theorem expiry_boundaries_agree_witness :
    (CleanupExpiredTags exampleParams exampleNow exampleSession (some exampleOwner)).2.1.m_SessionTags
      = [exampleTag 2 1500, exampleTag 3 1600] ∧
    ∃ wr, WrapSingleMessage exampleParams exampleCrypto exampleNow []
        (CleanupExpiredTags exampleParams exampleNow exampleSession (some exampleOwner)).2.1
        (CleanupExpiredTags exampleParams exampleNow exampleSession (some exampleOwner)).2.2
        (some exampleInner) = some wr ∧
      wr.session.m_SessionTags = [exampleTag 3 1600] := by
  refine ⟨by decide, ?_⟩
  obtain ⟨_, wr, _, _, hwr, _, htags, _⟩ :=
    (expiry_boundaries_agree exampleParams exampleCrypto exampleNow [] exampleSession
      (some exampleOwner) (some exampleInner) (by decide) (by decide)
      (by intro o ho; cases ho; exact fun hc => by cases hc)).2.2
      (exampleTag 2 1500) [exampleTag 3 1600] (by decide)
  exact ⟨wr, hwr, htags⟩

/-! ## The one-shot session of a DeliveryStatus clove -/

/-- Claim C39: a session built from a key and a tag (no owner, no destination, numTags = 1,
the tag alone in the pool, stamped now) wraps its first message with the framing of an
existing session: the message is not null and begins with exactly that tag, the AES block has
tagCount = 0 and no tags, and its payload has exactly one clove, of local delivery, holding
the message; no DeliveryStatus or LeaseSet clove is attached. A second wrap on the session
returns null. In `CreateDeliveryStatusClove` the key and the tag of the session are the ones
registered in the inbound tag table of the owner. -/
theorem one_shot_inner_session (P : Params) (C : Crypto) (now : Env) (rnd key tag : List Nat)
    (m : I2NPMessage) (s : GarlicRoutingSession) (o : GarlicDestination) (t : InboundTunnel)
    (msgID0 : Nat) (rnd0 : List Nat)
    (hto : 0 < P.OUTGOING_TAGS_EXPIRATION_TIMEOUT) (htun : o.nextInboundTunnel = some t) :
    (∃ wr g, WrapSingleMessageNoOwner P C now rnd (GarlicRoutingSession.ofKeyTag now key tag) m
        = some wr ∧ wr.msg = some g ∧
      (∃ (c : Clove) (msgID : Nat) (block plain payload : List Nat),
        g.GetPayload = htobe32buf (32 + block.length) ++ fixed 32 tag ++ block ∧
        block = aesBlockOf C (fixed 32 key) ((C.sha256 (fixed 32 tag)).take 16) plain ∧
        plain = [0, 0] ++ htobe32buf payload.length ++ fixed 32 (C.sha256 payload) ++ [0]
          ++ payload ∧
        payload = garlicPayloadOf [c] msgID (now.tms + 5000) ∧
        payload.head? = some 1 ∧
        c.instructions = [0] ∧ c.msg = m.bytes ∧ c.trailer.length = 15) ∧
      wr.session.m_SessionTags = [] ∧ wr.session.m_UnconfirmedTagsMsgs = [] ∧
      wr.session.m_LeaseSetUpdateStatus = LeaseSetUpdateStatus.eLeaseSetDoNotSend ∧
      wr.owner = none ∧
      ∀ now2 rnd2 m2, ∃ wr2, WrapSingleMessageNoOwner P C now2 rnd2 wr.session m2 = some wr2 ∧
        wr2.msg = none) ∧
    (∃ (b : Built) (o1 : GarlicDestination) (key1 tag1 r1 : List Nat) (dsm : I2NPMessage)
        (wr1 : WrapResult) (g1 : I2NPMessage) (c1 : Clove),
      CreateDeliveryStatusClove P C now (WrapSingleMessageNoOwner P C now) rnd0 s (some o)
        msgID0 = some b ∧
      b.owner = some o1 ∧
      WrapSingleMessageNoOwner P C now r1 (GarlicRoutingSession.ofKeyTag now key1 tag1) dsm
        = some wr1 ∧
      wr1.msg = some g1 ∧ b.bytes = c1.bytes ∧ c1.msg = g1.bytes ∧
      dsm = (CreateDeliveryStatusMsg P C.sha256 now rnd0 msgID0).1 ∧
      (StdMap.find o1.m_Tags (fixed 32 tag1)).map InboundTag.key = some (fixed 32 key1)) := by
  constructor
  · obtain ⟨wr, g, hwr, hg⟩ := WrapSingleMessageNoOwner_returns P C now hto rnd key tag m
    have hsel := findTag_ofKeyTag P now key tag hto
    obtain ⟨front, iv, rnd1, bp, hframe, hbp, hsess, hown, _, hpay⟩ :=
      WrapSingleMessageWith_exact P C now _ rnd _ none (some m) wr g hwr hg
    rw [hsel] at hbp hpay
    have hnew : ∀ r (s1 : GarlicRoutingSession), newTagsOf now r s1 none = none :=
      fun r s1 => newTagsOf_none now r s1 none rfl
    rw [hnew] at hbp hpay
    obtain ⟨hbs, hbo, c, hc1, hc2, hc3, hbytes⟩ :=
      CreateGarlicPayload_no_owner P C now _ _ _ m bp rfl hbp
    have hfront : front = fixed 32 tag ∧ iv = (C.sha256 (fixed 32 tag)).take 16 := by
      rcases hframe with ⟨T, hT, hf, hiv, _⟩ | ⟨hnone, _⟩
      · rw [hsel] at hT
        simp only [Option.some.injEq] at hT
        subst hT
        simp only [fixed_fixed] at hf hiv
        exact ⟨hf, hiv⟩
      · rw [hsel] at hnone
        cases hnone
    obtain ⟨hf, hiv⟩ := hfront
    subst hf hiv
    have hs : wr.session
        = { GarlicRoutingSession.ofKeyTag now key tag with m_SessionTags := [] } :=
      hsess.trans hbs
    refine ⟨wr, g, hwr, hg, ⟨c, _, _, _, _, ?_, rfl, rfl, hbytes, ?_, hc1, hc2, hc3⟩, ?_, ?_, ?_,
      hown.trans hbo, ?_⟩
    · rw [hpay, fixed_length]
      rfl
    · rw [hbytes]
      rfl
    · rw [hs]
    · rw [hs]
      rfl
    · rw [hs]
      rfl
    · intro now2 rnd2 m2
      rw [hs]
      refine ⟨_, rfl, rfl⟩
  · obtain ⟨wr1, g1, hwr1, hg1⟩ := WrapSingleMessageNoOwner_returns P C now hto
      (GenerateBlock (GenerateBlock (CreateDeliveryStatusMsg P C.sha256 now rnd0 msgID0).2
        32).2 32).2
      (GenerateBlock (CreateDeliveryStatusMsg P C.sha256 now rnd0 msgID0).2 32).1
      (GenerateBlock (GenerateBlock (CreateDeliveryStatusMsg P C.sha256 now rnd0 msgID0).2
        32).2 32).1
      (CreateDeliveryStatusMsg P C.sha256 now rnd0 msgID0).1
    have hfix : fixed g1.GetLength g1.GetBuffer = g1.bytes := fixed_of_length _ _ rfl
    obtain ⟨b, hb, hbo, hbb⟩ : ∃ b : Built,
        CreateDeliveryStatusClove P C now (WrapSingleMessageNoOwner P C now) rnd0 s (some o)
          msgID0 = some b ∧
        b.owner = some (AddSessionKey now o
          (GenerateBlock (CreateDeliveryStatusMsg P C.sha256 now rnd0 msgID0).2 32).1
          (GenerateBlock (GenerateBlock (CreateDeliveryStatusMsg P C.sha256 now rnd0 msgID0).2
            32).2 32).1) ∧
        b.bytes = [(eGarlicDeliveryTypeTunnel <<< 5) % 256] ++ fixed 32 t.nextIdentHash
          ++ htobe32buf t.nextTunnelID ++ fixed g1.GetLength g1.GetBuffer
          ++ htobe32buf (GenerateWord32 wr1.rnd).1 ++ htobe64buf (now.tms + 5000)
          ++ [0, 0, 0] := by
      unfold CreateDeliveryStatusClove
      simp only [htun, hwr1, hg1]
      exact ⟨_, rfl, rfl, rfl⟩
    refine ⟨b, _, _, _, _, _, wr1, g1,
      ⟨[(eGarlicDeliveryTypeTunnel <<< 5) % 256] ++ fixed 32 t.nextIdentHash
        ++ htobe32buf t.nextTunnelID, g1.bytes,
        htobe32buf (GenerateWord32 wr1.rnd).1 ++ htobe64buf (now.tms + 5000) ++ [0, 0, 0]⟩,
      hb, hbo, hwr1, hg1, ?_, rfl, rfl, ?_⟩
    · rw [hbb, hfix]
      simp only [Clove.bytes, List.append_assoc]
    · simp only [AddSessionKey, assignTag]
      split <;> rw [StdMap.find_assign_self] <;> rfl

theorem one_shot_inner_session_witness :
    ∃ wr g, WrapSingleMessageNoOwner exampleParams exampleCrypto exampleNow []
        (GarlicRoutingSession.ofKeyTag exampleNow (List.replicate 32 4) (List.replicate 32 1))
        exampleInner = some wr ∧
      wr.msg = some g ∧ wr.session.m_SessionTags = [] ∧ wr.owner = none := by
  obtain ⟨wr, g, hwr, hg, _, htags, _, _, hown, _⟩ :=
    (one_shot_inner_session exampleParams exampleCrypto exampleNow [] (List.replicate 32 4)
      (List.replicate 32 1) exampleInner exampleSession exampleOwner
      { nextIdentHash := List.replicate 32 6, nextTunnelID := 77, hasPool := true,
        nextOutboundTunnel := some 5 } 5 [] (by decide) rfl).1
  exact ⟨wr, g, hwr, hg, htags, hown⟩

/-! ## Build records: the request of a hop read back -/

theorem writeAt_zeros (pre data : List Nat) (n pos : Nat) (hpos : pos = pre.length) :
    writeAt (pre ++ List.replicate n 0) pos data
      = pre ++ data ++ List.replicate (n - data.length) 0 := by
  subst hpos
  unfold writeAt
  rw [List.take_left', drop_add_append, List.drop_replicate]
  rfl

theorem slice_mid (a b c : List Nat) (p n : Nat) (ha : a.length = p) (hb : b.length = n) :
    ((a ++ b ++ c).drop p).take n = b := by
  rw [List.append_assoc, drop_append_of_length p _ _ ha]
  subst hb
  exact List.take_left' rfl

theorem CreateBuildRequestRecord_eq (C : Crypto) (hours : Nat) (h : TunnelHopConfig)
    (nextRouter : RouterInfo) (record : List Nat) (replyMsgID : Nat)
    (hnext : h.nextRouter = some nextRouter)
    (hrec : record.length = TUNNEL_BUILD_RECORD_SIZE) :
    h.CreateBuildRequestRecord C hours record replyMsgID
      = some (fixed 16 h.router.identHash
          ++ fixed 512 (C.elGamalEncrypt h.router.encryptionPublicKey
              (buildRequestClearText hours h nextRouter replyMsgID) false)) := by
  unfold TunnelHopConfig.CreateBuildRequestRecord
  rw [hnext]
  simp only
  have h0 : List.replicate BUILD_REQUEST_RECORD_CLEAR_TEXT_SIZE 0
      = [] ++ List.replicate 222 0 := rfl
  have hflag : (if h.isEndpoint = true then (if h.isGateway = true then 0 ||| 128 else 0) ||| 64
      else if h.isGateway = true then 0 ||| 128 else 0)
      = (if h.isGateway then 128 else 0) + (if h.isEndpoint then 64 else 0) := by
    cases h.isGateway <;> cases h.isEndpoint <;> rfl
  rw [h0, hflag]
  rw [writeAt_zeros]
  swap
  · simp only [BUILD_REQUEST_RECORD_RECEIVE_TUNNEL_OFFSET, BUILD_REQUEST_RECORD_OUR_IDENT_OFFSET,
      BUILD_REQUEST_RECORD_NEXT_TUNNEL_OFFSET, BUILD_REQUEST_RECORD_NEXT_IDENT_OFFSET,
      BUILD_REQUEST_RECORD_LAYER_KEY_OFFSET, BUILD_REQUEST_RECORD_IV_KEY_OFFSET,
      BUILD_REQUEST_RECORD_REPLY_KEY_OFFSET, BUILD_REQUEST_RECORD_REPLY_IV_OFFSET,
      BUILD_REQUEST_RECORD_FLAG_OFFSET, BUILD_REQUEST_RECORD_REQUEST_TIME_OFFSET,
      BUILD_REQUEST_RECORD_SEND_MSG_ID_OFFSET, List.length_append, List.length_nil,
      List.length_singleton, fixed_length, htobe32buf_length]
  rw [writeAt_zeros]
  swap
  · simp only [BUILD_REQUEST_RECORD_RECEIVE_TUNNEL_OFFSET, BUILD_REQUEST_RECORD_OUR_IDENT_OFFSET,
      BUILD_REQUEST_RECORD_NEXT_TUNNEL_OFFSET, BUILD_REQUEST_RECORD_NEXT_IDENT_OFFSET,
      BUILD_REQUEST_RECORD_LAYER_KEY_OFFSET, BUILD_REQUEST_RECORD_IV_KEY_OFFSET,
      BUILD_REQUEST_RECORD_REPLY_KEY_OFFSET, BUILD_REQUEST_RECORD_REPLY_IV_OFFSET,
      BUILD_REQUEST_RECORD_FLAG_OFFSET, BUILD_REQUEST_RECORD_REQUEST_TIME_OFFSET,
      BUILD_REQUEST_RECORD_SEND_MSG_ID_OFFSET, List.length_append, List.length_nil,
      List.length_singleton, fixed_length, htobe32buf_length]
  rw [writeAt_zeros]
  swap
  · simp only [BUILD_REQUEST_RECORD_RECEIVE_TUNNEL_OFFSET, BUILD_REQUEST_RECORD_OUR_IDENT_OFFSET,
      BUILD_REQUEST_RECORD_NEXT_TUNNEL_OFFSET, BUILD_REQUEST_RECORD_NEXT_IDENT_OFFSET,
      BUILD_REQUEST_RECORD_LAYER_KEY_OFFSET, BUILD_REQUEST_RECORD_IV_KEY_OFFSET,
      BUILD_REQUEST_RECORD_REPLY_KEY_OFFSET, BUILD_REQUEST_RECORD_REPLY_IV_OFFSET,
      BUILD_REQUEST_RECORD_FLAG_OFFSET, BUILD_REQUEST_RECORD_REQUEST_TIME_OFFSET,
      BUILD_REQUEST_RECORD_SEND_MSG_ID_OFFSET, List.length_append, List.length_nil,
      List.length_singleton, fixed_length, htobe32buf_length]
  rw [writeAt_zeros]
  swap
  · simp only [BUILD_REQUEST_RECORD_RECEIVE_TUNNEL_OFFSET, BUILD_REQUEST_RECORD_OUR_IDENT_OFFSET,
      BUILD_REQUEST_RECORD_NEXT_TUNNEL_OFFSET, BUILD_REQUEST_RECORD_NEXT_IDENT_OFFSET,
      BUILD_REQUEST_RECORD_LAYER_KEY_OFFSET, BUILD_REQUEST_RECORD_IV_KEY_OFFSET,
      BUILD_REQUEST_RECORD_REPLY_KEY_OFFSET, BUILD_REQUEST_RECORD_REPLY_IV_OFFSET,
      BUILD_REQUEST_RECORD_FLAG_OFFSET, BUILD_REQUEST_RECORD_REQUEST_TIME_OFFSET,
      BUILD_REQUEST_RECORD_SEND_MSG_ID_OFFSET, List.length_append, List.length_nil,
      List.length_singleton, fixed_length, htobe32buf_length]
  rw [writeAt_zeros]
  swap
  · simp only [BUILD_REQUEST_RECORD_RECEIVE_TUNNEL_OFFSET, BUILD_REQUEST_RECORD_OUR_IDENT_OFFSET,
      BUILD_REQUEST_RECORD_NEXT_TUNNEL_OFFSET, BUILD_REQUEST_RECORD_NEXT_IDENT_OFFSET,
      BUILD_REQUEST_RECORD_LAYER_KEY_OFFSET, BUILD_REQUEST_RECORD_IV_KEY_OFFSET,
      BUILD_REQUEST_RECORD_REPLY_KEY_OFFSET, BUILD_REQUEST_RECORD_REPLY_IV_OFFSET,
      BUILD_REQUEST_RECORD_FLAG_OFFSET, BUILD_REQUEST_RECORD_REQUEST_TIME_OFFSET,
      BUILD_REQUEST_RECORD_SEND_MSG_ID_OFFSET, List.length_append, List.length_nil,
      List.length_singleton, fixed_length, htobe32buf_length]
  rw [writeAt_zeros]
  swap
  · simp only [BUILD_REQUEST_RECORD_RECEIVE_TUNNEL_OFFSET, BUILD_REQUEST_RECORD_OUR_IDENT_OFFSET,
      BUILD_REQUEST_RECORD_NEXT_TUNNEL_OFFSET, BUILD_REQUEST_RECORD_NEXT_IDENT_OFFSET,
      BUILD_REQUEST_RECORD_LAYER_KEY_OFFSET, BUILD_REQUEST_RECORD_IV_KEY_OFFSET,
      BUILD_REQUEST_RECORD_REPLY_KEY_OFFSET, BUILD_REQUEST_RECORD_REPLY_IV_OFFSET,
      BUILD_REQUEST_RECORD_FLAG_OFFSET, BUILD_REQUEST_RECORD_REQUEST_TIME_OFFSET,
      BUILD_REQUEST_RECORD_SEND_MSG_ID_OFFSET, List.length_append, List.length_nil,
      List.length_singleton, fixed_length, htobe32buf_length]
  rw [writeAt_zeros]
  swap
  · simp only [BUILD_REQUEST_RECORD_RECEIVE_TUNNEL_OFFSET, BUILD_REQUEST_RECORD_OUR_IDENT_OFFSET,
      BUILD_REQUEST_RECORD_NEXT_TUNNEL_OFFSET, BUILD_REQUEST_RECORD_NEXT_IDENT_OFFSET,
      BUILD_REQUEST_RECORD_LAYER_KEY_OFFSET, BUILD_REQUEST_RECORD_IV_KEY_OFFSET,
      BUILD_REQUEST_RECORD_REPLY_KEY_OFFSET, BUILD_REQUEST_RECORD_REPLY_IV_OFFSET,
      BUILD_REQUEST_RECORD_FLAG_OFFSET, BUILD_REQUEST_RECORD_REQUEST_TIME_OFFSET,
      BUILD_REQUEST_RECORD_SEND_MSG_ID_OFFSET, List.length_append, List.length_nil,
      List.length_singleton, fixed_length, htobe32buf_length]
  rw [writeAt_zeros]
  swap
  · simp only [BUILD_REQUEST_RECORD_RECEIVE_TUNNEL_OFFSET, BUILD_REQUEST_RECORD_OUR_IDENT_OFFSET,
      BUILD_REQUEST_RECORD_NEXT_TUNNEL_OFFSET, BUILD_REQUEST_RECORD_NEXT_IDENT_OFFSET,
      BUILD_REQUEST_RECORD_LAYER_KEY_OFFSET, BUILD_REQUEST_RECORD_IV_KEY_OFFSET,
      BUILD_REQUEST_RECORD_REPLY_KEY_OFFSET, BUILD_REQUEST_RECORD_REPLY_IV_OFFSET,
      BUILD_REQUEST_RECORD_FLAG_OFFSET, BUILD_REQUEST_RECORD_REQUEST_TIME_OFFSET,
      BUILD_REQUEST_RECORD_SEND_MSG_ID_OFFSET, List.length_append, List.length_nil,
      List.length_singleton, fixed_length, htobe32buf_length]
  rw [writeAt_zeros]
  swap
  · simp only [BUILD_REQUEST_RECORD_RECEIVE_TUNNEL_OFFSET, BUILD_REQUEST_RECORD_OUR_IDENT_OFFSET,
      BUILD_REQUEST_RECORD_NEXT_TUNNEL_OFFSET, BUILD_REQUEST_RECORD_NEXT_IDENT_OFFSET,
      BUILD_REQUEST_RECORD_LAYER_KEY_OFFSET, BUILD_REQUEST_RECORD_IV_KEY_OFFSET,
      BUILD_REQUEST_RECORD_REPLY_KEY_OFFSET, BUILD_REQUEST_RECORD_REPLY_IV_OFFSET,
      BUILD_REQUEST_RECORD_FLAG_OFFSET, BUILD_REQUEST_RECORD_REQUEST_TIME_OFFSET,
      BUILD_REQUEST_RECORD_SEND_MSG_ID_OFFSET, List.length_append, List.length_nil,
      List.length_singleton, fixed_length, htobe32buf_length]
  rw [writeAt_zeros]
  swap
  · simp only [BUILD_REQUEST_RECORD_RECEIVE_TUNNEL_OFFSET, BUILD_REQUEST_RECORD_OUR_IDENT_OFFSET,
      BUILD_REQUEST_RECORD_NEXT_TUNNEL_OFFSET, BUILD_REQUEST_RECORD_NEXT_IDENT_OFFSET,
      BUILD_REQUEST_RECORD_LAYER_KEY_OFFSET, BUILD_REQUEST_RECORD_IV_KEY_OFFSET,
      BUILD_REQUEST_RECORD_REPLY_KEY_OFFSET, BUILD_REQUEST_RECORD_REPLY_IV_OFFSET,
      BUILD_REQUEST_RECORD_FLAG_OFFSET, BUILD_REQUEST_RECORD_REQUEST_TIME_OFFSET,
      BUILD_REQUEST_RECORD_SEND_MSG_ID_OFFSET, List.length_append, List.length_nil,
      List.length_singleton, fixed_length, htobe32buf_length]
  rw [writeAt_zeros]
  swap
  · simp only [BUILD_REQUEST_RECORD_RECEIVE_TUNNEL_OFFSET, BUILD_REQUEST_RECORD_OUR_IDENT_OFFSET,
      BUILD_REQUEST_RECORD_NEXT_TUNNEL_OFFSET, BUILD_REQUEST_RECORD_NEXT_IDENT_OFFSET,
      BUILD_REQUEST_RECORD_LAYER_KEY_OFFSET, BUILD_REQUEST_RECORD_IV_KEY_OFFSET,
      BUILD_REQUEST_RECORD_REPLY_KEY_OFFSET, BUILD_REQUEST_RECORD_REPLY_IV_OFFSET,
      BUILD_REQUEST_RECORD_FLAG_OFFSET, BUILD_REQUEST_RECORD_REQUEST_TIME_OFFSET,
      BUILD_REQUEST_RECORD_SEND_MSG_ID_OFFSET, List.length_append, List.length_nil,
      List.length_singleton, fixed_length, htobe32buf_length]
  have hct : [] ++ htobe32buf h.tunnelID ++ fixed 32 h.router.identHash
      ++ htobe32buf h.nextTunnelID ++ fixed 32 nextRouter.identHash ++ fixed 32 h.layerKey
      ++ fixed 32 h.ivKey ++ fixed 32 h.replyKey ++ fixed 16 h.replyIV
      ++ [(if h.isGateway then 128 else 0) + (if h.isEndpoint then 64 else 0)]
      ++ htobe32buf hours ++ htobe32buf replyMsgID
      ++ List.replicate (222 - (htobe32buf h.tunnelID).length
          - (fixed 32 h.router.identHash).length - (htobe32buf h.nextTunnelID).length
          - (fixed 32 nextRouter.identHash).length - (fixed 32 h.layerKey).length
          - (fixed 32 h.ivKey).length - (fixed 32 h.replyKey).length
          - (fixed 16 h.replyIV).length
          - [(if h.isGateway then 128 else 0) + (if h.isEndpoint then 64 else 0)].length
          - (htobe32buf hours).length - (htobe32buf replyMsgID).length) 0
      = buildRequestClearText hours h nextRouter replyMsgID := by
    simp only [fixed_length, htobe32buf_length, List.length_singleton, List.nil_append]
    rfl
  rw [hct]
  unfold writeAt
  simp only [BUILD_REQUEST_RECORD_TO_PEER_OFFSET, BUILD_REQUEST_RECORD_ENCRYPTED_OFFSET,
    List.take_zero, List.nil_append, fixed_length, Nat.zero_add, Option.some.injEq]
  have hk : (List.take 16 record
      ++ fixed 512 (C.elGamalEncrypt h.router.encryptionPublicKey
          (buildRequestClearText hours h nextRouter replyMsgID) false)
      ++ List.drop (16 + 512) record)
      = List.take 16 record
        ++ fixed 512 (C.elGamalEncrypt h.router.encryptionPublicKey
          (buildRequestClearText hours h nextRouter replyMsgID) false) := by
    rw [List.drop_of_length_le (by rw [hrec]; decide), List.append_nil]
  rw [hk, drop_append_of_length 16 _ _ (by rw [List.length_take, hrec]; decide)]

theorem buildRequestClearText_length (hours : Nat) (h : TunnelHopConfig)
    (nextRouter : RouterInfo) (replyMsgID : Nat) :
    (buildRequestClearText hours h nextRouter replyMsgID).length = 222 := by
  simp only [buildRequestClearText, List.length_append, fixed_length, htobe32buf_length,
    List.length_singleton, List.length_replicate]

theorem buildRequestClearText_fields (hours : Nat) (h : TunnelHopConfig)
    (nextRouter : RouterInfo) (replyMsgID : Nat) :
    bufbe32toh ((buildRequestClearText hours h nextRouter replyMsgID).drop
      BUILD_REQUEST_RECORD_RECEIVE_TUNNEL_OFFSET) = h.tunnelID % 4294967296 ∧
    ((buildRequestClearText hours h nextRouter replyMsgID).drop
      BUILD_REQUEST_RECORD_OUR_IDENT_OFFSET).take 32 = fixed 32 h.router.identHash ∧
    bufbe32toh ((buildRequestClearText hours h nextRouter replyMsgID).drop
      BUILD_REQUEST_RECORD_NEXT_TUNNEL_OFFSET) = h.nextTunnelID % 4294967296 ∧
    ((buildRequestClearText hours h nextRouter replyMsgID).drop
      BUILD_REQUEST_RECORD_NEXT_IDENT_OFFSET).take 32 = fixed 32 nextRouter.identHash ∧
    ((buildRequestClearText hours h nextRouter replyMsgID).drop
      BUILD_REQUEST_RECORD_LAYER_KEY_OFFSET).take 32 = fixed 32 h.layerKey ∧
    ((buildRequestClearText hours h nextRouter replyMsgID).drop
      BUILD_REQUEST_RECORD_IV_KEY_OFFSET).take 32 = fixed 32 h.ivKey ∧
    ((buildRequestClearText hours h nextRouter replyMsgID).drop
      BUILD_REQUEST_RECORD_REPLY_KEY_OFFSET).take 32 = fixed 32 h.replyKey ∧
    ((buildRequestClearText hours h nextRouter replyMsgID).drop
      BUILD_REQUEST_RECORD_REPLY_IV_OFFSET).take 16 = fixed 16 h.replyIV ∧
    (buildRequestClearText hours h nextRouter replyMsgID).getD
      BUILD_REQUEST_RECORD_FLAG_OFFSET 0
      = (if h.isGateway then 128 else 0) + (if h.isEndpoint then 64 else 0) ∧
    bufbe32toh ((buildRequestClearText hours h nextRouter replyMsgID).drop
      BUILD_REQUEST_RECORD_REQUEST_TIME_OFFSET) = hours % 4294967296 ∧
    bufbe32toh ((buildRequestClearText hours h nextRouter replyMsgID).drop
      BUILD_REQUEST_RECORD_SEND_MSG_ID_OFFSET) = replyMsgID % 4294967296 := by
  refine ⟨?_, ?_, ?_, ?_, ?_, ?_, ?_, ?_, ?_, ?_, ?_⟩
  · simp only [buildRequestClearText, BUILD_REQUEST_RECORD_RECEIVE_TUNNEL_OFFSET, List.drop_zero,
      List.append_assoc]
    exact bufbe32toh_htobe32buf _ _
  · simp only [buildRequestClearText, List.append_assoc]
    rw [← List.append_assoc (htobe32buf h.tunnelID)]
    exact slice_mid _ _ _ _ _ rfl (fixed_length _ _)
  · simp only [buildRequestClearText, List.append_assoc]
    rw [← List.append_assoc (htobe32buf h.tunnelID),
      drop_append_of_length BUILD_REQUEST_RECORD_NEXT_TUNNEL_OFFSET _ _
        (by simp only [List.length_append, fixed_length, htobe32buf_length]; rfl)]
    exact bufbe32toh_htobe32buf _ _
  · have e : buildRequestClearText hours h nextRouter replyMsgID
        = (htobe32buf h.tunnelID ++ fixed 32 h.router.identHash ++ htobe32buf h.nextTunnelID)
          ++ fixed 32 nextRouter.identHash
          ++ (fixed 32 h.layerKey ++ fixed 32 h.ivKey ++ fixed 32 h.replyKey
            ++ fixed 16 h.replyIV
            ++ [(if h.isGateway then 128 else 0) + (if h.isEndpoint then 64 else 0)]
            ++ htobe32buf hours ++ htobe32buf replyMsgID ++ List.replicate 29 0) := by
      simp only [buildRequestClearText, List.append_assoc]
    rw [e]
    exact slice_mid _ _ _ _ _
      (by simp only [List.length_append, fixed_length, htobe32buf_length]; rfl)
      (fixed_length _ _)
  · have e : buildRequestClearText hours h nextRouter replyMsgID
        = (htobe32buf h.tunnelID ++ fixed 32 h.router.identHash ++ htobe32buf h.nextTunnelID
            ++ fixed 32 nextRouter.identHash)
          ++ fixed 32 h.layerKey
          ++ (fixed 32 h.ivKey ++ fixed 32 h.replyKey ++ fixed 16 h.replyIV
            ++ [(if h.isGateway then 128 else 0) + (if h.isEndpoint then 64 else 0)]
            ++ htobe32buf hours ++ htobe32buf replyMsgID ++ List.replicate 29 0) := by
      simp only [buildRequestClearText, List.append_assoc]
    rw [e]
    exact slice_mid _ _ _ _ _
      (by simp only [List.length_append, fixed_length, htobe32buf_length]; rfl)
      (fixed_length _ _)
  · have e : buildRequestClearText hours h nextRouter replyMsgID
        = (htobe32buf h.tunnelID ++ fixed 32 h.router.identHash ++ htobe32buf h.nextTunnelID
            ++ fixed 32 nextRouter.identHash ++ fixed 32 h.layerKey)
          ++ fixed 32 h.ivKey
          ++ (fixed 32 h.replyKey ++ fixed 16 h.replyIV
            ++ [(if h.isGateway then 128 else 0) + (if h.isEndpoint then 64 else 0)]
            ++ htobe32buf hours ++ htobe32buf replyMsgID ++ List.replicate 29 0) := by
      simp only [buildRequestClearText, List.append_assoc]
    rw [e]
    exact slice_mid _ _ _ _ _
      (by simp only [List.length_append, fixed_length, htobe32buf_length]; rfl)
      (fixed_length _ _)
  · have e : buildRequestClearText hours h nextRouter replyMsgID
        = (htobe32buf h.tunnelID ++ fixed 32 h.router.identHash ++ htobe32buf h.nextTunnelID
            ++ fixed 32 nextRouter.identHash ++ fixed 32 h.layerKey ++ fixed 32 h.ivKey)
          ++ fixed 32 h.replyKey
          ++ (fixed 16 h.replyIV
            ++ [(if h.isGateway then 128 else 0) + (if h.isEndpoint then 64 else 0)]
            ++ htobe32buf hours ++ htobe32buf replyMsgID ++ List.replicate 29 0) := by
      simp only [buildRequestClearText, List.append_assoc]
    rw [e]
    exact slice_mid _ _ _ _ _
      (by simp only [List.length_append, fixed_length, htobe32buf_length]; rfl)
      (fixed_length _ _)
  · have e : buildRequestClearText hours h nextRouter replyMsgID
        = (htobe32buf h.tunnelID ++ fixed 32 h.router.identHash ++ htobe32buf h.nextTunnelID
            ++ fixed 32 nextRouter.identHash ++ fixed 32 h.layerKey ++ fixed 32 h.ivKey
            ++ fixed 32 h.replyKey)
          ++ fixed 16 h.replyIV
          ++ ([(if h.isGateway then 128 else 0) + (if h.isEndpoint then 64 else 0)]
            ++ htobe32buf hours ++ htobe32buf replyMsgID ++ List.replicate 29 0) := by
      simp only [buildRequestClearText, List.append_assoc]
    rw [e]
    exact slice_mid _ _ _ _ _
      (by simp only [List.length_append, fixed_length, htobe32buf_length]; rfl)
      (fixed_length _ _)
  · have e : buildRequestClearText hours h nextRouter replyMsgID
        = (htobe32buf h.tunnelID ++ fixed 32 h.router.identHash ++ htobe32buf h.nextTunnelID
            ++ fixed 32 nextRouter.identHash ++ fixed 32 h.layerKey ++ fixed 32 h.ivKey
            ++ fixed 32 h.replyKey ++ fixed 16 h.replyIV)
          ++ ([(if h.isGateway then 128 else 0) + (if h.isEndpoint then 64 else 0)]
            ++ htobe32buf hours ++ htobe32buf replyMsgID ++ List.replicate 29 0) := by
      simp only [buildRequestClearText, List.append_assoc]
    have la : (htobe32buf h.tunnelID ++ fixed 32 h.router.identHash
        ++ htobe32buf h.nextTunnelID ++ fixed 32 nextRouter.identHash ++ fixed 32 h.layerKey
        ++ fixed 32 h.ivKey ++ fixed 32 h.replyKey ++ fixed 16 h.replyIV).length
        = BUILD_REQUEST_RECORD_FLAG_OFFSET := by
      simp only [List.length_append, fixed_length, htobe32buf_length]
      rfl
    rw [e, ← la, getD_length_append]
    rfl
  · have e : buildRequestClearText hours h nextRouter replyMsgID
        = (htobe32buf h.tunnelID ++ fixed 32 h.router.identHash ++ htobe32buf h.nextTunnelID
            ++ fixed 32 nextRouter.identHash ++ fixed 32 h.layerKey ++ fixed 32 h.ivKey
            ++ fixed 32 h.replyKey ++ fixed 16 h.replyIV
            ++ [(if h.isGateway then 128 else 0) + (if h.isEndpoint then 64 else 0)])
          ++ (htobe32buf hours ++ (htobe32buf replyMsgID ++ List.replicate 29 0)) := by
      simp only [buildRequestClearText, List.append_assoc]
    rw [e, drop_append_of_length BUILD_REQUEST_RECORD_REQUEST_TIME_OFFSET _ _
      (by simp only [List.length_append, fixed_length, htobe32buf_length,
        List.length_singleton]; rfl)]
    exact bufbe32toh_htobe32buf _ _
  · have e : buildRequestClearText hours h nextRouter replyMsgID
        = (htobe32buf h.tunnelID ++ fixed 32 h.router.identHash ++ htobe32buf h.nextTunnelID
            ++ fixed 32 nextRouter.identHash ++ fixed 32 h.layerKey ++ fixed 32 h.ivKey
            ++ fixed 32 h.replyKey ++ fixed 16 h.replyIV
            ++ [(if h.isGateway then 128 else 0) + (if h.isEndpoint then 64 else 0)]
            ++ htobe32buf hours)
          ++ (htobe32buf replyMsgID ++ List.replicate 29 0) := by
      simp only [buildRequestClearText, List.append_assoc]
    rw [e, drop_append_of_length BUILD_REQUEST_RECORD_SEND_MSG_ID_OFFSET _ _
      (by simp only [List.length_append, fixed_length, htobe32buf_length,
        List.length_singleton]; rfl)]
    exact bufbe32toh_htobe32buf _ _

theorem HandleBuildRequestRecords_router (P : Params) (C : Crypto) (router : RouterState)
    (num : Nat) (records clearText : List Nat) (i : Nat)
    (hfind : findOurRecord records router.identHash num 0 = some i)
    (hacc : acceptTransitTunnel P router = true) :
    (HandleBuildRequestRecords P C router num records clearText).router.transitTunnels
      = router.transitTunnels
        ++ [transitTunnelOf (HandleBuildRequestRecords P C router num records
          clearText).clearText] := by
  simp only [HandleBuildRequestRecords, hfind, hacc, if_true]

/-- Claim C37: the 528-byte record written by `CreateBuildRequestRecord (record, replyMsgID)`
of a hop h has as toPeer the first 16 bytes of the identity hash of the router of h, so that
`HandleBuildRequestRecords` run by that router finds it; and, ElGamal decryption inverting
encryption, the 222 bytes of clear text it recovers give receiveTunnelID = h.tunnelID,
nextTunnelID = h.nextTunnelID, the identity hash of h.nextRouter as next ident, the layerKey,
ivKey, replyKey and replyIV of h, sendMsgID = replyMsgID, and a flag with bit 7 set exactly
when h.isGateway, bit 6 set exactly when h.isEndpoint and the other bits zero. -/
theorem build_record_round_trip (P : Params) (C : Crypto) (hours : Nat) (h : TunnelHopConfig)
    (nextRouter : RouterInfo) (record0 : List Nat) (replyMsgID : Nat) (router : RouterState)
    (hnext : h.nextRouter = some nextRouter)
    (hrec0 : record0.length = TUNNEL_BUILD_RECORD_SIZE)
    (hident : h.router.identHash.length = 32)
    (hrouter : router.identHash = h.router.identHash)
    (hdec : ∀ ct : List Nat, ct.length = BUILD_REQUEST_RECORD_CLEAR_TEXT_SIZE →
      C.elGamalDecrypt router.encryptionPrivateKey
        (fixed 512 (C.elGamalEncrypt h.router.encryptionPublicKey ct false)) false = some ct)
    (htid : h.tunnelID < 2 ^ 32) (hntid : h.nextTunnelID < 2 ^ 32)
    (hmsg : replyMsgID < 2 ^ 32) :
    ∃ record, h.CreateBuildRequestRecord C hours record0 replyMsgID = some record ∧
      record.length = TUNNEL_BUILD_RECORD_SIZE ∧
      record.take 16 = h.router.identHash.take 16 ∧
      ∀ (num i : Nat) (pre post clearText0 : List Nat),
        pre.length = i * TUNNEL_BUILD_RECORD_SIZE → i < num →
        (∀ j, j < i → ¬ isOurRecord (pre ++ record ++ post) router.identHash j) →
        isOurRecord (pre ++ record ++ post) router.identHash i ∧
        (HandleBuildRequestRecords P C router num (pre ++ record ++ post) clearText0).found
          = true ∧
        ∃ ct, (HandleBuildRequestRecords P C router num (pre ++ record ++ post)
            clearText0).clearText = ct ∧
          ct.length = BUILD_REQUEST_RECORD_CLEAR_TEXT_SIZE ∧
          (transitTunnelOf ct).receiveTunnelID = h.tunnelID ∧
          (transitTunnelOf ct).nextTunnelID = h.nextTunnelID ∧
          (transitTunnelOf ct).nextIdent = fixed 32 nextRouter.identHash ∧
          (transitTunnelOf ct).layerKey = fixed 32 h.layerKey ∧
          (transitTunnelOf ct).ivKey = fixed 32 h.ivKey ∧
          (ct.drop BUILD_REQUEST_RECORD_REPLY_KEY_OFFSET).take 32 = fixed 32 h.replyKey ∧
          (ct.drop BUILD_REQUEST_RECORD_REPLY_IV_OFFSET).take 16 = fixed 16 h.replyIV ∧
          bufbe32toh (ct.drop BUILD_REQUEST_RECORD_SEND_MSG_ID_OFFSET) = replyMsgID ∧
          (transitTunnelOf ct).isGateway = h.isGateway ∧
          (transitTunnelOf ct).isEndpoint = h.isEndpoint ∧
          (ct.getD BUILD_REQUEST_RECORD_FLAG_OFFSET 0 &&& 0x80 ≠ 0 ↔ h.isGateway = true) ∧
          (ct.getD BUILD_REQUEST_RECORD_FLAG_OFFSET 0 &&& 0x40 ≠ 0 ↔ h.isEndpoint = true) ∧
          ct.getD BUILD_REQUEST_RECORD_FLAG_OFFSET 0 &&& 0x3F = 0 ∧
          ct.getD BUILD_REQUEST_RECORD_FLAG_OFFSET 0 < 256 ∧
          (acceptTransitTunnel P router = true →
            (HandleBuildRequestRecords P C router num (pre ++ record ++ post)
              clearText0).router.transitTunnels
              = router.transitTunnels ++ [transitTunnelOf ct]) := by
  have hrec := CreateBuildRequestRecord_eq C hours h nextRouter record0 replyMsgID hnext hrec0
  have hT : fixed 16 h.router.identHash = h.router.identHash.take 16 := by
    unfold fixed
    rw [hident]
    exact List.append_nil _
  have hTlen : (fixed 16 h.router.identHash).length = 16 := fixed_length _ _
  have hctlen := buildRequestClearText_length hours h nextRouter replyMsgID
  obtain ⟨f1, _, f3, f4, f5, f6, f7, f8, f9, _, f11⟩ :=
    buildRequestClearText_fields hours h nextRouter replyMsgID
  refine ⟨_, hrec, ?_, ?_, ?_⟩
  · simp only [List.length_append, fixed_length, TUNNEL_BUILD_RECORD_SIZE]
  · rw [List.take_left' hTlen, hT]
  · intro num i pre post clearText0 hpre hi hfirst
    have hdrop : (pre ++ (fixed 16 h.router.identHash
        ++ fixed 512 (C.elGamalEncrypt h.router.encryptionPublicKey
          (buildRequestClearText hours h nextRouter replyMsgID) false)) ++ post).drop
          (i * TUNNEL_BUILD_RECORD_SIZE)
        = fixed 16 h.router.identHash
          ++ fixed 512 (C.elGamalEncrypt h.router.encryptionPublicKey
            (buildRequestClearText hours h nextRouter replyMsgID) false) ++ post := by
      rw [List.append_assoc]
      exact drop_append_of_length _ _ _ hpre
    have hours1 : isOurRecord (pre ++ (fixed 16 h.router.identHash
        ++ fixed 512 (C.elGamalEncrypt h.router.encryptionPublicKey
          (buildRequestClearText hours h nextRouter replyMsgID) false)) ++ post)
        router.identHash i := by
      unfold isOurRecord
      rw [hdrop, hrouter, ← hT]
      simp only [BUILD_REQUEST_RECORD_TO_PEER_OFFSET, List.drop_zero, List.append_assoc]
      exact List.take_left' hTlen
    have hfind := findOurRecord_first _ router.identHash num 0 i (Nat.zero_le _) (by omega)
      hours1 (fun j _ hj => hfirst j hj)
    obtain ⟨hfound, hclear, _⟩ :=
      HandleBuildRequestRecords_of_find P C router num _ clearText0 i hfind
    have hct : (HandleBuildRequestRecords P C router num (pre ++ (fixed 16 h.router.identHash
        ++ fixed 512 (C.elGamalEncrypt h.router.encryptionPublicKey
          (buildRequestClearText hours h nextRouter replyMsgID) false)) ++ post)
        clearText0).clearText = buildRequestClearText hours h nextRouter replyMsgID := by
      rw [hclear, hdrop, slice_mid _ _ _ BUILD_REQUEST_RECORD_ENCRYPTED_OFFSET 512 hTlen
        (fixed_length _ _), hdec _ hctlen]
      rfl
    have hflagval : ∀ g e : Bool,
        (((if g = true then 128 else 0) + (if e = true then 64 else 0) : Nat) &&& 0x80 ≠ 0
          ↔ g = true) ∧
        (((if g = true then 128 else 0) + (if e = true then 64 else 0) : Nat) &&& 0x40 ≠ 0
          ↔ e = true) ∧
        ((if g = true then 128 else 0) + (if e = true then 64 else 0) : Nat) &&& 0x3F = 0 ∧
        ((if g = true then 128 else 0) + (if e = true then 64 else 0) : Nat) < 256 := by
      intro g e
      cases g <;> cases e <;> decide
    obtain ⟨hg1, hg2, hg3, hg4⟩ := hflagval h.isGateway h.isEndpoint
    refine ⟨hours1, hfound, _, hct, hctlen, ?_, ?_, f4, f5, f6, f7, f8, ?_, ?_, ?_, ?_, ?_, ?_,
      ?_, ?_⟩
    · show bufbe32toh _ = _
      rw [f1]
      exact Nat.mod_eq_of_lt htid
    · show bufbe32toh _ = _
      rw [f3]
      exact Nat.mod_eq_of_lt hntid
    · rw [f11]
      exact Nat.mod_eq_of_lt hmsg
    · show decide (_ &&& 0x80 ≠ 0) = _
      rw [f9]
      cases hG : h.isGateway <;> cases hE : h.isEndpoint <;> rfl
    · show decide (_ &&& 0x40 ≠ 0) = _
      rw [f9]
      cases hG : h.isGateway <;> cases hE : h.isEndpoint <;> rfl
    · rw [f9]
      exact hg1
    · rw [f9]
      exact hg2
    · rw [f9]
      exact hg3
    · rw [f9]
      exact hg4
    · intro hacc
      have hr := HandleBuildRequestRecords_router P C router num _ clearText0 i hfind hacc
      rw [hct] at hr
      exact hr

theorem exampleCrypto_elGamal (pub priv ct : List Nat)
    (h : ct.length = BUILD_REQUEST_RECORD_CLEAR_TEXT_SIZE) :
    exampleCrypto.elGamalDecrypt priv (fixed 512 (exampleCrypto.elGamalEncrypt pub ct false))
      false = some ct := by
  show some ((fixed 512 ct).take 222) = some ct
  unfold fixed
  have h1 : (ct.take 512).length = 222 := by
    rw [List.length_take, h]
    rfl
  rw [List.take_left' h1, List.take_of_length_le (by rw [h]; decide)]

theorem build_record_round_trip_witness :
    ∃ record, exampleHop.CreateBuildRequestRecord exampleCrypto 400000
        (List.replicate 528 0) 9 = some record ∧
      (HandleBuildRequestRecords exampleParams exampleCrypto exampleRouterClosed 1 record
        []).found = true ∧
      (transitTunnelOf (HandleBuildRequestRecords exampleParams exampleCrypto
        exampleRouterClosed 1 record []).clearText).receiveTunnelID = 500 ∧
      (transitTunnelOf (HandleBuildRequestRecords exampleParams exampleCrypto
        exampleRouterClosed 1 record []).clearText).isGateway = true := by
  obtain ⟨record, hrec, _, _, hall⟩ := build_record_round_trip exampleParams exampleCrypto
    400000 exampleHop (exampleRouterInfo 7) (List.replicate 528 0) 9 exampleRouterClosed rfl
    (List.length_replicate _ _) (List.length_replicate _ _) rfl (exampleCrypto_elGamal _ _)
    (by decide) (by decide) (by decide)
  obtain ⟨_, hfound, ct, hct, _, h1, _, _, _, _, _, _, _, h2, _⟩ :=
    hall 1 0 [] [] [] rfl (by decide) (fun j hj => absurd hj (Nat.not_lt_zero j))
  simp only [List.nil_append, List.append_nil] at hfound hct
  refine ⟨record, hrec, hfound, ?_, ?_⟩
  · rw [hct]
    exact h1
  · rw [hct]
    exact h2

/-! ## Tunnel configuration: walks over the chain -/

theorem sameLinks_updateHop (hops : List TunnelHopConfig) (i : Nat)
    (f : TunnelHopConfig → TunnelHopConfig)
    (hf : ∀ h, (f h).router = h.router ∧ (f h).tunnelID = h.tunnelID ∧ (f h).next = h.next ∧
      (f h).prev = h.prev)
    (hn : i + 1 < hops.length →
      ∀ h, (f h).nextRouter = h.nextRouter ∧ (f h).nextTunnelID = h.nextTunnelID) :
    SameLinks hops (updateHop hops i f) := by
  refine ⟨length_updateHop _ _ _, ?_⟩
  intro j h hj
  rw [getElem?_updateHop] at hj
  by_cases hij : i = j
  · rw [if_pos hij] at hj
    cases h0 : hops[j]? with
    | none => rw [h0] at hj; cases hj
    | some h0v =>
      rw [h0] at hj
      simp only [Option.map_some', Option.some.injEq] at hj
      subst hj
      obtain ⟨a, b, c, d⟩ := hf h0v
      exact ⟨h0v, rfl, a, b, c, d, fun hlt => hn (by omega) h0v⟩
  · rw [if_neg hij] at hj
    exact ⟨h, hj, rfl, rfl, rfl, rfl, fun _ => ⟨rfl, rfl⟩⟩

theorem sameLinks_trans (a b c : List TunnelHopConfig) (h1 : SameLinks a b)
    (h2 : SameLinks b c) : SameLinks a c := by
  refine ⟨h2.1.trans h1.1, ?_⟩
  intro j h hj
  obtain ⟨hb, hbj, r1, t1, n1, p1, x1⟩ := h2.2 j h hj
  obtain ⟨ha, haj, r2, t2, n2, p2, x2⟩ := h1.2 j hb hbj
  refine ⟨ha, haj, r1.trans r2, t1.trans t2, n1.trans n2, p1.trans p2, fun hlt => ?_⟩
  have hx1 := x1 (by rw [h1.1]; exact hlt)
  have hx2 := x2 hlt
  exact ⟨hx1.1.trans hx2.1, hx1.2.trans hx2.2⟩

theorem linked_of_chain (ps : List RouterInfo) (c0 : TunnelConfig)
    (hops1 : List TunnelHopConfig) (f l : Option Nat) (hne : ps ≠ []) (hc : HopChain ps c0)
    (hs : SameLinks c0.hops hops1) (hf : f = c0.m_FirstHop) (hl : l = c0.m_LastHop) :
    Linked ps (TunnelConfig.mk hops1 f l) := by
  have hpos : ps.length ≠ 0 := fun h => hne (List.length_eq_zero.mp h)
  have hfirst := hc.first
  have hlast := hc.last
  rw [if_neg hpos] at hfirst hlast
  subst hf hl
  refine ⟨hs.1.trans hc.length, hfirst, hlast, ?_⟩
  intro j h hj
  obtain ⟨h0, h0j, r, _, n, p, x⟩ := hs.2 j h hj
  have hk := hc.hop j h0 h0j
  refine ⟨by rw [r]; exact hk.1, by rw [n]; exact hk.2.2.2.1, by rw [p]; exact hk.2.2.2.2.1, ?_⟩
  intro nx hnx
  obtain ⟨n0, n0j, rn, tn, _⟩ := hs.2 (j + 1) nx hnx
  have hlt : j + 1 < c0.hops.length := by
    by_contra hcon
    rw [List.getElem?_eq_none (by omega)] at n0j
    cases n0j
  obtain ⟨x1, x2⟩ := x hlt
  obtain ⟨y1, y2⟩ := hk.2.2.2.2.2 n0 n0j
  exact ⟨by rw [x1, y1, rn], by rw [x2, y2, tn]⟩

theorem Linked.getFirstHop (ps : List RouterInfo) (c : TunnelConfig) (hne : ps ≠ [])
    (hl : Linked ps c) : ∃ fh, c.GetFirstHop = some fh ∧ c.hops[0]? = some fh := by
  have hpos : 0 < c.hops.length := by
    rw [hl.length]
    exact List.length_pos.mpr hne
  refine ⟨c.hops[0], ?_, List.getElem?_eq_getElem hpos⟩
  unfold TunnelConfig.GetFirstHop
  rw [hl.first]
  exact List.getElem?_eq_getElem hpos

theorem create_linked (rnd : List Nat) (sharedRouterInfo : RouterInfo)
    (ps : List RouterInfo) (reply : Option TunnelConfig) (hne : ps ≠ [])
    (hreply : ∀ r, reply = some r → r.GetFirstHop ≠ none) :
    ∃ c rnd1, TunnelConfig.create rnd sharedRouterInfo ps reply = some (c, rnd1) ∧
      Linked ps c ∧ c.IsInbound = some reply.isNone := by
  have hc := addHops_of_peers rnd ps
  have hpos : ps.length ≠ 0 := fun h => hne (List.length_eq_zero.mp h)
  have hfirst := hc.first
  have hlast := hc.last
  rw [if_neg hpos] at hfirst hlast
  cases reply with
  | none =>
    obtain ⟨c, rnd1, hcreate, _, hf, _, hhop⟩ := create_inbound rnd sharedRouterInfo ps hne
    refine ⟨c, rnd1, hcreate, ?_, ?_⟩
    · obtain ⟨hl, hhl⟩ : ∃ hl, (TunnelConfig.addHops ps rnd
          (TunnelConfig.mk [] none none)).1.hops[ps.length - 1]? = some hl := by
        have hlt : ps.length - 1 < (TunnelConfig.addHops ps rnd
            (TunnelConfig.mk [] none none)).1.hops.length := by
          rw [hc.length]
          omega
        exact ⟨_, List.getElem?_eq_getElem hlt⟩
      have hset : ∀ rr, (TunnelConfig.addHops ps rnd (TunnelConfig.mk [] none none)).1.hops.set
          (ps.length - 1) (hl.SetNextRouter rr sharedRouterInfo).1
          = updateHop (TunnelConfig.addHops ps rnd (TunnelConfig.mk [] none none)).1.hops
              (ps.length - 1) (fun h => (h.SetNextRouter rr sharedRouterInfo).1) := by
        intro rr
        simp only [updateHop, hhl]
      unfold TunnelConfig.create at hcreate
      simp only [hlast, hhl, hset, Option.some.injEq, Prod.mk.injEq] at hcreate
      rw [← hcreate.1]
      have hs : SameLinks (TunnelConfig.addHops ps rnd (TunnelConfig.mk [] none none)).1.hops
          (updateHop (TunnelConfig.addHops ps rnd (TunnelConfig.mk [] none none)).1.hops
            (ps.length - 1) (fun h => (h.SetNextRouter
              (TunnelConfig.addHops ps rnd (TunnelConfig.mk [] none none)).2
              sharedRouterInfo).1)) := by
        refine sameLinks_updateHop _ _ _ (fun h => ⟨rfl, rfl, rfl, rfl⟩) (fun hlt => ?_)
        rw [hc.length] at hlt
        omega
      exact linked_of_chain ps _ _ _ _ hne hc hs rfl hlast.symm
    · have hlen : 0 < c.hops.length := by omega
      have hget : c.hops[0]? = some c.hops[0] := List.getElem?_eq_getElem hlen
      have hgw := (hhop 0 _ hget).2.1
      unfold TunnelConfig.IsInbound TunnelConfig.GetFirstHop
      rw [hf]
      show Option.map _ (c.hops[0]?) = _
      rw [hget, Option.map_some', hgw]
      rfl
  | some r =>
    obtain ⟨fh, hfh⟩ : ∃ fh, r.GetFirstHop = some fh := by
      cases hr : r.GetFirstHop with
      | none => exact absurd hr (hreply r rfl)
      | some fh => exact ⟨fh, rfl⟩
    obtain ⟨c, rnd1, hcreate, _, hf, _, hhop⟩ :=
      create_outbound rnd sharedRouterInfo ps r fh hne hfh
    refine ⟨c, rnd1, hcreate, ?_, ?_⟩
    · unfold TunnelConfig.create at hcreate
      simp only [hfirst, hlast, hfh, Option.some.injEq, Prod.mk.injEq] at hcreate
      rw [← hcreate.1]
      have hs1 : SameLinks (TunnelConfig.addHops ps rnd (TunnelConfig.mk [] none none)).1.hops
          (updateHop (TunnelConfig.addHops ps rnd (TunnelConfig.mk [] none none)).1.hops 0
            (fun h => { h with isGateway := false })) :=
        sameLinks_updateHop _ _ _ (fun h => ⟨rfl, rfl, rfl, rfl⟩) (fun _ h => ⟨rfl, rfl⟩)
      have hs2 : SameLinks
          (updateHop (TunnelConfig.addHops ps rnd (TunnelConfig.mk [] none none)).1.hops 0
            (fun h => { h with isGateway := false }))
          (updateHop
            (updateHop (TunnelConfig.addHops ps rnd (TunnelConfig.mk [] none none)).1.hops 0
              (fun h => { h with isGateway := false }))
            (ps.length - 1) (fun h => h.SetReplyHop fh)) := by
        refine sameLinks_updateHop _ _ _ (fun h => ⟨rfl, rfl, rfl, rfl⟩) (fun hlt => ?_)
        rw [length_updateHop, hc.length] at hlt
        omega
      exact linked_of_chain ps _ _ _ _ hne hc (sameLinks_trans _ _ _ hs1 hs2) hfirst.symm
        hlast.symm
    · have hlen : 0 < c.hops.length := by omega
      have hget : c.hops[0]? = some c.hops[0] := List.getElem?_eq_getElem hlen
      have hgw := (hhop 0 _ hget).2.1
      unfold TunnelConfig.IsInbound TunnelConfig.GetFirstHop
      rw [hf]
      show Option.map _ (c.hops[0]?) = _
      rw [hget, Option.map_some', hgw]
      rfl

theorem Linked.getElem (ps : List RouterInfo) (c : TunnelConfig) (hl : Linked ps c) (k : Nat)
    (hk : k < ps.length) :
    ∃ h, c.hops[k]? = some h ∧ h.router = ps.get ⟨k, hk⟩ ∧
      h.next = (if k + 1 < ps.length then some (k + 1) else none) := by
  have hlt : k < c.hops.length := by rw [hl.length]; exact hk
  refine ⟨c.hops[k], List.getElem?_eq_getElem hlt, ?_, ?_⟩
  · have h1 := (hl.hop k _ (List.getElem?_eq_getElem hlt)).1
    rw [List.getElem?_eq_getElem hk] at h1
    exact Option.some.inj h1
  · exact (hl.hop k _ (List.getElem?_eq_getElem hlt)).2.1

theorem peersFrom_none (c : TunnelConfig) (fuel : Nat) (acc : List RouterInfo) :
    c.peersFrom fuel none acc = some acc := by
  cases fuel <;> rfl

theorem numHopsFrom_none (c : TunnelConfig) (fuel num : Nat) :
    c.numHopsFrom fuel none num = some num := by
  cases fuel <;> rfl

theorem peersFrom_linked (ps : List RouterInfo) (c : TunnelConfig) (hl : Linked ps c) :
    ∀ (m k fuel : Nat) (acc : List RouterInfo), k + m = ps.length → m ≤ fuel →
      c.peersFrom fuel (if k < ps.length then some k else none) acc
        = some (acc ++ ps.drop k) := by
  intro m
  induction m with
  | zero =>
    intro k fuel acc hk _
    rw [if_neg (by omega), peersFrom_none, List.drop_of_length_le (by omega), List.append_nil]
  | succ m ih =>
    intro k fuel acc hk hfuel
    have hklt : k < ps.length := by omega
    obtain ⟨h, hh, hr, hn⟩ := Linked.getElem ps c hl k hklt
    obtain ⟨fuel1, rfl⟩ : ∃ f, fuel = f + 1 := ⟨fuel - 1, by omega⟩
    rw [if_pos hklt]
    unfold TunnelConfig.peersFrom
    simp only [hh]
    rw [hn, ih (k + 1) fuel1 _ (by omega) (by omega), hr]
    congr 1
    rw [List.append_assoc, List.singleton_append]
    congr 1
    exact (List.drop_eq_getElem_cons hklt).symm

theorem numHopsFrom_linked (ps : List RouterInfo) (c : TunnelConfig) (hl : Linked ps c) :
    ∀ (m k fuel num : Nat), k + m = ps.length → m ≤ fuel →
      c.numHopsFrom fuel (if k < ps.length then some k else none) num = some (num + m) := by
  intro m
  induction m with
  | zero =>
    intro k fuel num hk _
    rw [if_neg (by omega), numHopsFrom_none]
    rfl
  | succ m ih =>
    intro k fuel num hk hfuel
    have hklt : k < ps.length := by omega
    obtain ⟨h, hh, _, hn⟩ := Linked.getElem ps c hl k hklt
    obtain ⟨fuel1, rfl⟩ : ∃ f, fuel = f + 1 := ⟨fuel - 1, by omega⟩
    rw [if_pos hklt]
    unfold TunnelConfig.numHopsFrom
    simp only [hh]
    rw [hn, ih (k + 1) fuel1 _ (by omega) (by omega)]
    congr 1
    omega

theorem Linked.GetPeers (ps : List RouterInfo) (c : TunnelConfig) (hne : ps ≠ [])
    (hl : Linked ps c) (fuel : Nat) (hfuel : ps.length ≤ fuel) :
    c.GetPeers fuel = some ps ∧ c.GetNumHops fuel = some ps.length := by
  have hpos : 0 < ps.length := List.length_pos.mpr hne
  constructor
  · have h := peersFrom_linked ps c hl ps.length 0 fuel [] (by omega) hfuel
    rw [if_pos hpos] at h
    unfold TunnelConfig.GetPeers
    rw [hl.first, h]
    rfl
  · have h := numHopsFrom_linked ps c hl ps.length 0 fuel 0 (by omega) hfuel
    rw [if_pos hpos] at h
    unfold TunnelConfig.GetNumHops
    rw [hl.first, h, Nat.zero_add]

theorem walkNext_linked (ps : List RouterInfo) (c : TunnelConfig) (hl : Linked ps c) :
    ∀ (k j : Nat), j + k < ps.length → c.walkNext k (some j) = some (j + k) := by
  intro k
  induction k with
  | zero => intro j _; rfl
  | succ k ih =>
    intro j hj
    obtain ⟨h, hh, _, hn⟩ := Linked.getElem ps c hl j (by omega)
    unfold TunnelConfig.walkNext
    have hstep : c.stepNext (some j) = some (j + 1) := by
      show (c.hops[j]?).bind (fun h => h.next) = _
      rw [hh]
      show h.next = _
      rw [hn, if_pos (by omega)]
    rw [hstep, ih (j + 1) (by omega)]
    congr 1
    omega

/-- Claim C40: for a peer list ps that is not empty, the `TunnelConfig` built from ps, with
or without a reply config, has `GetPeers () = ps` in the same order and `GetNumHops () =
|ps|` (with fuel for |ps| turns of the loop). Walking `next` from the first hop reaches the
last hop after |ps| - 1 steps, where `next` is null, and every hop h with a successor has
h.next.prev = h, h.nextRouter = h.next.router and h.nextTunnelID = h.next.tunnelID. So
`Clone ()` keeps the peer list, and `Invert ()` gives a config of the opposite kind whose
peer list is the reverse of ps. -/
theorem hop_chain_structure (rnd : List Nat) (sharedRouterInfo : RouterInfo)
    (ps : List RouterInfo) (reply : Option TunnelConfig) (hne : ps ≠ [])
    (hreply : ∀ r, reply = some r → r.GetFirstHop ≠ none) :
    ∃ c rnd1, TunnelConfig.create rnd sharedRouterInfo ps reply = some (c, rnd1) ∧
      (∀ fuel, ps.length ≤ fuel →
        c.GetPeers fuel = some ps ∧ c.GetNumHops fuel = some ps.length) ∧
      (∀ k, k < ps.length → c.walkNext k c.m_FirstHop = some k) ∧
      c.walkNext (ps.length - 1) c.m_FirstHop = c.m_LastHop ∧
      c.m_LastHop ≠ none ∧ c.stepNext c.m_LastHop = none ∧
      (∀ (j : Nat) (h : TunnelHopConfig) (n : Nat), c.hops[j]? = some h → h.next = some n →
        ∃ hn, c.hops[n]? = some hn ∧ hn.prev = some j ∧
          h.nextRouter = some hn.router ∧ h.nextTunnelID = hn.tunnelID) ∧
      c.IsInbound = some reply.isNone ∧
      (∀ fuel rnd2 reply2, ps.length ≤ fuel → (∀ r, reply2 = some r → r.GetFirstHop ≠ none) →
        ∃ c2 rnd3, c.Clone fuel rnd2 sharedRouterInfo reply2 = some (c2, rnd3) ∧
          ∀ fuel2, ps.length ≤ fuel2 → c2.GetPeers fuel2 = some ps) ∧
      (∀ fuel rnd2, ps.length ≤ fuel →
        ∃ c3 rnd3, c.Invert fuel rnd2 sharedRouterInfo = some (c3, rnd3) ∧
          c3.IsInbound = some (!reply.isNone) ∧
          ∀ fuel2, ps.length ≤ fuel2 → c3.GetPeers fuel2 = some ps.reverse) := by
  obtain ⟨c, rnd1, hcreate, hl, hin⟩ := create_linked rnd sharedRouterInfo ps reply hne hreply
  have hpos : 0 < ps.length := List.length_pos.mpr hne
  have hwalk : ∀ k, k < ps.length → c.walkNext k c.m_FirstHop = some k := by
    intro k hk
    rw [hl.first, walkNext_linked ps c hl k 0 (by omega), Nat.zero_add]
  obtain ⟨fh, hfh, _⟩ := Linked.getFirstHop ps c hne hl
  refine ⟨c, rnd1, hcreate, fun fuel hf => Linked.GetPeers ps c hne hl fuel hf, hwalk, ?_, ?_, ?_,
    ?_, hin, ?_, ?_⟩
  · rw [hwalk _ (by omega), hl.last]
  · rw [hl.last]
    exact fun hc => by cases hc
  · obtain ⟨h, hh, _, hn⟩ := Linked.getElem ps c hl (ps.length - 1) (by omega)
    rw [hl.last]
    show (c.hops[ps.length - 1]?).bind (fun h => h.next) = _
    rw [hh]
    show h.next = _
    rw [hn, if_neg (by omega)]
  · intro j h n hj hnext
    obtain ⟨_, hn, _, hnr⟩ := hl.hop j h hj
    rw [hn] at hnext
    have hlt : j + 1 < ps.length := by
      by_contra hcon
      rw [if_neg hcon] at hnext
      cases hnext
    rw [if_pos hlt] at hnext
    cases hnext
    have hlt2 : j + 1 < c.hops.length := by rw [hl.length]; exact hlt
    have hget : c.hops[j + 1]? = some c.hops[j + 1] := List.getElem?_eq_getElem hlt2
    obtain ⟨_, _, hp, _⟩ := hl.hop (j + 1) _ hget
    refine ⟨_, hget, ?_, hnr _ hget⟩
    rw [hp, if_pos (by omega)]
    rfl
  · intro fuel rnd2 reply2 hfuel hreply2
    obtain ⟨c2, rnd3, hc2, hl2, _⟩ :=
      create_linked rnd2 sharedRouterInfo ps reply2 hne hreply2
    refine ⟨c2, rnd3, ?_, fun fuel2 hf2 => (Linked.GetPeers ps c2 hne hl2 fuel2 hf2).1⟩
    unfold TunnelConfig.Clone
    rw [(Linked.GetPeers ps c hne hl fuel hfuel).1]
    exact hc2
  · intro fuel rnd2 hfuel
    have hrne : ps.reverse ≠ [] := fun h => hne (List.reverse_eq_nil_iff.mp h)
    have hrlen : ps.reverse.length = ps.length := List.length_reverse _
    cases reply with
    | none =>
      obtain ⟨c3, rnd3, hc3, hl3, hin3⟩ :=
        create_linked rnd2 sharedRouterInfo ps.reverse (some c) hrne
          (by intro r hr; cases hr; rw [hfh]; exact fun hc => by cases hc)
      refine ⟨c3, rnd3, ?_, hin3, fun fuel2 hf2 =>
        (Linked.GetPeers ps.reverse c3 hrne hl3 fuel2 (by rw [hrlen]; exact hf2)).1⟩
      unfold TunnelConfig.Invert
      rw [(Linked.GetPeers ps c hne hl fuel hfuel).1, hin]
      exact hc3
    | some r =>
      obtain ⟨c3, rnd3, hc3, hl3, hin3⟩ :=
        create_linked rnd2 sharedRouterInfo ps.reverse none hrne
          (by intro r hr; cases hr)
      refine ⟨c3, rnd3, ?_, hin3, fun fuel2 hf2 =>
        (Linked.GetPeers ps.reverse c3 hrne hl3 fuel2 (by rw [hrlen]; exact hf2)).1⟩
      unfold TunnelConfig.Invert
      rw [(Linked.GetPeers ps c hne hl fuel hfuel).1, hin]
      exact hc3

theorem hop_chain_structure_witness :
    ∃ c rnd1, TunnelConfig.create [] (exampleRouterInfo 0)
        [exampleRouterInfo 1, exampleRouterInfo 2, exampleRouterInfo 3] none = some (c, rnd1) ∧
      c.GetPeers 3 = some [exampleRouterInfo 1, exampleRouterInfo 2, exampleRouterInfo 3] ∧
      c.GetNumHops 3 = some 3 ∧
      ∃ c3 rnd3, c.Invert 3 [] (exampleRouterInfo 0) = some (c3, rnd3) ∧
        c3.IsInbound = some false ∧
        c3.GetPeers 3
          = some [exampleRouterInfo 3, exampleRouterInfo 2, exampleRouterInfo 1] := by
  obtain ⟨c, rnd1, hc, hp, _, _, _, _, _, _, _, hinv⟩ :=
    hop_chain_structure [] (exampleRouterInfo 0)
      [exampleRouterInfo 1, exampleRouterInfo 2, exampleRouterInfo 3] none
      (by decide) (by intro r hr; cases hr)
  obtain ⟨c3, rnd3, h3, hin3, hp3⟩ := hinv 3 [] (Nat.le_refl _)
  exact ⟨c, rnd1, hc, (hp 3 (Nat.le_refl _)).1, (hp 3 (Nat.le_refl _)).2, c3, rnd3, h3, hin3,
    hp3 3 (Nat.le_refl _)⟩

end Properties

end Kovri
